import Mathlib

/-!
# Warwolf: wire protocol, AEAD framing and client retrievers

A shallow embedding of the Go packages `reader`, `protocol`, `cipher`,
`session`, `dispatch` and `client` of the Warwolf tunnel (the client's table
of retrievers, its requester and SOCKS5 front-end, and the server's session),
followed by theorems about them.

Conventions of the embedding:

* a Go `byte`, `uint16`, `uint64` is a `Nat`; every conversion or operation
  that can overflow carries its `% 2^w` explicitly;
* a Go `[]byte` is a `List Nat`; writes into a shared buffer are explicit
  list surgery (`writeAt`);
* a Go `error` value is an `Error` (sentinel errors compared by identity),
  `none` standing for `nil`;
* a Go pointer receiver becomes explicit state passing: the method takes the
  old value and returns the new one next to its results;
* a `panic` is an outcome of its own, `Status.panic msg` or `Except.error msg`,
  as named at each function;
* a loop that the Go code runs until its source reports an error takes a
  `fuel` bound and answers `none` when the bound is hit.
-/

namespace Warwolf

/-! ## Errors -/

/-- The sentinel errors of the repository and of the Go library functions it
calls. The `msg...` values are the `errors.New(...)` a `RetrieverError` of
session/retriever.go or of client/requester.go wraps;
`sessionErrInvalidAddress` is the `ErrInvalidAddress` of the package `session`
(the plain `ErrInvalidAddress` is the one of `protocol`). `other n` stands for
any further error value. -/
inductive Error where
  | ErrOverCapacity
  | ErrAllFetched
  | ErrNotEnoughBuffer
  | ErrNotEnoughData
  | ErrBufferNotEmpty
  | EOF
  | ErrUnexpectedEOF
  | ErrInvalidAddress
  | ErrInvalidDataPayloadLength
  | ErrInvalidSize
  | ErrInvalidNonce
  | ErrRetrieverUndefined
  | ErrRetrieverBusy
  | ErrNotReady
  | ErrUnableToGenerateID
  | ErrRetrieversFull
  | ErrDispatchCompleted
  | errHTTPSubmitEOF
  | msgResourceNotFound
  | msgResourceNotReady
  | msgResourceExpired
  | msgResourceBroken
  | msgResourceClosed
  | msgResourceSendFailure
  | msgResourceUnknown
  | msgDialInvalidRequest
  | msgDialUnreachable
  | msgDialOvercapacity
  | msgDialAlreadyDialed
  | msgDialInternalFailure
  | msgDialUnknown
  | msgResumeUnexpectedRespondRetry
  | msgRetrieveUnexpectedRespondRetry
  | msgSendUnexpectedRespondRetry
  | ErrNoBufferToReadTo
  | ErrNoBufferToWriteFrom
  | ErrUnknownRequestType
  | sessionErrInvalidAddress
  | msgRequestBodyTooLarge
  | msgRequestCipherFailed
  | msgRequestUnresponded
  | ErrNoSocks5BadAddressType
  | other (n : Nat)
  deriving DecidableEq, Repr

/-- Outcome of a builder: it returns `nil`, returns an error, or panics. -/
inductive Status where
  | ok
  | err (e : Error)
  | panic (msg : String)
  deriving DecidableEq, Repr

/-- The outcome of a function that returned the Go error `e`. -/
def Status.ofError : Option Error → Status
  | none => Status.ok
  | some e => Status.err e

/-! ## reader/push.go -/

namespace reader

/-- Go: `type Pusher struct { b []byte; i int }`. -/
structure Pusher where
  b : List Nat
  i : Nat
  deriving DecidableEq, Repr

/-- Go: `NewPusher`. -/
def NewPusher (b : List Nat) : Pusher := { b := b, i := 0 }

/-- Go: `copy(dst[off:], src)` when `src` fits: the bytes of `src` replace
those of `dst` from `off` on. -/
def writeAt (dst : List Nat) (off : Nat) (src : List Nat) : List Nat :=
  dst.take off ++ src ++ dst.drop (off + src.length)

/-- Go: `Pusher.Write`. Returns the pusher after the call, the count copied
and the error. -/
def Pusher.Write (p : Pusher) (b : List Nat) : Pusher × Nat × Option Error :=
  let bLen := b.length
  if (bLen : Int) > (p.b.length : Int) - (p.i : Int) then
    (p, 0, some Error.ErrOverCapacity)
  else
    let copied := bLen
    ({ b := writeAt p.b p.i b, i := p.i + copied }, copied, none)

/-- Go: `Pusher.Push`. -/
def Pusher.Push (p : Pusher) (b : List Nat) : Pusher × Option Error :=
  let r := p.Write b
  (r.1, r.2.2)

/-- Go: `Pusher.Data`. -/
def Pusher.Data (p : Pusher) : List Nat := p.b.take p.i

/-- Go: `Pusher.Truncate`. -/
def Pusher.Truncate (p : Pusher) (n : Nat) : Pusher := { p with i := n }

/-- Go: `Pusher.Size`. -/
def Pusher.Size (p : Pusher) : Nat := p.i

end reader

/-! ## reader/fetch.go -/

namespace reader

/-- The `Fetch` closures of the package with their captured variables.
`byteFetch b allFetchedErr fetched` is the closure of `ByteFetch`;
`sizeLimited remain pf ps pused pread` is the closure of `SizeLimitedFetch`,
whose captured `*Fetcher` is held by value as its four fields
`f`, `s`, `used`, `read`; `constFetch b` is the closure of the test helper
`newReadSource`, which returns `b` at every call. -/
inductive Fetch where
  | byteFetch (b : List Nat) (allFetchedErr : Error) (fetched : Bool)
  | constFetch (b : List Nat)
  | sizeLimited (remain : Nat) (pf : Fetch) (ps : List Nat) (pused : Nat) (pread : Nat)
  deriving DecidableEq, Repr

/-- Go: `type Fetcher struct { f Fetch; s []byte; used int; read int }`. -/
structure Fetcher where
  f : Fetch
  s : List Nat
  used : Nat
  read : Nat
  deriving DecidableEq, Repr

/-- Go: `NewFetcher`. -/
def NewFetcher (f : Fetch) : Fetcher := { f := f, s := [], used := 0, read := 0 }

/-- Go: `ByteFetch(b, allFetchedErr)`: the closure before its first call. -/
def ByteFetch (b : List Nat) (allFetchedErr : Error) : Fetch :=
  Fetch.byteFetch b allFetchedErr false

/-- Go: `SizeLimitedFetch(size, f)`. -/
def SizeLimitedFetch (size : Nat) (f : Fetcher) : Fetch :=
  Fetch.sizeLimited size f.f f.s f.used f.read

/-- Calling a `Fetch` closure: `f(min, oldbuf, oldbufused)`. Returns the
closure after the call (its captured variables may have changed), the bytes
and the error. The `sizeLimited` case is the body of the closure of
`SizeLimitedFetch`, with `f.FetchMax(remain)` on the captured fetcher written
out (`Fetcher.fetch(1)` followed by the cut to `max`). -/
def Fetch.call : Fetch → Nat → List Nat → Nat → Fetch × List Nat × Option Error
  | Fetch.byteFetch b allFetchedErr fetched, _, oldbuf, oldbufused =>
    if fetched then
      (Fetch.byteFetch b allFetchedErr fetched, [], some allFetchedErr)
    else if oldbuf.length ≠ oldbufused then
      (Fetch.byteFetch b allFetchedErr fetched, [], some Error.ErrBufferNotEmpty)
    else
      (Fetch.byteFetch b allFetchedErr true, b, none)
  | Fetch.constFetch b, _, _, _ =>
    (Fetch.constFetch b, b, none)
  | Fetch.sizeLimited remain pf ps pused pread, _, oldbuf, oldbufused =>
    if remain = 0 then
      (Fetch.sizeLimited remain pf ps pused pread, [], some Error.ErrAllFetched)
    else if oldbuf.length ≠ oldbufused then
      (Fetch.sizeLimited remain pf ps pused pread, [], some Error.ErrBufferNotEmpty)
    else
      -- b, err := f.FetchMax(remain)
      if (ps.length : Int) - (pused : Int) ≥ 1 then
        let ff := ps.drop pused
        let fLen := if ff.length > remain then remain else ff.length
        let b := ff.take fLen
        (Fetch.sizeLimited (remain - b.length) pf ps (pused + fLen) (pread + fLen), b, none)
      else
        match Fetch.call pf 1 ps pused with
        | (pf1, _, some err) =>
          (Fetch.sizeLimited remain pf1 ps pused pread, [], some err)
        | (pf1, ff, none) =>
          let fLen := if ff.length > remain then remain else ff.length
          let b := ff.take fLen
          (Fetch.sizeLimited (remain - b.length) pf1 ff (0 + fLen) (pread + fLen), b, none)

/-- Go: `Fetcher.fetch`. -/
def Fetcher.fetch (f : Fetcher) (min : Nat) : Fetcher × List Nat × Option Error :=
  if (f.s.length : Int) - (f.used : Int) ≥ (min : Int) then
    (f, f.s.drop f.used, none)
  else
    match f.f.call min f.s f.used with
    | (f1, _, some err) => ({ f with f := f1 }, [], some err)
    | (f1, ff, none) => ({ f := f1, s := ff, used := 0, read := f.read }, ff, none)

/-- Go: `Fetcher.FetchMax`. -/
def Fetcher.FetchMax (f : Fetcher) (max : Nat) : Fetcher × List Nat × Option Error :=
  match f.fetch 1 with
  | (f1, _, some err) => (f1, [], some err)
  | (f1, ff, none) =>
    let fLen := if ff.length > max then max else ff.length
    ({ f1 with used := f1.used + fLen, read := f1.read + fLen }, ff.take fLen, none)

/-- Go: `Fetcher.Fetch`. -/
def Fetcher.Fetch (f : Fetcher) (n : Nat) : Fetcher × List Nat × Option Error :=
  if n = 0 then
    (f, [], none)
  else
    match f.fetch n with
    | (f1, _, some err) => (f1, [], some err)
    | (f1, ff, none) =>
      if ff.length < n then
        (f1, [], some Error.ErrNotEnoughBuffer)
      else
        ({ f1 with used := f1.used + n, read := f1.read + n }, ff.take n, none)

/-- Go: `Fetcher.Read(b)` with `len(b) = n`: the bytes copied into `b` are
returned in place of the count. -/
def Fetcher.Read (f : Fetcher) (n : Nat) : Fetcher × List Nat × Option Error :=
  if n = 0 then
    (f, [], some Error.EOF)
  else
    match f.FetchMax n with
    | (f1, _, some err) => (f1, [], some err)
    | (f1, ff, none) => (f1, ff, none)

/-- Go: `Fetcher.Total`. -/
def Fetcher.Total (f : Fetcher) : Nat := f.read

/-- What a closure that has not been called yet returns at its first call,
for the closures that hand out a whole byte slice. -/
def Fetch.first : Fetch → Option (List Nat)
  | Fetch.byteFetch b _ false => some b
  | Fetch.constFetch b => some b
  | _ => none

/-- The next bytes the fetcher delivers are `bytes`: they are the unread part
of its buffer, or the fetcher is new and its source hands out `bytes`. -/
def Fetcher.Holds (r : Fetcher) (bytes : List Nat) : Prop :=
  (r.used ≤ r.s.length ∧ r.s.drop r.used = bytes) ∨
  (r.s = [] ∧ r.used = 0 ∧ r.f.first = some bytes)

instance (r : Fetcher) (bytes : List Nat) : Decidable (r.Holds bytes) := by
  unfold Fetcher.Holds
  infer_instance

/-- The fetcher captured by a `SizeLimitedFetch` closure, read back from the
closure (in Go the closure holds a pointer to it, so the caller sees its
changes). A closure of another kind captures no fetcher. -/
def Fetch.captured : Fetch → Option Fetcher
  | Fetch.sizeLimited _ pf ps pused pread => some { f := pf, s := ps, used := pused, read := pread }
  | _ => none

/-- The loop of `FetchAll`: `for { b, e := ff.FetchMax(remain); ... }`. -/
def FetchAllLoop {σ : Type} (fetched : List Nat → σ → σ) (remain : Nat) :
    Nat → Fetcher → σ → Option (Fetcher × σ × Status)
  | 0, _, _ => none
  | fuel + 1, ff, st =>
    match ff.FetchMax remain with
    | (ff1, _, some e) =>
      if e = Error.ErrAllFetched then some (ff1, st, Status.ok) else some (ff1, st, Status.err e)
    | (ff1, b, none) => FetchAllLoop fetched remain fuel ff1 (fetched b st)

/-- Go: `FetchAll(size, f, fetched)`. Returns the fetcher `f` after the call,
the state the `fetched` callback built up, and the result. When
`size < f.Total()` the Go `remain` is negative: the first `f.FetchMax(remain)`
then either reports the error of `f.fetch(1)` or slices `ff[:fLen]` with a
negative `fLen`, which panics. -/
def FetchAll {σ : Type} (fuel : Nat) (size : Nat) (f : Fetcher) (fetched : List Nat → σ → σ)
    (st : σ) : Option (Fetcher × σ × Status) :=
  if size < f.Total then
    match f.fetch 1 with
    | (f1, _, some e) =>
      if e = Error.ErrAllFetched then some (f1, st, Status.ok) else some (f1, st, Status.err e)
    | (f1, _, none) => some (f1, st, Status.panic "slice bounds out of range")
  else
    let remain := size - f.Total
    let ff := NewFetcher (SizeLimitedFetch remain f)
    match FetchAllLoop fetched remain fuel ff st with
    | none => none
    | some (ff1, st1, r) => some ((ff1.f.captured).getD f, st1, r)

/-- Go library `io.ReadAtLeast`, after its loop:
`if n >= min { err = nil } else if n > 0 && err == EOF { err = ErrUnexpectedEOF }`. -/
def ReadAtLeastDone (min : Nat) (r : Fetcher) (buf : List Nat) (n : Nat) (err : Option Error) :
    Fetcher × List Nat × Nat × Option Error :=
  if n ≥ min then
    (r, buf, n, none)
  else if n > 0 ∧ err = some Error.EOF then
    (r, buf, n, some Error.ErrUnexpectedEOF)
  else
    (r, buf, n, err)

/-- Go library `io.ReadAtLeast(r, buf, min)` with `r` a `*Fetcher`: its loop
`for n < min && err == nil { nn, err = r.Read(buf[n:]); n += nn }`.
`buf` is the buffer content, `n` the count read so far. -/
def ReadAtLeastLoop (min : Nat) : Nat → Fetcher → List Nat → Nat → Option Error →
    Option (Fetcher × List Nat × Nat × Option Error)
  | 0, r, buf, n, err =>
    if n < min ∧ err = none then none else some (ReadAtLeastDone min r buf n err)
  | fuel + 1, r, buf, n, err =>
    if n < min ∧ err = none then
      match r.Read (buf.length - n) with
      | (r1, bs, e) => ReadAtLeastLoop min fuel r1 (writeAt buf n bs) (n + bs.length) e
    else
      some (ReadAtLeastDone min r buf n err)

/-- Go library `io.ReadFull(r, buf)`: `ReadAtLeast(r, buf, len(buf))`. -/
def ReadFull (fuel : Nat) (r : Fetcher) (buf : List Nat) :
    Option (Fetcher × List Nat × Nat × Option Error) :=
  ReadAtLeastLoop buf.length fuel r buf 0 none

end reader

/-! ## protocol/common.go -/

namespace protocol

open reader

/-- Go: conversion to `byte`. -/
def u8 (n : Nat) : Nat := n % 2 ^ 8

/-- Go: conversion to `uint16`, and the result of a `uint16` operation. -/
def u16 (n : Nat) : Nat := n % 2 ^ 16

/-- Go: conversion to `uint64`, and the result of a `uint64` operation. -/
def u64 (n : Nat) : Nat := n % 2 ^ 64

def HeaderSize : Nat := 1
def IDSize : Nat := 32

def DialType : Nat := 0
def CloseType : Nat := 1
def RetrieveType : Nat := 3
def ResumeType : Nat := 4
def SendType : Nat := 5

def TCPIPv4 : Nat := 0
def TCPIPv6 : Nat := 1
def TCPHost : Nat := 2
def UDPIPv4 : Nat := 3
def UDPIPv6 : Nat := 4
def UDPHost : Nat := 5

/-- Go: `NewRequestType(t, data)`; `Except.error msg` is `panic(msg)`. -/
def NewRequestType (t : Nat) (data : Nat) : Except String Nat :=
  if t > 15 then
    Except.error "Invalid type"
  else if data > 15 then
    Except.error "Invalid data"
  else
    Except.ok (u8 (t <<< 4) ||| data)

/-- Go: `ParseRequestType(r)`. -/
def ParseRequestType (r : Nat) : Nat × Nat :=
  (r >>> 4, u8 (r &&& 15))

/-- Go: `writeU16(n, b)`. -/
def writeU16 (n : Nat) (b : Pusher) : Pusher × Option Error :=
  b.Push [u8 (n >>> 8), u8 n]

/-- Go: `readU16(b)`. -/
def readU16 (b : Fetcher) : Fetcher × Nat × Option Error :=
  match b.Fetch 2 with
  | (b1, _, some err) => (b1, 0, some err)
  | (b1, bb, none) => (b1, u16 (u16 (bb.getD 0 0) <<< 8) ||| u16 (bb.getD 1 0), none)

/-- Go: `writeU64(n, b)`. -/
def writeU64 (n : Nat) (b : Pusher) : Pusher × Option Error :=
  b.Push [u8 (n >>> 56), u8 (n >>> 48), u8 (n >>> 40), u8 (n >>> 32),
    u8 (n >>> 24), u8 (n >>> 16), u8 (n >>> 8), u8 n]

/-- Go: `readU64(b)`. -/
def readU64 (b : Fetcher) : Fetcher × Nat × Option Error :=
  match b.Fetch 8 with
  | (b1, _, some err) => (b1, 0, some err)
  | (b1, bb, none) =>
    (b1,
      u64 (u64 (bb.getD 0 0) <<< 56) |||
      u64 (u64 (bb.getD 1 0) <<< 48) |||
      u64 (u64 (bb.getD 2 0) <<< 40) |||
      u64 (u64 (bb.getD 3 0) <<< 32) |||
      u64 (u64 (bb.getD 4 0) <<< 24) |||
      u64 (u64 (bb.getD 5 0) <<< 16) |||
      u64 (u64 (bb.getD 6 0) <<< 8) |||
      u64 (bb.getD 7 0), none)

/-- Go: `pusherU16(p, &e, u)`: the error takes the place of `*e` and of the
boolean (`none` is `true`). -/
def pusherU16 (p : Pusher) (u : Nat) : Pusher × Option Error := writeU16 u p

/-- Go: `pusherU64(p, &e, u)`. -/
def pusherU64 (p : Pusher) (u : Nat) : Pusher × Option Error := writeU64 u p

/-- Go: `pusherPush(p, &e, d...)`. -/
def pusherPush (p : Pusher) (d : List Nat) : Pusher × Option Error := p.Push d

/-! ## protocol/dial_request.go -/

/-- Go: `type DialRequest struct`. -/
structure DialRequest where
  ID : List Nat
  ATyp : Nat
  Addr : List Nat
  Port : Nat
  MaxRetrieveLen : Nat
  Request : List Nat
  RequestLength : Nat
  deriving DecidableEq, Repr

/-- Go: `DialRequest{}`. -/
def DialRequest.zero : DialRequest :=
  { ID := List.replicate 32 0, ATyp := 0, Addr := [], Port := 0, MaxRetrieveLen := 0,
    Request := [], RequestLength := 0 }

def DialSafeOverheadSize : Nat := IDSize + 1 + 255 + 2 + 2 + 2

/-- Go: `DialRequest.Build`, from `// port` to the end. -/
def DialRequest.buildPort (d : DialRequest) (b : Pusher) : DialRequest × Pusher × Status :=
  -- port
  match pusherU16 b d.Port with
  | (b, some err) => (d, b, Status.err err)
  | (b, none) =>
    -- max_retrieve_len
    match pusherU16 b d.MaxRetrieveLen with
    | (b, some err) => (d, b, Status.err err)
    | (b, none) =>
      -- request
      if d.Request.length > 65535 then
        (d, b, Status.panic "Invalid request length")
      else if d.Request.length ≠ d.RequestLength then
        (d, b, Status.panic "Invalid request length")
      else
        match pusherU16 b d.RequestLength with
        | (b, some err) => (d, b, Status.err err)
        | (b, none) =>
          match pusherPush b d.Request with
          | (b, some err) => (d, b, Status.err err)
          | (b, none) => (d, b, Status.ok)

/-- Go: `DialRequest.Build(id, b)`. Returns the request (its `ID` is set),
the pusher after the call and the result. -/
def DialRequest.Build (d : DialRequest) (id : List Nat) (b : Pusher) :
    DialRequest × Pusher × Status :=
  -- rType
  match NewRequestType DialType (u8 d.ATyp) with
  | Except.error msg => (d, b, Status.panic msg)
  | Except.ok rType =>
    match pusherPush b [rType] with
    | (b, some err) => (d, b, Status.err err)
    | (b, none) =>
      -- id
      let d := { d with ID := id }
      match pusherPush b d.ID with
      | (b, some err) => (d, b, Status.err err)
      | (b, none) =>
        -- addr
        if d.ATyp = TCPIPv4 ∨ d.ATyp = UDPIPv4 then
          if d.Addr.length ≠ 4 then
            (d, b, Status.err Error.ErrInvalidAddress)
          else
            match pusherPush b d.Addr with
            | (b, some err) => (d, b, Status.err err)
            | (b, none) => d.buildPort b
        else if d.ATyp = TCPIPv6 ∨ d.ATyp = UDPIPv6 then
          if d.Addr.length ≠ 16 then
            (d, b, Status.err Error.ErrInvalidAddress)
          else
            match pusherPush b d.Addr with
            | (b, some err) => (d, b, Status.err err)
            | (b, none) => d.buildPort b
        else if d.ATyp = TCPHost ∨ d.ATyp = UDPHost then
          let alen := d.Addr.length
          if alen > 255 then
            (d, b, Status.err Error.ErrInvalidAddress)
          else
            match pusherPush b [u8 alen] with
            | (b, some err) => (d, b, Status.err err)
            | (b, none) =>
              match pusherPush b d.Addr with
              | (b, some err) => (d, b, Status.err err)
              | (b, none) => d.buildPort b
        else
          (d, b, Status.panic "Unknown address type")

/-- Go: `DialRequest.Parse`, from `// port` to the end. The callback `rr`
receives the request and the request bytes and acts on a state `σ`. -/
def DialRequest.parsePort {σ : Type} (d : DialRequest) (r : Fetcher)
    (rr : DialRequest → List Nat → σ → σ × Option Error) (st : σ) :
    DialRequest × Fetcher × σ × Option Error :=
  -- port
  match readU16 r with
  | (r, _, some err) => (d, r, st, some err)
  | (r, port, none) =>
    let d := { d with Port := port }
    -- max_retrieve_len
    match readU16 r with
    | (r, _, some err) => (d, r, st, some err)
    | (r, mrl, none) =>
      let d := { d with MaxRetrieveLen := mrl }
      -- request
      match readU16 r with
      | (r, _, some err) => (d, r, st, some err)
      | (r, rl, none) =>
        let d := { d with RequestLength := rl }
        match r.Fetch d.RequestLength with
        | (r, _, some berr) => (d, r, st, some berr)
        | (r, b, none) =>
          let res := rr d b st
          (d, r, res.1, res.2)

/-- Go: `DialRequest.Parse(atyp, r, rr)`. Returns the request as filled in,
the fetcher after the call, the callback's state and the error; `none` when
`fuel` does not cover the reads of `io.ReadFull`. -/
def DialRequest.Parse {σ : Type} (fuel : Nat) (d : DialRequest) (atyp : Nat) (r : Fetcher)
    (rr : DialRequest → List Nat → σ → σ × Option Error) (st : σ) :
    Option (DialRequest × Fetcher × σ × Option Error) :=
  -- id
  match ReadFull fuel r d.ID with
  | none => none
  | some (r, id, _, some err) => some ({ d with ID := id }, r, st, some err)
  | some (r, id, _, none) =>
    let d := { d with ID := id, ATyp := atyp }
    -- addr
    if d.ATyp = UDPIPv4 ∨ d.ATyp = TCPIPv4 then
      match r.Fetch 4 with
      | (r, _, some err) => some ({ d with Addr := [] }, r, st, some err)
      | (r, addr, none) => some (DialRequest.parsePort { d with Addr := addr } r rr st)
    else if d.ATyp = UDPIPv6 ∨ d.ATyp = TCPIPv6 then
      match r.Fetch 16 with
      | (r, _, some err) => some ({ d with Addr := [] }, r, st, some err)
      | (r, addr, none) => some (DialRequest.parsePort { d with Addr := addr } r rr st)
    else if d.ATyp = UDPHost ∨ d.ATyp = TCPHost then
      match r.Fetch 1 with
      | (r, _, some err) => some (d, r, st, some err)
      | (r, bb, none) =>
        match r.Fetch (bb.getD 0 0) with
        | (r, _, some err) => some ({ d with Addr := [] }, r, st, some err)
        | (r, addr, none) => some (DialRequest.parsePort { d with Addr := addr } r rr st)
    else
      some (d, r, st, some Error.ErrInvalidAddress)

/-! ## protocol/dial_respond.go -/

/-- Go: `type DialRespond struct`. -/
structure DialRespond where
  ID : List Nat
  RID : Nat
  Total : Nat
  Respond : List Nat
  RespondLength : Nat
  deriving DecidableEq, Repr

/-- Go: `DialRespond{}`. -/
def DialRespond.zero : DialRespond :=
  { ID := List.replicate 32 0, RID := 0, Total := 0, Respond := [], RespondLength := 0 }

/-- Go: `DialRespond.Build(id, errcode, b)`. -/
def DialRespond.Build (d : DialRespond) (id : List Nat) (errcode : Nat) (b : Pusher) :
    DialRespond × Pusher × Status :=
  -- rType
  match NewRequestType DialType errcode with
  | Except.error msg => (d, b, Status.panic msg)
  | Except.ok rType =>
    match pusherPush b [rType] with
    | (b, some err) => (d, b, Status.err err)
    | (b, none) =>
      -- id
      let d := { d with ID := id }
      match pusherPush b d.ID with
      | (b, some err) => (d, b, Status.err err)
      | (b, none) =>
        -- rid
        match pusherU64 b d.RID with
        | (b, some err) => (d, b, Status.err err)
        | (b, none) =>
          -- total_size
          match pusherU16 b d.Total with
          | (b, some err) => (d, b, Status.err err)
          | (b, none) =>
            -- respond
            if d.Respond.length ≠ d.RespondLength then
              (d, b, Status.panic "Invalid respond length")
            else
              match pusherU16 b d.RespondLength with
              | (b, some err) => (d, b, Status.err err)
              | (b, none) =>
                match pusherPush b d.Respond with
                | (b, some err) => (d, b, Status.err err)
                | (b, none) => (d, b, Status.ok)

/-- The end of the `Parse` of a message that carries a payload:
`rrr := reader.NewFetcher(reader.SizeLimitedFetch(size, r))`,
`defer reader.FetchAll(size, &rrr, func(b []byte) {})`, `return rr(d, &rrr)`.
`call` is `rr` applied to the message; it receives the fetcher `rrr` and
returns it as it left it. The deferred `FetchAll` runs after the callback;
its error is dropped, its panic is the panic of `Parse`. The fetcher `r` is
read back from the closure of `rrr`. -/
def parsePayload {σ : Type} (fuel : Nat) (size : Nat) (r : Fetcher)
    (call : Fetcher → σ → Option (Fetcher × σ × Option Error)) (st : σ) :
    Option (Fetcher × σ × Status) :=
  let rrr := NewFetcher (SizeLimitedFetch size r)
  match call rrr st with
  | none => none
  | some (rrr1, st1, e) =>
    match FetchAll fuel size rrr1 (fun _ (u : Unit) => u) () with
    | none => none
    | some (rrr2, _, Status.panic msg) => some ((rrr2.f.captured).getD r, st1, Status.panic msg)
    | some (rrr2, _, _) => some ((rrr2.f.captured).getD r, st1, Status.ofError e)

/-- Go: `DialRespond.Parse(r, rr)`. The error of the last `readU16` is not
checked by the Go code. -/
def DialRespond.Parse {σ : Type} (fuel : Nat) (d : DialRespond) (r : Fetcher)
    (rr : DialRespond → Fetcher → σ → Option (Fetcher × σ × Option Error)) (st : σ) :
    Option (DialRespond × Fetcher × σ × Status) :=
  -- id
  match ReadFull fuel r d.ID with
  | none => none
  | some (r, id, _, some err) => some ({ d with ID := id }, r, st, Status.err err)
  | some (r, id, _, none) =>
    let d := { d with ID := id }
    -- rid
    match readU64 r with
    | (r, _, some err) => some ({ d with RID := 0 }, r, st, Status.err err)
    | (r, rid, none) =>
      let d := { d with RID := rid }
      -- total_size
      match readU16 r with
      | (r, _, some err) => some ({ d with Total := 0 }, r, st, Status.err err)
      | (r, total, none) =>
        let d := { d with Total := total }
        -- respond
        match readU16 r with
        | (r, rl, _) =>
          let d := { d with RespondLength := rl }
          match parsePayload fuel d.RespondLength r (rr d) st with
          | none => none
          | some (r, st, res) => some (d, r, st, res)

/-! ## protocol/retrieve_request.go -/

/-- Go: `type RetrieveRequest struct`. -/
structure RetrieveRequest where
  ID : List Nat
  RID : Nat
  Offset : Nat
  deriving DecidableEq, Repr

/-- Go: `RetrieveRequest{}`. -/
def RetrieveRequest.zero : RetrieveRequest := { ID := List.replicate 32 0, RID := 0, Offset := 0 }

/-- Go: `RetrieveRequest.Build(id, b)`. -/
def RetrieveRequest.Build (d : RetrieveRequest) (id : List Nat) (b : Pusher) :
    RetrieveRequest × Pusher × Status :=
  -- rType
  match NewRequestType RetrieveType 0 with
  | Except.error msg => (d, b, Status.panic msg)
  | Except.ok rType =>
    match pusherPush b [rType] with
    | (b, some err) => (d, b, Status.err err)
    | (b, none) =>
      -- id
      let d := { d with ID := id }
      match pusherPush b d.ID with
      | (b, some err) => (d, b, Status.err err)
      | (b, none) =>
        -- rid
        match pusherU64 b d.RID with
        | (b, some err) => (d, b, Status.err err)
        | (b, none) =>
          -- offset
          match pusherU16 b d.Offset with
          | (b, some err) => (d, b, Status.err err)
          | (b, none) => (d, b, Status.ok)

/-- Go: `RetrieveRequest.Parse(r)`. -/
def RetrieveRequest.Parse (fuel : Nat) (d : RetrieveRequest) (r : Fetcher) :
    Option (RetrieveRequest × Fetcher × Option Error) :=
  -- id
  match ReadFull fuel r d.ID with
  | none => none
  | some (r, id, _, some err) => some ({ d with ID := id }, r, some err)
  | some (r, id, _, none) =>
    let d := { d with ID := id }
    -- rid
    match readU64 r with
    | (r, _, some err) => some ({ d with RID := 0 }, r, some err)
    | (r, rid, none) =>
      let d := { d with RID := rid }
      -- offset
      match readU16 r with
      | (r, _, some err) => some ({ d with Offset := 0 }, r, some err)
      | (r, offset, none) => some ({ d with Offset := offset }, r, none)

/-! ## protocol/retrieve_respond.go -/

/-- Go: `type RetrieveRespond struct`. -/
structure RetrieveRespond where
  ID : List Nat
  RID : Nat
  Total : Nat
  Offset : Nat
  Payload : List Nat
  PayloadLength : Nat
  deriving DecidableEq, Repr

/-- Go: `RetrieveRespond{}`. -/
def RetrieveRespond.zero : RetrieveRespond :=
  { ID := List.replicate 32 0, RID := 0, Total := 0, Offset := 0, Payload := [], PayloadLength := 0 }

/-- Go: `RetrieveRespond.Build(id, errcode, b)` (value receiver: the caller
does not see `d.ID = id`). -/
def RetrieveRespond.Build (d : RetrieveRespond) (id : List Nat) (errcode : Nat) (b : Pusher) :
    Pusher × Status :=
  -- rType
  match NewRequestType RetrieveType errcode with
  | Except.error msg => (b, Status.panic msg)
  | Except.ok rType =>
    match pusherPush b [rType] with
    | (b, some err) => (b, Status.err err)
    | (b, none) =>
      -- id
      let d := { d with ID := id }
      match pusherPush b d.ID with
      | (b, some err) => (b, Status.err err)
      | (b, none) =>
        -- rid
        match pusherU64 b d.RID with
        | (b, some err) => (b, Status.err err)
        | (b, none) =>
          -- total_size
          match pusherU16 b d.Total with
          | (b, some err) => (b, Status.err err)
          | (b, none) =>
            -- offset
            match pusherU16 b d.Offset with
            | (b, some err) => (b, Status.err err)
            | (b, none) =>
              -- payload
              if u16 d.Payload.length ≠ d.PayloadLength then
                (b, Status.panic "Invalid payload length")
              else
                match pusherU16 b d.PayloadLength with
                | (b, some err) => (b, Status.err err)
                | (b, none) =>
                  match pusherPush b d.Payload with
                  | (b, some err) => (b, Status.err err)
                  | (b, none) => (b, Status.ok)

/-- Go: `RetrieveRespond.Parse(r, rr)`. -/
def RetrieveRespond.Parse {σ : Type} (fuel : Nat) (d : RetrieveRespond) (r : Fetcher)
    (rr : RetrieveRespond → Fetcher → σ → Option (Fetcher × σ × Option Error)) (st : σ) :
    Option (RetrieveRespond × Fetcher × σ × Status) :=
  -- id
  match ReadFull fuel r d.ID with
  | none => none
  | some (r, id, _, some err) => some ({ d with ID := id }, r, st, Status.err err)
  | some (r, id, _, none) =>
    let d := { d with ID := id }
    -- rid
    match readU64 r with
    | (r, _, some err) => some ({ d with RID := 0 }, r, st, Status.err err)
    | (r, rid, none) =>
      let d := { d with RID := rid }
      -- total_size
      match readU16 r with
      | (r, _, some err) => some ({ d with Total := 0 }, r, st, Status.err err)
      | (r, total, none) =>
        let d := { d with Total := total }
        -- offset
        match readU16 r with
        | (r, _, some err) => some ({ d with Offset := 0 }, r, st, Status.err err)
        | (r, offset, none) =>
          let d := { d with Offset := offset }
          -- payload
          match readU16 r with
          | (r, _, some err) => some ({ d with PayloadLength := 0 }, r, st, Status.err err)
          | (r, pl, none) =>
            let d := { d with PayloadLength := pl }
            match parsePayload fuel d.PayloadLength r (rr d) st with
            | none => none
            | some (r, st, res) => some (d, r, st, res)

/-! ## protocol/resume_request.go, protocol/resume_respond.go -/

/-- Go: `type ResumeRequest struct`. -/
structure ResumeRequest where
  ID : List Nat
  RID : Nat
  deriving DecidableEq, Repr

/-- Go: `ResumeRequest.Build(id, b)`. -/
def ResumeRequest.Build (d : ResumeRequest) (id : List Nat) (b : Pusher) :
    ResumeRequest × Pusher × Status :=
  -- rType
  match NewRequestType ResumeType 0 with
  | Except.error msg => (d, b, Status.panic msg)
  | Except.ok rType =>
    match pusherPush b [rType] with
    | (b, some err) => (d, b, Status.err err)
    | (b, none) =>
      -- id
      let d := { d with ID := id }
      match pusherPush b d.ID with
      | (b, some err) => (d, b, Status.err err)
      | (b, none) =>
        -- rid
        match pusherU64 b d.RID with
        | (b, some err) => (d, b, Status.err err)
        | (b, none) => (d, b, Status.ok)

/-- Go: `type ResumeRespond struct`. -/
structure ResumeRespond where
  ID : List Nat
  NewRID : Nat
  Total : Nat
  Payload : List Nat
  PayloadLength : Nat
  deriving DecidableEq, Repr

/-! ## protocol/send_respond.go -/

/-- Go: `type SendRespond struct`. -/
structure SendRespond where
  ID : List Nat
  NewWID : Nat
  Sent : Nat
  deriving DecidableEq, Repr

/-- Go: `SendRespond{}`. -/
def SendRespond.zero : SendRespond := { ID := List.replicate 32 0, NewWID := 0, Sent := 0 }

/-- Go: `SendRespond.Build(id, errcode, b)` (value receiver). -/
def SendRespond.Build (d : SendRespond) (id : List Nat) (errcode : Nat) (b : Pusher) :
    Pusher × Status :=
  -- rType
  match NewRequestType SendType errcode with
  | Except.error msg => (b, Status.panic msg)
  | Except.ok rType =>
    match pusherPush b [rType] with
    | (b, some err) => (b, Status.err err)
    | (b, none) =>
      -- id
      let d := { d with ID := id }
      match pusherPush b d.ID with
      | (b, some err) => (b, Status.err err)
      | (b, none) =>
        -- new_wid
        match pusherU64 b d.NewWID with
        | (b, some err) => (b, Status.err err)
        | (b, none) =>
          -- sent
          match pusherU16 b d.Sent with
          | (b, some err) => (b, Status.err err)
          | (b, none) => (b, Status.ok)

/-- Go: `SendRespond.Parse(r)`. -/
def SendRespond.Parse (fuel : Nat) (d : SendRespond) (r : Fetcher) :
    Option (SendRespond × Fetcher × Option Error) :=
  -- id
  match ReadFull fuel r d.ID with
  | none => none
  | some (r, id, _, some err) => some ({ d with ID := id }, r, some err)
  | some (r, id, _, none) =>
    let d := { d with ID := id }
    -- new_wid
    match readU64 r with
    | (r, _, some err) => some ({ d with NewWID := 0 }, r, some err)
    | (r, wid, none) =>
      let d := { d with NewWID := wid }
      -- sent
      match readU16 r with
      | (r, _, some err) => some ({ d with Sent := 0 }, r, some err)
      | (r, sent, none) => some ({ d with Sent := sent }, r, none)

/-! ## protocol/close_respond.go -/

/-- Go: `type CloseRespond struct`. -/
structure CloseRespond where
  ID : List Nat
  deriving DecidableEq, Repr

/-- Go: `CloseRespond{}`. -/
def CloseRespond.zero : CloseRespond := { ID := List.replicate 32 0 }

/-- Go: `CloseRespond.Build(id, errcode, b)`. -/
def CloseRespond.Build (d : CloseRespond) (id : List Nat) (errcode : Nat) (b : Pusher) :
    CloseRespond × Pusher × Status :=
  match NewRequestType CloseType errcode with
  | Except.error msg => (d, b, Status.panic msg)
  | Except.ok rType =>
    match pusherPush b [rType] with
    | (b, some err) => (d, b, Status.err err)
    | (b, none) =>
      let d := { d with ID := id }
      match pusherPush b d.ID with
      | (b, some err) => (d, b, Status.err err)
      | (b, none) => (d, b, Status.ok)

/-- Go: `CloseRespond.Parse(r)`. -/
def CloseRespond.Parse (fuel : Nat) (d : CloseRespond) (r : Fetcher) :
    Option (CloseRespond × Fetcher × Option Error) :=
  match ReadFull fuel r d.ID with
  | none => none
  | some (r, id, _, rErr) => some ({ d with ID := id }, r, rErr)

end protocol

/-! ## Wire layout -/

namespace reader

/-- The pusher after `bs` has been written at its position. -/
def Pusher.app (p : Pusher) (bs : List Nat) : Pusher :=
  { b := writeAt p.b p.i bs, i := p.i + bs.length }

end reader

namespace protocol

/-- The two bytes `writeU16` pushes. -/
def be16 (n : Nat) : List Nat := [u8 (n >>> 8), u8 n]

/-- The eight bytes `writeU64` pushes. -/
def be64 (n : Nat) : List Nat :=
  [u8 (n >>> 56), u8 (n >>> 48), u8 (n >>> 40), u8 (n >>> 32),
    u8 (n >>> 24), u8 (n >>> 16), u8 (n >>> 8), u8 n]

end protocol

/-! ## Values of the tests -/

namespace protocol

open reader

/-- Go: `ID{9, 8, 7, 6, 5, 4, 3, 2, 1, 0}` of the tests. -/
def testID : List Nat := [9, 8, 7, 6, 5, 4, 3, 2, 1, 0] ++ List.replicate 22 0

/-- Go: `reader.NewPusher(make([]byte, 128))` of the tests. -/
def testPusher : Pusher := NewPusher (List.replicate 128 0)

/-- Go: the test helper `newReadSource(b)`. -/
def newReadSource (b : List Nat) : Fetcher := NewFetcher (Fetch.constFetch b)

end protocol

namespace protocol

/-- The address field of a Dial request on the wire: the address itself for
the IPv4 and IPv6 types, a length byte and the address for the host types. -/
def DialRequest.addrField (d : DialRequest) : List Nat :=
  if d.ATyp = TCPHost ∨ d.ATyp = UDPHost then [u8 d.Addr.length] ++ d.Addr else d.Addr

/-- A Dial request is well formed: its address type is one of the six, the
address has 4 bytes for the IPv4 types, 16 for the IPv6 types and at most 255
for the host types, `RequestLength = len(Request)`, and the `uint16` fields
are in range. -/
def DialRequest.WellFormed (d : DialRequest) : Prop :=
  (((d.ATyp = TCPIPv4 ∨ d.ATyp = UDPIPv4) ∧ d.Addr.length = 4) ∨
    ((d.ATyp = TCPIPv6 ∨ d.ATyp = UDPIPv6) ∧ d.Addr.length = 16) ∨
    ((d.ATyp = TCPHost ∨ d.ATyp = UDPHost) ∧ d.Addr.length ≤ 255)) ∧
  d.RequestLength = d.Request.length ∧ d.RequestLength < 2 ^ 16 ∧
  d.Port < 2 ^ 16 ∧ d.MaxRetrieveLen < 2 ^ 16

instance (d : DialRequest) : Decidable d.WellFormed := by
  unfold DialRequest.WellFormed
  infer_instance

/-- The number of bytes `Build` writes for a well-formed Dial request. -/
def DialRequest.wireSize (d : DialRequest) : Nat :=
  HeaderSize + IDSize + d.addrField.length + 2 + 2 + 2 + d.Request.length

end protocol

namespace protocol

/-- Go: the request of `TestDialRequest`. -/
def testDialRequest : DialRequest :=
  { ID := testID, ATyp := TCPHost,
    Addr := [119, 119, 119, 46, 103, 111, 111, 103, 108, 101, 46, 99, 111, 109],
    Port := 443, MaxRetrieveLen := 10101,
    Request := [67, 108, 105, 101, 110, 116, 32, 72, 101, 108, 108, 111],
    RequestLength := 12 }

/-- Go: the callback of the tests, `payload = append(payload, r...)`. -/
def appendPayload {α : Type} (_ : α) (r : List Nat) (payload : List Nat) :
    List Nat × Option Error :=
  (payload ++ r, none)

end protocol

/-! ## Callbacks on a fetcher -/

namespace reader

/-- A call a callback can make on the `*Fetcher` it is handed. -/
inductive FetchOp where
  | Fetch (n : Nat)
  | FetchMax (max : Nat)
  | Read (n : Nat)
  deriving DecidableEq, Repr

/-- Performing one call on the fetcher. -/
def Fetcher.perform (f : Fetcher) : FetchOp → Fetcher × List Nat × Option Error
  | FetchOp.Fetch n => f.Fetch n
  | FetchOp.FetchMax max => f.FetchMax max
  | FetchOp.Read n => f.Read n

/-- Performing a sequence of calls: the fetcher after them and all the bytes
they returned, in order. -/
def Fetcher.runOps : List FetchOp → Fetcher → Fetcher × List Nat
  | [], f => (f, [])
  | op :: ops, f =>
    let r := f.perform op
    let rest := Fetcher.runOps ops r.1
    (rest.1, r.2.1 ++ rest.2)

/-- A callback `func(d *T, r *reader.Fetcher) error` that makes the calls
`ops` on `r` and returns `ret`. Its state records the messages it was called
with and the bytes it was given. (Whatever a callback decides from the
results it sees, in one run it makes one sequence of calls.) -/
def scriptedCallback {α : Type} (ops : List FetchOp) (ret : Option Error) (d : α) (f : Fetcher)
    (st : List α × List Nat) : Option (Fetcher × (List α × List Nat) × Option Error) :=
  some ((f.runOps ops).1, (st.1 ++ [d], st.2 ++ (f.runOps ops).2), ret)

/-- The state of the fetcher `rrr` that `Parse` hands to a payload callback,
once the callback has been given the first `k` bytes of `payload`: either
nothing was asked of it yet and its parent still holds the payload and the
bytes `tl` after it, or it has pulled the whole payload into its buffer, has
handed out `k` bytes of it, and its parent holds `tl`. -/
def Fetcher.Handed (payload tl : List Nat) (k : Nat) (f : Fetcher) : Prop :=
  (k = 0 ∧ 0 < payload.length ∧
    ∃ parent : Fetcher, parent.Holds (payload ++ tl) ∧
      f = NewFetcher (SizeLimitedFetch payload.length parent)) ∨
  (k ≤ payload.length ∧
    ∃ parent : Fetcher, parent.Holds tl ∧
      f = { f := SizeLimitedFetch 0 parent, s := payload, used := k, read := k })

end reader

namespace protocol

/-- Go: the message of `TestDialRespond`, with the payload `Test1Test2Test3`. -/
def testDialRespond : DialRespond :=
  { ID := testID, RID := 10, Total := 15,
    Respond := [84, 101, 115, 116, 49, 84, 101, 115, 116, 50, 84, 101, 115, 116, 51],
    RespondLength := 15 }

/-- Go: the message of `TestRetrieveRespond`, with the payload
`Test1Test2Test3Test4Test5`. -/
def testRetrieveRespond : RetrieveRespond :=
  { ID := testID, RID := 991029291932123, Total := 30, Offset := 5,
    Payload := [84, 101, 115, 116, 49, 84, 101, 115, 116, 50, 84, 101, 115, 116, 51,
      84, 101, 115, 116, 52, 84, 101, 115, 116, 53],
    PayloadLength := 25 }

/-- Go: `reader.MaxFetchSize`, the largest `int`. -/
def MaxFetchSize : Nat := 2 ^ 63 - 1

end protocol

/-! ## cipher/encrypt.go, cipher/nonce.go, cipher/key.go -/

namespace cipher

open reader protocol

def NonceSize : Nat := 12
def BlockSize : Nat := 16
def HeaderSize : Nat := NonceSize + BlockSize + 2
def OverheadSize : Nat := HeaderSize + BlockSize

/-- Go: `type Time [binary.MaxVarintLen64]byte`, ten bytes. -/
abbrev Time := List Nat

/-- Go: `Time{}`. -/
def Time.zero : Time := List.replicate 10 0

/-- Go library `crypto/cipher.AEAD`, the interface `Encrypt` and `Decrypt`
are given: `Seal nonce plaintext` is the output that `Seal(dst, nonce,
plaintext, nil)` appends to `dst`, `Open nonce ciphertext` the plaintext or the
error of `Open(dst, nonce, ciphertext, nil)`. -/
structure AEAD where
  NonceSize : Nat
  Seal : List Nat → List Nat → List Nat
  Open : List Nat → List Nat → Except Error (List Nat)

/-- The contract of the AEAD that `cipher.AEAD(k)` builds (AES-GCM of the Go
library): nonces of 12 bytes, a ciphertext 16 bytes longer than its plaintext,
and `Open` undoing `Seal` under the same nonce. -/
def AEAD.IsGCM (g : AEAD) : Prop :=
  g.NonceSize = 12 ∧
  (∀ nonce plaintext, (g.Seal nonce plaintext).length = plaintext.length + 16) ∧
  (∀ nonce plaintext, g.Open nonce (g.Seal nonce plaintext) = Except.ok plaintext)

/-- Go: `append` onto the zero-length slice `b[off:off]`, as `Seal` does with
its `dst`: an output that fits in `b` is written into `b` from `off` on; a
longer one goes past the end of `b`, and `Encrypt` panics on its length right
after. -/
def appendAt (b : List Nat) (off : Nat) (out : List Nat) : List Nat :=
  if off + out.length ≤ b.length then writeAt b off out else b

/-- Go: `nonce[0]++` on a byte array. -/
def nonceNext : List Nat → List Nat
  | [] => []
  | x :: xs => u8 (x + 1) :: xs

/-- Go: `Encrypt(gcm, nonce, b)`; `Except.error msg` is `panic(msg)`. The
buffer `b` is changed in place and returned; `nlen` is the count of
`copy(b, nonce[:])`. -/
def Encrypt (gcm : AEAD) (nonce : List Nat) (b : List Nat) : Except String (List Nat) :=
  if NonceSize ≠ gcm.NonceSize then
    Except.error "Invalid nonce"
  else if b.length < OverheadSize then
    Except.error "Given buffer is smaller than what's required"
  else if b.length > 65535 then
    Except.error "Invalid data length"
  else
    let nlen := min b.length nonce.length
    let b := writeAt b 0 (nonce.take nlen)
    let blen := b.length - OverheadSize
    let b := b.set nlen (u8 (blen >>> 8))
    let b := b.set (nlen + 1) (u8 blen)
    let sealed := gcm.Seal nonce ((b.drop nlen).take 2)
    let b := appendAt b nlen sealed
    let hlen := sealed.length + nlen
    if hlen ≠ HeaderSize then
      Except.error "Generated an invalid header"
    else
      let nonce := nonceNext nonce
      let sealed := gcm.Seal nonce ((b.drop hlen).take blen)
      let b := appendAt b hlen sealed
      let elen := sealed.length
      if elen ≠ BlockSize + blen then
        Except.error "Generated an invalid body"
      else if elen + hlen ≠ b.length then
        Except.error "Invalid data length"
      else
        Except.ok b

/-- Go: `Decrypt(t, gcm, nv, f, eoferr, c)`. The functions `gcm`, `nv` and `c`
act on a state `σ`. One unit of `fuel` is one turn of the `for` loop; `none`
when the loop has not ended within `fuel` turns. The two `Open` calls decrypt
in place, into bytes of the fetcher's buffer that have been fetched already
and are not read again. -/
def Decrypt {σ : Type} (t : Time) (gcm : σ → σ × Except Error AEAD)
    (nv : List Nat → Time → σ → σ × Bool) (eoferr : Error)
    (c : List Nat → σ → σ × Option Error) :
    Nat → Fetcher → σ → Option (Fetcher × σ × Option Error)
  | 0, _, _ => none
  | fuel + 1, f, st =>
    match f.Fetch HeaderSize with
    | (f, _, some e) => if e = eoferr then some (f, st, none) else some (f, st, some e)
    | (f, d, none) =>
      let nonce := d.take NonceSize
      match nv nonce t st with
      | (st, false) => some (f, st, some Error.ErrInvalidNonce)
      | (st, true) =>
        let nlen := nonce.length
        match gcm st with
        | (st, Except.error e) => some (f, st, some e)
        | (st, Except.ok gg) =>
          match gg.Open nonce ((d.drop nlen).take (HeaderSize - nlen)) with
          | Except.error e => some (f, st, some e)
          | Except.ok o =>
            if o.length ≠ 2 then
              some (f, st, some Error.ErrInvalidSize)
            else
              let size := u16 (u16 (o.getD 0 0) <<< 8) ||| u16 (o.getD 1 0)
              match f.Fetch (BlockSize + size) with
              | (f, _, some e) => some (f, st, some e)
              | (f, d, none) =>
                let nonce := nonceNext nonce
                match gg.Open nonce d with
                | Except.error e => some (f, st, some e)
                | Except.ok o =>
                  match c o st with
                  | (st, some e) => some (f, st, some e)
                  | (st, none) => Decrypt t gcm nv eoferr c fuel f st

/-- Go: `type Nonces struct`; the map `records` is the list of its keys. -/
structure Nonces where
  size : Nat
  t : Time
  records : List (List Nat)
  deriving DecidableEq, Repr

/-- Go: `Nonces.clear`. -/
def Nonces.clear (n : Nonces) : Nonces := { n with records := [] }

/-- Go: `Nonces.Verify(nonce, t)`. -/
def Nonces.Verify (n : Nonces) (nonce : List Nat) (t : Time) : Nonces × Bool :=
  let n := if n.t ≠ t then n.clear else n
  let nn := nonce
  let ex := decide (nn ∈ n.records)
  if ex then
    (n, false)
  else
    ({ n with records := nn :: n.records }, true)

/-- Go: `NewNonces(size, l)`. -/
def NewNonces (size : Nat) : Nonces := { size := size, t := Time.zero, records := [] }

/-- The results of a sequence of `Verify` calls, in order. -/
def Nonces.verifyAll : Nonces → List (List Nat × Time) → List Bool
  | _, [] => []
  | n, (nonce, t) :: rest => (n.Verify nonce t).2 :: Nonces.verifyAll (n.Verify nonce t).1 rest

end cipher

namespace cipher

open reader

/-- The tag of the example AEAD below: the nonce, cut or padded to 16 bytes. -/
def toyTag (nonce : List Nat) : List Nat := (nonce ++ List.replicate 16 0).take 16

/-- An example implementation of the `AEAD` interface that keeps the
contract `AEAD.IsGCM` (it hides nothing: the ciphertext is the plaintext and
a tag made of the nonce). -/
def toyAEAD : AEAD :=
  { NonceSize := 12
    Seal := fun nonce plaintext => plaintext ++ toyTag nonce
    Open := fun nonce ciphertext =>
      if ciphertext.length ≥ 16 ∧ ciphertext.drop (ciphertext.length - 16) = toyTag nonce then
        Except.ok (ciphertext.take (ciphertext.length - 16))
      else
        Except.error (Error.other 1) }

/-- Go: the plaintext buffer of `TestEncrypt`: 30 spaces, `ABC`, 16 spaces. -/
def testBuffer : List Nat := List.replicate 30 32 ++ [65, 66, 67] ++ List.replicate 16 32

/-- A nonce for the examples. -/
def testNonce : List Nat := [255, 1, 2, 3, 4, 5, 6, 7, 8, 9, 10, 11]

/-- Go: the nonce verifier of `TestEncrypt`, `return true`. -/
def nvTrue {σ : Type} (_ : List Nat) (_ : Time) (st : σ) : σ × Bool := (st, true)

/-- Go: the callback of `TestEncrypt`, `r = b`, as a callback that records
every call. -/
def record (b : List Nat) (st : List (List Nat)) : List (List Nat) × Option Error :=
  (st ++ [b], none)

/-- Go: `func() (cipher.AEAD, error) { return aesgcm, nil }`. -/
def constAEAD {σ : Type} (g : AEAD) (st : σ) : σ × Except Error AEAD := (st, Except.ok g)

end cipher

namespace reader

/-- The fetcher reads from a `ByteFetch` closure that has handed out its
bytes already, with `e` as its all-fetched error, and `bytes` is the unread
part of the fetcher's buffer. -/
def Fetcher.Fetched (r : Fetcher) (bytes : List Nat) (e : Error) : Prop :=
  r.used ≤ r.s.length ∧ r.s.drop r.used = bytes ∧
    match r.f with
    | Fetch.byteFetch _ e1 true => e1 = e
    | _ => False

end reader

namespace cipher

open reader

/-- A key-epoch for the examples: the ten bytes `binary.PutVarint` writes for
the second 1700000040, a multiple of 120. -/
def testTime : Time := [208, 196, 159, 213, 12, 0, 0, 0, 0, 0]

/-- The encrypted test buffer without its last byte: a header that opens to
the length 3, followed by 18 bytes where 19 are due. -/
def truncatedSegment : List Nat :=
  match Encrypt toyAEAD testNonce testBuffer with
  | Except.ok ee => ee.take 48
  | Except.error _ => []

end cipher

/-! ## session/common.go, session/retriever.go, session/retrievers.go -/

namespace session

open reader protocol

/-- Go: `type RetrieverError struct { E error; TryAgain bool }`. -/
structure RetrieverError where
  E : Option Error
  TryAgain : Bool
  deriving DecidableEq, Repr

/-- Go: `RetrieverError.IsError`. -/
def RetrieverError.IsError (r : RetrieverError) : Bool := r.E ≠ none

/-- Go: `newRetrieverError(e, tryAgain)`. -/
def newRetrieverError (e : Error) (tryAgain : Bool) : RetrieverError :=
  { E := some e, TryAgain := tryAgain }

/-- Go: `RetrieverError{}`, the value a callback gets on success. -/
def noError : RetrieverError := { E := none, TryAgain := false }

/-- A Go `error` value of the package: a sentinel error or a `RetrieverError`
(`nil` is `none` of `Option GoError`). -/
inductive GoError where
  | plain (e : Error)
  | retriever (e : RetrieverError)
  deriving DecidableEq, Repr

/-- Go: `isErrorRecoverable(e)`. -/
def isErrorRecoverable : Option GoError → Bool
  | none => true
  | some (GoError.retriever ee) => !ee.IsError || ee.TryAgain
  | some (GoError.plain _) => false

def ErrResourceNotFound : RetrieverError := newRetrieverError Error.msgResourceNotFound false
def ErrResourceNotReady : RetrieverError := newRetrieverError Error.msgResourceNotReady false
def ErrResourceExpired : RetrieverError := newRetrieverError Error.msgResourceExpired true
def ErrResourceBroken : RetrieverError := newRetrieverError Error.msgResourceBroken false
def ErrResourceClosed : RetrieverError := newRetrieverError Error.msgResourceClosed false
def ErrResourceSendFailure : RetrieverError :=
  newRetrieverError Error.msgResourceSendFailure false
def ErrResourceUnknown : RetrieverError := newRetrieverError Error.msgResourceUnknown false
def ErrDialFailedInvalidRequest : RetrieverError :=
  newRetrieverError Error.msgDialInvalidRequest false
def ErrDialFailedUnreachable : RetrieverError := newRetrieverError Error.msgDialUnreachable true
def ErrDialFailedOvercapacity : RetrieverError :=
  newRetrieverError Error.msgDialOvercapacity true
def ErrDialFailedAlreadyDialed : RetrieverError :=
  newRetrieverError Error.msgDialAlreadyDialed false
def ErrDialFailedInternalFailure : RetrieverError :=
  newRetrieverError Error.msgDialInternalFailure false
def ErrDialFailedUnknown : RetrieverError := newRetrieverError Error.msgDialUnknown false
def ErrResumeUnexpectedRespondRetry : RetrieverError :=
  newRetrieverError Error.msgResumeUnexpectedRespondRetry true
def ErrRetrieveUnexpectedRespondRetry : RetrieverError :=
  newRetrieverError Error.msgRetrieveUnexpectedRespondRetry true
def ErrSendUnexpectedRespondRetry : RetrieverError :=
  newRetrieverError Error.msgSendUnexpectedRespondRetry true

def ResourceErrorSuccess : Nat := 0
def ResourceErrorNotFound : Nat := 1
def ResourceErrorNotReady : Nat := 2
def ResourceErrorExpired : Nat := 3
def ResourceErrorBroken : Nat := 4
def ResourceErrorClosed : Nat := 5
def ResourceErrorSendFailure : Nat := 6
def ResourceErrorUnknown : Nat := 7

/-- Go: `getRetrieverResourceError(n)`. -/
def getRetrieverResourceError (n : Nat) : RetrieverError :=
  if n = ResourceErrorSuccess then noError
  else if n = ResourceErrorNotFound then ErrResourceNotFound
  else if n = ResourceErrorNotReady then ErrResourceNotReady
  else if n = ResourceErrorExpired then ErrResourceExpired
  else if n = ResourceErrorBroken then ErrResourceBroken
  else if n = ResourceErrorClosed then ErrResourceClosed
  else if n = ResourceErrorSendFailure then ErrResourceSendFailure
  else if n = ResourceErrorUnknown then ErrResourceUnknown
  else ErrResourceUnknown

/-- A call the package makes on a callback or on the sink `rec` of a
retriever. A callback (a Go function value) is named by a number, and so is a
sink. -/
inductive Event where
  | dialcb (cb : Nat) (e : RetrieverError)
  | rcb (cb : Nat) (e : RetrieverError)
  | wcb (cb : Nat) (size : Nat) (e : RetrieverError)
  | ccb (cb : Nat) (e : RetrieverError)
  | Dialed (sink : Nat)
  | Retrieved (sink : Nat) (respond : List Nat)
  | Retrieving (sink : Nat) (enable : Bool)
  | Close (sink : Nat)
  deriving DecidableEq, Repr

/-- Go: `type retriever struct`; a `nil` callback is `none`. The field `sink`
is the Go field `rec`, the `Retriever` the logical connection delivers to
(`rec` is taken in Lean). -/
structure retriever where
  sink : Nat
  dialcb : Option Nat
  rid : Nat
  roffset : Nat
  rtotal : Nat
  rcb : Option Nat
  wid : Nat
  wcb : Option Nat
  ccb : Option Nat
  deriving DecidableEq, Repr

/-- Go: `newRetriever(rec)`. -/
def newRetriever (sink : Nat) : retriever :=
  { sink := sink, dialcb := none, rid := 0, roffset := 0, rtotal := 0, rcb := none, wid := 0,
    wcb := none, ccb := none }

instance : Inhabited retriever := ⟨newRetriever 0⟩

/-- Go: the closures `Register`, `Retrieve`, `Send` and `Close` return as
`RetrieverCancel`. Each captures the pointer `s` to its retriever and empties
one callback slot of it; `nothing` is `func(e RetrieverError) {}`. -/
inductive RetrieverCancel where
  | dialcb (s : Nat)
  | rcb (s : Nat)
  | wcb (s : Nat)
  | ccb (s : Nat)
  | nothing
  deriving DecidableEq, Repr

/-- Go: `type RetrieverCancels map[protocol.ID]RetrieverCancel`. -/
abbrev RetrieverCancels := List (List Nat × RetrieverCancel)

/-- Go: `RetrieverCancels.clear(id)`. -/
def RetrieverCancels.clear (r : RetrieverCancels) (id : List Nat) : RetrieverCancels :=
  r.filter (fun kv => kv.1 ≠ id)

/-- Go: `type Retrievers struct`. The map `sessions` holds pointers; a pointer
is an index into `heap`, the retrievers allocated so far, so that a closure
that captured a pointer still reaches its retriever once the map has dropped
it. -/
structure Retrievers where
  capacity : Int
  sessions : List (List Nat × Nat)
  heap : List retriever
  deriving DecidableEq, Repr

/-- Go: `NewRetrievers(size)`. -/
def NewRetrievers (size : Int) : Retrievers := { capacity := size, sessions := [], heap := [] }

/-- Go: `s, ex := r.sessions[id]`. -/
def Retrievers.find (r : Retrievers) (id : List Nat) : Option Nat := r.sessions.lookup id

/-- Go: `*s`. -/
def Retrievers.deref (r : Retrievers) (s : Nat) : retriever := r.heap.getD s default

/-- Go: an assignment through the pointer `s`. -/
def Retrievers.store (r : Retrievers) (s : Nat) (v : retriever) : Retrievers :=
  { r with heap := r.heap.set s v }

/-- Go: `retriever.release()`: the retriever with its callbacks emptied, and
the calls the returned closure makes when it is run. -/
def retriever.release (r : retriever) : retriever × List Event :=
  ({ r with dialcb := none, rcb := none, wcb := none, ccb := none },
    (match r.dialcb with
      | some cb => [Event.dialcb cb ErrResourceClosed]
      | none => []) ++
    (match r.rcb with
      | some cb => [Event.rcb cb ErrResourceClosed]
      | none => []) ++
    (match r.wcb with
      | some cb => [Event.wcb cb 0 ErrResourceClosed]
      | none => []) ++
    (match r.ccb with
      | some cb => [Event.ccb cb ErrResourceClosed]
      | none => []) ++
    [Event.Close r.sink])

/-- Go: `Retrievers.release(id)`: the table without `id` and the pointer it
held, or `ErrRetrieverUndefined` (`none`). -/
def Retrievers.release (r : Retrievers) (id : List Nat) : Retrievers × Option Nat :=
  match r.find id with
  | none => (r, none)
  | some s => ({ r with sessions := r.sessions.filter (fun kv => kv.1 ≠ id) }, some s)

/-- Go: `Retrievers.forcefullyRelease(id)`: the calls of the returned closure
(`func() {}` makes none). -/
def Retrievers.forcefullyRelease (r : Retrievers) (id : List Nat) : Retrievers × List Event :=
  match r.release id with
  | (r, none) => (r, [])
  | (r, some s) =>
    let rel := (r.deref s).release
    (r.store s rel.1, rel.2)

/-- Go: `Retrievers.reactToError(id, e)`: the closure it returns (`none` is
`nil`), as the calls the closure makes. -/
def Retrievers.reactToError (r : Retrievers) (id : List Nat) (e : Option GoError) :
    Retrievers × Option (List Event) :=
  if isErrorRecoverable e then
    (r, none)
  else
    let u := r.forcefullyRelease id
    (u.1, some u.2)

/-- Go: `Retrievers.runExec(exec)`, as the calls made. -/
def runExec : Option (List Event) → List Event
  | none => []
  | some exec => exec

/-- What a response handler of a retriever leaves: the table and the cancels
after the call, the closure `er` left in `u`, the calls made before the payload
is read, and, unless `fuel` ran out in `FetchAll`, the fetcher after the call,
the calls made while and after the payload is read, and the returned error
(`Except.error msg` is a panic). -/
structure Handled where
  w : Retrievers
  cancels : RetrieverCancels
  u : Option (List Event)
  events : List Event
  later : Option (Fetcher × List Event × Except String (Option GoError))

/-- Go: the end of `retrieved`, `resumed` and `dialed`,
`reader.FetchAll(int(roffset), rr, func(b []byte) { r.rec.Retrieved(b) })`:
the fetcher after it, the calls on the sink, and the returned error. -/
def deliver (fuel : Nat) (sink : Nat) (roffset : Nat) (rr : Fetcher) :
    Option (Fetcher × List Event × Except String (Option GoError)) :=
  match FetchAll fuel roffset rr (fun b (evs : List Event) => evs ++ [Event.Retrieved sink b]) []
  with
  | none => none
  | some (rr, evs, Status.ok) => some (rr, evs, Except.ok none)
  | some (rr, evs, Status.err e) => some (rr, evs, Except.ok (some (GoError.plain e)))
  | some (rr, evs, Status.panic msg) => some (rr, evs, Except.error msg)

/-- Go: `retriever.retrieved(e, d, rr, l, er, c)` on the retriever at `s`. The
error reaction `er` acts on the table and leaves a closure in `u`. The lock
`l` has no state of its own here: the handler runs alone. -/
def retriever.retrieved (w : Retrievers) (s : Nat) (e : Nat) (d : RetrieveRespond)
    (rr : Fetcher) (er : Option GoError → Retrievers → Retrievers × Option (List Event))
    (c : RetrieverCancels) (fuel : Nat) : Handled :=
  match (w.deref s).rcb with
  | none =>
    let r := er (some (GoError.plain Error.ErrNotReady)) w
    { w := r.1, cancels := c, u := r.2, events := [],
      later := some (rr, [], Except.ok (some (GoError.plain Error.ErrNotReady))) }
  | some rcb =>
    let c := c.clear d.ID
    let w := w.store s { w.deref s with rcb := none }
    if e > 0 then
      let err := getRetrieverResourceError e
      let r := er (some (GoError.retriever err)) w
      { w := r.1, cancels := c, u := r.2, events := [Event.rcb rcb err],
        later := some (rr, [], Except.ok (some (GoError.retriever err))) }
    else if (w.deref s).rid > d.RID ∨ d.Offset < (w.deref s).roffset then
      let r := er (some (GoError.retriever ErrRetrieveUnexpectedRespondRetry)) w
      { w := r.1, cancels := c, u := r.2,
        events := [Event.rcb rcb ErrRetrieveUnexpectedRespondRetry],
        later := some (rr, [], Except.ok none) }
    else
      let w := w.store s { w.deref s with
        roffset := u16 (d.Offset + d.PayloadLength), rtotal := d.Total }
      let roffset := (w.deref s).roffset
      let sink := (w.deref s).sink
      let r := er none w
      { w := r.1, cancels := c, u := r.2,
        events := [Event.Retrieving sink true, Event.rcb rcb noError],
        later :=
          match deliver fuel sink roffset rr with
          | none => none
          | some (rr, evs, res) => some (rr, evs ++ [Event.Retrieving sink false], res) }

/-- Go: `retriever.resumed(e, d, rr, l, er, c)` on the retriever at `s`. -/
def retriever.resumed (w : Retrievers) (s : Nat) (e : Nat) (d : ResumeRespond)
    (rr : Fetcher) (er : Option GoError → Retrievers → Retrievers × Option (List Event))
    (c : RetrieverCancels) (fuel : Nat) : Handled :=
  match (w.deref s).rcb with
  | none =>
    let r := er (some (GoError.plain Error.ErrNotReady)) w
    { w := r.1, cancels := c, u := r.2, events := [],
      later := some (rr, [], Except.ok (some (GoError.plain Error.ErrNotReady))) }
  | some rcb =>
    let c := c.clear d.ID
    let w := w.store s { w.deref s with rcb := none }
    if e > 0 ∧ (e ≠ ResourceErrorExpired ∨ d.NewRID ≠ u64 ((w.deref s).rid + 1)) then
      let err := getRetrieverResourceError e
      let r := er (some (GoError.retriever err)) w
      { w := r.1, cancels := c, u := r.2, events := [Event.rcb rcb err],
        later := some (rr, [], Except.ok (some (GoError.retriever err))) }
    else if (w.deref s).rid ≥ d.NewRID then
      let r := er (some (GoError.retriever ErrResumeUnexpectedRespondRetry)) w
      { w := r.1, cancels := c, u := r.2,
        events := [Event.rcb rcb ErrResumeUnexpectedRespondRetry],
        later := some (rr, [],
          Except.ok (some (GoError.retriever ErrResumeUnexpectedRespondRetry))) }
    else
      let w := w.store s { w.deref s with
        rid := d.NewRID, roffset := d.PayloadLength, rtotal := d.Total }
      let roffset := (w.deref s).roffset
      let sink := (w.deref s).sink
      let r := er none w
      { w := r.1, cancels := c, u := r.2,
        events := [Event.Retrieving sink true, Event.rcb rcb noError],
        later :=
          match deliver fuel sink roffset rr with
          | none => none
          | some (rr, evs, res) => some (rr, evs ++ [Event.Retrieving sink false], res) }

/-- What a response leaves at the table: as `Handled`, with the calls of the
deferred `runExec(u)` at the end of `later`. -/
structure Dispatched where
  w : Retrievers
  cancels : RetrieverCancels
  events : List Event
  later : Option (Fetcher × List Event × Except String (Option GoError))

/-- Go: the frame of `Retrievers.Retrieved`, `Resumed`, ...: the deferred
`r.runExec(u)` runs once the handler has returned. -/
def Handled.finish (h : Handled) : Dispatched :=
  { w := h.w, cancels := h.cancels, events := h.events,
    later :=
      match h.later with
      | none => none
      | some (rr, evs, res) => some (rr, evs ++ runExec h.u, res) }

/-- Go: `Retrievers.Retrieved(e, d, rr, c)`. -/
def Retrievers.Retrieved (r : Retrievers) (e : Nat) (d : RetrieveRespond) (rr : Fetcher)
    (c : RetrieverCancels) (fuel : Nat) : Dispatched :=
  match r.find d.ID with
  | none =>
    { w := r, cancels := c, events := [],
      later := some (rr, [], Except.ok (some (GoError.plain Error.ErrRetrieverUndefined))) }
  | some s =>
    (retriever.retrieved r s e d rr (fun e w => w.reactToError d.ID e) c fuel).finish

/-- Go: `Retrievers.Resumed(e, d, rr, c)`. -/
def Retrievers.Resumed (r : Retrievers) (e : Nat) (d : ResumeRespond) (rr : Fetcher)
    (c : RetrieverCancels) (fuel : Nat) : Dispatched :=
  match r.find d.ID with
  | none =>
    { w := r, cancels := c, events := [],
      later := some (rr, [], Except.ok (some (GoError.plain Error.ErrRetrieverUndefined))) }
  | some s =>
    (retriever.resumed r s e d rr (fun e w => w.reactToError d.ID e) c fuel).finish

/-- What `Register`, `Retrieve`, `Send` and `Close` leave: the table and the
pusher after the call, the calls made on the new callback, the cancel closure
(`none` is `nil`) and the returned error. -/
structure Requested where
  w : Retrievers
  p : Pusher
  events : List Event
  cancel : Option RetrieverCancel
  err : Option Error
  deriving DecidableEq, Repr

/-- The Go error a builder returned; the builders of Retrieve and Resume
requests do not panic (their header nibbles are constants). -/
def builtError : Status → Option Error
  | Status.err e => some e
  | _ => none

/-- Go: `Retrievers.Retrieve(id, p, c)`; `c` names the callback. -/
def Retrievers.Retrieve (r : Retrievers) (id : List Nat) (p : Pusher) (c : Nat) : Requested :=
  match r.find id with
  | none =>
    { w := r, p := p,
      events := [Event.rcb c (newRetrieverError Error.ErrRetrieverUndefined false)],
      cancel := none, err := some Error.ErrRetrieverUndefined }
  | some s =>
    if (r.deref s).rcb ≠ none then
      { w := r, p := p, events := [Event.rcb c (newRetrieverError Error.ErrRetrieverBusy false)],
        cancel := none, err := some Error.ErrRetrieverBusy }
    else
      let built :=
        if (r.deref s).roffset ≥ (r.deref s).rtotal then
          let rr : ResumeRequest := { ID := id, RID := (r.deref s).rid }
          let b := rr.Build id p
          (b.2.1, b.2.2)
        else
          let rr : RetrieveRequest :=
            { ID := id, RID := (r.deref s).rid, Offset := (r.deref s).roffset }
          let b := rr.Build id p
          (b.2.1, b.2.2)
      match builtError built.2 with
      | some err =>
        { w := r, p := built.1, events := [Event.rcb c (newRetrieverError err false)],
          cancel := none, err := some err }
      | none =>
        { w := r.store s { r.deref s with rcb := some c }, p := built.1, events := [],
          cancel := some (RetrieverCancel.rcb s), err := none }

end session

namespace session

open reader protocol

/-- A read response as the dispatcher hands it to the table: the code of the
header nibble, the parsed message, the fetcher of its payload, and the fuel
for reading the payload. -/
inductive ReadResponse where
  | retrieved (e : Nat) (d : RetrieveRespond) (rr : Fetcher) (fuel : Nat)
  | resumed (e : Nat) (d : ResumeRespond) (rr : Fetcher) (fuel : Nat)

/-- Dispatching one read response: `Retrievers.Retrieved` or
`Retrievers.Resumed`. -/
def Retrievers.handle (w : Retrievers) (c : RetrieverCancels) : ReadResponse → Dispatched
  | ReadResponse.retrieved e d rr fuel => w.Retrieved e d rr c fuel
  | ReadResponse.resumed e d rr fuel => w.Resumed e d rr c fuel

/-- Dispatching a sequence of read responses, each on the table the one
before it left: what each of them leaves. -/
def Retrievers.handleAll : Retrievers → RetrieverCancels → List ReadResponse → List Dispatched
  | _, _, [] => []
  | w, c, resp :: rest =>
    (w.handle c resp) :: Retrievers.handleAll (w.handle c resp).w (w.handle c resp).cancels rest

/-- The callback of a pending retrieve was called with the success value. -/
def retrieveSucceeded (events : List Event) : Bool :=
  events.any fun ev =>
    match ev with
    | Event.rcb _ err => decide (err = noError)
    | _ => false

/-- The response is a Resume response for the retriever at `s` and is
accepted: its pending callback is called with the success value. -/
def Retrievers.acceptsResume (w : Retrievers) (c : RetrieverCancels) (s : Nat) :
    ReadResponse → Bool
  | ReadResponse.retrieved _ _ _ _ => false
  | ReadResponse.resumed e d rr fuel =>
    decide (w.find d.ID = some s) && retrieveSucceeded (w.Resumed e d rr c fuel).events

/-- The `rid` of the retriever at `s` after each response of a sequence,
starting with its `rid` before the first. -/
def Retrievers.ridTrace (w : Retrievers) (c : RetrieverCancels) (s : Nat)
    (resps : List ReadResponse) : List Nat :=
  (w.deref s).rid :: (w.handleAll c resps).map (fun d => (d.w.deref s).rid)

/-- For each response of a sequence: the `rid` of the retriever at `s` before
it, its `rid` after it, and whether the response is an accepted Resume
response for that retriever. -/
def Retrievers.ridLog : Retrievers → RetrieverCancels → Nat → List ReadResponse →
    List (Nat × Nat × Bool)
  | _, _, _, [] => []
  | w, c, s, resp :: rest =>
    ((w.deref s).rid, ((w.handle c resp).w.deref s).rid, w.acceptsResume c s resp) ::
      Retrievers.ridLog (w.handle c resp).w (w.handle c resp).cancels s rest

/-- A table for the examples: one retriever, registered under `testID`, with
`rid = 5`, 10 of 30 bytes read, and a retrieve pending on callback 7. -/
def testRetrievers : Retrievers :=
  { capacity := 4, sessions := [(testID, 0)],
    heap := [{ sink := 1, dialcb := none, rid := 5, roffset := 10, rtotal := 30,
               rcb := some 7, wid := 2, wcb := none, ccb := none }] }

/-- The table of the examples with no retrieve pending. -/
def testRetrieversIdle : Retrievers :=
  testRetrievers.store 0 { testRetrievers.deref 0 with rcb := none }

end session

/-! ## protocol/send_request.go, protocol/close_request.go, Respond helpers -/

namespace protocol

open reader

def DialErrorInvalidRequest : Nat := 1
def DialErrorUnreachable : Nat := 2
def DialErrorOverCapacity : Nat := 3
def DialErrorAlreadyDialed : Nat := 4
def DialErrorInternalFailure : Nat := 5

def SendHeaderSize : Nat := IDSize + 8 + 2
def SendHeaderOverhead : Nat := HeaderSize + SendHeaderSize

/-- Go: `type SendRequest struct`. -/
structure SendRequest where
  ID : List Nat
  WID : Nat
  Payload : List Nat
  PayloadLength : Nat
  deriving DecidableEq, Repr

/-- Go: `SendRequest.BuildHeader(id, b)`. -/
def SendRequest.BuildHeader (d : SendRequest) (id : List Nat) (b : Pusher) :
    SendRequest × Pusher × Status :=
  -- rType
  match NewRequestType SendType 0 with
  | Except.error msg => (d, b, Status.panic msg)
  | Except.ok rType =>
    match pusherPush b [rType] with
    | (b, some err) => (d, b, Status.err err)
    | (b, none) =>
      -- id
      let d := { d with ID := id }
      match pusherPush b d.ID with
      | (b, some err) => (d, b, Status.err err)
      | (b, none) =>
        -- wid
        match pusherU64 b d.WID with
        | (b, some err) => (d, b, Status.err err)
        | (b, none) =>
          -- payload
          match pusherU16 b d.PayloadLength with
          | (b, some err) => (d, b, Status.err err)
          | (b, none) => (d, b, Status.ok)

/-- Go: `SendRequest.Respond(newWID, wlen)`. -/
def SendRequest.Respond (d : SendRequest) (newWID : Nat) (wlen : Nat) : SendRespond :=
  { ID := d.ID, NewWID := newWID, Sent := wlen }

/-- Go: `type CloseRequest struct`. -/
structure CloseRequest where
  ID : List Nat
  deriving DecidableEq, Repr

/-- Go: `CloseRequest.Build(id, b)`. -/
def CloseRequest.Build (d : CloseRequest) (id : List Nat) (b : Pusher) :
    CloseRequest × Pusher × Status :=
  match NewRequestType CloseType 0 with
  | Except.error msg => (d, b, Status.panic msg)
  | Except.ok rType =>
    match pusherPush b [rType] with
    | (b, some err) => (d, b, Status.err err)
    | (b, none) =>
      let d := { d with ID := id }
      match pusherPush b d.ID with
      | (b, some err) => (d, b, Status.err err)
      | (b, none) => (d, b, Status.ok)

/-- Go: `CloseRequest.Respond()`. -/
def CloseRequest.Respond (d : CloseRequest) : CloseRespond := { ID := d.ID }

/-- Go: `RetrieveRequest.Respond(rid, total, offset, dd)`. -/
def RetrieveRequest.Respond (d : RetrieveRequest) (rid : Nat) (total : Nat) (offset : Nat)
    (dd : List Nat) : RetrieveRespond :=
  { ID := d.ID, RID := rid, Total := total, Offset := offset, Payload := dd,
    PayloadLength := u16 dd.length }

/-- Go: `ResumeRequest.RetrieveRequest()`. -/
def ResumeRequest.RetrieveRequest (d : ResumeRequest) : RetrieveRequest :=
  { ID := d.ID, RID := d.RID, Offset := 0 }

/-- Go: `ResumeRequest.RetrieveRespond(dd)`. -/
def ResumeRequest.RetrieveRespond (d : ResumeRequest) (dd : RetrieveRespond) : ResumeRespond :=
  { ID := d.ID, NewRID := dd.RID, Total := dd.Total, Payload := dd.Payload,
    PayloadLength := dd.PayloadLength }

end protocol

/-! ## session/retriever.go, session/retrievers.go: dial, send and close responses -/

namespace session

open reader protocol

/-- Go: `getRetrieverDialError(n)`. -/
def getRetrieverDialError (n : Nat) : RetrieverError :=
  if n = DialErrorInvalidRequest then ErrDialFailedInvalidRequest
  else if n = DialErrorUnreachable then ErrDialFailedUnreachable
  else if n = DialErrorOverCapacity then ErrDialFailedOvercapacity
  else if n = DialErrorAlreadyDialed then ErrDialFailedAlreadyDialed
  else if n = DialErrorInternalFailure then ErrDialFailedInternalFailure
  else ErrDialFailedUnknown

/-- Go: `retriever.dialed(e, d, rr, l, er, c)` on the retriever at `s`. -/
def retriever.dialed (w : Retrievers) (s : Nat) (e : Nat) (d : DialRespond)
    (rr : Fetcher) (er : Option GoError → Retrievers → Retrievers × Option (List Event))
    (c : RetrieverCancels) (fuel : Nat) : Handled :=
  match (w.deref s).dialcb with
  | none =>
    let r := er (some (GoError.plain Error.ErrNotReady)) w
    { w := r.1, cancels := c, u := r.2, events := [],
      later := some (rr, [], Except.ok (some (GoError.plain Error.ErrNotReady))) }
  | some dialcb =>
    let c := c.clear d.ID
    let w := w.store s { w.deref s with dialcb := none }
    if e > 0 then
      let err := getRetrieverDialError e
      let r := er (some (GoError.retriever err)) w
      { w := r.1, cancels := c, u := r.2, events := [Event.dialcb dialcb err],
        later := some (rr, [], Except.ok (some (GoError.retriever err))) }
    else
      let w := w.store s { w.deref s with
        rid := d.RID, roffset := d.RespondLength, rtotal := d.Total }
      let roffset := (w.deref s).roffset
      let sink := (w.deref s).sink
      let r := er none w
      { w := r.1, cancels := c, u := r.2,
        events := [Event.dialcb dialcb noError, Event.Dialed sink],
        later := deliver fuel sink roffset rr }

/-- What `sent` and `closed` leave, the handlers that read no payload: the
table and the cancels after the call, the closure `er` left in `u`, the calls
made, and the returned error. -/
structure Replied where
  w : Retrievers
  cancels : RetrieverCancels
  u : Option (List Event)
  events : List Event
  err : Option GoError

/-- Go: `retriever.sent(e, d, l, er, c)` on the retriever at `s`. -/
def retriever.sent (w : Retrievers) (s : Nat) (e : Nat) (d : SendRespond)
    (er : Option GoError → Retrievers → Retrievers × Option (List Event))
    (c : RetrieverCancels) : Replied :=
  match (w.deref s).wcb with
  | none =>
    let r := er (some (GoError.plain Error.ErrNotReady)) w
    { w := r.1, cancels := c, u := r.2, events := [],
      err := some (GoError.plain Error.ErrNotReady) }
  | some wcb =>
    let c := c.clear d.ID
    let w := w.store s { w.deref s with wcb := none }
    if e > 0 ∧ (e ≠ ResourceErrorExpired ∨ d.NewWID ≠ u64 ((w.deref s).wid + 1)) then
      let err := getRetrieverResourceError e
      let r := er (some (GoError.retriever err)) w
      { w := r.1, cancels := c, u := r.2, events := [Event.wcb wcb 0 err],
        err := some (GoError.retriever err) }
    else if (w.deref s).wid ≥ d.NewWID then
      let r := er (some (GoError.retriever ErrSendUnexpectedRespondRetry)) w
      { w := r.1, cancels := c, u := r.2,
        events := [Event.wcb wcb 0 ErrSendUnexpectedRespondRetry],
        err := some (GoError.retriever ErrSendUnexpectedRespondRetry) }
    else
      let w := w.store s { w.deref s with wid := d.NewWID }
      let r := er none w
      { w := r.1, cancels := c, u := r.2, events := [Event.wcb wcb d.Sent noError],
        err := none }

/-- Go: `retriever.closed(e, d, l, er, c)` on the retriever at `s`. The
closure `u` of `r.release()` is run at the end, after the close callback. -/
def retriever.closed (w : Retrievers) (s : Nat) (_e : Nat) (d : CloseRespond)
    (er : Option GoError → Retrievers → Retrievers × Option (List Event))
    (c : RetrieverCancels) : Replied :=
  if (w.deref s).ccb ≠ none then
    let r := er (some (GoError.plain Error.ErrNotReady)) w
    { w := r.1, cancels := c, u := r.2, events := [],
      err := some (GoError.plain Error.ErrNotReady) }
  else
    let c := c.clear d.ID
    let ccb := (w.deref s).ccb
    let w := w.store s { w.deref s with ccb := none }
    let u := (w.deref s).release
    let w := w.store s u.1
    let r := er none w
    { w := r.1, cancels := c, u := r.2,
      events :=
        (match ccb with
          | some cb => [Event.ccb cb noError]
          | none => []) ++ u.2,
      err := none }

/-- What a response without payload leaves at the table: as `Replied`, with
the calls of the deferred `runExec(u)` at the end of `events`. -/
structure Answered where
  w : Retrievers
  cancels : RetrieverCancels
  events : List Event
  err : Option GoError

/-- Go: the frame of `Retrievers.Sent` and `Retrievers.Closed`: the deferred
`r.runExec(u)` runs once the handler has returned. -/
def Replied.finish (h : Replied) : Answered :=
  { w := h.w, cancels := h.cancels, events := h.events ++ runExec h.u, err := h.err }

/-- Go: `Retrievers.Registered(e, d, rr, c)`. -/
def Retrievers.Registered (r : Retrievers) (e : Nat) (d : DialRespond) (rr : Fetcher)
    (c : RetrieverCancels) (fuel : Nat) : Dispatched :=
  match r.find d.ID with
  | none =>
    { w := r, cancels := c, events := [],
      later := some (rr, [], Except.ok (some (GoError.plain Error.ErrRetrieverUndefined))) }
  | some s =>
    (retriever.dialed r s e d rr (fun e w => w.reactToError d.ID e) c fuel).finish

/-- Go: `Retrievers.Sent(e, d, c)`. -/
def Retrievers.Sent (r : Retrievers) (e : Nat) (d : SendRespond) (c : RetrieverCancels) :
    Answered :=
  match r.find d.ID with
  | none =>
    { w := r, cancels := c, events := [],
      err := some (GoError.plain Error.ErrRetrieverUndefined) }
  | some s => (retriever.sent r s e d (fun e w => w.reactToError d.ID e) c).finish

/-- Go: `Retrievers.Closed(e, d, c)`. -/
def Retrievers.Closed (r : Retrievers) (e : Nat) (d : CloseRespond) (c : RetrieverCancels) :
    Answered :=
  match r.release d.ID with
  | (r, none) =>
    { w := r, cancels := c, events := [],
      err := some (GoError.plain Error.ErrRetrieverUndefined) }
  | (r, some rr) => (retriever.closed r rr e d (fun e w => w.reactToError d.ID e) c).finish

end session

/-! ## session/retrievers.go: reserving, requests and cancel closures -/

namespace session

open reader protocol

/-- Go: `protocol.ID{}`. -/
def zeroID : List Nat := List.replicate 32 0

/-- Go: the loop of `Retrievers.newID`, `for i := 0; i < retries; i++`, with
`n` turns left. The package function `newID()` reads the system's random
source; `rand i` is what its call in turn `i` returns. -/
def Retrievers.newIDLoop (r : Retrievers) (rand : Nat → List Nat × Option Error) :
    Nat → Nat → List Nat × Option Error
  | 0, _ => (zeroID, some Error.ErrUnableToGenerateID)
  | n + 1, i =>
    match rand i with
    | (_, some err) => (zeroID, some err)
    | (id, none) =>
      if (r.find id).isSome then
        Retrievers.newIDLoop r rand n (i + 1)
      else
        (id, none)

/-- Go: `Retrievers.newID()`, with `retries = 1000`. -/
def Retrievers.newID (r : Retrievers) (rand : Nat → List Nat × Option Error) :
    List Nat × Option Error :=
  r.newIDLoop rand 1000 0

/-- Go: `r.sessions[id] = ret`. -/
def Retrievers.insert (r : Retrievers) (id : List Nat) (ret : Nat) : Retrievers :=
  { r with sessions := (id, ret) :: r.sessions.filter (fun kv => kv.1 ≠ id) }

/-- Go: `newRetriever(rec)` as an allocation: the table with the new retriever
on its heap, and the pointer to it. -/
def Retrievers.alloc (r : Retrievers) (v : retriever) : Retrievers × Nat :=
  ({ r with heap := r.heap ++ [v] }, r.heap.length)

/-- What `Retrievers.Retriever` returns, and the table after the call. -/
structure Reserved where
  w : Retrievers
  id : List Nat
  sink : Option Nat
  err : Option Error
  deriving DecidableEq, Repr

/-- Go: `Retrievers.Retriever(builder)`; the builder names the sink it makes
for an ID by a number. -/
def Retrievers.Retriever (r : Retrievers) (rand : Nat → List Nat × Option Error)
    (builder : List Nat → Nat) : Reserved :=
  if (r.sessions.length : Int) ≥ r.capacity then
    { w := r, id := zeroID, sink := none, err := some Error.ErrRetrieversFull }
  else
    match r.newID rand with
    | (id, some err) => { w := r, id := id, sink := none, err := some err }
    | (id, none) =>
      let sink := builder id
      let ret := r.alloc (newRetriever sink)
      { w := ret.1.insert id ret.2, id := id, sink := some sink, err := none }

/-- Go: `Retrievers.Register(id, rr, p, rec, c)`; `c` names the callback,
`Except.error msg` is a panic of `rr.Build`. The Go function does not use its
parameter `rec`. -/
def Retrievers.Register (r : Retrievers) (id : List Nat) (rr : DialRequest) (p : Pusher)
    (c : Nat) : Except String Requested :=
  match r.find id with
  | none =>
    Except.ok
      { w := r, p := p,
        events := [Event.dialcb c (newRetrieverError Error.ErrRetrieverUndefined false)],
        cancel := none, err := some Error.ErrRetrieverUndefined }
  | some s =>
    if (r.deref s).dialcb ≠ none then
      Except.ok
        { w := r, p := p,
          events := [Event.dialcb c (newRetrieverError Error.ErrRetrieverBusy false)],
          cancel := none, err := some Error.ErrRetrieverBusy }
    else
      match rr.Build id p with
      | (_, _, Status.panic msg) => Except.error msg
      | (_, p, Status.err err) =>
        Except.ok
          { w := r, p := p, events := [Event.dialcb c (newRetrieverError err false)],
            cancel := none, err := some err }
      | (_, p, Status.ok) =>
        Except.ok
          { w := r.store s { r.deref s with dialcb := some c }, p := p, events := [],
            cancel := some (RetrieverCancel.dialcb s), err := none }

/-- Go: `Retrievers.Send(id, data, p, c)`; `Except.error msg` is the panic of
the slice expression `data[protocol.SendHeaderOverhead:]` on a shorter `data`. -/
def Retrievers.Send (r : Retrievers) (id : List Nat) (data : List Nat) (p : Pusher) (c : Nat) :
    Except String Requested :=
  match r.find id with
  | none =>
    Except.ok
      { w := r, p := p,
        events := [Event.wcb c 0 (newRetrieverError Error.ErrRetrieverUndefined false)],
        cancel := none, err := some Error.ErrRetrieverUndefined }
  | some s =>
    if (r.deref s).wcb ≠ none then
      Except.ok
        { w := r, p := p,
          events := [Event.wcb c 0 (newRetrieverError Error.ErrRetrieverBusy false)],
          cancel := none, err := some Error.ErrRetrieverBusy }
    else if data.length < SendHeaderOverhead then
      Except.error "slice bounds out of range"
    else
      let rr : SendRequest :=
        { ID := id, WID := (r.deref s).wid, Payload := data.drop SendHeaderOverhead,
          PayloadLength := u16 (data.length - SendHeaderOverhead) }
      let b := rr.BuildHeader id p
      match builtError b.2.2 with
      | some err =>
        Except.ok
          { w := r, p := b.2.1, events := [Event.wcb c 0 (newRetrieverError err false)],
            cancel := none, err := some err }
      | none =>
        Except.ok
          { w := r.store s { r.deref s with wcb := some c }, p := b.2.1, events := [],
            cancel := some (RetrieverCancel.wcb s), err := none }

/-- Go: `Retrievers.Close(id, p, c)`; `c` names the callback. -/
def Retrievers.Close (r : Retrievers) (id : List Nat) (p : Pusher) (c : Nat) : Requested :=
  match r.find id with
  | none =>
    let rr : CloseRequest := { ID := id }
    let b := rr.Build id p
    match builtError b.2.2 with
    | some err => { w := r, p := b.2.1, events := [], cancel := none, err := some err }
    | none =>
      { w := r, p := b.2.1,
        events := [Event.ccb c (newRetrieverError Error.ErrRetrieverUndefined false)],
        cancel := some RetrieverCancel.nothing, err := none }
  | some s =>
    if (r.deref s).ccb ≠ none then
      { w := r, p := p, events := [Event.ccb c (newRetrieverError Error.ErrRetrieverBusy false)],
        cancel := none, err := some Error.ErrRetrieverBusy }
    else
      let rr : CloseRequest := { ID := id }
      let b := rr.Build id p
      match builtError b.2.2 with
      | some err =>
        { w := r, p := b.2.1, events := [Event.ccb c (newRetrieverError err false)],
          cancel := none, err := some err }
      | none =>
        { w := r.store s { r.deref s with ccb := some c }, p := b.2.1, events := [],
          cancel := some (RetrieverCancel.ccb s), err := none }

/-- Go: calling a `RetrieverCancel` closure with `e`: the closure takes the
callback out of the slot of the retriever it captured and, when there was
one, calls it. Returns the table after the call and the calls made. -/
def RetrieverCancel.call (t : RetrieverCancel) (w : Retrievers) (e : RetrieverError) :
    Retrievers × List Event :=
  match t with
  | RetrieverCancel.dialcb s =>
    let dialcb := (w.deref s).dialcb
    let w := w.store s { w.deref s with dialcb := none }
    match dialcb with
    | none => (w, [])
    | some cb => (w, [Event.dialcb cb e])
  | RetrieverCancel.rcb s =>
    let rcb := (w.deref s).rcb
    let w := w.store s { w.deref s with rcb := none }
    match rcb with
    | none => (w, [])
    | some cb => (w, [Event.rcb cb e])
  | RetrieverCancel.wcb s =>
    let wcb := (w.deref s).wcb
    let w := w.store s { w.deref s with wcb := none }
    match wcb with
    | none => (w, [])
    | some cb => (w, [Event.wcb cb 0 e])
  | RetrieverCancel.ccb s =>
    let ccb := (w.deref s).ccb
    let w := w.store s { w.deref s with ccb := none }
    match ccb with
    | none => (w, [])
    | some cb => (w, [Event.ccb cb e])
  | RetrieverCancel.nothing => (w, [])

end session

/-! ## relay/common.go, session/session.go -/

namespace relay

/-- Go: `relay.Error`. -/
structure Error where
  E : Option Warwolf.Error
  IsTimeout : Bool
  deriving DecidableEq, Repr

/-- Go: `relay.Error.IsError`. -/
def Error.IsError (e : relay.Error) : Bool := e.E ≠ none

end relay

/-- Go: `type session struct` of the package `session`, the server's side of a
logical connection. The fields `expired`, `relay`, `wg` and `l` (a time, the
relay, a wait group and the mutex) are left out: the calls on the relay are
part of what a method returns, and a method runs alone between `lock` and
`unlock`. -/
structure session where
  maxrlen : Nat
  rid : Nat
  rbusy : Bool
  read : List Nat
  readLen : Nat
  rpaused : Bool
  wid : Nat
  wbusy : Bool
  wlen : Nat
  closed : Bool
  deriving DecidableEq, Repr

namespace session

open reader protocol

/-- Go: `newSession(relay, maxrlen, expired)`. -/
def newSession (maxrlen : Nat) : session :=
  { maxrlen := maxrlen, rid := 0, rbusy := false, read := [], readLen := 0, rpaused := false,
    wid := 0, wbusy := false, wlen := 0, closed := false }

/-- Go: `session.readData(offset, max)`. The lengths are `uint16`; `max` is an
`int` that is converted to `uint16`. `Except.error msg` is the panic of the
slice expression `s.read[rstart : rstart+maxlen]` (the capacity of `s.read` is
taken to be its length). -/
def readData (s : session) (offset : Nat) (max : Int) :
    Except String (Nat × Nat × List Nat) :=
  let rstart := if offset > s.readLen then s.readLen else offset
  let maxlen := u16 (s.readLen + 2 ^ 16 - rstart)
  let maxlen := if maxlen > s.maxrlen then s.maxrlen else maxlen
  let maxlen := if maxlen > (max % 2 ^ 16).toNat then (max % 2 ^ 16).toNat else maxlen
  let high := u16 (rstart + maxlen)
  if high < rstart ∨ high > s.read.length then
    Except.error "slice bounds out of range"
  else
    Except.ok (s.readLen, rstart, (s.read.take high).drop rstart)

/-- What `session.retrieve` leaves: the session after the call, the calls it
made on `result` (the code and the response), and whether it called
`s.relay.Retrieve`, that is, started a read on the relay. -/
structure Retrieval where
  s : session
  results : List (Nat × RetrieveRespond)
  reading : Bool
  deriving DecidableEq, Repr

/-- Go: `session.retrieve(d, call, timeout, result, maxlen)`. The precheck
`call` acts on the session and returns a code. The closure given to
`s.relay.Retrieve` is `session.retrieveCallback`; `timeout` is only passed on
to the relay. -/
def retrieve (s : session) (d : RetrieveRequest) (call : session → session × Nat)
    (maxlen : Int) : Except String Retrieval :=
  if s.closed then
    let rsp := d.Respond s.rid s.readLen 0 []
    Except.ok { s := s, results := [(ResourceErrorNotFound, rsp)], reading := false }
  else if s.rbusy then
    let rsp := d.Respond s.rid s.readLen 0 []
    Except.ok { s := s, results := [(ResourceErrorNotReady, rsp)], reading := false }
  else if d.RID < s.rid then
    let rsp := d.Respond s.rid s.readLen 0 []
    Except.ok { s := s, results := [(ResourceErrorExpired, rsp)], reading := false }
  else
    let called := call s
    let s := called.1
    let cerr := called.2
    if cerr > 0 then
      let rsp := d.Respond s.rid s.readLen 0 []
      Except.ok { s := s, results := [(cerr, rsp)], reading := false }
    else if s.rpaused then
      match s.readData d.Offset maxlen with
      | Except.error msg => Except.error msg
      | Except.ok (total, offset, data) =>
        let rsp := d.Respond s.rid total offset data
        Except.ok { s := s, results := [(0, rsp)], reading := false }
    else
      let s := { s with rpaused := true, rbusy := true }
      Except.ok { s := s, results := [], reading := true }

/-- Go: the closure `session.retrieve` gives to `s.relay.Retrieve`, called by
the relay with the bytes read `r` and the error `err`. -/
def retrieveCallback (s : session) (d : RetrieveRequest) (maxlen : Int) (r : List Nat)
    (err : relay.Error) : Except String Retrieval :=
  let s := { s with rbusy := false }
  if err.IsError then
    let s := { s with read := [], readLen := 0 }
    let rsp := d.Respond s.rid s.readLen 0 []
    if err.IsTimeout then
      Except.ok { s := s, results := [(0, rsp)], reading := false }
    else
      Except.ok { s := s, results := [(ResourceErrorBroken, rsp)], reading := false }
  else
    let s := { s with read := r, readLen := u16 r.length }
    match s.readData d.Offset maxlen with
    | Except.error msg => Except.error msg
    | Except.ok (total, offset, data) =>
      let rsp := d.Respond s.rid total offset data
      Except.ok { s := s, results := [(0, rsp)], reading := false }

/-- Go: the precheck closure of `session.resume`. -/
def resumeCall (d : ResumeRequest) (s : session) : session × Nat :=
  if d.RID ≠ s.rid then
    (s, ResourceErrorExpired)
  else if !s.rpaused then
    (s, ResourceErrorNotReady)
  else
    ({ s with rid := u64 (s.rid + 1), rpaused := false }, ResourceErrorSuccess)

/-- Go: the precheck closure of `session.start`, `return 0`. -/
def startCall (s : session) : session × Nat := (s, 0)

/-- Go: `session.resume(d, timeout, result, maxlen)`: `session.retrieve` with
the precheck `resumeCall`; each result is handed on as
`d.RetrieveRespond(rsp)`. -/
def resume (s : session) (d : ResumeRequest) (maxlen : Int) : Except String Retrieval :=
  s.retrieve d.RetrieveRequest (resumeCall d) maxlen

/-- A session for the examples: `rid = 4`, 20 bytes read and held (`rpaused`),
no read in progress. -/
def testSession : session :=
  { maxrlen := 100, rid := 4, rbusy := false, read := List.replicate 20 7, readLen := 20,
    rpaused := true, wid := 1, wbusy := false, wlen := 0, closed := false }

end session

namespace session

open reader protocol

/-- The table of the examples with a send pending on callback 8 (and no
retrieve pending); the retriever has `wid = 2`. -/
def testRetrieversSending : Retrievers :=
  testRetrieversIdle.store 0 { testRetrieversIdle.deref 0 with wcb := some 8 }

/-- The table of the examples with a callback pending in each phase: dial on
6, retrieve on 7, send on 8 and close on 9. -/
def testRetrieversBusy : Retrievers :=
  testRetrievers.store 0
    { testRetrievers.deref 0 with dialcb := some 6, wcb := some 8, ccb := some 9 }

end session

namespace session

open reader protocol

/-- Go: `Retrievers.Release(id, c)`: the table after the call and the sink
handed to `c` (`none` when the ID is not in the table and
`ErrRetrieverUndefined` is returned); the result of `c` is returned as is. -/
def Retrievers.Release (r : Retrievers) (id : List Nat) : Retrievers × Option Nat :=
  match r.release id with
  | (r, none) => (r, none)
  | (r, some rr) => (r, some (r.deref rr).sink)

/-- Go: `Retrievers.CloseAll()`: every retriever of the table is released and
deleted, then the closures are run. The entries are taken in the order of the
list (the order of a Go map is not specified). -/
def Retrievers.CloseAll (r : Retrievers) : Retrievers × List Event :=
  let out := r.sessions.foldl
    (fun (acc : Retrievers × List Event) (kv : List Nat × Nat) =>
      let u := (acc.1.deref kv.2).release
      (acc.1.store kv.2 u.1, acc.2 ++ u.2))
    (r, [])
  ({ out.1 with sessions := [] }, out.2)

/-- A call on the table: one of the exported methods of `Retrievers`, or a
call of a cancel closure one of them returned. -/
inductive TableCall where
  | Retriever (rand : Nat → List Nat × Option Error) (builder : List Nat → Nat)
  | Register (id : List Nat) (rr : DialRequest) (p : Pusher) (c : Nat)
  | Registered (e : Nat) (d : DialRespond) (rr : Fetcher) (c : RetrieverCancels) (fuel : Nat)
  | Retrieve (id : List Nat) (p : Pusher) (c : Nat)
  | Retrieved (e : Nat) (d : RetrieveRespond) (rr : Fetcher) (c : RetrieverCancels) (fuel : Nat)
  | Resumed (e : Nat) (d : ResumeRespond) (rr : Fetcher) (c : RetrieverCancels) (fuel : Nat)
  | Send (id : List Nat) (data : List Nat) (p : Pusher) (c : Nat)
  | Sent (e : Nat) (d : SendRespond) (c : RetrieverCancels)
  | Close (id : List Nat) (p : Pusher) (c : Nat)
  | Closed (e : Nat) (d : CloseRespond) (c : RetrieverCancels)
  | Release (id : List Nat)
  | CloseAll
  | cancel (t : RetrieverCancel) (e : RetrieverError)

/-- The table a call leaves (a call that panics leaves the table it found:
`Register` and `Send` panic before they assign). -/
def Retrievers.after (r : Retrievers) : TableCall → Retrievers
  | TableCall.Retriever rand builder => (r.Retriever rand builder).w
  | TableCall.Register id rr p c =>
    match r.Register id rr p c with
    | Except.ok q => q.w
    | Except.error _ => r
  | TableCall.Registered e d rr c fuel => (r.Registered e d rr c fuel).w
  | TableCall.Retrieve id p c => (r.Retrieve id p c).w
  | TableCall.Retrieved e d rr c fuel => (r.Retrieved e d rr c fuel).w
  | TableCall.Resumed e d rr c fuel => (r.Resumed e d rr c fuel).w
  | TableCall.Send id data p c =>
    match r.Send id data p c with
    | Except.ok q => q.w
    | Except.error _ => r
  | TableCall.Sent e d c => (r.Sent e d c).w
  | TableCall.Close id p c => (r.Close id p c).w
  | TableCall.Closed e d c => (r.Closed e d c).w
  | TableCall.Release id => (r.Release id).1
  | TableCall.CloseAll => r.CloseAll.1
  | TableCall.cancel t e => (t.call r e).1

/-- The table a sequence of calls leaves. -/
def Retrievers.afterAll (r : Retrievers) (calls : List TableCall) : Retrievers :=
  calls.foldl Retrievers.after r

/-- A random source for the examples: the draws are the IDs `[i, 0, ..., 0]`. -/
def testRand (i : Nat) : List Nat × Option Error := (u8 i :: List.replicate 31 0, none)

/-- A builder for the examples: the sink of an ID is named by its first byte. -/
def testBuilder (id : List Nat) : Nat := id.headD 0

end session

namespace session

/-- The session of the examples, closed while a read is in progress. -/
def testSessionClosed : session := { testSession with closed := true, rbusy := true }

/-- The session of the examples with a read in progress. -/
def testSessionBusy : session := { testSession with rbusy := true }

end session

/-! ## protocol/send_request.go: Parse -/

namespace protocol

open reader

/-- Go: `SendRequest{}`. -/
def SendRequest.zero : SendRequest :=
  { ID := List.replicate 32 0, WID := 0, Payload := [], PayloadLength := 0 }

/-- Go: `SendRequest.Parse(r, rr)`. The callback `rr` receives the request and
the payload bytes and acts on a state `σ`; `none` when `fuel` does not cover
the reads of `io.ReadFull`. -/
def SendRequest.Parse {σ : Type} (fuel : Nat) (d : SendRequest) (r : Fetcher)
    (rr : SendRequest → List Nat → σ → σ × Option Error) (st : σ) :
    Option (SendRequest × Fetcher × σ × Option Error) :=
  -- id
  match ReadFull fuel r d.ID with
  | none => none
  | some (r, id, _, some err) => some ({ d with ID := id }, r, st, some err)
  | some (r, id, _, none) =>
    let d := { d with ID := id }
    -- wid
    match readU64 r with
    | (r, _, some err) => some ({ d with WID := 0 }, r, st, some err)
    | (r, wid, none) =>
      let d := { d with WID := wid }
      -- payload
      match readU16 r with
      | (r, _, some err) => some ({ d with PayloadLength := 0 }, r, st, some err)
      | (r, pl, none) =>
        let d := { d with PayloadLength := pl }
        match r.Fetch d.PayloadLength with
        | (r, _, some berr) => some (d, r, st, some berr)
        | (r, b, none) =>
          let res := rr d b st
          some (d, r, res.1, res.2)

end protocol

/-! ## reader/netconn.go, relay/conn.go, relay/tcp.go, relay/udp.go: writing -/

namespace reader

/-- A Go `error` as a network connection returns it: the error value, and
whether it is a `net.Error` whose `Timeout()` holds. -/
structure ConnError where
  E : Error
  Timeout : Bool
  deriving DecidableEq, Repr

/-- Go library `net.Conn`, as far as writing goes: `Write k b` is what the
`k`-th call of `Write` returns for the bytes `b`. -/
abbrev ConnWrite := Nat → List Nat → Int × Option ConnError

/-- Go: `NetConn.Write(b)`; `k` counts the calls made on the connection under
it. Returns the count after the call, the length written and the error. -/
def NetConn.Write (conn : ConnWrite) (k : Nat) (b : List Nat) : Nat × Int × Option ConnError :=
  if b.length = 0 then
    (k, 0, some { E := Error.ErrNoBufferToWriteFrom, Timeout := false })
  else
    (k + 1, (conn k b).1, (conn k b).2)

end reader

namespace relay

open reader

/-- Go: `newError(e)`. -/
def newError : Option ConnError → relay.Error
  | none => { E := none, IsTimeout := false }
  | some e => { E := some e.E, IsTimeout := e.Timeout }

/-- Go: `conn.isTimeoutErr(e)`. -/
def isTimeoutErr (e : ConnError) : Bool := e.Timeout

/-- Go: `conn.Write(b)` of relay/conn.go, whose embedded `net.Conn` is a
`reader.NetConn`: a write that times out is tried once more. -/
def connWrite (conn : ConnWrite) (k : Nat) (b : List Nat) : Nat × Int × Option ConnError :=
  match NetConn.Write conn k b with
  | (k, l, none) => (k, l, none)
  | (k, l, some e) =>
    if !isTimeoutErr e then
      (k, l, some e)
    else
      NetConn.Write conn k b

/-- Go: `TCP.Send(b)`. `getConn()` gives the connection (`some`) or, when the
relay has none and its channel is closed, `io.EOF`. Returns the count of calls
made on the connection, the length written and the error. -/
def TCP.Send (conn : Option ConnWrite) (b : List Nat) : Nat × Int × relay.Error :=
  match conn with
  | none => (0, 0, newError (some { E := Warwolf.Error.EOF, Timeout := false }))
  | some c =>
    let w := connWrite c 0 b
    (w.1, w.2.1, newError w.2.2)

/-- Go: `UDP.Send(b)`, the same as `TCP.Send`. -/
def UDP.Send (conn : Option ConnWrite) (b : List Nat) : Nat × Int × relay.Error :=
  TCP.Send conn b

/-- A connection that takes every write whole. -/
def healthyConn : ConnWrite := fun _ b => ((b.length : Int), none)

end relay

/-! ## session/session.go: send -/

namespace session

open reader protocol

/-- What `session.send` leaves: the session after the call, the code and the
response it returns, and the payloads it handed to `s.relay.Send`. -/
structure Sending where
  s : session
  code : Nat
  rsp : SendRespond
  writes : List (List Nat)
  deriving DecidableEq, Repr

/-- Go: `session.send(d, r, timeout)`; `relaySend` is `s.relay.Send`, giving
the length written and the error. The call runs alone: nothing else touches
the session while the relay writes. `timeout` is not used by the Go function. -/
def send (s : session) (d : SendRequest) (r : List Nat)
    (relaySend : List Nat → Int × relay.Error) : Sending :=
  if s.closed then
    { s := s, code := ResourceErrorNotFound, rsp := d.Respond s.wid s.wlen, writes := [] }
  else if d.WID < s.wid then
    { s := s, code := ResourceErrorExpired, rsp := d.Respond s.wid s.wlen, writes := [] }
  else if s.wbusy then
    { s := s, code := ResourceErrorNotReady, rsp := d.Respond s.wid s.wlen, writes := [] }
  else
    let s := { s with wbusy := true }
    let sent := relaySend r
    let wlen := sent.1
    let werr := sent.2
    if werr.IsError then
      let s := { s with wbusy := false }
      { s := s, code := ResourceErrorSendFailure, rsp := d.Respond s.wid s.wlen, writes := [r] }
    else
      let s := { s with wbusy := false }
      let s := { s with wid := u64 (s.wid + 1) }
      let s := { s with wlen := (wlen % 2 ^ 16).toNat }
      { s := s, code := 0, rsp := d.Respond s.wid s.wlen, writes := [r] }

/-- The `s.relay.Send` of a TCP relay over the connection `conn`. -/
def tcpSend (conn : Option ConnWrite) (b : List Nat) : Int × relay.Error :=
  ((relay.TCP.Send conn b).2.1, (relay.TCP.Send conn b).2.2)

/-- What a finished `session.resume` hands to its `result`: each result of
`session.retrieve` as `d.RetrieveRespond(rsp)`. -/
def resumeResults (d : ResumeRequest) (q : Retrieval) : List (Nat × ResumeRespond) :=
  q.results.map (fun cr => (cr.1, d.RetrieveRespond cr.2))

end session

/-! ## dispatch/dispatch.go, dispatch/requester.go, dispatch/responder.go -/

namespace dispatch

open reader protocol session

/-- Go: `type Handler func(lg, typ, d, r, p, wg, retrieverCancels, c) error`.
The handler acts on the fetcher `r` and on a state `σ` that stands for what
its other arguments (the pusher, the wait group, the cancels, the
configuration) reach. -/
abbrev Handler (σ : Type) := Nat → Nat → Fetcher → σ → Fetcher × σ × Option GoError

/-- A call `dispatch` makes on its handler: the kind `typ`, the low nibble
`d`, and the bytes the fetcher it is given has not read yet. -/
structure HandlerCall where
  typ : Nat
  d : Nat
  unread : List Nat
  deriving DecidableEq, Repr

/-- What `dispatch` leaves: the fetcher and the handler's state after the
call, the calls made on the handler, in order, and the returned error. -/
structure Dispatching (σ : Type) where
  r : Fetcher
  st : σ
  calls : List HandlerCall
  err : Option GoError

/-- Go: the `for` loop of `dispatch`; one unit of `fuel` is one turn, `none`
when the loop has not ended within `fuel` turns. `calls` are the calls made
so far. -/
def dispatchLoop {σ : Type} (handler : Handler σ) (breakOnHandlerError : Bool) :
    Nat → Fetcher → σ → List HandlerCall → Option (Dispatching σ)
  | 0, _, _, _ => none
  | fuel + 1, r, st, calls =>
    match r.Fetch 1 with
    | (r, _, some err) =>
      if err = Error.ErrDispatchCompleted then
        some { r := r, st := st, calls := calls, err := none }
      else
        some { r := r, st := st, calls := calls, err := some (GoError.plain err) }
    | (r, t, none) =>
      let rt := ParseRequestType (t.getD 0 0)
      let calls := calls ++ [{ typ := rt.1, d := rt.2, unread := r.s.drop r.used }]
      match handler rt.1 rt.2 r st with
      | (r, st, none) => dispatchLoop handler breakOnHandlerError fuel r st calls
      | (r, st, some err) =>
        if !breakOnHandlerError then
          dispatchLoop handler breakOnHandlerError fuel r st calls
        else
          some { r := r, st := st, calls := calls, err := some err }

end dispatch

/-- Go: `dispatch(lg, req, handler, p, wg, breakOnHandlerError,
retrieverCancels, c)` of the package `dispatch`. -/
def dispatch {σ : Type} (fuel : Nat) (req : List Nat) (handler : dispatch.Handler σ)
    (breakOnHandlerError : Bool) (st : σ) : Option (dispatch.Dispatching σ) :=
  dispatch.dispatchLoop handler breakOnHandlerError fuel
    (reader.NewFetcher (reader.ByteFetch req Error.ErrDispatchCompleted)) st []

namespace dispatch

open reader protocol session

/-- Go: `Requester.Dispatch(lg, req, retrieverCancels)`, with `r.handle` as
`handler`. -/
def Requester.Dispatch {σ : Type} (fuel : Nat) (req : List Nat) (handler : Handler σ) (st : σ) :
    Option (Dispatching σ) :=
  dispatch fuel req handler false st

/-- Go: `Responder.Dispatch(lg, req, p, c)`, with `r.handle` as `handler` (the
deferred `wg.Wait()` is left out). -/
def Responder.Dispatch {σ : Type} (fuel : Nat) (req : List Nat) (handler : Handler σ) (st : σ) :
    Option (Dispatching σ) :=
  dispatch fuel req handler true st

/-- A message of a segment: its header byte, the bytes of its body, and what
the handler returns for it. -/
structure Message where
  header : Nat
  body : List Nat
  result : Option GoError
  deriving DecidableEq, Repr

/-- The bytes of a segment made of the messages, one after the other. -/
def segment : List Message → List Nat
  | [] => []
  | m :: rest => m.header :: (m.body ++ segment rest)

/-- The handler reads each message of the list as a complete message: called
with the kind and nibble of the header and a fetcher that holds the body
followed by the rest of the segment, it returns the message's result and
leaves the fetcher at the rest of the segment. -/
def Handles {σ : Type} (handler : Handler σ) : σ → List Message → Prop
  | _, [] => True
  | st, m :: rest =>
    ∃ st1, (∀ r : Fetcher, r.Fetched (m.body ++ segment rest) Error.ErrDispatchCompleted →
        ∃ r1, handler (ParseRequestType m.header).1 (ParseRequestType m.header).2 r st
            = (r1, st1, m.result) ∧
          r1.Fetched (segment rest) Error.ErrDispatchCompleted) ∧
      Handles handler st1 rest

/-- The calls a segment asks for: for each message the kind and low nibble
split from its header byte, with the fetcher at its body. -/
def expectedCalls : List Message → List HandlerCall
  | [] => []
  | m :: rest =>
    { typ := (ParseRequestType m.header).1, d := (ParseRequestType m.header).2,
      unread := m.body ++ segment rest } :: expectedCalls rest

/-- The messages up to and including the first one whose handler returns an
error. -/
def untilError : List Message → List Message
  | [] => []
  | m :: rest => if m.result.isSome then [m] else m :: untilError rest

/-- The first error a handler returns for the messages. -/
def firstError : List Message → Option GoError
  | [] => none
  | m :: rest =>
    match m.result with
    | some e => some e
    | none => firstError rest

/-- A handler for the examples: the body of a message is as long as the low
nibble of its header says; the handler records kind and body, and fails for
the kind 15. -/
def testHandler : Handler (List (Nat × List Nat)) := fun typ d r st =>
  match r.Fetch d with
  | (r, _, some e) => (r, st, some (GoError.plain e))
  | (r, b, none) =>
    (r, st ++ [(typ, b)], if typ = 15 then some (GoError.plain (Error.other 7)) else none)

/-- Three messages for the examples: kind 3 with the body `[1, 2]`, kind 15
with the body `[9]` (its handler fails), kind 1 with no body. -/
def testMessages : List Message :=
  [⟨0x32, [1, 2], none⟩, ⟨0xF1, [9], some (GoError.plain (Error.other 7))⟩, ⟨0x10, [], none⟩]

end dispatch

/-! ## client/requester.go: run -/

namespace client

open session

/-- Go: the `for` loop of `requester.run` with `n` turns left, in turn `i`,
with the current value of `result`. `c i` is what the `i`-th call of the
callable `c` returns (counting from 0). Returns the count of calls made and
the returned error. The `time.Sleep` between two attempts is left out. -/
def runLoop (c : Nat → Option GoError) : Nat → Nat → RetrieverError → Nat × Option Error
  | 0, i, result => (i, result.E)
  | n + 1, i, _ =>
    match c i with
    | none => (i + 1, none)
    | some (GoError.plain sessErr) => (i + 1, some sessErr)
    | some (GoError.retriever err) =>
      if !err.IsError then
        (i + 1, none)
      else if !err.TryAgain then
        (i + 1, err.E)
      else
        runLoop c n (i + 1) err

/-- Go: `requester.run(c)` with `r.maxRetries = maxRetries`. -/
def run (maxRetries : Int) (c : Nat → Option GoError) : Nat × Option Error :=
  runLoop c maxRetries.toNat 0 noError

/-- The result is a `RetrieverError` that holds an error and has `TryAgain`
set. -/
def retryable : Option GoError → Bool
  | some (GoError.retriever err) => err.IsError && err.TryAgain
  | _ => false

/-- The error a `RetrieverError` result holds (`nil` for any other result). -/
def heldError : Option GoError → Option Error
  | some (GoError.retriever err) => err.E
  | _ => none

/-- A callable for the examples: two retryable errors, then success. -/
def testCallable (i : Nat) : Option GoError :=
  if i < 2 then some (GoError.retriever ErrResourceExpired)
  else some (GoError.retriever noError)

end client

/-! ## session/addr.go -/

namespace session

/-- Go library: the `net.Addr` values `buildAddr` returns, a `*net.TCPAddr`, a
`*net.UDPAddr`, or an `addrr` of this package (its `addr` string as bytes). -/
inductive NetAddr where
  | TCPAddr (IP : List Nat) (Port : Int)
  | UDPAddr (IP : List Nat) (Port : Int)
  | addrr (netw : String) (addr : List Nat)
  deriving DecidableEq, Repr

/-- Go: `Network()` of the address: `"tcp"` for a `*net.TCPAddr`, `"udp"` for
a `*net.UDPAddr`, the field `netw` for an `addrr`. -/
def NetAddr.Network : NetAddr → String
  | NetAddr.TCPAddr _ _ => "tcp"
  | NetAddr.UDPAddr _ _ => "udp"
  | NetAddr.addrr netw _ => netw

/-- Go library `net.IPv4(a, b, c, d)`: the 16-byte form of the address. -/
def IPv4 (a b c d : Nat) : List Nat := [0, 0, 0, 0, 0, 0, 0, 0, 0, 0, 0xff, 0xff, a, b, c, d]

/-- Go library `strconv.FormatUint(p, 10)`, as bytes. -/
def FormatUint (p : Nat) : List Nat := (Nat.toDigits 10 p).map Char.toNat

/-- Go library `net.JoinHostPort(host, port)`, on bytes: a host that contains a
colon is put in brackets. -/
def JoinHostPort (host port : List Nat) : List Nat :=
  if 58 ∈ host then [91] ++ host ++ [93, 58] ++ port else host ++ [58] ++ port

/-- Go: `ip := make([]byte, 16); copy(ip, a)`. -/
def copy16 (a : List Nat) : List Nat := reader.writeAt (List.replicate 16 0) 0 (a.take 16)

/-- Go: `buildAddr(t, a, p)`; `Except.error msg` is the panic of `a[0]`, ...,
`a[3]` on an address of fewer than four bytes. -/
def buildAddr (t : Nat) (a : List Nat) (p : Nat) : Except String (Option NetAddr × Option Error) :=
  if t = protocol.TCPIPv4 then
    if a.length < 4 then
      Except.error "index out of range"
    else
      Except.ok (some (NetAddr.TCPAddr (IPv4 (a.getD 0 0) (a.getD 1 0) (a.getD 2 0) (a.getD 3 0))
        (p : Int)), none)
  else if t = protocol.UDPIPv4 then
    if a.length < 4 then
      Except.error "index out of range"
    else
      Except.ok (some (NetAddr.UDPAddr (IPv4 (a.getD 0 0) (a.getD 1 0) (a.getD 2 0) (a.getD 3 0))
        (p : Int)), none)
  else if t = protocol.TCPIPv6 then
    let ip := copy16 a
    Except.ok (some (NetAddr.UDPAddr ip (p : Int)), none)
  else if t = protocol.UDPIPv6 then
    let ip := copy16 a
    Except.ok (some (NetAddr.TCPAddr ip (p : Int)), none)
  else if t = protocol.TCPHost then
    Except.ok (some (NetAddr.addrr "tcp" (JoinHostPort a (FormatUint (protocol.u64 p)))), none)
  else if t = protocol.UDPHost then
    Except.ok (some (NetAddr.addrr "udp" (JoinHostPort a (FormatUint (protocol.u64 p)))), none)
  else
    Except.ok (none, some Error.sessionErrInvalidAddress)

/-- An IPv6 address for the examples, `2001:db8::1`. -/
def testIPv6 : List Nat := [0x20, 0x01, 0x0d, 0xb8, 0, 0, 0, 0, 0, 0, 0, 0, 0, 0, 0, 1]

end session

/-! ## server/listener.go: sizes -/

namespace server

def rwBufferSize : Nat := 1024 * 64 - 1
def MaxRequestBodySize : Nat := rwBufferSize

end server

/-! ## client/requester.go, client/listener.go: sizes, errors and the worker -/

namespace session

/-- Go: `RetrieverCancels.SettleAll(e)`: every closure of the map is called
with `e` and deleted. Returns the map after the call and the calls made, as
the closure and its argument (a Go map is ranged over in no fixed order; the
order of the list is taken). -/
def RetrieverCancels.SettleAll (r : RetrieverCancels) (e : RetrieverError) :
    RetrieverCancels × List (RetrieverCancel × RetrieverError) :=
  ([], r.map (fun kv => (kv.2, e)))

/-- Go: `RetrieverCancels.Append(id, c)`, the map assignment `(*r)[id] = c`. -/
def RetrieverCancels.Append (r : RetrieverCancels) (id : List Nat) (c : RetrieverCancel) :
    RetrieverCancels :=
  if r.lookup id = none then r ++ [(id, c)]
  else r.map (fun kv => if kv.1 = id then (id, c) else kv)

end session

namespace client

open reader protocol session

def requesterReadWriteBufferSize : Nat := server.MaxRequestBodySize
def requestMaxHTTPReqSize : Nat := requesterReadWriteBufferSize
def requestReqOverheadSize : Nat := cipher.OverheadSize
def requestReqPadSize : Nat := cipher.HeaderSize
def requestMaxReqPayloadSize : Nat := requestMaxHTTPReqSize - requestReqOverheadSize

def reqDataSize : Nat := requestMaxReqPayloadSize
def reqDataSafeSize : Nat := reqDataSize - DialSafeOverheadSize

def ErrRequestBodyTooLarge : RetrieverError :=
  { E := some Error.msgRequestBodyTooLarge, TryAgain := true }

def ErrRequestCipherFailed : RetrieverError :=
  { E := some Error.msgRequestCipherFailed, TryAgain := true }

def ErrRequestUnresponded : RetrieverError :=
  { E := some Error.msgRequestUnresponded, TryAgain := true }

/-- Go: `type request struct { id; pusher; cancel }`. -/
structure request where
  id : List Nat
  pusher : Pusher
  cancel : RetrieverCancel
  deriving DecidableEq, Repr

/-- Go: the fields of `type requester struct` that `serve` reads for its
sizes. -/
structure requester where
  maxHTTPReqBodySize : Nat
  requestReqPadSize : Nat
  requestReqOverheadSize : Nat
  requestMaxReqPayloadSize : Nat
  deriving DecidableEq, Repr

/-- Go: `newRequester(...)`, for the size fields. -/
def newRequester : requester :=
  { maxHTTPReqBodySize := requestMaxHTTPReqSize
    requestReqPadSize := requestReqPadSize
    requestReqOverheadSize := requestReqOverheadSize
    requestMaxReqPayloadSize := requestMaxReqPayloadSize }

/-- What one call of `sendRequest` meets outside the worker. `cipher` is the
result of `buildRequestCipher(key)`, the AEAD and the nonce, or `none` when it
returns an error. `post` is `client.Do(&req)` with all that follows it: given
the encrypted body and the worker's cancels it returns the cancels as the
dispatch of the response left them and the error `sendRequest` returns. -/
structure Transport where
  cipher : Option (cipher.AEAD × List Nat)
  post : List Nat → RetrieverCancels → RetrieverCancels × Option GoError

/-- Go: `sendRequest(..., body, ..., retrieverCancels)`. Returns the buffer
`body` as the call left it (`Encrypt` works in place), the cancels and the
returned error; `Except.error msg` is the panic of `cipher.Encrypt`. -/
def sendRequest (t : Transport) (body : List Nat) (retrieverCancels : RetrieverCancels) :
    Except String (List Nat × RetrieverCancels × Option GoError) :=
  match t.cipher with
  | none => Except.ok (body, retrieverCancels, some (GoError.retriever ErrRequestCipherFailed))
  | some (cip, n) =>
    match cipher.Encrypt cip n body with
    | Except.error msg => Except.error msg
    | Except.ok body =>
      let res := t.post body retrieverCancels
      Except.ok (body, res.1, res.2)

/-- The variables of the loop of `requester.serve`: the buffer `fullbuf`, the
turn-buffer `paddedbuf` (a slice of `fullbuf` that starts at
`requestReqPadSize`, as long as `aliased` holds: an `append` beyond the
capacity would move it to an array of its own) and the map `cancels`. Two
records are kept next to them: `sent`, for each call of `sendRequest` the
turn-buffer at that time and the buffer passed as `body`; `settled`, the calls
made on cancel closures, in order. -/
structure serveVars where
  fullbuf : List Nat
  paddedbuf : List Nat
  aliased : Bool
  cancels : RetrieverCancels
  sent : List (List Nat × List Nat)
  settled : List (RetrieverCancel × RetrieverError)
  deriving DecidableEq, Repr

/-- Go: the variables of `requester.serve` before its loop:
`fullbuf := make([]byte, r.maxHTTPReqBodySize)`,
`paddedbuf := fullbuf[r.requestReqPadSize:r.requestReqPadSize]`,
`cancels := make(session.RetrieverCancels, 256)`; `Except.error msg` is the
panic of the slice expression. -/
def serveStart (r : requester) : Except String serveVars :=
  if r.requestReqPadSize > r.maxHTTPReqBodySize then
    Except.error "slice bounds out of range"
  else
    Except.ok
      { fullbuf := List.replicate r.maxHTTPReqBodySize 0, paddedbuf := [], aliased := true,
        cancels := [], sent := [], settled := [] }

/-- Go: the flush of `requester.serve`, the same in both of its cases:
`sendRequest(..., fullbuf[:r.requestReqOverheadSize+len(paddedbuf)], ..., &cancels)`,
`cancels.SettleAll(ErrRequestUnresponded)`, `paddedbuf = paddedbuf[:0]`. The
result of `sendRequest` is only logged. `Except.error msg` is a panic, of the
slice expression or of `sendRequest`. -/
def flush (r : requester) (v : serveVars) (t : Transport) : Except String serveVars :=
  if r.requestReqOverheadSize + v.paddedbuf.length > v.fullbuf.length then
    Except.error "slice bounds out of range"
  else
    let body := v.fullbuf.take (r.requestReqOverheadSize + v.paddedbuf.length)
    match sendRequest t body v.cancels with
    | Except.error msg => Except.error msg
    | Except.ok (body1, cancels, _) =>
      let all := RetrieverCancels.SettleAll cancels ErrRequestUnresponded
      Except.ok
        { fullbuf := body1 ++ v.fullbuf.drop body1.length, paddedbuf := [], aliased := v.aliased,
          cancels := all.1, sent := v.sent ++ [(v.paddedbuf, body)],
          settled := v.settled ++ all.2 }

/-- Go: `paddedbuf = append(paddedbuf, data...)`: within the capacity of
`paddedbuf`, which is that of `fullbuf` from `requestReqPadSize` on, the bytes
are written into `fullbuf`; beyond it `paddedbuf` moves to a new array. -/
def appendPadded (r : requester) (v : serveVars) (data : List Nat) : serveVars :=
  if v.aliased ∧ r.requestReqPadSize + v.paddedbuf.length + data.length ≤ v.fullbuf.length then
    { v with
      fullbuf := writeAt v.fullbuf (r.requestReqPadSize + v.paddedbuf.length) data,
      paddedbuf := v.paddedbuf ++ data }
  else
    { v with paddedbuf := v.paddedbuf ++ data, aliased := false }

/-- Go: the case `rr, ok := <-requests` of the loop of `requester.serve`, for a
request `rr` that was received; `t` is what a `sendRequest` of this turn
meets. The timer is left out. `Except.error msg` is a panic: of the flush, or
of `rr.pusher.Data()` on a pusher whose size is beyond its buffer. -/
def serveRequest (r : requester) (v : serveVars) (rr : request) (t : Transport) :
    Except String serveVars :=
  let flushed :=
    if v.paddedbuf.length + rr.pusher.Size > r.requestMaxReqPayloadSize then flush r v t
    else Except.ok v
  match flushed with
  | Except.error msg => Except.error msg
  | Except.ok v =>
    if v.paddedbuf.length + rr.pusher.Size > r.requestMaxReqPayloadSize then
      Except.ok { v with settled := v.settled ++ [(rr.cancel, ErrRequestBodyTooLarge)] }
    else if rr.pusher.Size > rr.pusher.b.length then
      Except.error "slice bounds out of range"
    else
      let v := appendPadded r v rr.pusher.Data
      Except.ok { v with cancels := RetrieverCancels.Append v.cancels rr.id rr.cancel }

/-- Go: the case `<-timerChan` of the loop of `requester.serve`. -/
def serveTimer (r : requester) (v : serveVars) (t : Transport) : Except String serveVars :=
  if v.paddedbuf.length = 0 then Except.ok v else flush r v t

/-- What the `select` of the loop of `requester.serve` receives in one turn:
a request or the timer, with what a `sendRequest` of that turn meets. -/
inductive serveInput where
  | request (rr : request) (t : Transport)
  | timer (t : Transport)

/-- Go: one turn of the loop of `requester.serve`. -/
def serveTurn (r : requester) (v : serveVars) : serveInput → Except String serveVars
  | serveInput.request rr t => serveRequest r v rr t
  | serveInput.timer t => serveTimer r v t

/-- Go: the loop of `requester.serve` over the turns `inputs` (the loop ends
when the channel is closed). -/
def serveLoop (r : requester) : List serveInput → serveVars → Except String serveVars
  | [], v => Except.ok v
  | x :: rest, v =>
    match serveTurn r v x with
    | Except.error msg => Except.error msg
    | Except.ok v => serveLoop r rest v

/-- Go: `requester.serve(name, rchan, wg)` receiving `inputs`. -/
def serve (r : requester) (inputs : List serveInput) : Except String serveVars :=
  match serveStart r with
  | Except.error msg => Except.error msg
  | Except.ok v => serveLoop r inputs v

/-- A transport for the examples: the example AEAD with the example nonce,
and a server that answers nothing. -/
def testTransport : Transport :=
  { cipher := some (cipher.toyAEAD, cipher.testNonce), post := fun _ c => (c, none) }

end client

namespace client

open reader protocol session

/-- A Dial request for the examples with the longest host name, 255 bytes,
and the largest initial request `socks5TCP` reads, `reqDataSafeSize` bytes. -/
def testDialLongest : DialRequest :=
  { ID := testID, ATyp := TCPHost, Addr := List.replicate 255 97, Port := 443,
    MaxRetrieveLen := 1024, Request := List.replicate reqDataSafeSize 0,
    RequestLength := reqDataSafeSize }

end client

/-! ## client/requester.go: send; client/conn.go: Serve -/

namespace client

open reader protocol session

/-- Go: the callable `requester.send` gives to `r.run`, up to the hand-over to
a worker: `p.Truncate(pt)`, `r.session.Send(id, req, p, cb)` and, when that
returns no error, `p.Truncate(p.Size() + (rlen - protocol.SendHeaderOverhead))`
and the request `request{id, p, cc}` put on a channel (`cc` is not `nil`
then). Returns what `Send` left, with the pusher as the callable left it, and
the request handed over, `none` when `Send` returned an error, which the
callable returns. `cb` names the send callback. -/
def sendCallable (w : Retrievers) (id : List Nat) (req : List Nat) (p : Pusher) (pt : Nat)
    (cb : Nat) : Except String (Requested × Option request) :=
  let rlen := req.length
  let p := p.Truncate pt
  match w.Send id req p cb with
  | Except.error msg => Except.error msg
  | Except.ok q =>
    match q.err with
    | some _ => Except.ok (q, none)
    | none =>
      let p := q.p.Truncate (q.p.Size + (rlen - SendHeaderOverhead))
      Except.ok
        ({ q with p := p },
          some { id := id, pusher := p, cancel := q.cancel.getD RetrieverCancel.nothing })

/-- What one call of `d.requester.send` in `Serve` meets: the table of
retrievers at that time, and the count and the error the call returns once
the response has reached the send callback. -/
structure SendTurn where
  w : Retrievers
  wlen : Nat
  err : Option GoError
  deriving DecidableEq, Repr

/-- What the inner loop of `Serve` leaves: the buffer `buf`, `writeLen`, the
requests handed to workers, in order, whether the loop has ended (`false`:
the turns ran out first), and the error `Serve` returned. -/
structure Pumped where
  buf : List Nat
  writeLen : Nat
  requests : List request
  ended : Bool
  err : Option GoError
  deriving DecidableEq, Repr

/-- Go: the loop `for writeLen < l` of `dialedConn.Serve`, after
`d.hosted.Read(rbuf)` has put `l` bytes into `buf` from
`protocol.SendHeaderOverhead` on. Each turn makes the pusher
`reader.NewPusher(buf[:])`, which writes into `buf`, and calls
`d.requester.send(d.id, buf[writeLen:protocol.SendHeaderOverhead+l], &p)`;
one attempt of `r.run` is made per call (each further attempt would build the
same request). One element of `turns` per call. `Except.error msg` is a panic. -/
def servePump (id : List Nat) (l : Nat) :
    List SendTurn → List Nat → Nat → List request → Except String Pumped
  | [], buf, writeLen, requests =>
    Except.ok
      { buf := buf, writeLen := writeLen, requests := requests,
        ended := decide (¬ writeLen < l), err := none }
  | t :: turns, buf, writeLen, requests =>
    if writeLen < l then
      let p := NewPusher buf
      if SendHeaderOverhead + l > buf.length ∨ writeLen > SendHeaderOverhead + l then
        Except.error "slice bounds out of range"
      else
        match sendCallable t.w id ((buf.take (SendHeaderOverhead + l)).drop writeLen) p p.Size 0
        with
        | Except.error msg => Except.error msg
        | Except.ok (q, none) =>
          Except.ok
            { buf := q.p.b, writeLen := writeLen, requests := requests, ended := true,
              err := q.err.map GoError.plain }
        | Except.ok (q, some rq) =>
          match t.err with
          | some err =>
            Except.ok
              { buf := q.p.b, writeLen := writeLen, requests := requests ++ [rq], ended := true,
                err := some err }
          | none => servePump id l turns q.p.b (writeLen + t.wlen) (requests ++ [rq])
    else
      Except.ok
        { buf := buf, writeLen := writeLen, requests := requests, ended := true, err := none }

/-- The payload of a Send request as a worker gets it: what follows the
header in the data of its pusher. -/
def request.payload (rq : request) : List Nat := rq.pusher.Data.drop SendHeaderOverhead

/-- A buffer of `Serve` for the examples after a read of the two bytes 1, 2:
room for the header, then the bytes. -/
def testServeBuf : List Nat := List.replicate SendHeaderOverhead 0 ++ [1, 2]

end client

namespace client

open reader protocol session

/-- What `buildRequestCipher` returns when it returns no error: the AES-GCM
of `cipher.AEAD(k)` and a nonce of `NonceSize` bytes. -/
def Transport.Sound (t : Transport) : Prop :=
  ∀ cip n, t.cipher = some (cip, n) → cip.IsGCM ∧ n.length = cipher.NonceSize

/-- A turn of the worker's loop as the program makes it: the transport is
sound and the size of a request's pusher is within its buffer. -/
def serveInput.Sound : serveInput → Prop
  | serveInput.request rr t => t.Sound ∧ rr.pusher.Size ≤ rr.pusher.b.length
  | serveInput.timer t => t.Sound

/-- Three turns for the examples: a fragment of three bytes, one of two
bytes under another ID, and the timer. -/
def testTurns : List serveInput :=
  [serveInput.request ⟨testID, Pusher.mk [1, 2, 3] 3, RetrieverCancel.wcb 0⟩ testTransport,
   serveInput.request ⟨List.replicate 32 1, Pusher.mk [4, 5] 2, RetrieverCancel.rcb 1⟩
     testTransport,
   serveInput.timer testTransport]

end client

namespace client

open reader protocol session

/-- An entry of the record `sent`, the turn-buffer and the buffer passed to
`sendRequest`, is in order: the buffer is `requestReqOverheadSize` bytes longer
than the turn-buffer, the turn-buffer is within `requestMaxReqPayloadSize`, and
the buffer holds the turn-buffer from `requestReqPadSize` on. -/
def Flushed (x : List Nat × List Nat) : Prop :=
  x.2.length = requestReqOverheadSize + x.1.length ∧
  x.1.length ≤ requestMaxReqPayloadSize ∧
  (x.2.drop requestReqPadSize).take x.1.length = x.1

/-- The variables of the worker's loop are in order: `fullbuf` has its full
size, `paddedbuf` is the slice of `fullbuf` from `requestReqPadSize` on and is
within `requestMaxReqPayloadSize`, and every entry of `sent` is in order. -/
def serveVars.InOrder (v : serveVars) : Prop :=
  v.fullbuf.length = requestMaxHTTPReqSize ∧ v.aliased = true ∧
  v.paddedbuf.length ≤ requestMaxReqPayloadSize ∧
  (v.fullbuf.drop requestReqPadSize).take v.paddedbuf.length = v.paddedbuf ∧
  ∀ x ∈ v.sent, Flushed x

end client

/-! ## session/session.go: the steps of a server session -/

namespace session

open reader protocol

/-- Go: `session.kill()`, for the fields kept (the relay is closed by it). -/
def kill (s : session) : session := if s.closed then s else { s with closed := true }

/-- A step on a server session, each run under the session's lock: a
Retrieve (`Sessions.doRetrieve`, or the first retrieve of `session.start`; both
give `session.retrieve` a precheck that returns 0), a Resume, the relay calling
the closure of a read it was given (with the request and `maxlen` the closure
captured), a Send with what `s.relay.Send` answers, and `kill`. -/
inductive Action where
  | retrieve (d : RetrieveRequest) (maxlen : Int)
  | resume (d : ResumeRequest) (maxlen : Int)
  | read (d : RetrieveRequest) (maxlen : Int) (r : List Nat) (err : relay.Error)
  | send (d : SendRequest) (r : List Nat) (sent : Int × relay.Error)
  | kill
  deriving DecidableEq, Repr

/-- A server session with the count of reads that were given to its relay and
have not been answered yet. -/
structure Served where
  s : session
  reads : Nat
  deriving DecidableEq, Repr

/-- One step. A read started by `session.retrieve` adds one to `reads`; the
relay calls a closure only for a read it holds, once, which takes one from
`reads`. `Except.error msg` is a panic of the step. -/
def Served.act (v : Served) : Action → Except String Served
  | Action.retrieve d maxlen =>
    match v.s.retrieve d startCall maxlen with
    | Except.error msg => Except.error msg
    | Except.ok q => Except.ok { s := q.s, reads := if q.reading then v.reads + 1 else v.reads }
  | Action.resume d maxlen =>
    match v.s.resume d maxlen with
    | Except.error msg => Except.error msg
    | Except.ok q => Except.ok { s := q.s, reads := if q.reading then v.reads + 1 else v.reads }
  | Action.read d maxlen r err =>
    if v.reads = 0 then
      Except.ok v
    else
      match retrieveCallback v.s d maxlen r err with
      | Except.error msg => Except.error msg
      | Except.ok q => Except.ok { s := q.s, reads := v.reads - 1 }
  | Action.send d r sent => Except.ok { v with s := (v.s.send d r (fun _ => sent)).s }
  | Action.kill => Except.ok { v with s := v.s.kill }

/-- The steps `acts`, in order. -/
def Served.run : List Action → Served → Except String Served
  | [], v => Except.ok v
  | a :: rest, v =>
    match v.act a with
    | Except.error msg => Except.error msg
    | Except.ok v1 => Served.run rest v1

/-- A state a session can be in: what some steps make of a new session. -/
def Served.Reachable (v : Served) : Prop :=
  ∃ maxrlen acts, Served.run acts { s := newSession maxrlen, reads := 0 } = Except.ok v

/-- The step is a Resume that the session accepts: the session is open, has
no read in progress and holds a buffer, and the request names its `rid`. -/
def Action.accepted (s : session) : Action → Bool
  | Action.resume d _ => !s.closed && !s.rbusy && decide (d.RID = s.rid) && s.rpaused
  | _ => false

/-- None of the steps `acts`, made in order from `v`, is an accepted Resume. -/
def Served.quiet : List Action → Served → Bool
  | [], _ => true
  | a :: rest, v =>
    !(a.accepted v.s) &&
      match v.act a with
      | Except.error _ => true
      | Except.ok v1 => Served.quiet rest v1

/-- Steps for the examples on a new session: a first retrieve that starts a
read, the read completing with three bytes, a retrieve served from them, a
Resume that starts the next read. -/
def testSteps : List Action :=
  [Action.retrieve ⟨testID, 0, 0⟩ 100, Action.read ⟨testID, 0, 0⟩ 100 [1, 2, 3] ⟨none, false⟩,
   Action.retrieve ⟨testID, 0, 1⟩ 100, Action.resume ⟨testID, 0⟩ 100]

end session

/-! ## protocol/resume_respond.go: Parse -/

namespace protocol

open reader

/-- Go: `ResumeRespond{}`. -/
def ResumeRespond.zero : ResumeRespond :=
  { ID := List.replicate 32 0, NewRID := 0, Total := 0, Payload := [], PayloadLength := 0 }

/-- Go: `ResumeRespond.Parse(r, rr)`. The error of the last `readU16` is not
checked by the Go code. -/
def ResumeRespond.Parse {σ : Type} (fuel : Nat) (d : ResumeRespond) (r : Fetcher)
    (rr : ResumeRespond → Fetcher → σ → Option (Fetcher × σ × Option Error)) (st : σ) :
    Option (ResumeRespond × Fetcher × σ × Status) :=
  -- id
  match ReadFull fuel r d.ID with
  | none => none
  | some (r, id, _, some err) => some ({ d with ID := id }, r, st, Status.err err)
  | some (r, id, _, none) =>
    let d := { d with ID := id }
    -- new_rid
    match readU64 r with
    | (r, _, some err) => some ({ d with NewRID := 0 }, r, st, Status.err err)
    | (r, rid, none) =>
      let d := { d with NewRID := rid }
      -- total_size
      match readU16 r with
      | (r, _, some err) => some ({ d with Total := 0 }, r, st, Status.err err)
      | (r, total, none) =>
        let d := { d with Total := total }
        -- payload
        match readU16 r with
        | (r, pl, _) =>
          let d := { d with PayloadLength := pl }
          match parsePayload fuel d.PayloadLength r (rr d) st with
          | none => none
          | some (r, st, res) => some (d, r, st, res)

end protocol

namespace dispatch

open reader protocol session

/-- The handler only consumes bytes from the fetcher: called with a fetcher
whose source has handed out its bytes, of which `bytes` are unread, it leaves
that fetcher with some `k` of them read and the others still unread. -/
def Consumes {σ : Type} (handler : Handler σ) : Prop :=
  ∀ (typ d : Nat) (r : Fetcher) (st : σ) (bytes : List Nat) (e : Error),
    r.Fetched bytes e →
      ∃ k, k ≤ bytes.length ∧ (handler typ d r st).1.Fetched (bytes.drop k) e

end dispatch

/-! ## protocol/dial_request.go: Respond helpers; session/session.go: start -/

namespace protocol

/-- Go: `DialRequest.Respond(rid, total, respond)`. -/
def DialRequest.Respond (d : DialRequest) (rid : Nat) (total : Nat) (respond : List Nat) :
    DialRespond :=
  { ID := d.ID, RID := rid, Total := total, Respond := respond,
    RespondLength := u16 respond.length }

/-- Go: `DialRequest.RetrieveRequest()`. -/
def DialRequest.RetrieveRequest (d : DialRequest) : RetrieveRequest :=
  { ID := d.ID, RID := 0, Offset := 0 }

/-- Go: `DialRequest.RetrieveRespond(r)`. -/
def DialRequest.RetrieveRespond (d : DialRequest) (r : RetrieveRespond) : DialRespond :=
  d.Respond r.RID r.Total r.Payload

end protocol

namespace session

open reader protocol

end session

/-! ## client/socks5.go: socks5Addr -/

namespace client

open protocol

/-- Go: `socks5ATypeIPv4`. -/
def socks5ATypeIPv4 : Nat := 0x01

/-- Go: `socks5ATypeDomain`. -/
def socks5ATypeDomain : Nat := 0x03

/-- Go: `socks5ATypeIPv6`. -/
def socks5ATypeIPv6 : Nat := 0x04

/-- An `io.Reader` such as the `net.Conn` of a SOCKS5 client: the chunks of
bytes its `Read` calls deliver in turn, a chunk longer than the buffer given
being delivered in parts, and the error `Read` returns once no chunk is
left. -/
structure Stream where
  chunks : List (List Nat)
  ends : Error
  deriving DecidableEq, Repr

/-- The bytes a stream still has to deliver. -/
def Stream.pending (r : Stream) : List Nat := r.chunks.foldr (fun c acc => c ++ acc) []

/-- Go library `io.ReadAtLeast(r, buf, min)` with `min = len(buf)`: its loop
`for n < min && err == nil { nn, err = r.Read(buf[n:]); n += nn }` and the
error it settles on, `nil` when `n >= min` and `ErrUnexpectedEOF` for an `EOF`
after some bytes. `need` is `min - n`, `got` the bytes read so far. -/
def Stream.ReadAtLeastLoop (ends : Error) :
    List (List Nat) → Nat → List Nat → Stream × List Nat × Option Error
  | chunks, 0, got => (⟨chunks, ends⟩, got, none)
  | [], _ + 1, got =>
    (⟨[], ends⟩, got,
      some (if got.length > 0 ∧ ends = Error.EOF then Error.ErrUnexpectedEOF else ends))
  | c :: cs, need + 1, got =>
    if c.length ≤ need + 1 then
      Stream.ReadAtLeastLoop ends cs (need + 1 - c.length) (got ++ c)
    else
      (⟨c.drop (need + 1) :: cs, ends⟩, got ++ c.take (need + 1), none)

/-- Go library `io.ReadFull(r, buf)` for a buffer of `size` bytes: the reader
after the call, the bytes read and the error. -/
def Stream.ReadFull (r : Stream) (size : Nat) : Stream × List Nat × Option Error :=
  Stream.ReadAtLeastLoop r.ends r.chunks size []

/-- Go: `socks5Addr(atype, r)`: the address, the port and the error, with the
reader after the reads. The length of the domain buffer, `b[0]+2`, is a sum
of bytes. `Except.error msg` is the run-time panic of the index expression
`addr[alen-2]` or `addr[alen-1]`. -/
def socks5Addr (atype : Nat) (r : Stream) :
    Except String (Stream × List Nat × Nat × Option Error) :=
  let read : Option (Stream × List Nat × Option Error) :=
    if atype = socks5ATypeIPv4 then
      some (r.ReadFull (4 + 2))
    else if atype = socks5ATypeDomain then
      match r.ReadFull 1 with
      | (r1, _, some e) => some (r1, [], some e)
      | (r1, b, none) => some (r1.ReadFull (u8 (b.getD 0 0 + 2)))
    else if atype = socks5ATypeIPv6 then
      some (r.ReadFull (16 + 2))
    else
      none
  match read with
  | none => Except.ok (r, [], 0, some Error.ErrNoSocks5BadAddressType)
  | some (r1, _, some e) => Except.ok (r1, [], 0, some e)
  | some (r1, addr, none) =>
    let alen := addr.length
    if alen < 2 then
      Except.error "index out of range"
    else
      Except.ok
        (r1, addr, u16 (u16 (addr.getD (alen - 2) 0) <<< 8) ||| u16 (addr.getD (alen - 1) 0), none)

/-- A reader for the examples: the length byte `n`, then `n + 2` bytes of
value 1, delivered in chunks of one and of `n + 2` bytes. -/
def testDomain (n : Nat) : Stream :=
  { chunks := [[n], List.replicate (n + 2) 1], ends := Error.EOF }

end client

namespace client

open reader protocol session

/-- A Dial request for the examples with a host name of 254 bytes and the
largest initial request `socks5TCP` reads, `reqDataSafeSize` bytes. -/
def testDialLong : DialRequest :=
  { ID := testID, ATyp := TCPHost, Addr := List.replicate 254 97, Port := 443,
    MaxRetrieveLen := 1024, Request := List.replicate reqDataSafeSize 0,
    RequestLength := reqDataSafeSize }

end client

/-! # Theorems -/

open reader protocol

/-! ## Buffers -/

theorem writeAt_length (dst : List Nat) (off : Nat) (src : List Nat)
    (h : off + src.length ≤ dst.length) : (writeAt dst off src).length = dst.length := by
  simp only [writeAt, List.length_append, List.length_take, List.length_drop]
  omega

theorem writeAt_take (dst : List Nat) (off : Nat) (src : List Nat)
    (h : off + src.length ≤ dst.length) :
    (writeAt dst off src).take (off + src.length) = dst.take off ++ src := by
  have h1 : (dst.take off ++ src).length = off + src.length := by
    simp only [List.length_append, List.length_take]; omega
  unfold writeAt
  rw [← h1, List.take_left]

theorem writeAt_writeAt (dst : List Nat) (off : Nat) (xs ys : List Nat)
    (h : off + xs.length + ys.length ≤ dst.length) :
    writeAt (writeAt dst off xs) (off + xs.length) ys = writeAt dst off (xs ++ ys) := by
  have h1 : (dst.take off ++ xs).length = off + xs.length := by
    simp only [List.length_append, List.length_take]; omega
  have h2 : (dst.take off ++ xs ++ dst.drop (off + xs.length)).drop (off + xs.length + ys.length)
      = dst.drop (off + (xs ++ ys).length) := by
    rw [show off + xs.length + ys.length = (dst.take off ++ xs).length + ys.length by omega,
      List.drop_append, List.drop_drop, List.length_append]
    congr 1
    omega
  unfold writeAt
  rw [h2]
  nth_rewrite 1 [← h1]
  rw [List.take_left]
  simp only [List.append_assoc]

/-! ## Pusher -/

theorem Pusher_Push_room (p : Pusher) (bs : List Nat) (h : p.i + bs.length ≤ p.b.length) :
    p.Push bs = ({ b := writeAt p.b p.i bs, i := p.i + bs.length }, none) := by
  have h1 : ¬ ((bs.length : Int) > (p.b.length : Int) - (p.i : Int)) := by omega
  simp only [Pusher.Push, Pusher.Write, h1, if_false]

theorem Pusher_Push_full (p : Pusher) (bs : List Nat) (h : p.b.length < p.i + bs.length) :
    p.Push bs = (p, some Error.ErrOverCapacity) := by
  have h1 : (bs.length : Int) > (p.b.length : Int) - (p.i : Int) := by omega
  simp only [Pusher.Push, Pusher.Write, h1, if_true]

/-- Two pushes that fit are one push of the concatenation. -/
theorem Pusher_Push_Push (p : Pusher) (xs ys : List Nat)
    (h : p.i + xs.length + ys.length ≤ p.b.length) :
    ((p.Push xs).1.Push ys) = (p.Push (xs ++ ys)) := by
  rw [Pusher_Push_room p xs (by omega), Pusher_Push_room p (xs ++ ys) (by simp; omega)]
  rw [Pusher_Push_room _ ys (by simp only [writeAt_length _ _ _ (show p.i + xs.length ≤ p.b.length by omega)]; omega)]
  simp only [writeAt_writeAt _ _ _ _ h, List.length_append, Nat.add_assoc]

theorem Pusher_Data_Push (p : Pusher) (bs : List Nat) (h : p.i + bs.length ≤ p.b.length) :
    (p.Push bs).1.Data = p.Data ++ bs := by
  rw [Pusher_Push_room p bs h]
  simp only [Pusher.Data, writeAt_take _ _ _ h]

/-! ## Big-endian integers -/

theorem or_eq_add (k a b : Nat) (hb : b < 2 ^ k) (ha : 2 ^ k ∣ a) : a ||| b = a + b := by
  obtain ⟨c, rfl⟩ := ha
  exact (Nat.mul_add_lt_is_or hb c).symm

theorem u16_bytes (n : Nat) (h : n < 2 ^ 16) :
    u16 (u16 (u8 (n >>> 8)) <<< 8) ||| u16 (u8 n) = n := by
  simp only [u8, u16]
  rw [or_eq_add 8 _ _ (by omega) (by omega)]
  omega

theorem be64_value (b0 b1 b2 b3 b4 b5 b6 b7 : Nat) (h0 : b0 < 256) (h1 : b1 < 256) (h2 : b2 < 256)
    (h3 : b3 < 256) (h4 : b4 < 256) (h5 : b5 < 256) (h6 : b6 < 256) (h7 : b7 < 256) :
    u64 (u64 b0 <<< 56) ||| u64 (u64 b1 <<< 48) ||| u64 (u64 b2 <<< 40) |||
      u64 (u64 b3 <<< 32) ||| u64 (u64 b4 <<< 24) ||| u64 (u64 b5 <<< 16) |||
      u64 (u64 b6 <<< 8) ||| u64 b7 =
    b0 * 2 ^ 56 + b1 * 2 ^ 48 + b2 * 2 ^ 40 + b3 * 2 ^ 32 + b4 * 2 ^ 24 + b5 * 2 ^ 16 +
      b6 * 2 ^ 8 + b7 := by
  have e0 : u64 (u64 b0 <<< 56) = b0 * 2 ^ 56 := by simp only [u64]; omega
  have e1 : u64 (u64 b1 <<< 48) = b1 * 2 ^ 48 := by simp only [u64]; omega
  have e2 : u64 (u64 b2 <<< 40) = b2 * 2 ^ 40 := by simp only [u64]; omega
  have e3 : u64 (u64 b3 <<< 32) = b3 * 2 ^ 32 := by simp only [u64]; omega
  have e4 : u64 (u64 b4 <<< 24) = b4 * 2 ^ 24 := by simp only [u64]; omega
  have e5 : u64 (u64 b5 <<< 16) = b5 * 2 ^ 16 := by simp only [u64]; omega
  have e6 : u64 (u64 b6 <<< 8) = b6 * 2 ^ 8 := by simp only [u64]; omega
  have e7 : u64 b7 = b7 := by simp only [u64]; omega
  rw [e0, e1, e2, e3, e4, e5, e6, e7]
  have s1 := or_eq_add 56 (b0 * 2 ^ 56) (b1 * 2 ^ 48) (by omega) (by omega)
  rw [s1]
  have s2 := or_eq_add 48 (b0 * 2 ^ 56 + b1 * 2 ^ 48) (b2 * 2 ^ 40) (by omega) (by omega)
  rw [s2]
  have s3 := or_eq_add 40 (b0 * 2 ^ 56 + b1 * 2 ^ 48 + b2 * 2 ^ 40) (b3 * 2 ^ 32) (by omega) (by omega)
  rw [s3]
  have s4 := or_eq_add 32 (b0 * 2 ^ 56 + b1 * 2 ^ 48 + b2 * 2 ^ 40 + b3 * 2 ^ 32) (b4 * 2 ^ 24)
    (by omega) (by omega)
  rw [s4]
  have s5 := or_eq_add 24 (b0 * 2 ^ 56 + b1 * 2 ^ 48 + b2 * 2 ^ 40 + b3 * 2 ^ 32 + b4 * 2 ^ 24)
    (b5 * 2 ^ 16) (by omega) (by omega)
  rw [s5]
  have s6 := or_eq_add 16
    (b0 * 2 ^ 56 + b1 * 2 ^ 48 + b2 * 2 ^ 40 + b3 * 2 ^ 32 + b4 * 2 ^ 24 + b5 * 2 ^ 16)
    (b6 * 2 ^ 8) (by omega) (by omega)
  rw [s6]
  exact or_eq_add 8 _ b7 (by omega) (by omega)

theorem u64_bytes (n : Nat) (h : n < 2 ^ 64) :
    u64 (u64 (u8 (n >>> 56)) <<< 56) |||
      u64 (u64 (u8 (n >>> 48)) <<< 48) |||
      u64 (u64 (u8 (n >>> 40)) <<< 40) |||
      u64 (u64 (u8 (n >>> 32)) <<< 32) |||
      u64 (u64 (u8 (n >>> 24)) <<< 24) |||
      u64 (u64 (u8 (n >>> 16)) <<< 16) |||
      u64 (u64 (u8 (n >>> 8)) <<< 8) |||
      u64 (u8 n) = n := by
  rw [be64_value _ _ _ _ _ _ _ _ (by simp only [u8]; omega) (by simp only [u8]; omega)
    (by simp only [u8]; omega) (by simp only [u8]; omega) (by simp only [u8]; omega)
    (by simp only [u8]; omega) (by simp only [u8]; omega) (by simp only [u8]; omega)]
  simp only [u8]
  omega

/-! ## Fetcher -/



theorem Fetcher_fetch_holds (r : Fetcher) (bytes : List Nat) (min : Nat) (h : r.Holds bytes)
    (h1 : 0 < min) (h2 : min ≤ bytes.length) :
    ∃ r1, r.fetch min = (r1, bytes, none) ∧ r1.used ≤ r1.s.length ∧ r1.s.drop r1.used = bytes ∧
      r1.read = r.read := by
  rcases h with ⟨hu, hs⟩ | ⟨hs, hu, hf⟩
  · refine ⟨r, ?_, hu, hs, rfl⟩
    have hl : bytes.length = r.s.length - r.used := by rw [← hs, List.length_drop]
    have : (r.s.length : Int) - (r.used : Int) ≥ (min : Int) := by omega
    simp only [Fetcher.fetch, this, if_true, hs]
  · have hc : ¬ ((r.s.length : Int) - (r.used : Int) ≥ (min : Int)) := by
      rw [hs, hu]; simp only [List.length_nil]; omega
    obtain ⟨f, s, used, read⟩ := r
    simp only at hs hu hf hc
    subst hs hu
    cases f with
    | byteFetch b e fetched =>
      cases fetched with
      | true => simp [Fetch.first] at hf
      | false =>
        simp only [Fetch.first, Option.some.injEq] at hf
        subst hf
        exact ⟨⟨Fetch.byteFetch b e true, b, 0, read⟩, by
          simp only [Fetcher.fetch, hc, if_false, Fetch.call]
          simp, by simp, by simp, rfl⟩
    | constFetch b =>
      simp only [Fetch.first, Option.some.injEq] at hf
      subst hf
      exact ⟨⟨Fetch.constFetch b, b, 0, read⟩, by
        simp only [Fetcher.fetch, hc, if_false, Fetch.call], by simp, by simp, rfl⟩
    | sizeLimited _ _ _ _ _ => simp [Fetch.first] at hf

theorem Fetcher_Fetch_holds (r : Fetcher) (xs rest : List Nat) (h : r.Holds (xs ++ rest)) :
    ∃ r1, r.Fetch xs.length = (r1, xs, none) ∧ r1.Holds rest ∧
      r1.read = r.read + xs.length := by
  by_cases h0 : xs.length = 0
  · have : xs = [] := List.length_eq_zero.mp h0
    subst this
    exact ⟨r, by simp [Fetcher.Fetch], by simpa using h, by simp⟩
  · obtain ⟨r1, e1, hu, hs, hr⟩ := Fetcher_fetch_holds r (xs ++ rest) xs.length h (by omega)
      (by simp)
    refine ⟨{ r1 with used := r1.used + xs.length, read := r1.read + xs.length }, ?_, ?_, ?_⟩
    · simp only [Fetcher.Fetch, h0, if_false, e1]
      simp
    · left
      have hl : (xs ++ rest).length = r1.s.length - r1.used := by rw [← hs, List.length_drop]
      simp only [List.length_append] at hl
      refine ⟨by simp only; omega, ?_⟩
      simp only
      rw [← List.drop_drop, hs, List.drop_left]
    · simp only [hr]

theorem Fetcher_FetchMax_holds (r : Fetcher) (xs rest : List Nat) (h : r.Holds (xs ++ rest))
    (h0 : 0 < xs.length) :
    ∃ r1, r.FetchMax xs.length = (r1, xs, none) ∧ r1.Holds rest ∧
      r1.read = r.read + xs.length := by
  obtain ⟨r1, e1, hu, hs, hr⟩ := Fetcher_fetch_holds r (xs ++ rest) 1 h (by omega)
    (by simp; omega)
  refine ⟨{ r1 with used := r1.used + xs.length, read := r1.read + xs.length }, ?_, ?_, ?_⟩
  · simp only [Fetcher.FetchMax, e1]
    have : ¬ ((xs ++ rest).length > xs.length) ∨ (xs ++ rest).length > xs.length := by omega
    rcases this with h3 | h3
    · have : rest = [] := by
        simp only [List.length_append] at h3
        exact List.length_eq_zero.mp (by omega)
      subst this
      simp
    · simp only [h3, if_true, List.take_left]
  · left
    have hl : (xs ++ rest).length = r1.s.length - r1.used := by rw [← hs, List.length_drop]
    simp only [List.length_append] at hl
    refine ⟨by simp only; omega, ?_⟩
    simp only
    rw [← List.drop_drop, hs, List.drop_left]
  · simp only [hr]

theorem ReadFull_holds (fuel : Nat) (r : Fetcher) (buf xs rest : List Nat)
    (h : r.Holds (xs ++ rest)) (hb : buf.length = xs.length) (h0 : 0 < xs.length)
    (hf : 0 < fuel) :
    ∃ r1, ReadFull fuel r buf = some (r1, xs, xs.length, none) ∧ r1.Holds rest ∧
      r1.read = r.read + xs.length := by
  obtain ⟨r1, e1, hh, hr⟩ := Fetcher_FetchMax_holds r xs rest h h0
  refine ⟨r1, ?_, hh, hr⟩
  obtain ⟨k, rfl⟩ : ∃ k, fuel = k + 1 := ⟨fuel - 1, by omega⟩
  have hw : writeAt buf 0 xs = xs := by
    simp only [writeAt, List.take_zero, List.nil_append, Nat.zero_add, ← hb, List.drop_length,
      List.append_nil]
  unfold ReadFull
  rw [ReadAtLeastLoop]
  simp only [hb, h0, and_self, if_true, Nat.sub_zero, Fetcher.Read, Nat.ne_of_gt h0, if_false, e1,
    hw, Nat.zero_add]
  cases k <;> simp [ReadAtLeastLoop, ReadAtLeastDone]

theorem and_15 (x : Nat) : x &&& 15 = x % 16 := Nat.and_pow_two_sub_one_eq_mod x 4

theorem and_255 (x : Nat) : x &&& 255 = x % 256 := Nat.and_pow_two_sub_one_eq_mod x 8

theorem readU16_holds (r : Fetcher) (a b : Nat) (rest : List Nat)
    (h : r.Holds ([a, b] ++ rest)) :
    ∃ r1, readU16 r = (r1, u16 (u16 a <<< 8) ||| u16 b, none) ∧ r1.Holds rest ∧
      r1.read = r.read + 2 := by
  obtain ⟨r1, e1, hh, hr⟩ := Fetcher_Fetch_holds r [a, b] rest h
  simp only [List.length_cons, List.length_nil, Nat.zero_add, Nat.reduceAdd] at e1 hr
  exact ⟨r1, by simp [readU16, e1], hh, hr⟩

theorem readU64_holds (r : Fetcher) (b0 b1 b2 b3 b4 b5 b6 b7 : Nat) (rest : List Nat)
    (h : r.Holds ([b0, b1, b2, b3, b4, b5, b6, b7] ++ rest)) :
    ∃ r1, readU64 r = (r1,
        u64 (u64 b0 <<< 56) ||| u64 (u64 b1 <<< 48) ||| u64 (u64 b2 <<< 40) |||
        u64 (u64 b3 <<< 32) ||| u64 (u64 b4 <<< 24) ||| u64 (u64 b5 <<< 16) |||
        u64 (u64 b6 <<< 8) ||| u64 b7, none) ∧ r1.Holds rest ∧ r1.read = r.read + 8 := by
  obtain ⟨r1, e1, hh, hr⟩ := Fetcher_Fetch_holds r [b0, b1, b2, b3, b4, b5, b6, b7] rest h
  simp only [List.length_cons, List.length_nil, Nat.zero_add, Nat.reduceAdd] at e1 hr
  exact ⟨r1, by simp [readU64, e1], hh, hr⟩

/-- C4: integers are written big-endian and read back. For a 16-bit `n`,
`writeU16` pushes the two bytes `[n>>8, n&0xff]` and `readU16` on them (whatever
follows them) returns `n`; for a 64-bit `m`, `writeU64` pushes the eight bytes
of `m`, most significant first, and `readU64` on them returns `m`. -/
theorem C4_integers_big_endian (n m : Nat) (p q : Pusher) (r r' : Fetcher) (tl tl' : List Nat)
    (hn : n < 2 ^ 16) (hm : m < 2 ^ 64)
    (hp : p.i + 2 ≤ p.b.length) (hq : q.i + 8 ≤ q.b.length)
    (hr : r.Holds ([n >>> 8, n &&& 0xff] ++ tl))
    (hr' : r'.Holds ([m / 2 ^ 56 % 256, m / 2 ^ 48 % 256, m / 2 ^ 40 % 256, m / 2 ^ 32 % 256,
      m / 2 ^ 24 % 256, m / 2 ^ 16 % 256, m / 2 ^ 8 % 256, m % 256] ++ tl')) :
    ((writeU16 n p).2 = none ∧ (writeU16 n p).1.Data = p.Data ++ [n >>> 8, n &&& 0xff]) ∧
    ((readU16 r).2 = (n, none) ∧ (readU16 r).1.Holds tl) ∧
    ((writeU64 m q).2 = none ∧
      (writeU64 m q).1.Data = q.Data ++ [m / 2 ^ 56 % 256, m / 2 ^ 48 % 256, m / 2 ^ 40 % 256,
        m / 2 ^ 32 % 256, m / 2 ^ 24 % 256, m / 2 ^ 16 % 256, m / 2 ^ 8 % 256, m % 256]) ∧
    ((readU64 r').2 = (m, none) ∧ (readU64 r').1.Holds tl') := by
  have b16 : [u8 (n >>> 8), u8 n] = [n >>> 8, n &&& 0xff] := by
    simp only [u8, and_255]
    congr 1
    omega
  have b64 : [u8 (m >>> 56), u8 (m >>> 48), u8 (m >>> 40), u8 (m >>> 32), u8 (m >>> 24),
      u8 (m >>> 16), u8 (m >>> 8), u8 m] = [m / 2 ^ 56 % 256, m / 2 ^ 48 % 256,
      m / 2 ^ 40 % 256, m / 2 ^ 32 % 256, m / 2 ^ 24 % 256, m / 2 ^ 16 % 256, m / 2 ^ 8 % 256,
      m % 256] := by
    simp only [u8, Nat.shiftRight_eq_div_pow]
    rfl
  refine ⟨⟨?_, ?_⟩, ⟨?_, ?_⟩, ⟨?_, ?_⟩, ⟨?_, ?_⟩⟩
  · simp only [writeU16]
    rw [Pusher_Push_room p _ (by simpa using hp)]
  · simp only [writeU16]
    rw [Pusher_Data_Push p _ (by simpa using hp), b16]
  · rw [← b16] at hr
    obtain ⟨r1, e1, _, _⟩ := readU16_holds r _ _ tl hr
    rw [e1, u16_bytes n hn]
  · rw [← b16] at hr
    obtain ⟨r1, e1, hh, _⟩ := readU16_holds r _ _ tl hr
    rw [e1]
    exact hh
  · simp only [writeU64]
    rw [Pusher_Push_room q _ (by simpa using hq)]
  · simp only [writeU64]
    rw [Pusher_Data_Push q _ (by simpa using hq), b64]
  · rw [← b64] at hr'
    obtain ⟨r1, e1, _, _⟩ := readU64_holds r' _ _ _ _ _ _ _ _ tl' hr'
    rw [e1, u64_bytes m hm]
  · rw [← b64] at hr'
    obtain ⟨r1, e1, hh, _⟩ := readU64_holds r' _ _ _ _ _ _ _ _ tl' hr'
    rw [e1]
    exact hh

/-- C4 at the values of `TestWriteU16` and `TestWriteU64`. -/
theorem C4_integers_big_endian_witness :
    ((writeU16 12345 (NewPusher [0, 0])).2 = none ∧
      (writeU16 12345 (NewPusher [0, 0])).1.Data = [48, 57]) ∧
    ((readU16 (NewFetcher (Fetch.constFetch [48, 57]))).2 = (12345, none)) ∧
    ((writeU64 123456789 (NewPusher [0, 0, 0, 0, 0, 0, 0, 0])).1.Data
      = [0, 0, 0, 0, 7, 91, 205, 21]) ∧
    ((readU64 (NewFetcher (Fetch.constFetch [0, 0, 0, 0, 7, 91, 205, 21]))).2
      = (123456789, none)) := by
  have h := C4_integers_big_endian 12345 123456789 (NewPusher [0, 0])
    (NewPusher [0, 0, 0, 0, 0, 0, 0, 0]) (NewFetcher (Fetch.constFetch [48, 57]))
    (NewFetcher (Fetch.constFetch [0, 0, 0, 0, 7, 91, 205, 21])) [] []
    (by decide) (by decide) (by decide) (by decide) (by decide) (by decide)
  exact ⟨h.1, h.2.1.1, h.2.2.1.2, h.2.2.2.1⟩

/-- C5: the header byte packs the message kind in the high nibble and the data
in the low nibble. For `t, d ≤ 15`, `ParseRequestType (NewRequestType t d) = (t, d)`;
for every byte `b`, `NewRequestType` of `ParseRequestType b` is `b`; and
`NewRequestType t' d'` panics exactly when `t' > 15` or `d' > 15`. -/
theorem C5_request_type_nibbles (t d b t' d' : Nat) (ht : t ≤ 15) (hd : d ≤ 15)
    (hb : b < 256) :
    (∃ x, NewRequestType t d = Except.ok x ∧ x < 256 ∧ ParseRequestType x = (t, d)) ∧
    NewRequestType (ParseRequestType b).1 (ParseRequestType b).2 = Except.ok b ∧
    ((∃ msg, NewRequestType t' d' = Except.error msg) ↔ (t' > 15 ∨ d' > 15)) := by
  refine ⟨?_, ?_, ?_⟩
  · have e : u8 (t <<< 4) ||| d = t * 16 + d := by
      simp only [u8]
      rw [or_eq_add 4 _ _ (by omega) (by omega)]
      omega
    refine ⟨t * 16 + d, ?_, by omega, ?_⟩
    · simp only [NewRequestType, e, show ¬ t > 15 by omega, show ¬ d > 15 by omega, if_false]
    · simp only [ParseRequestType, and_15, u8, Prod.mk.injEq]
      omega
  · have e : u8 ((b >>> 4) <<< 4) ||| u8 (b &&& 15) = b := by
      simp only [u8, and_15]
      rw [or_eq_add 4 _ _ (by omega) (by omega)]
      omega
    simp only [NewRequestType, ParseRequestType, e, show ¬ b >>> 4 > 15 by omega,
      show ¬ u8 (b &&& 15) > 15 by simp only [u8, and_15]; omega, if_false]
  · unfold NewRequestType
    by_cases h1 : t' > 15
    · simp [h1]
    · by_cases h2 : d' > 15
      · simp [h1, h2]
      · simp [h1, h2]

/-- C5 at the header byte of a Retrieve response with code 5. -/
theorem C5_request_type_nibbles_witness :
    (∃ x, NewRequestType 3 5 = Except.ok x ∧ x < 256 ∧ ParseRequestType x = (3, 5)) ∧
    NewRequestType (ParseRequestType 0x35).1 (ParseRequestType 0x35).2 = Except.ok 0x35 ∧
    ((∃ msg, NewRequestType 16 0 = Except.error msg) ↔ (16 > 15 ∨ 0 > 15)) :=
  C5_request_type_nibbles 3 5 0x35 16 0 (by decide) (by decide) (by decide)

/-! ## Builders -/

theorem Pusher_Push_app (p : Pusher) (bs : List Nat) (h : p.i + bs.length ≤ p.b.length) :
    p.Push bs = (p.app bs, none) := Pusher_Push_room p bs h

theorem Pusher_app_Push (p : Pusher) (xs ys : List Nat)
    (h : p.i + (xs ++ ys).length ≤ p.b.length) :
    (p.app xs).Push ys = (p.app (xs ++ ys), none) := by
  simp only [List.length_append] at h
  have h1 := Pusher_Push_Push p xs ys (by omega)
  rw [Pusher_Push_room p xs (by omega), Pusher_Push_room p (xs ++ ys)
    (by simp only [List.length_append]; omega)] at h1
  exact h1

theorem Pusher_app_nil (p : Pusher) (h : p.i ≤ p.b.length) : p.app [] = p := by
  obtain ⟨b, i⟩ := p
  simp only [Pusher.app, writeAt, List.append_nil, List.length_nil, Nat.add_zero,
    List.take_append_drop]

theorem Pusher_Data_app (p : Pusher) (bs : List Nat) (h : p.i + bs.length ≤ p.b.length) :
    (p.app bs).Data = p.Data ++ bs := by
  simp only [Pusher.app, Pusher.Data, writeAt_take _ _ _ h]

theorem Pusher_Data_app_drop (p : Pusher) (bs : List Nat) (h : p.i + bs.length ≤ p.b.length) :
    (p.app bs).Data.drop p.Size = bs := by
  rw [Pusher_Data_app p bs h]
  have : p.Data.length = p.Size := by
    simp only [Pusher.Data, Pusher.Size, List.length_take]; omega
  rw [← this, List.drop_left]

theorem pusherU16_app (p : Pusher) (xs : List Nat) (n : Nat)
    (h : p.i + (xs ++ be16 n).length ≤ p.b.length) :
    pusherU16 (p.app xs) n = (p.app (xs ++ be16 n), none) :=
  Pusher_app_Push p xs (be16 n) h

theorem pusherU64_app (p : Pusher) (xs : List Nat) (n : Nat)
    (h : p.i + (xs ++ be64 n).length ≤ p.b.length) :
    pusherU64 (p.app xs) n = (p.app (xs ++ be64 n), none) :=
  Pusher_app_Push p xs (be64 n) h

theorem pusherPush_app (p : Pusher) (xs ys : List Nat)
    (h : p.i + (xs ++ ys).length ≤ p.b.length) :
    pusherPush (p.app xs) ys = (p.app (xs ++ ys), none) :=
  Pusher_app_Push p xs ys h

theorem pusherPush_first (p : Pusher) (ys : List Nat) (h : p.i + ys.length ≤ p.b.length) :
    pusherPush p ys = (p.app ys, none) := Pusher_Push_app p ys h

theorem be16_length (n : Nat) : (be16 n).length = 2 := rfl

theorem be64_length (n : Nat) : (be64 n).length = 8 := rfl

theorem NewRequestType_ok (t d : Nat) (ht : t ≤ 15) (hd : d ≤ 15) :
    NewRequestType t d = Except.ok (t * 16 + d) := by
  have e : u8 (t <<< 4) ||| d = t * 16 + d := by
    simp only [u8]
    rw [or_eq_add 4 _ _ (by omega) (by omega)]
    omega
  simp only [NewRequestType, e, show ¬ t > 15 by omega, show ¬ d > 15 by omega, if_false]

theorem RetrieveRequest_Build_room (d : RetrieveRequest) (id : List Nat) (p : Pusher)
    (hid : id.length = 32) (h : p.i + 43 ≤ p.b.length) :
    d.Build id p = ({ d with ID := id },
      p.app ([RetrieveType * 16 + 0] ++ id ++ be64 d.RID ++ be16 d.Offset), Status.ok) := by
  simp only [RetrieveRequest.Build, NewRequestType_ok RetrieveType 0 (by decide) (by decide)]
  rw [pusherPush_first p _ (by simp; omega)]
  simp only
  rw [pusherPush_app p _ _ (by simp [hid]; omega)]
  simp only
  rw [pusherU64_app p _ _ (by simp [hid, be64_length]; omega)]
  simp only
  rw [pusherU16_app p _ _ (by simp [hid, be64_length, be16_length]; omega)]

/-! ## Parsers -/

theorem readU16_be (r : Fetcher) (n : Nat) (rest : List Nat) (hn : n < 2 ^ 16)
    (h : r.Holds (be16 n ++ rest)) :
    ∃ r1, readU16 r = (r1, n, none) ∧ r1.Holds rest ∧ r1.read = r.read + 2 := by
  obtain ⟨r1, e1, hh, hr⟩ := readU16_holds r _ _ rest h
  rw [u16_bytes n hn] at e1
  exact ⟨r1, e1, hh, hr⟩

theorem readU64_be (r : Fetcher) (n : Nat) (rest : List Nat) (hn : n < 2 ^ 64)
    (h : r.Holds (be64 n ++ rest)) :
    ∃ r1, readU64 r = (r1, n, none) ∧ r1.Holds rest ∧ r1.read = r.read + 8 := by
  obtain ⟨r1, e1, hh, hr⟩ := readU64_holds r _ _ _ _ _ _ _ _ rest h
  rw [u64_bytes n hn] at e1
  exact ⟨r1, e1, hh, hr⟩

theorem RetrieveRequest_Parse_holds (fuel : Nat) (d0 : RetrieveRequest) (r : Fetcher)
    (id : List Nat) (rid offset : Nat) (tl : List Nat)
    (hf : 0 < fuel) (h0 : d0.ID.length = 32) (hid : id.length = 32)
    (hrid : rid < 2 ^ 64) (hoff : offset < 2 ^ 16)
    (h : r.Holds (id ++ (be64 rid ++ (be16 offset ++ tl)))) :
    ∃ r1, RetrieveRequest.Parse fuel d0 r
        = some ({ ID := id, RID := rid, Offset := offset }, r1, none) ∧
      r1.Holds tl ∧ r1.read = r.read + 42 := by
  obtain ⟨r1, e1, h1, hr1⟩ := ReadFull_holds fuel r d0.ID id _ h (by omega) (by omega) hf
  obtain ⟨r2, e2, h2, hr2⟩ := readU64_be r1 rid _ hrid h1
  obtain ⟨r3, e3, h3, hr3⟩ := readU16_be r2 offset _ hoff h2
  refine ⟨r3, ?_, h3, by omega⟩
  simp only [RetrieveRequest.Parse, e1, e2, e3]

theorem SendRespond_Build_room (d : SendRespond) (id : List Nat) (e : Nat) (p : Pusher)
    (hid : id.length = 32) (he : e ≤ 15) (h : p.i + 43 ≤ p.b.length) :
    d.Build id e p =
      (p.app ([SendType * 16 + e] ++ id ++ be64 d.NewWID ++ be16 d.Sent), Status.ok) := by
  simp only [SendRespond.Build, NewRequestType_ok SendType e (by decide) he]
  rw [pusherPush_first p _ (by simp; omega)]
  simp only
  rw [pusherPush_app p _ _ (by simp [hid]; omega)]
  simp only
  rw [pusherU64_app p _ _ (by simp [hid, be64_length]; omega)]
  simp only
  rw [pusherU16_app p _ _ (by simp [hid, be64_length, be16_length]; omega)]

theorem SendRespond_Parse_holds (fuel : Nat) (d0 : SendRespond) (r : Fetcher)
    (id : List Nat) (wid sent : Nat) (tl : List Nat)
    (hf : 0 < fuel) (h0 : d0.ID.length = 32) (hid : id.length = 32)
    (hwid : wid < 2 ^ 64) (hsent : sent < 2 ^ 16)
    (h : r.Holds (id ++ (be64 wid ++ (be16 sent ++ tl)))) :
    ∃ r1, SendRespond.Parse fuel d0 r
        = some ({ ID := id, NewWID := wid, Sent := sent }, r1, none) ∧
      r1.Holds tl ∧ r1.read = r.read + 42 := by
  obtain ⟨r1, e1, h1, hr1⟩ := ReadFull_holds fuel r d0.ID id _ h (by omega) (by omega) hf
  obtain ⟨r2, e2, h2, hr2⟩ := readU64_be r1 wid _ hwid h1
  obtain ⟨r3, e3, h3, hr3⟩ := readU16_be r2 sent _ hsent h2
  refine ⟨r3, ?_, h3, by omega⟩
  simp only [SendRespond.Parse, e1, e2, e3]

theorem CloseRespond_Build_room (d : CloseRespond) (id : List Nat) (e : Nat) (p : Pusher)
    (hid : id.length = 32) (he : e ≤ 15) (h : p.i + 33 ≤ p.b.length) :
    d.Build id e p = ({ ID := id }, p.app ([CloseType * 16 + e] ++ id), Status.ok) := by
  simp only [CloseRespond.Build, NewRequestType_ok CloseType e (by decide) he]
  rw [pusherPush_first p _ (by simp; omega)]
  simp only
  rw [pusherPush_app p _ _ (by simp [hid]; omega)]

theorem CloseRespond_Parse_holds (fuel : Nat) (d0 : CloseRespond) (r : Fetcher)
    (id : List Nat) (tl : List Nat)
    (hf : 0 < fuel) (h0 : d0.ID.length = 32) (hid : id.length = 32)
    (h : r.Holds (id ++ tl)) :
    ∃ r1, CloseRespond.Parse fuel d0 r = some ({ ID := id }, r1, none) ∧
      r1.Holds tl ∧ r1.read = r.read + 32 := by
  obtain ⟨r1, e1, h1, hr1⟩ := ReadFull_holds fuel r d0.ID id _ h (by omega) (by omega) hf
  refine ⟨r1, ?_, h1, by omega⟩
  simp only [CloseRespond.Parse, e1]

/-- C3: the fixed-size messages survive `Build` then `Parse`. For a
`RetrieveRequest` (ID, RID, Offset), a `SendRespond` (ID, NewWID, Sent) and a
`CloseRespond` (ID), with every field in the range of its Go type, every
32-byte `id` and every error code of the header nibble: `Build` into a pusher
with room for the message returns `nil`, and `Parse` of the built bytes after
the header byte (whatever follows them) returns `nil` with exactly the built
field values, leaving the fetcher at the bytes that follow. -/
theorem C3_fixed_size_roundtrip (id : List Nat)
    (rq rq0 : RetrieveRequest) (sr sr0 : SendRespond) (cr cr0 : CloseRespond)
    (e : Nat) (p : Pusher) (fuel : Nat) (r1 r2 r3 : Fetcher) (tl : List Nat)
    (hid : id.length = 32) (he : e ≤ 15)
    (hrid : rq.RID < 2 ^ 64) (hoff : rq.Offset < 2 ^ 16)
    (hwid : sr.NewWID < 2 ^ 64) (hsent : sr.Sent < 2 ^ 16)
    (hp : p.i + 43 ≤ p.b.length) (hf : 0 < fuel)
    (hrq0 : rq0.ID.length = 32) (hsr0 : sr0.ID.length = 32) (hcr0 : cr0.ID.length = 32)
    (h1 : r1.Holds (((rq.Build id p).2.1.Data.drop p.Size).tail ++ tl))
    (h2 : r2.Holds (((sr.Build id e p).1.Data.drop p.Size).tail ++ tl))
    (h3 : r3.Holds (((cr.Build id e p).2.1.Data.drop p.Size).tail ++ tl)) :
    ((rq.Build id p).2.2 = Status.ok ∧
      ∃ r', RetrieveRequest.Parse fuel rq0 r1
          = some ({ ID := id, RID := rq.RID, Offset := rq.Offset }, r', none) ∧ r'.Holds tl) ∧
    ((sr.Build id e p).2 = Status.ok ∧
      ∃ r', SendRespond.Parse fuel sr0 r2
          = some ({ ID := id, NewWID := sr.NewWID, Sent := sr.Sent }, r', none) ∧ r'.Holds tl) ∧
    ((cr.Build id e p).2.2 = Status.ok ∧
      ∃ r', CloseRespond.Parse fuel cr0 r3 = some ({ ID := id }, r', none) ∧ r'.Holds tl) := by
  rw [RetrieveRequest_Build_room rq id p hid hp] at h1 ⊢
  rw [SendRespond_Build_room sr id e p hid he hp] at h2 ⊢
  rw [CloseRespond_Build_room cr id e p hid he (by omega)] at h3 ⊢
  rw [Pusher_Data_app_drop p _ (by simp [hid, be64_length, be16_length]; omega)] at h1 h2
  rw [Pusher_Data_app_drop p _ (by simp [hid]; omega)] at h3
  simp only [List.singleton_append, List.cons_append, List.tail_cons, List.append_assoc] at h1 h2 h3
  refine ⟨⟨rfl, ?_⟩, ⟨rfl, ?_⟩, ⟨rfl, ?_⟩⟩
  · obtain ⟨r', e', h', _⟩ := RetrieveRequest_Parse_holds fuel rq0 r1 id rq.RID rq.Offset tl hf hrq0
      hid hrid hoff h1
    exact ⟨r', e', h'⟩
  · obtain ⟨r', e', h', _⟩ := SendRespond_Parse_holds fuel sr0 r2 id sr.NewWID sr.Sent tl hf hsr0
      hid hwid hsent h2
    exact ⟨r', e', h'⟩
  · obtain ⟨r', e', h', _⟩ := CloseRespond_Parse_holds fuel cr0 r3 id tl hf hcr0 hid h3
    exact ⟨r', e', h'⟩

/-- C3 at the values of `TestRetrieveRequest`, `TestSendRespond` and
`TestCloseRespond`, each parsed from the built bytes followed by `"Data"`. -/
theorem C3_fixed_size_roundtrip_witness :
    (∃ r', RetrieveRequest.Parse 1 RetrieveRequest.zero
        (newReadSource ((((RetrieveRequest.mk testID 991029291932123 19821).Build testID
          testPusher).2.1.Data.drop testPusher.Size).tail ++ [68, 97, 116, 97]))
        = some ({ ID := testID, RID := 991029291932123, Offset := 19821 }, r', none) ∧
        r'.Holds [68, 97, 116, 97]) ∧
    (∃ r', SendRespond.Parse 1 SendRespond.zero
        (newReadSource ((((SendRespond.mk testID 991029291932123 25).Build testID 0
          testPusher).1.Data.drop testPusher.Size).tail ++ [68, 97, 116, 97]))
        = some ({ ID := testID, NewWID := 991029291932123, Sent := 25 }, r', none) ∧
        r'.Holds [68, 97, 116, 97]) ∧
    (∃ r', CloseRespond.Parse 1 CloseRespond.zero
        (newReadSource ((((CloseRespond.mk testID).Build testID 0
          testPusher).2.1.Data.drop testPusher.Size).tail ++ [68, 97, 116, 97]))
        = some ({ ID := testID }, r', none) ∧ r'.Holds [68, 97, 116, 97]) := by
  have h := C3_fixed_size_roundtrip testID (RetrieveRequest.mk testID 991029291932123 19821)
    RetrieveRequest.zero (SendRespond.mk testID 991029291932123 25) SendRespond.zero
    (CloseRespond.mk testID) CloseRespond.zero 0 testPusher 1
    (newReadSource ((((RetrieveRequest.mk testID 991029291932123 19821).Build testID
          testPusher).2.1.Data.drop testPusher.Size).tail ++ [68, 97, 116, 97]))
    (newReadSource ((((SendRespond.mk testID 991029291932123 25).Build testID 0
          testPusher).1.Data.drop testPusher.Size).tail ++ [68, 97, 116, 97]))
    (newReadSource ((((CloseRespond.mk testID).Build testID 0
          testPusher).2.1.Data.drop testPusher.Size).tail ++ [68, 97, 116, 97]))
    [68, 97, 116, 97]
    (by decide) (by decide) (by decide) (by decide) (by decide) (by decide) (by decide)
    (by decide) (by decide) (by decide) (by decide)
    (Or.inr ⟨rfl, rfl, rfl⟩) (Or.inr ⟨rfl, rfl, rfl⟩) (Or.inr ⟨rfl, rfl, rfl⟩)
  exact ⟨h.1.2, h.2.1.2, h.2.2.2⟩

theorem DialRequest_buildPort_room (d : DialRequest) (p : Pusher) (xs : List Nat)
    (hl : d.RequestLength = d.Request.length) (hr : d.RequestLength < 2 ^ 16)
    (h : p.i + xs.length + 6 + d.Request.length ≤ p.b.length) :
    d.buildPort (p.app xs) = (d, p.app (xs ++ be16 d.Port ++ be16 d.MaxRetrieveLen ++
      be16 d.RequestLength ++ d.Request), Status.ok) := by
  simp only [DialRequest.buildPort]
  rw [pusherU16_app p _ _ (by simp [be16_length]; omega)]
  simp only
  rw [pusherU16_app p _ _ (by simp [be16_length]; omega)]
  simp only
  rw [if_neg (by omega), if_neg (by omega)]
  rw [pusherU16_app p _ _ (by simp [be16_length]; omega)]
  simp only
  rw [pusherPush_app p _ _ (by simp [be16_length]; omega)]

theorem DialRequest_Build_room (d : DialRequest) (id : List Nat) (p : Pusher)
    (hid : id.length = 32) (hw : d.WellFormed) (h : p.i + d.wireSize ≤ p.b.length) :
    d.Build id p = ({ d with ID := id },
      p.app ([d.ATyp] ++ id ++ d.addrField ++ be16 d.Port ++ be16 d.MaxRetrieveLen ++
        be16 d.RequestLength ++ d.Request), Status.ok) := by
  obtain ⟨ha, hl, hr, -, -⟩ := hw
  have hty : d.ATyp ≤ 5 := by
    simp only [TCPIPv4, UDPIPv4, TCPIPv6, UDPIPv6, TCPHost, UDPHost] at ha
    omega
  have hu : u8 d.ATyp = d.ATyp := by simp only [u8]; omega
  simp only [DialRequest.wireSize, HeaderSize, IDSize] at h
  have hn : NewRequestType DialType (u8 d.ATyp) = Except.ok d.ATyp := by
    rw [hu, NewRequestType_ok DialType d.ATyp (by decide) (by omega)]
    simp only [DialType, Nat.zero_mul, Nat.zero_add]
  simp only [DialRequest.Build, hn]
  rw [pusherPush_first p _ (by simp; omega)]
  simp only
  rw [pusherPush_app p _ _ (by simp [hid]; omega)]
  simp only
  rcases ha with ⟨ht, hlen⟩ | ⟨ht, hlen⟩ | ⟨ht, hlen⟩
  · have hh : ¬ (d.ATyp = TCPHost ∨ d.ATyp = UDPHost) := by
      simp only [TCPIPv4, UDPIPv4, TCPHost, UDPHost] at ht ⊢; omega
    simp only [DialRequest.addrField, hh, if_false] at h ⊢
    rw [if_pos ht, if_neg (by omega)]
    rw [pusherPush_app p _ _ (by simp [hid]; omega)]
    simp only
    exact DialRequest_buildPort_room { d with ID := id } p _ hl hr (by simp [hid]; omega)
  · have hh : ¬ (d.ATyp = TCPHost ∨ d.ATyp = UDPHost) := by
      simp only [TCPIPv6, UDPIPv6, TCPHost, UDPHost] at ht ⊢; omega
    have h4 : ¬ (d.ATyp = TCPIPv4 ∨ d.ATyp = UDPIPv4) := by
      simp only [TCPIPv6, UDPIPv6, TCPIPv4, UDPIPv4] at ht ⊢; omega
    simp only [DialRequest.addrField, hh, if_false] at h ⊢
    rw [if_neg h4, if_pos ht, if_neg (by omega)]
    rw [pusherPush_app p _ _ (by simp [hid]; omega)]
    simp only
    exact DialRequest_buildPort_room { d with ID := id } p _ hl hr (by simp [hid]; omega)
  · have h4 : ¬ (d.ATyp = TCPIPv4 ∨ d.ATyp = UDPIPv4) := by
      simp only [TCPHost, UDPHost, TCPIPv4, UDPIPv4] at ht ⊢; omega
    have h6 : ¬ (d.ATyp = TCPIPv6 ∨ d.ATyp = UDPIPv6) := by
      simp only [TCPHost, UDPHost, TCPIPv6, UDPIPv6] at ht ⊢; omega
    simp only [DialRequest.addrField, ht, if_true, List.length_append, List.length_singleton] at h ⊢
    rw [if_neg h4, if_neg h6, if_neg (by omega)]
    rw [pusherPush_app p _ _ (by simp [hid]; omega)]
    simp only
    rw [pusherPush_app p _ _ (by simp [hid]; omega)]
    simp only
    have hb := DialRequest_buildPort_room { d with ID := id } p _ hl hr
      (show p.i + ([d.ATyp] ++ id ++ [u8 d.Addr.length] ++ d.Addr).length + 6 + d.Request.length
        ≤ p.b.length by simp [hid]; omega)
    simp only [List.append_assoc] at hb ⊢
    exact hb

theorem DialRequest_parsePort_holds {σ : Type} (d : DialRequest) (r : Fetcher)
    (rr : DialRequest → List Nat → σ → σ × Option Error) (st : σ)
    (port mrl : Nat) (req tl : List Nat)
    (hport : port < 2 ^ 16) (hmrl : mrl < 2 ^ 16) (hreq : req.length < 2 ^ 16)
    (h : r.Holds (be16 port ++ (be16 mrl ++ (be16 req.length ++ (req ++ tl))))) :
    ∃ r1, DialRequest.parsePort d r rr st =
        ({ d with Port := port, MaxRetrieveLen := mrl, RequestLength := req.length }, r1,
          (rr { d with Port := port, MaxRetrieveLen := mrl, RequestLength := req.length }
            req st).1,
          (rr { d with Port := port, MaxRetrieveLen := mrl, RequestLength := req.length }
            req st).2) ∧
      r1.Holds tl ∧ r1.read = r.read + 6 + req.length := by
  obtain ⟨r1, e1, h1, hr1⟩ := readU16_be r port _ hport h
  obtain ⟨r2, e2, h2, hr2⟩ := readU16_be r1 mrl _ hmrl h1
  obtain ⟨r3, e3, h3, hr3⟩ := readU16_be r2 req.length _ hreq h2
  obtain ⟨r4, e4, h4, hr4⟩ := Fetcher_Fetch_holds r3 req tl h3
  refine ⟨r4, ?_, h4, by omega⟩
  simp only [DialRequest.parsePort, e1, e2, e3, e4]

theorem DialRequest_Parse_holds {σ : Type} (fuel : Nat) (d0 d : DialRequest) (id : List Nat)
    (r : Fetcher) (rr : DialRequest → List Nat → σ → σ × Option Error) (st : σ)
    (tl : List Nat) (hf : 0 < fuel) (h0 : d0.ID.length = 32) (hid : id.length = 32)
    (hw : d.WellFormed)
    (h : r.Holds (id ++ (d.addrField ++ (be16 d.Port ++ (be16 d.MaxRetrieveLen ++
      (be16 d.RequestLength ++ (d.Request ++ tl))))))) :
    ∃ r1, DialRequest.Parse fuel d0 d.ATyp r rr st =
        some ({ d with ID := id, Request := d0.Request }, r1,
          (rr { d with ID := id, Request := d0.Request } d.Request st).1,
          (rr { d with ID := id, Request := d0.Request } d.Request st).2) ∧
      r1.Holds tl ∧ r1.read = r.read + d.wireSize - 1 := by
  obtain ⟨ha, hl, hr, hport, hmrl⟩ := hw
  rw [hl] at h hr
  obtain ⟨r1, e1, h1, hr1⟩ := ReadFull_holds fuel r d0.ID id _ h (by omega) (by omega) hf
  simp only [DialRequest.Parse, e1]
  rcases ha with ⟨ht, hlen⟩ | ⟨ht, hlen⟩ | ⟨ht, hlen⟩
  · have hh : ¬ (d.ATyp = TCPHost ∨ d.ATyp = UDPHost) := by
      simp only [TCPIPv4, UDPIPv4, TCPHost, UDPHost] at ht ⊢; omega
    simp only [DialRequest.addrField, hh, if_false] at h1
    obtain ⟨r2, e2, h2, hr2⟩ := Fetcher_Fetch_holds r1 d.Addr _ h1
    rw [hlen] at e2
    obtain ⟨r3, e3, h3, hr3⟩ := DialRequest_parsePort_holds
      { d0 with ID := id, ATyp := d.ATyp, Addr := d.Addr } r2 rr st d.Port d.MaxRetrieveLen
      d.Request tl hport hmrl hr h2
    rw [if_pos (Or.symm ht)]
    simp only [e2, e3, hl]
    refine ⟨r3, rfl, h3, ?_⟩
    simp only [DialRequest.wireSize, DialRequest.addrField, hh, if_false, HeaderSize, IDSize]
    omega
  · have hh : ¬ (d.ATyp = TCPHost ∨ d.ATyp = UDPHost) := by
      simp only [TCPIPv6, UDPIPv6, TCPHost, UDPHost] at ht ⊢; omega
    have h4 : ¬ (d.ATyp = UDPIPv4 ∨ d.ATyp = TCPIPv4) := by
      simp only [TCPIPv6, UDPIPv6, TCPIPv4, UDPIPv4] at ht ⊢; omega
    simp only [DialRequest.addrField, hh, if_false] at h1
    obtain ⟨r2, e2, h2, hr2⟩ := Fetcher_Fetch_holds r1 d.Addr _ h1
    rw [hlen] at e2
    obtain ⟨r3, e3, h3, hr3⟩ := DialRequest_parsePort_holds
      { d0 with ID := id, ATyp := d.ATyp, Addr := d.Addr } r2 rr st d.Port d.MaxRetrieveLen
      d.Request tl hport hmrl hr h2
    rw [if_neg h4, if_pos (Or.symm ht)]
    simp only [e2, e3, hl]
    refine ⟨r3, rfl, h3, ?_⟩
    simp only [DialRequest.wireSize, DialRequest.addrField, hh, if_false, HeaderSize, IDSize]
    omega
  · have h4 : ¬ (d.ATyp = UDPIPv4 ∨ d.ATyp = TCPIPv4) := by
      simp only [TCPHost, UDPHost, TCPIPv4, UDPIPv4] at ht ⊢; omega
    have h6 : ¬ (d.ATyp = UDPIPv6 ∨ d.ATyp = TCPIPv6) := by
      simp only [TCPHost, UDPHost, TCPIPv6, UDPIPv6] at ht ⊢; omega
    simp only [DialRequest.addrField, ht, if_true, List.append_assoc] at h1
    obtain ⟨r2, e2, h2, hr2⟩ := Fetcher_Fetch_holds r1 [u8 d.Addr.length] _ h1
    have hu : u8 d.Addr.length = d.Addr.length := by simp only [u8]; omega
    obtain ⟨r2', e2', h2', hr2'⟩ := Fetcher_Fetch_holds r2 d.Addr _ h2
    obtain ⟨r3, e3, h3, hr3⟩ := DialRequest_parsePort_holds
      { d0 with ID := id, ATyp := d.ATyp, Addr := d.Addr } r2' rr st d.Port d.MaxRetrieveLen
      d.Request tl hport hmrl hr h2'
    simp only [List.length_singleton] at e2 hr2
    rw [if_neg h4, if_neg h6, if_pos (Or.symm ht)]
    simp only [e2, List.getD_cons_zero, hu, e2', e3, hl]
    refine ⟨r3, rfl, h3, ?_⟩
    simp only [DialRequest.wireSize, DialRequest.addrField, ht, if_true, HeaderSize, IDSize,
      List.length_append, List.length_singleton]
    omega

/-- C1: a well-formed Dial request survives `Build` then `Parse`. For every
well-formed request `M` (address of 4 bytes for the IPv4 types, 16 for the
IPv6 types, at most 255 for the host types; `RequestLength = len(Request)`),
every 32-byte `id` and every pusher with room for the message, `Build`
returns `nil`; `Parse`, run with the address type of `M` on the built bytes
after the header byte followed by any bytes `tl`, calls the callback once,
with a request whose ID, address type, Addr, Port, MaxRetrieveLen and
RequestLength are those built and with exactly the Request bytes, returns the
callback's result, and leaves the fetcher at `tl`. -/
theorem C1_dial_request_roundtrip {σ : Type} (M d0 : DialRequest) (id : List Nat) (p : Pusher)
    (fuel : Nat) (r : Fetcher) (tl : List Nat)
    (rr : DialRequest → List Nat → σ → σ × Option Error) (st : σ)
    (hM : M.WellFormed) (hid : id.length = 32) (hp : p.i + M.wireSize ≤ p.b.length)
    (hf : 0 < fuel) (h0 : d0.ID.length = 32)
    (hr : r.Holds (((M.Build id p).2.1.Data.drop p.Size).tail ++ tl)) :
    (M.Build id p).2.2 = Status.ok ∧
    ∃ r' dP, DialRequest.Parse fuel d0 M.ATyp r rr st
        = some (dP, r', (rr dP M.Request st).1, (rr dP M.Request st).2) ∧
      dP.ID = id ∧ dP.ATyp = M.ATyp ∧ dP.Addr = M.Addr ∧ dP.Port = M.Port ∧
      dP.MaxRetrieveLen = M.MaxRetrieveLen ∧ dP.RequestLength = M.RequestLength ∧
      r'.Holds tl := by
  have hsz : p.i + ([M.ATyp] ++ id ++ M.addrField ++ be16 M.Port ++ be16 M.MaxRetrieveLen ++
      be16 M.RequestLength ++ M.Request).length ≤ p.b.length := by
    simp only [DialRequest.wireSize, HeaderSize, IDSize] at hp
    simp [hid, be16_length]
    omega
  rw [DialRequest_Build_room M id p hid hM hp] at hr ⊢
  rw [Pusher_Data_app_drop p _ hsz] at hr
  simp only [List.singleton_append, List.cons_append, List.tail_cons, List.append_assoc] at hr
  obtain ⟨r', e', h', _⟩ := DialRequest_Parse_holds fuel d0 M id r rr st tl hf h0 hid hM hr
  exact ⟨rfl, r', _, e', rfl, rfl, rfl, rfl, rfl, rfl, h'⟩

/-- C1 at the values of `TestDialRequest`: the request for `www.google.com:443`
with the 12 bytes `Client Hello`, parsed from the built bytes followed by
`"Data"`; the callback receives `Client Hello`. -/
theorem C1_dial_request_roundtrip_witness :
    (testDialRequest.Build testID testPusher).2.2 = Status.ok ∧
    ∃ r' dP, DialRequest.Parse 1 DialRequest.zero TCPHost
        (newReadSource ((((testDialRequest.Build testID testPusher).2.1.Data.drop
          testPusher.Size).tail) ++ [68, 97, 116, 97])) appendPayload []
        = some (dP, r', [67, 108, 105, 101, 110, 116, 32, 72, 101, 108, 108, 111], none) ∧
      dP.ID = testID ∧ dP.ATyp = TCPHost ∧
      dP.Addr = [119, 119, 119, 46, 103, 111, 111, 103, 108, 101, 46, 99, 111, 109] ∧
      dP.Port = 443 ∧ dP.MaxRetrieveLen = 10101 ∧ dP.RequestLength = 12 ∧
      r'.Holds [68, 97, 116, 97] :=
  C1_dial_request_roundtrip testDialRequest DialRequest.zero testID testPusher 1
    (newReadSource ((((testDialRequest.Build testID testPusher).2.1.Data.drop
      testPusher.Size).tail) ++ [68, 97, 116, 97])) [68, 97, 116, 97] appendPayload []
    (by decide) (by decide) (by decide) (by decide) (by decide) (Or.inr ⟨rfl, rfl, rfl⟩)

/-! ## The fetcher of a payload callback -/

/-- The closure of `SizeLimitedFetch` is `f.FetchMax(remain)` on the captured
fetcher, as its Go source has it. -/
theorem call_sizeLimited (remain min : Nat) (parent : Fetcher) (oldbuf : List Nat) (used : Nat)
    (h0 : remain ≠ 0) (h1 : oldbuf.length = used) :
    (SizeLimitedFetch remain parent).call min oldbuf used =
      match parent.FetchMax remain with
      | (p1, _, some e) => (SizeLimitedFetch remain p1, [], some e)
      | (p1, b, none) => (SizeLimitedFetch (remain - b.length) p1, b, none) := by
  obtain ⟨pf, ps, pused, pread⟩ := parent
  simp only [SizeLimitedFetch, Fetch.call, h0, if_false, h1, ne_eq, not_true_eq_false,
    Fetcher.FetchMax, Fetcher.fetch]
  by_cases hb : (ps.length : Int) - (pused : Int) ≥ 1
  · simp only [hb, if_true, Nat.cast_one]
  · simp only [hb, if_false, Nat.cast_one]
    rcases hc : pf.call 1 ps pused with ⟨pf1, ff, _ | e⟩
    · simp only [Nat.zero_add]
    · simp only

theorem call_sizeLimited_zero (min : Nat) (parent : Fetcher) (oldbuf : List Nat) (used : Nat) :
    (SizeLimitedFetch 0 parent).call min oldbuf used
      = (SizeLimitedFetch 0 parent, [], some Error.ErrAllFetched) := by
  simp only [SizeLimitedFetch, Fetch.call, if_true]

theorem fetch_handed_new (payload tl : List Nat) (parent : Fetcher) (min : Nat)
    (hmin : 0 < min) (hL : 0 < payload.length) (hp : parent.Holds (payload ++ tl)) :
    ∃ p1 : Fetcher, p1.Holds tl ∧
      (NewFetcher (SizeLimitedFetch payload.length parent)).fetch min =
        ({ f := SizeLimitedFetch 0 p1, s := payload, used := 0, read := 0 }, payload, none) := by
  obtain ⟨p1, e1, h1, -⟩ := Fetcher_FetchMax_holds parent payload tl hp hL
  refine ⟨p1, h1, ?_⟩
  have hc : ¬ (((0 : Nat) : Int) - ((0 : Nat) : Int) ≥ (min : Int)) := by omega
  simp only [Fetcher.fetch, NewFetcher, List.length_nil, hc, if_false]
  rw [call_sizeLimited payload.length min parent [] 0 (by omega) rfl, e1]
  simp only [Nat.sub_self]

theorem fetch_handed_buffered (payload : List Nat) (parent : Fetcher) (k min : Nat) :
    (Fetcher.mk (SizeLimitedFetch 0 parent) payload k k).fetch min =
      if min + k ≤ payload.length then
        (Fetcher.mk (SizeLimitedFetch 0 parent) payload k k, payload.drop k, none)
      else
        (Fetcher.mk (SizeLimitedFetch 0 parent) payload k k, [], some Error.ErrAllFetched) := by
  by_cases h : min + k ≤ payload.length
  · have hc : ((payload.length : Nat) : Int) - (k : Int) ≥ (min : Int) := by omega
    simp only [Fetcher.fetch, hc, h, if_true]
  · have hc : ¬ (((payload.length : Nat) : Int) - (k : Int) ≥ (min : Int)) := by omega
    simp only [Fetcher.fetch, hc, h, if_false, call_sizeLimited_zero]

/-- One call on the fetcher of a payload callback hands out the next bytes of
the payload, or nothing, and leaves it a fetcher of the payload. -/
theorem perform_handed (payload tl : List Nat) (k : Nat) (f : Fetcher) (op : FetchOp)
    (h : f.Handed payload tl k) :
    ∃ k', k ≤ k' ∧ k' ≤ payload.length ∧ (f.perform op).1.Handed payload tl k' ∧
      (f.perform op).2.1 = (payload.drop k).take (k' - k) := by
  have key : ∀ (parent : Fetcher) (j : Nat), parent.Holds tl → j ≤ payload.length →
      (Fetcher.mk (SizeLimitedFetch 0 parent) payload j j).Handed payload tl j :=
    fun parent j hp hj => Or.inr ⟨hj, parent, hp, rfl⟩
  -- what the three calls do once the payload is in the buffer
  have buffered : ∀ (parent : Fetcher) (j : Nat), parent.Holds tl → j ≤ payload.length →
      ∃ k', j ≤ k' ∧ k' ≤ payload.length ∧
        ((Fetcher.mk (SizeLimitedFetch 0 parent) payload j j).perform op).1.Handed payload tl k' ∧
        ((Fetcher.mk (SizeLimitedFetch 0 parent) payload j j).perform op).2.1
          = (payload.drop j).take (k' - j) := by
    intro parent j hp hj
    have hlen : (payload.drop j).length = payload.length - j := List.length_drop j payload
    cases op with
    | Fetch n =>
      by_cases hn : n = 0
      · exact ⟨j, by omega, hj, by simp [Fetcher.perform, Fetcher.Fetch, hn, key parent j hp hj],
          by simp [Fetcher.perform, Fetcher.Fetch, hn]⟩
      · simp only [Fetcher.perform, Fetcher.Fetch, hn, if_false,
          fetch_handed_buffered payload parent j n]
        by_cases hb : n + j ≤ payload.length
        · simp only [hb, if_true, hlen, show ¬ (payload.length - j < n) by omega, if_false]
          exact ⟨j + n, by omega, by omega, key parent (j + n) hp (by omega), by simp⟩
        · simp only [hb, if_false]
          exact ⟨j, by omega, hj, key parent j hp hj, by simp⟩
    | FetchMax n =>
      simp only [Fetcher.perform, Fetcher.FetchMax, fetch_handed_buffered payload parent j 1]
      by_cases hb : 1 + j ≤ payload.length
      · simp only [hb, if_true, hlen]
        by_cases hm : payload.length - j > n
        · simp only [hm, if_true]
          exact ⟨j + n, by omega, by omega, key parent (j + n) hp (by omega), by simp⟩
        · simp only [hm, if_false]
          refine ⟨payload.length, by omega, by omega, ?_, by simp⟩
          have : j + (payload.length - j) = payload.length := by omega
          rw [this]
          exact key parent payload.length hp (by omega)
      · simp only [hb, if_false]
        exact ⟨j, by omega, hj, key parent j hp hj, by simp⟩
    | Read n =>
      by_cases hn : n = 0
      · exact ⟨j, by omega, hj, by simp [Fetcher.perform, Fetcher.Read, hn, key parent j hp hj],
          by simp [Fetcher.perform, Fetcher.Read, hn]⟩
      · simp only [Fetcher.perform, Fetcher.Read, hn, if_false, Fetcher.FetchMax,
          fetch_handed_buffered payload parent j 1]
        by_cases hb : 1 + j ≤ payload.length
        · simp only [hb, if_true, hlen]
          by_cases hm : payload.length - j > n
          · simp only [hm, if_true]
            exact ⟨j + n, by omega, by omega, key parent (j + n) hp (by omega), by simp⟩
          · simp only [hm, if_false]
            refine ⟨payload.length, by omega, by omega, ?_, by simp⟩
            have : j + (payload.length - j) = payload.length := by omega
            rw [this]
            exact key parent payload.length hp (by omega)
        · simp only [hb, if_false]
          exact ⟨j, by omega, hj, key parent j hp hj, by simp⟩
  rcases h with ⟨hk, hL, parent, hp, rfl⟩ | ⟨hk, parent, hp, rfl⟩
  · subst hk
    -- nothing asked yet: the first call pulls the payload into the buffer
    have first : ∀ min, 0 < min → ∃ p1 : Fetcher, p1.Holds tl ∧
        (NewFetcher (SizeLimitedFetch payload.length parent)).fetch min =
          ({ f := SizeLimitedFetch 0 p1, s := payload, used := 0, read := 0 }, payload, none) :=
      fun min hmin => fetch_handed_new payload tl parent min hmin hL hp
    have stay : (NewFetcher (SizeLimitedFetch payload.length parent)).Handed payload tl 0 :=
      Or.inl ⟨rfl, hL, parent, hp, rfl⟩
    cases op with
    | Fetch n =>
      by_cases hn : n = 0
      · exact ⟨0, by omega, by omega, by simp [Fetcher.perform, Fetcher.Fetch, hn, stay],
          by simp [Fetcher.perform, Fetcher.Fetch, hn]⟩
      · obtain ⟨p1, hp1, e1⟩ := first n (by omega)
        simp only [Fetcher.perform, Fetcher.Fetch, hn, if_false, e1]
        by_cases hb : payload.length < n
        · simp only [hb, if_true]
          exact ⟨0, by omega, by omega, key p1 0 hp1 (by omega), by simp⟩
        · simp only [hb, if_false, Nat.zero_add]
          exact ⟨n, by omega, by omega, key p1 n hp1 (by omega), by simp⟩
    | FetchMax n =>
      obtain ⟨p1, hp1, e1⟩ := first 1 (by omega)
      simp only [Fetcher.perform, Fetcher.FetchMax, e1, Nat.zero_add]
      by_cases hm : payload.length > n
      · simp only [hm, if_true]
        exact ⟨n, by omega, by omega, key p1 n hp1 (by omega), by simp⟩
      · simp only [hm, if_false]
        exact ⟨payload.length, by omega, by omega, key p1 payload.length hp1 (by omega),
          by simp⟩
    | Read n =>
      by_cases hn : n = 0
      · exact ⟨0, by omega, by omega, by simp [Fetcher.perform, Fetcher.Read, hn, stay],
          by simp [Fetcher.perform, Fetcher.Read, hn]⟩
      · obtain ⟨p1, hp1, e1⟩ := first 1 (by omega)
        simp only [Fetcher.perform, Fetcher.Read, hn, if_false, Fetcher.FetchMax, e1,
          Nat.zero_add]
        by_cases hm : payload.length > n
        · simp only [hm, if_true]
          exact ⟨n, by omega, by omega, key p1 n hp1 (by omega), by simp⟩
        · simp only [hm, if_false]
          exact ⟨payload.length, by omega, by omega, key p1 payload.length hp1 (by omega),
            by simp⟩
  · exact buffered parent k hp hk

theorem handed_new (payload tl : List Nat) (r : Fetcher) (h : r.Holds (payload ++ tl)) :
    (NewFetcher (SizeLimitedFetch payload.length r)).Handed payload tl 0 := by
  by_cases hL : 0 < payload.length
  · exact Or.inl ⟨rfl, hL, r, h, rfl⟩
  · have : payload = [] := List.length_eq_zero.mp (by omega)
    subst this
    exact Or.inr ⟨by simp, r, by simpa using h, rfl⟩

/-- A sequence of calls on the fetcher of a payload callback hands out
consecutive bytes of the payload and nothing else. -/
theorem runOps_handed (payload tl : List Nat) (ops : List FetchOp) :
    ∀ (k : Nat) (f : Fetcher), f.Handed payload tl k →
      ∃ k', k ≤ k' ∧ k' ≤ payload.length ∧ (f.runOps ops).1.Handed payload tl k' ∧
        (f.runOps ops).2 = (payload.drop k).take (k' - k) := by
  induction ops with
  | nil =>
    intro k f h
    have hk : k ≤ payload.length := by
      rcases h with ⟨hk, _, _⟩ | ⟨hk, _⟩
      · omega
      · exact hk
    exact ⟨k, by omega, hk, h, by simp [Fetcher.runOps]⟩
  | cons op ops ih =>
    intro k f h
    obtain ⟨k1, hk1, hk1L, h1, e1⟩ := perform_handed payload tl k f op h
    obtain ⟨k2, hk2, hk2L, h2, e2⟩ := ih k1 (f.perform op).1 h1
    refine ⟨k2, by omega, hk2L, h2, ?_⟩
    simp only [Fetcher.runOps, e1, e2]
    have hs : k2 - k = (k1 - k) + (k2 - k1) := by omega
    rw [hs, List.take_add, List.drop_drop]
    congr 3
    omega

theorem FetchMax_handed_rest (payload tl : List Nat) (k : Nat) (f : Fetcher)
    (h : f.Handed payload tl k) (hk : k < payload.length) :
    ∃ parent : Fetcher, parent.Holds tl ∧
      f.FetchMax (payload.length - k) =
        ({ f := SizeLimitedFetch 0 parent, s := payload, used := payload.length,
           read := payload.length }, payload.drop k, none) := by
  rcases h with ⟨hk0, hL, parent, hp, rfl⟩ | ⟨_, parent, hp, rfl⟩
  · subst hk0
    obtain ⟨p1, hp1, e1⟩ := fetch_handed_new payload tl parent 1 (by omega) hL hp
    refine ⟨p1, hp1, ?_⟩
    simp only [Fetcher.FetchMax, e1, Nat.sub_zero, gt_iff_lt, lt_self_iff_false, if_false,
      Nat.zero_add, List.take_length, List.drop_zero]
  · refine ⟨parent, hp, ?_⟩
    have hlen : (payload.drop k).length = payload.length - k := List.length_drop k payload
    simp only [Fetcher.FetchMax, fetch_handed_buffered payload parent k 1,
      show 1 + k ≤ payload.length by omega, if_true, hlen, gt_iff_lt, lt_self_iff_false,
      if_false]
    have e : k + (payload.length - k) = payload.length := by omega
    rw [e, ← hlen, List.take_length]

theorem FetchAllLoop_done {σ : Type} (fetched : List Nat → σ → σ) (remain fuel : Nat)
    (inner : Fetcher) (b : List Nat) (c : Nat) (st : σ) :
    FetchAllLoop fetched remain (fuel + 1) (Fetcher.mk (SizeLimitedFetch 0 inner) b b.length c) st
      = some (Fetcher.mk (SizeLimitedFetch 0 inner) b b.length c, st, Status.ok) := by
  have hc : ¬ (((b.length : Nat) : Int) - ((b.length : Nat) : Int) ≥ ((1 : Nat) : Int)) := by
    omega
  rw [FetchAllLoop]
  simp only [Fetcher.FetchMax, Fetcher.fetch, hc, if_false, call_sizeLimited_zero, if_true]

theorem FetchAllLoop_first {σ : Type} (fetched : List Nat → σ → σ) (fuel : Nat)
    (inner inner1 : Fetcher) (b : List Nat) (st : σ) (hb : 0 < b.length)
    (h : inner.FetchMax b.length = (inner1, b, none)) :
    FetchAllLoop fetched b.length (fuel + 1) (NewFetcher (SizeLimitedFetch b.length inner)) st
      = FetchAllLoop fetched b.length fuel
          (Fetcher.mk (SizeLimitedFetch 0 inner1) b b.length b.length) (fetched b st) := by
  have hc : ¬ (((0 : Nat) : Int) - ((0 : Nat) : Int) ≥ ((1 : Nat) : Int)) := by omega
  rw [FetchAllLoop]
  simp only [Fetcher.FetchMax, Fetcher.fetch, NewFetcher, List.length_nil, hc, if_false]
  rw [call_sizeLimited b.length 1 inner [] 0 (by omega) rfl, h]
  simp only [Nat.sub_self, gt_iff_lt, lt_self_iff_false, if_false, Nat.zero_add,
    List.take_length]

/-- `FetchAll` on the fetcher of a payload callback hands the rest of the
payload to `fetched` and ends with the parent fetcher just after the payload. -/
theorem FetchAll_handed {σ : Type} (payload tl : List Nat) (k : Nat) (f : Fetcher)
    (fetched : List Nat → σ → σ) (st : σ) (fuel : Nat)
    (h : f.Handed payload tl k) (hfuel : 2 ≤ fuel) :
    ∃ (f' parent : Fetcher), parent.Holds tl ∧ f'.f.captured = some parent ∧
      FetchAll fuel payload.length f fetched st =
        some (f', (if k < payload.length then fetched (payload.drop k) st else st),
          Status.ok) := by
  have hkL : k ≤ payload.length := by
    rcases h with ⟨hk, _, _⟩ | ⟨hk, _⟩
    · omega
    · exact hk
  have hread : f.read = k := by
    rcases h with ⟨hk, _, _, _, rfl⟩ | ⟨_, _, _, rfl⟩
    · simp [NewFetcher, hk]
    · rfl
  obtain ⟨n, rfl⟩ : ∃ n, fuel = n + 1 + 1 := ⟨fuel - 2, by omega⟩
  simp only [FetchAll, Fetcher.Total, hread, show ¬ payload.length < k by omega, if_false]
  by_cases hk : k < payload.length
  · obtain ⟨parent, hp, e1⟩ := FetchMax_handed_rest payload tl k f h hk
    have hlen : (payload.drop k).length = payload.length - k := List.length_drop k payload
    refine ⟨Fetcher.mk (SizeLimitedFetch 0 parent) payload payload.length payload.length,
      parent, hp, rfl, ?_⟩
    rw [← hlen] at e1 ⊢
    rw [FetchAllLoop_first fetched (n + 1) f _ _ st (by omega) e1, FetchAllLoop_done]
    simp only [hk, if_true, Fetch.captured, SizeLimitedFetch, Option.getD_some]
  · have hkeq : k = payload.length := by omega
    rcases h with ⟨hk0, hL, _⟩ | ⟨_, parent, hp, rfl⟩
    · omega
    · refine ⟨Fetcher.mk (SizeLimitedFetch 0 parent) payload k k, parent, hp, rfl, ?_⟩
      have e0 : NewFetcher (SizeLimitedFetch (payload.length - k)
          (Fetcher.mk (SizeLimitedFetch 0 parent) payload k k))
          = Fetcher.mk (SizeLimitedFetch 0 (Fetcher.mk (SizeLimitedFetch 0 parent) payload k k))
              [] ([] : List Nat).length 0 := by
        simp only [hkeq, Nat.sub_self, NewFetcher, List.length_nil]
      rw [e0, FetchAllLoop_done]
      simp only [hk, if_false, Fetch.captured, SizeLimitedFetch, Option.getD_some]

/-- The end of the `Parse` of a message with a payload, for a callback that
makes the calls `ops`: the callback is given a prefix of the payload and
nothing else, and `Parse` leaves the fetcher just after the payload. -/
theorem parsePayload_scripted {α : Type} (payload tl : List Nat) (r : Fetcher) (fuel : Nat)
    (ops : List FetchOp) (ret : Option Error) (d : α) (st : List α × List Nat)
    (h : r.Holds (payload ++ tl)) (hfuel : 2 ≤ fuel) :
    ∃ (r' : Fetcher) (k : Nat), r'.Holds tl ∧ k ≤ payload.length ∧
      ((NewFetcher (SizeLimitedFetch payload.length r)).runOps ops).2 = payload.take k ∧
      parsePayload fuel payload.length r (scriptedCallback ops ret d) st =
        some (r', (st.1 ++ [d], st.2 ++ payload.take k), Status.ofError ret) := by
  obtain ⟨k, -, hkL, hk, ek⟩ := runOps_handed payload tl ops 0 _ (handed_new payload tl r h)
  simp only [List.drop_zero, Nat.sub_zero] at ek
  obtain ⟨f', parent, hp, hcap, e2⟩ := FetchAll_handed payload tl k _
    (fun _ (u : Unit) => u) () fuel hk hfuel
  refine ⟨parent, k, hp, hkL, ek, ?_⟩
  simp only [parsePayload, scriptedCallback, e2, ek, hcap, Option.getD_some]

theorem FetchMax_handed_all (payload tl : List Nat) (r : Fetcher) (n : Nat)
    (h : r.Holds (payload ++ tl)) (hn : payload.length ≤ n) :
    ((NewFetcher (SizeLimitedFetch payload.length r)).runOps [FetchOp.FetchMax n]).2
      = payload := by
  simp only [Fetcher.runOps, Fetcher.perform, List.append_nil]
  by_cases hL : 0 < payload.length
  · obtain ⟨p1, -, e1⟩ := fetch_handed_new payload tl r 1 (by omega) hL h
    simp only [Fetcher.FetchMax, e1, show ¬ payload.length > n by omega, if_false,
      List.take_length]
  · have : payload = [] := List.length_eq_zero.mp (by omega)
    subst this
    have hc : ¬ (((0 : Nat) : Int) - ((0 : Nat) : Int) ≥ ((1 : Nat) : Int)) := by omega
    simp only [Fetcher.FetchMax, Fetcher.fetch, NewFetcher, List.length_nil, hc, if_false,
      call_sizeLimited_zero]

theorem DialRespond_Build_room (d : DialRespond) (id : List Nat) (e : Nat) (p : Pusher)
    (hid : id.length = 32) (he : e ≤ 15) (hl : d.RespondLength = d.Respond.length)
    (h : p.i + 45 + d.Respond.length ≤ p.b.length) :
    d.Build id e p = ({ d with ID := id },
      p.app ([DialType * 16 + e] ++ id ++ be64 d.RID ++ be16 d.Total ++ be16 d.RespondLength ++
        d.Respond), Status.ok) := by
  simp only [DialRespond.Build, NewRequestType_ok DialType e (by decide) he]
  rw [pusherPush_first p _ (by simp; omega)]
  simp only
  rw [pusherPush_app p _ _ (by simp [hid]; omega)]
  simp only
  rw [pusherU64_app p _ _ (by simp [hid, be64_length]; omega)]
  simp only
  rw [pusherU16_app p _ _ (by simp [hid, be64_length, be16_length]; omega)]
  simp only
  rw [if_neg (by omega)]
  rw [pusherU16_app p _ _ (by simp [hid, be64_length, be16_length]; omega)]
  simp only
  rw [pusherPush_app p _ _ (by simp [hid, be64_length, be16_length]; omega)]

theorem RetrieveRespond_Build_room (d : RetrieveRespond) (id : List Nat) (e : Nat) (p : Pusher)
    (hid : id.length = 32) (he : e ≤ 15) (hl : d.PayloadLength = d.Payload.length)
    (hr : d.PayloadLength < 2 ^ 16) (h : p.i + 47 + d.Payload.length ≤ p.b.length) :
    d.Build id e p =
      (p.app ([RetrieveType * 16 + e] ++ id ++ be64 d.RID ++ be16 d.Total ++ be16 d.Offset ++
        be16 d.PayloadLength ++ d.Payload), Status.ok) := by
  have hu : u16 d.Payload.length = d.PayloadLength := by simp only [u16]; omega
  simp only [RetrieveRespond.Build, NewRequestType_ok RetrieveType e (by decide) he]
  rw [pusherPush_first p _ (by simp; omega)]
  simp only
  rw [pusherPush_app p _ _ (by simp [hid]; omega)]
  simp only
  rw [pusherU64_app p _ _ (by simp [hid, be64_length]; omega)]
  simp only
  rw [pusherU16_app p _ _ (by simp [hid, be64_length, be16_length]; omega)]
  simp only
  rw [pusherU16_app p _ _ (by simp [hid, be64_length, be16_length]; omega)]
  simp only
  rw [if_neg (by simp only [hu, ne_eq, not_true_eq_false, not_false_eq_true])]
  rw [pusherU16_app p _ _ (by simp [hid, be64_length, be16_length]; omega)]
  simp only
  rw [pusherPush_app p _ _ (by simp [hid, be64_length, be16_length]; omega)]

theorem DialRespond_Parse_scripted (fuel : Nat) (d0 : DialRespond) (r : Fetcher)
    (id : List Nat) (rid total : Nat) (payload tl : List Nat)
    (ops : List FetchOp) (ret : Option Error) (st : List DialRespond × List Nat)
    (hf : 2 ≤ fuel) (h0 : d0.ID.length = 32) (hid : id.length = 32)
    (hrid : rid < 2 ^ 64) (htotal : total < 2 ^ 16) (hlen : payload.length < 2 ^ 16)
    (h : r.Holds (id ++ (be64 rid ++ (be16 total ++ (be16 payload.length ++ (payload ++ tl)))))) :
    ∃ (r' r4 : Fetcher) (k : Nat), r'.Holds tl ∧ r4.Holds (payload ++ tl) ∧
      k ≤ payload.length ∧
      ((NewFetcher (SizeLimitedFetch payload.length r4)).runOps ops).2 = payload.take k ∧
      DialRespond.Parse fuel d0 r (scriptedCallback ops ret) st =
        some ({ ID := id, RID := rid, Total := total, Respond := d0.Respond,
                RespondLength := payload.length }, r',
          (st.1 ++ [{ ID := id, RID := rid, Total := total, Respond := d0.Respond,
                      RespondLength := payload.length }], st.2 ++ payload.take k),
          Status.ofError ret) := by
  obtain ⟨r1, e1, h1, -⟩ := ReadFull_holds fuel r d0.ID id _ h (by omega) (by omega) (by omega)
  obtain ⟨r2, e2, h2, -⟩ := readU64_be r1 rid _ hrid h1
  obtain ⟨r3, e3, h3, -⟩ := readU16_be r2 total _ htotal h2
  obtain ⟨r4, e4, h4, -⟩ := readU16_be r3 payload.length _ hlen h3
  obtain ⟨r', k, hr', hk, ek, e5⟩ := parsePayload_scripted payload tl r4 fuel ops ret
    ({ ID := id, RID := rid, Total := total, Respond := d0.Respond,
       RespondLength := payload.length } : DialRespond) st h4 hf
  refine ⟨r', r4, k, hr', h4, hk, ek, ?_⟩
  simp only [DialRespond.Parse, e1, e2, e3, e4, e5]

theorem RetrieveRespond_Parse_scripted (fuel : Nat) (d0 : RetrieveRespond) (r : Fetcher)
    (id : List Nat) (rid total offset : Nat) (payload tl : List Nat)
    (ops : List FetchOp) (ret : Option Error) (st : List RetrieveRespond × List Nat)
    (hf : 2 ≤ fuel) (h0 : d0.ID.length = 32) (hid : id.length = 32)
    (hrid : rid < 2 ^ 64) (htotal : total < 2 ^ 16) (hoff : offset < 2 ^ 16)
    (hlen : payload.length < 2 ^ 16)
    (h : r.Holds (id ++ (be64 rid ++ (be16 total ++ (be16 offset ++
      (be16 payload.length ++ (payload ++ tl))))))) :
    ∃ (r' r5 : Fetcher) (k : Nat), r'.Holds tl ∧ r5.Holds (payload ++ tl) ∧
      k ≤ payload.length ∧
      ((NewFetcher (SizeLimitedFetch payload.length r5)).runOps ops).2 = payload.take k ∧
      RetrieveRespond.Parse fuel d0 r (scriptedCallback ops ret) st =
        some ({ ID := id, RID := rid, Total := total, Offset := offset, Payload := d0.Payload,
                PayloadLength := payload.length }, r',
          (st.1 ++ [{ ID := id, RID := rid, Total := total, Offset := offset,
                      Payload := d0.Payload, PayloadLength := payload.length }],
            st.2 ++ payload.take k),
          Status.ofError ret) := by
  obtain ⟨r1, e1, h1, -⟩ := ReadFull_holds fuel r d0.ID id _ h (by omega) (by omega) (by omega)
  obtain ⟨r2, e2, h2, -⟩ := readU64_be r1 rid _ hrid h1
  obtain ⟨r3, e3, h3, -⟩ := readU16_be r2 total _ htotal h2
  obtain ⟨r4, e4, h4, -⟩ := readU16_be r3 offset _ hoff h3
  obtain ⟨r5, e5, h5, -⟩ := readU16_be r4 payload.length _ hlen h4
  obtain ⟨r', k, hr', hk, ek, e6⟩ := parsePayload_scripted payload tl r5 fuel ops ret
    ({ ID := id, RID := rid, Total := total, Offset := offset, Payload := d0.Payload,
       PayloadLength := payload.length } : RetrieveRespond) st h5 hf
  refine ⟨r', r5, k, hr', h5, hk, ek, ?_⟩
  simp only [RetrieveRespond.Parse, e1, e2, e3, e4, e5, e6]

/-- C2: `DialRespond` and `RetrieveRespond` survive `Build` then `Parse`. For a
message whose length field equals `len(payload)`, with every field in the range
of its Go type, every 32-byte `id`, every error code `e ≤ 15` and a pusher with
room, `Build` returns `nil`. `Parse` of the built bytes after the header byte,
followed by any bytes `tl`, calls the callback once with a message whose ID,
RID, Total, (Offset) and length field are those built. Whatever calls `ops`
the callback makes on the fetcher it is handed, the bytes it gets are a prefix
`take k` of the payload, never a byte of `tl`, and `Parse` leaves the parent
fetcher at `tl`; a callback that asks for `FetchMax(max)` with
`max ≥ len(payload)`, as the tests do, gets exactly the payload. -/
theorem C2_respond_roundtrip (M d0 : DialRespond) (N n0 : RetrieveRespond) (id : List Nat)
    (e : Nat) (p q : Pusher) (fuel : Nat) (r1 r2 : Fetcher) (tl : List Nat)
    (ops : List FetchOp) (ret : Option Error) (max : Nat)
    (hid : id.length = 32) (he : e ≤ 15)
    (hM : M.RespondLength = M.Respond.length) (hMl : M.RespondLength < 2 ^ 16)
    (hMrid : M.RID < 2 ^ 64) (hMtotal : M.Total < 2 ^ 16)
    (hN : N.PayloadLength = N.Payload.length) (hNl : N.PayloadLength < 2 ^ 16)
    (hNrid : N.RID < 2 ^ 64) (hNtotal : N.Total < 2 ^ 16) (hNoff : N.Offset < 2 ^ 16)
    (hp : p.i + 45 + M.Respond.length ≤ p.b.length)
    (hq : q.i + 47 + N.Payload.length ≤ q.b.length)
    (hf : 2 ≤ fuel) (hd0 : d0.ID.length = 32) (hn0 : n0.ID.length = 32)
    (hmax : M.Respond.length ≤ max ∧ N.Payload.length ≤ max)
    (hr1 : r1.Holds (((M.Build id e p).2.1.Data.drop p.Size).tail ++ tl))
    (hr2 : r2.Holds (((N.Build id e q).1.Data.drop q.Size).tail ++ tl)) :
    ((M.Build id e p).2.2 = Status.ok ∧
      (∃ r' dP k, DialRespond.Parse fuel d0 r1 (scriptedCallback ops ret) ([], [])
          = some (dP, r', ([dP], M.Respond.take k), Status.ofError ret) ∧
        dP.ID = id ∧ dP.RID = M.RID ∧ dP.Total = M.Total ∧
        dP.RespondLength = M.RespondLength ∧ r'.Holds tl) ∧
      (∃ r' dP, DialRespond.Parse fuel d0 r1 (scriptedCallback [FetchOp.FetchMax max] none)
          ([], []) = some (dP, r', ([dP], M.Respond), Status.ok))) ∧
    ((N.Build id e q).2 = Status.ok ∧
      (∃ r' dP k, RetrieveRespond.Parse fuel n0 r2 (scriptedCallback ops ret) ([], [])
          = some (dP, r', ([dP], N.Payload.take k), Status.ofError ret) ∧
        dP.ID = id ∧ dP.RID = N.RID ∧ dP.Total = N.Total ∧ dP.Offset = N.Offset ∧
        dP.PayloadLength = N.PayloadLength ∧ r'.Holds tl) ∧
      (∃ r' dP, RetrieveRespond.Parse fuel n0 r2 (scriptedCallback [FetchOp.FetchMax max] none)
          ([], []) = some (dP, r', ([dP], N.Payload), Status.ok))) := by
  rw [DialRespond_Build_room M id e p hid he hM hp] at hr1 ⊢
  rw [RetrieveRespond_Build_room N id e q hid he hN hNl hq] at hr2 ⊢
  rw [Pusher_Data_app_drop p _ (by simp [hid, be64_length, be16_length]; omega)] at hr1
  rw [Pusher_Data_app_drop q _ (by simp [hid, be64_length, be16_length]; omega)] at hr2
  simp only [List.singleton_append, List.cons_append, List.tail_cons, List.append_assoc, hM, hN]
    at hr1 hr2
  rw [hM] at hMl
  rw [hN] at hNl
  refine ⟨⟨rfl, ?_, ?_⟩, ⟨rfl, ?_, ?_⟩⟩
  · obtain ⟨r', _, k, hr', -, -, -, e1⟩ := DialRespond_Parse_scripted fuel d0 r1 id M.RID M.Total
      M.Respond tl ops ret ([], []) hf hd0 hid hMrid hMtotal hMl hr1
    exact ⟨r', DialRespond.mk id M.RID M.Total d0.Respond M.Respond.length, k,
      by simpa using e1, rfl, rfl, rfl, hM.symm, hr'⟩
  · obtain ⟨r', r4, k, -, h4, -, ek, e1⟩ := DialRespond_Parse_scripted fuel d0 r1 id M.RID
      M.Total M.Respond tl [FetchOp.FetchMax max] none ([], []) hf hd0 hid hMrid hMtotal hMl hr1
    rw [FetchMax_handed_all M.Respond tl r4 max h4 hmax.1] at ek
    rw [← ek] at e1
    exact ⟨r', _, by simpa [Status.ofError] using e1⟩
  · obtain ⟨r', _, k, hr', -, -, -, e1⟩ := RetrieveRespond_Parse_scripted fuel n0 r2 id N.RID
      N.Total N.Offset N.Payload tl ops ret ([], []) hf hn0 hid hNrid hNtotal hNoff hNl hr2
    exact ⟨r', RetrieveRespond.mk id N.RID N.Total N.Offset n0.Payload N.Payload.length, k,
      by simpa using e1, rfl, rfl, rfl, rfl, hN.symm, hr'⟩
  · obtain ⟨r', r5, k, -, h5, -, ek, e1⟩ := RetrieveRespond_Parse_scripted fuel n0 r2 id N.RID
      N.Total N.Offset N.Payload tl [FetchOp.FetchMax max] none ([], []) hf hn0 hid hNrid hNtotal
      hNoff hNl hr2
    rw [FetchMax_handed_all N.Payload tl r5 max h5 hmax.2] at ek
    rw [← ek] at e1
    exact ⟨r', _, by simpa [Status.ofError] using e1⟩

/-- C2 at the values of `TestDialRespond` and `TestRetrieveRespond`, each
parsed from the built bytes followed by `"Data"`: a callback that asks for 5
bytes and then for at most 3 gets the first 8 bytes of the payload or fewer,
and the callback of the tests, `FetchMax(MaxFetchSize)`, gets the payload. -/
theorem C2_respond_roundtrip_witness :
    ((∃ r' dP k, DialRespond.Parse 2 DialRespond.zero
          (newReadSource ((((testDialRespond.Build testID 0 testPusher).2.1.Data.drop
            testPusher.Size).tail) ++ [68, 97, 116, 97]))
          (scriptedCallback [FetchOp.Fetch 5, FetchOp.FetchMax 3] none) ([], [])
          = some (dP, r', ([dP], testDialRespond.Respond.take k), Status.ofError none) ∧
        dP.ID = testID ∧ dP.RID = 10 ∧ dP.Total = 15 ∧ dP.RespondLength = 15 ∧
        r'.Holds [68, 97, 116, 97]) ∧
      (∃ r' dP, DialRespond.Parse 2 DialRespond.zero
          (newReadSource ((((testDialRespond.Build testID 0 testPusher).2.1.Data.drop
            testPusher.Size).tail) ++ [68, 97, 116, 97]))
          (scriptedCallback [FetchOp.FetchMax MaxFetchSize] none) ([], [])
          = some (dP, r',
              ([dP], [84, 101, 115, 116, 49, 84, 101, 115, 116, 50, 84, 101, 115, 116, 51]),
              Status.ok))) ∧
    ((∃ r' dP k, RetrieveRespond.Parse 2 RetrieveRespond.zero
          (newReadSource ((((testRetrieveRespond.Build testID 0 testPusher).1.Data.drop
            testPusher.Size).tail) ++ [68, 97, 116, 97]))
          (scriptedCallback [FetchOp.Fetch 5, FetchOp.FetchMax 3] none) ([], [])
          = some (dP, r', ([dP], testRetrieveRespond.Payload.take k), Status.ofError none) ∧
        dP.ID = testID ∧ dP.RID = 991029291932123 ∧ dP.Total = 30 ∧ dP.Offset = 5 ∧
        dP.PayloadLength = 25 ∧ r'.Holds [68, 97, 116, 97]) ∧
      (∃ r' dP, RetrieveRespond.Parse 2 RetrieveRespond.zero
          (newReadSource ((((testRetrieveRespond.Build testID 0 testPusher).1.Data.drop
            testPusher.Size).tail) ++ [68, 97, 116, 97]))
          (scriptedCallback [FetchOp.FetchMax MaxFetchSize] none) ([], [])
          = some (dP, r', ([dP], testRetrieveRespond.Payload), Status.ok))) := by
  have h := C2_respond_roundtrip testDialRespond DialRespond.zero testRetrieveRespond
    RetrieveRespond.zero testID 0 testPusher testPusher 2
    (newReadSource ((((testDialRespond.Build testID 0 testPusher).2.1.Data.drop
      testPusher.Size).tail) ++ [68, 97, 116, 97]))
    (newReadSource ((((testRetrieveRespond.Build testID 0 testPusher).1.Data.drop
      testPusher.Size).tail) ++ [68, 97, 116, 97]))
    [68, 97, 116, 97] [FetchOp.Fetch 5, FetchOp.FetchMax 3] none MaxFetchSize
    (by decide) (by decide) (by decide) (by decide) (by decide) (by decide) (by decide)
    (by decide) (by decide) (by decide) (by decide) (by decide) (by decide) (by decide)
    (by decide) (by decide) (by decide) (Or.inr ⟨rfl, rfl, rfl⟩) (Or.inr ⟨rfl, rfl, rfl⟩)
  exact ⟨⟨h.1.2.1, h.1.2.2⟩, ⟨h.2.2.1, h.2.2.2⟩⟩

/-! ## A fetcher over `ByteFetch` -/

theorem Fetch_new_byteFetch (xs rest : List Nat) (e : Error) (h0 : 0 < xs.length) :
    ∃ r1, (NewFetcher (ByteFetch (xs ++ rest) e)).Fetch xs.length = (r1, xs, none) ∧
      r1.Fetched rest e := by
  have hc : ¬ (((0 : Nat) : Int) - ((0 : Nat) : Int) ≥ ((xs.length : Nat) : Int)) := by omega
  refine ⟨Fetcher.mk (Fetch.byteFetch (xs ++ rest) e true) (xs ++ rest) (0 + xs.length)
    (0 + xs.length), ?_, ?_⟩
  · simp only [Fetcher.Fetch, Nat.ne_of_gt h0, if_false, Fetcher.fetch, NewFetcher, ByteFetch,
      List.length_nil, hc, Fetch.call, Bool.false_eq_true, ne_eq, not_true_eq_false,
      List.length_append, show ¬ (xs.length + rest.length < xs.length) by omega,
      List.take_left]
  · refine ⟨by simp, by simp, ?_⟩
    simp only

theorem Fetch_fetched (r : Fetcher) (xs rest : List Nat) (e : Error)
    (h : r.Fetched (xs ++ rest) e) :
    ∃ r1, r.Fetch xs.length = (r1, xs, none) ∧ r1.Fetched rest e := by
  obtain ⟨hu, hs, hf⟩ := h
  obtain ⟨r1, e1, hh, -⟩ := Fetcher_Fetch_holds r xs rest (Or.inl ⟨hu, hs⟩)
  refine ⟨r1, e1, ?_⟩
  by_cases h0 : xs.length = 0
  · have hx : xs = [] := List.length_eq_zero.mp h0
    subst hx
    simp only [Fetcher.Fetch, List.length_nil, if_true, Prod.mk.injEq, and_true] at e1
    subst e1
    exact ⟨hu, by simpa using hs, hf⟩
  · have hl : (xs ++ rest).length = r.s.length - r.used := by rw [← hs, List.length_drop]
    simp only [List.length_append] at hl
    have hc : (r.s.length : Int) - (r.used : Int) ≥ (xs.length : Int) := by omega
    simp only [Fetcher.Fetch, h0, if_false, Fetcher.fetch, hc, if_true, hs, List.length_append,
      show ¬ (xs.length + rest.length < xs.length) by omega, List.take_left,
      Prod.mk.injEq, and_true] at e1
    subst e1
    refine ⟨by simp only; omega, ?_, hf⟩
    simp only
    rw [← List.drop_drop, hs, List.drop_left]

theorem Fetch_fetched_short (r : Fetcher) (rest : List Nat) (e : Error) (n : Nat)
    (h : r.Fetched rest e) (hn : rest.length < n) :
    r.Fetch n = (r, [], some e) := by
  obtain ⟨hu, hs, hf⟩ := h
  have hl : rest.length = r.s.length - r.used := by rw [← hs, List.length_drop]
  have hc : ¬ ((r.s.length : Int) - (r.used : Int) ≥ (n : Int)) := by omega
  obtain ⟨f, s, used, read⟩ := r
  cases f with
  | byteFetch b e1 fetched =>
    cases fetched with
    | false => simp at hf
    | true =>
      simp only at hf
      subst hf
      simp only [Fetcher.Fetch, show n ≠ 0 by omega, if_false, Fetcher.fetch, hc, Fetch.call,
        if_true]
  | constFetch b => simp at hf
  | sizeLimited _ _ _ _ _ => simp at hf

/-! ## Encrypt and Decrypt -/

open cipher

theorem set_append_length (xs : List Nat) (v y : Nat) (ys : List Nat) :
    (xs ++ y :: ys).set xs.length v = xs ++ v :: ys := by
  induction xs with
  | nil => rfl
  | cons x xs ih => simp only [List.cons_append, List.length_cons, List.set_cons_succ, ih]

theorem writeAt_middle (xs ys zs src : List Nat) (h : ys.length = src.length) :
    writeAt (xs ++ (ys ++ zs)) xs.length src = xs ++ (src ++ zs) := by
  simp only [writeAt, List.take_left, List.append_assoc, List.append_cancel_left_eq]
  rw [← h, ← List.length_append, ← List.append_assoc, List.drop_left]

/-- A buffer of at least 46 bytes, cut at 12, 14, 30 and 16 before its end. -/
theorem buffer_parts (b : List Nat) (h : 46 ≤ b.length) :
    ∃ (a m tg : List Nat) (x y : Nat),
      b = a ++ ([x, y] ++ (m ++ ((b.drop 30).take (b.length - 46) ++ tg))) ∧
      a.length = 12 ∧ m.length = 16 ∧ tg.length = 16 := by
  have h2 : ((b.drop 12).take 2).length = 2 := by
    simp only [List.length_take, List.length_drop]; omega
  obtain ⟨x, y, hxy⟩ := List.length_eq_two.mp h2
  refine ⟨b.take 12, (b.drop 14).take 16, b.drop (b.length - 16), x, y, ?_, ?_, ?_, ?_⟩
  · rw [← hxy]
    have e1 : b.drop (b.length - 16) = (b.drop 30).drop (b.length - 46) := by
      rw [List.drop_drop]; congr 1; omega
    have e2 : b.drop 30 = (b.drop 14).drop 16 := by rw [List.drop_drop]
    have e3 : b.drop 14 = (b.drop 12).drop 2 := by rw [List.drop_drop]
    rw [e1, List.take_append_drop, e2, List.take_append_drop, e3, List.take_append_drop,
      List.take_append_drop]
  · simp only [List.length_take]; omega
  · simp only [List.length_take, List.length_drop]; omega
  · simp only [List.length_drop]; omega

theorem Encrypt_parts (gcm : AEAD) (nonce a m pt tg : List Nat) (x y : Nat) (hg : gcm.IsGCM)
    (hn : nonce.length = 12) (ha : a.length = 12) (hm : m.length = 16) (htg : tg.length = 16)
    (h2 : 46 + pt.length ≤ 65535) :
    Encrypt gcm nonce (a ++ ([x, y] ++ (m ++ (pt ++ tg)))) = Except.ok (nonce ++
      (gcm.Seal nonce [u8 (pt.length >>> 8), u8 pt.length] ++
        gcm.Seal (nonceNext nonce) pt)) := by
  obtain ⟨hns, hlen, -⟩ := hg
  have hs1 := hlen nonce [u8 (pt.length >>> 8), u8 pt.length]
  have hs2 := hlen (nonceNext nonce) pt
  simp only [List.length_cons, List.length_nil] at hs1
  have hbl : (a ++ ([x, y] ++ (m ++ (pt ++ tg)))).length = 46 + pt.length := by
    simp only [List.length_append, List.length_cons, List.length_nil, ha, hm, htg]; omega
  have s1 : writeAt (a ++ ([x, y] ++ (m ++ (pt ++ tg)))) 0 nonce
      = nonce ++ ([x, y] ++ (m ++ (pt ++ tg))) := by
    have := writeAt_middle [] a ([x, y] ++ (m ++ (pt ++ tg))) nonce (by omega)
    simpa using this
  have hmin : min (a ++ ([x, y] ++ (m ++ (pt ++ tg)))).length nonce.length = nonce.length := by
    rw [hbl, hn]
    omega
  have hL : (nonce ++ ([x, y] ++ (m ++ (pt ++ tg)))).length - OverheadSize = pt.length := by
    simp only [List.length_append, List.length_cons, List.length_nil, hn, hm, htg, OverheadSize,
      cipher.HeaderSize, NonceSize, BlockSize]
    omega
  have s2 : ((nonce ++ ([x, y] ++ (m ++ (pt ++ tg)))).set nonce.length
        (u8 (pt.length >>> 8))).set (nonce.length + 1) (u8 pt.length)
      = nonce ++ ([u8 (pt.length >>> 8), u8 pt.length] ++ (m ++ (pt ++ tg))) := by
    have e1 := set_append_length nonce (u8 (pt.length >>> 8)) x (y :: (m ++ (pt ++ tg)))
    have e2 := set_append_length (nonce ++ [u8 (pt.length >>> 8)]) (u8 pt.length) y
      (m ++ (pt ++ tg))
    simp only [List.append_assoc, List.singleton_append, List.length_append,
      List.length_singleton, List.cons_append, List.nil_append] at e1 e2 ⊢
    rw [e1, e2]
  have d1 : List.take 2 (List.drop nonce.length
      (nonce ++ ([u8 (pt.length >>> 8), u8 pt.length] ++ (m ++ (pt ++ tg)))))
      = [u8 (pt.length >>> 8), u8 pt.length] := by
    rw [List.drop_left]
    rfl
  have s3 : appendAt (nonce ++ ([u8 (pt.length >>> 8), u8 pt.length] ++ (m ++ (pt ++ tg))))
        nonce.length (gcm.Seal nonce [u8 (pt.length >>> 8), u8 pt.length])
      = nonce ++ (gcm.Seal nonce [u8 (pt.length >>> 8), u8 pt.length] ++ (pt ++ tg)) := by
    have e := writeAt_middle nonce ([u8 (pt.length >>> 8), u8 pt.length] ++ m) (pt ++ tg)
      (gcm.Seal nonce [u8 (pt.length >>> 8), u8 pt.length])
      (by simp only [List.length_append, List.length_cons, List.length_nil, hm, hs1])
    simp only [List.append_assoc] at e
    unfold appendAt
    rw [if_pos (by
      simp only [List.length_append, List.length_cons, List.length_nil, hs1, hn, hm, htg]
      omega), e]
  have d2 : List.take pt.length (List.drop
      ((gcm.Seal nonce [u8 (pt.length >>> 8), u8 pt.length]).length + nonce.length)
      (nonce ++ (gcm.Seal nonce [u8 (pt.length >>> 8), u8 pt.length] ++ (pt ++ tg)))) = pt := by
    rw [Nat.add_comm, ← List.length_append, ← List.append_assoc, List.drop_left, List.take_left]
  have s4 : appendAt
        (nonce ++ (gcm.Seal nonce [u8 (pt.length >>> 8), u8 pt.length] ++ (pt ++ tg)))
        ((gcm.Seal nonce [u8 (pt.length >>> 8), u8 pt.length]).length + nonce.length)
        (gcm.Seal (nonceNext nonce) pt)
      = nonce ++ (gcm.Seal nonce [u8 (pt.length >>> 8), u8 pt.length] ++
          gcm.Seal (nonceNext nonce) pt) := by
    have e := writeAt_middle (nonce ++ gcm.Seal nonce [u8 (pt.length >>> 8), u8 pt.length])
      (pt ++ tg) [] (gcm.Seal (nonceNext nonce) pt)
      (by simp only [List.length_append, htg, hs2])
    simp only [List.append_assoc, List.append_nil, List.length_append] at e
    unfold appendAt
    rw [if_pos (by
      simp only [List.length_append, hs1, hs2, hn, htg]
      omega), Nat.add_comm, e]
  unfold Encrypt
  rw [if_neg (by simp [hns, NonceSize]),
    if_neg (by rw [hbl]; simp [OverheadSize, cipher.HeaderSize, NonceSize, BlockSize]),
    if_neg (by omega)]
  simp only []
  rw [hmin, List.take_length, s1, hL, s2, d1, s3, d2, s4]
  rw [if_neg (by simp [hs1, hn, cipher.HeaderSize, NonceSize, BlockSize]),
    if_neg (by simp only [hs2, BlockSize, ne_eq, not_not]; omega),
    if_neg (by
      simp only [List.length_append, hs1, hs2, hn, ne_eq, not_not]
      omega)]

theorem Encrypt_eq (gcm : AEAD) (nonce b : List Nat) (hg : gcm.IsGCM)
    (hn : nonce.length = 12) (h1 : 46 ≤ b.length) (h2 : b.length ≤ 65535) :
    Encrypt gcm nonce b = Except.ok (nonce ++
      (gcm.Seal nonce [u8 ((b.length - 46) >>> 8), u8 (b.length - 46)] ++
        gcm.Seal (nonceNext nonce) ((b.drop 30).take (b.length - 46)))) := by
  obtain ⟨a, m, tg, x, y, hb, ha, hm, htg⟩ := buffer_parts b h1
  have hptl : ((b.drop 30).take (b.length - 46)).length = b.length - 46 := by
    simp only [List.length_take, List.length_drop]; omega
  have key := Encrypt_parts gcm nonce a m ((b.drop 30).take (b.length - 46)) tg x y hg hn ha hm
    htg (by rw [hptl]; omega)
  rw [← hb, hptl] at key
  exact key

/-- One well-formed segment at the head of a `ByteFetch` fetcher: `Decrypt`
opens it, hands its plaintext to the callback and goes on with the bytes
that follow, unless the callback returns an error. -/
theorem Decrypt_segment {σ : Type} (gcm : AEAD) (nonce pt rest : List Nat) (t : Time)
    (eoferr e : Error) (c : List Nat → σ → σ × Option Error) (st : σ) (fuel : Nat)
    (f : Fetcher) (hg : gcm.IsGCM) (hn : nonce.length = 12) (hpt : pt.length < 2 ^ 16)
    (hf : f = NewFetcher (ByteFetch (nonce ++ gcm.Seal nonce [u8 (pt.length >>> 8), u8 pt.length]
      ++ (gcm.Seal (nonceNext nonce) pt ++ rest)) e) ∨
      f.Fetched (nonce ++ gcm.Seal nonce [u8 (pt.length >>> 8), u8 pt.length]
      ++ (gcm.Seal (nonceNext nonce) pt ++ rest)) e) :
    ∃ f2 : Fetcher, f2.Fetched rest e ∧
      Decrypt t (constAEAD gcm) nvTrue eoferr c (fuel + 1) f st =
        match c pt st with
        | (st1, some err) => some (f2, st1, some err)
        | (st1, none) => Decrypt t (constAEAD gcm) nvTrue eoferr c fuel f2 st1 := by
  obtain ⟨-, hlen, hopen⟩ := hg
  have hs1 := hlen nonce [u8 (pt.length >>> 8), u8 pt.length]
  have hs2 := hlen (nonceNext nonce) pt
  simp only [List.length_cons, List.length_nil] at hs1
  have hhl : (nonce ++ gcm.Seal nonce [u8 (pt.length >>> 8), u8 pt.length]).length
      = cipher.HeaderSize := by
    simp only [List.length_append, hn, hs1, cipher.HeaderSize, NonceSize, BlockSize]
  have hfetch1 : ∃ f1 : Fetcher, f.Fetch cipher.HeaderSize
      = (f1, nonce ++ gcm.Seal nonce [u8 (pt.length >>> 8), u8 pt.length], none) ∧
      f1.Fetched (gcm.Seal (nonceNext nonce) pt ++ rest) e := by
    rw [← hhl]
    rcases hf with rfl | hf
    · exact Fetch_new_byteFetch _ _ e (by rw [hhl]; decide)
    · exact Fetch_fetched f _ _ e hf
  obtain ⟨f1, e1, hf1⟩ := hfetch1
  obtain ⟨f2, e2, hf2⟩ := Fetch_fetched f1 _ rest e hf1
  refine ⟨f2, hf2, ?_⟩
  have hsize : BlockSize + (u16 (u16 (u8 (pt.length >>> 8)) <<< 8) ||| u16 (u8 pt.length))
      = (gcm.Seal (nonceNext nonce) pt).length := by
    rw [u16_bytes pt.length hpt, hs2, BlockSize, Nat.add_comm]
  have hnonce : List.take NonceSize
      (nonce ++ gcm.Seal nonce [u8 (pt.length >>> 8), u8 pt.length]) = nonce := by
    rw [show NonceSize = nonce.length from hn.symm, List.take_left]
  have hbody : List.take (cipher.HeaderSize - nonce.length) (List.drop nonce.length
      (nonce ++ gcm.Seal nonce [u8 (pt.length >>> 8), u8 pt.length]))
      = gcm.Seal nonce [u8 (pt.length >>> 8), u8 pt.length] := by
    rw [List.drop_left, List.take_of_length_le]
    simp only [hs1, hn, cipher.HeaderSize, NonceSize, BlockSize]
    omega
  rw [Decrypt]
  simp only [e1, hnonce, nvTrue, constAEAD, hbody, hopen, List.length_cons, List.length_nil,
    ne_eq, not_true_eq_false, if_false, List.getD_cons_zero, List.getD_cons_succ, hsize, e2,
    Nat.reduceAdd]

/-- At the end of its input `Decrypt` returns `nil`. -/
theorem Decrypt_end {σ : Type} (gcm : σ → σ × Except Error AEAD)
    (nv : List Nat → Time → σ → σ × Bool) (t : Time) (e : Error)
    (c : List Nat → σ → σ × Option Error) (st : σ) (fuel : Nat) (f : Fetcher)
    (hf : f.Fetched [] e) :
    Decrypt t gcm nv e c (fuel + 1) f st = some (f, st, none) := by
  rw [Decrypt, Fetch_fetched_short f [] e cipher.HeaderSize hf (by decide)]
  simp only [if_true]

/-- C6: `Encrypt` followed by `Decrypt` is the identity on the plaintext
region. For every AEAD that keeps the contract of AES-GCM, every 12-byte
nonce and every buffer `b` with `46 ≤ len(b) ≤ 65535`, `Encrypt` returns a
buffer of the same length, and `Decrypt` over it, with the same AEAD and the
always-true nonce verifier, calls the callback once, with the bytes
`b[30 : len(b)-16]` as they were before encryption, and returns what the
callback returns (`nil` for a callback that returns `nil`). -/
theorem C6_encrypt_decrypt_roundtrip {σ : Type} (gcm : AEAD) (nonce b : List Nat) (t : Time)
    (eoferr : Error) (c : List Nat → σ → σ × Option Error) (st : σ) (fuel : Nat)
    (hg : gcm.IsGCM) (hn : nonce.length = 12) (h1 : 46 ≤ b.length) (h2 : b.length ≤ 65535)
    (hf : 2 ≤ fuel) :
    ∃ ee, Encrypt gcm nonce b = Except.ok ee ∧ ee.length = b.length ∧
      ∃ f', Decrypt t (constAEAD gcm) nvTrue eoferr c fuel (NewFetcher (ByteFetch ee eoferr)) st
        = some (f', (c ((b.drop 30).take (b.length - 46)) st).1,
            (c ((b.drop 30).take (b.length - 46)) st).2) := by
  have hptl : ((b.drop 30).take (b.length - 46)).length = b.length - 46 := by
    simp only [List.length_take, List.length_drop]; omega
  refine ⟨_, Encrypt_eq gcm nonce b hg hn h1 h2, ?_, ?_⟩
  · simp only [List.length_append, hn, hg.2.1, List.length_cons, List.length_nil, hptl]
    omega
  · obtain ⟨n, rfl⟩ : ∃ n, fuel = n + 1 + 1 := ⟨fuel - 2, by omega⟩
    obtain ⟨f2, hf2, e2⟩ := Decrypt_segment gcm nonce ((b.drop 30).take (b.length - 46)) [] t
      eoferr eoferr c st (n + 1) (NewFetcher (ByteFetch (nonce ++
        (gcm.Seal nonce [u8 ((b.length - 46) >>> 8), u8 (b.length - 46)] ++
          gcm.Seal (nonceNext nonce) ((b.drop 30).take (b.length - 46)))) eoferr)) hg hn
      (by rw [hptl]; omega)
      (Or.inl (by simp only [hptl, List.append_assoc, List.append_nil]))
    refine ⟨f2, ?_⟩
    rw [e2]
    rcases hc : c ((b.drop 30).take (b.length - 46)) st with ⟨st1, _ | err⟩
    · simp only [Decrypt_end _ _ t eoferr c st1 n f2 hf2]
    · simp only

theorem toyTag_length (nonce : List Nat) : (toyTag nonce).length = 16 := by
  simp only [toyTag, List.length_take, List.length_append, List.length_replicate]
  omega

/-- The example AEAD keeps the contract of AES-GCM that `Encrypt` and
`Decrypt` rely on. -/
theorem toyAEAD_isGCM : toyAEAD.IsGCM := by
  refine ⟨rfl, ?_, ?_⟩
  · intro nonce plaintext
    simp only [toyAEAD, List.length_append, toyTag_length]
  · intro nonce plaintext
    have h1 : (plaintext ++ toyTag nonce).length - 16 = plaintext.length := by
      simp only [List.length_append, toyTag_length]; omega
    simp only [toyAEAD]
    rw [h1, List.drop_left, List.take_left, if_pos]
    exact ⟨by simp only [List.length_append, toyTag_length]; omega, rfl⟩

/-- C6 at the buffer of `TestEncrypt` (30 spaces, `ABC`, 16 spaces), with the
example AEAD: the callback is called once, with `ABC`. -/
theorem C6_encrypt_decrypt_roundtrip_witness :
    ∃ ee, Encrypt toyAEAD testNonce testBuffer = Except.ok ee ∧ ee.length = 49 ∧
      ∃ f', Decrypt Time.zero (constAEAD toyAEAD) nvTrue Error.EOF record 2
          (NewFetcher (ByteFetch ee Error.EOF)) []
        = some (f', [[65, 66, 67]], none) :=
  C6_encrypt_decrypt_roundtrip toyAEAD testNonce testBuffer Time.zero Error.EOF record [] 2
    toyAEAD_isGCM (by decide) (by decide) (by decide) (by decide)

/-! ## The nonce cache -/

/-- `Verify` never assigns the epoch `n.t`: a call with another epoch than
the stored one empties the records, returns `true` and leaves `n.t` as it
was. -/
theorem Verify_other_epoch (n : Nonces) (nonce : List Nat) (t : Time) (h : n.t ≠ t) :
    (n.Verify nonce t).2 = true ∧ (n.Verify nonce t).1.t = n.t ∧
      (n.Verify nonce t).1.records = [nonce] := by
  simp [Nonces.Verify, h, Nonces.clear]

/-- With the epoch `Time{}` the cache stores at creation, a nonce is accepted
once. -/
theorem Verify_stored_epoch (n : Nonces) (nonce : List Nat) :
    (n.Verify nonce n.t).2 = !decide (nonce ∈ n.records) := by
  by_cases h : nonce ∈ n.records <;> simp [Nonces.Verify, h]

/-- C7, the code at the failing input: in a cache made by `NewNonces`, the same
nonce verified twice under the same key-epoch `testTime` is accepted twice
(the claim has `true`, then `false`), and so is any replay under any epoch
other than `Time{}`. -/
theorem C7_replay_is_accepted :
    (NewNonces 8).verifyAll [(testNonce, testTime), (testNonce, testTime)] = [true, true] ∧
    ∀ (nonce : List Nat) (t : Time), t ≠ Time.zero →
      (NewNonces 8).verifyAll [(nonce, t), (nonce, t)] = [true, true] := by
  refine ⟨by decide, ?_⟩
  intro nonce t ht
  have h0 : (NewNonces 8).t ≠ t := fun h => ht h.symm
  obtain ⟨h1, h2, -⟩ := Verify_other_epoch (NewNonces 8) nonce t h0
  obtain ⟨h3, -, -⟩ := Verify_other_epoch ((NewNonces 8).Verify nonce t).1 nonce t
    (by rw [h2]; exact h0)
  simp only [Nonces.verifyAll, h1, h3]

/-! ## A segment cut short -/

/-- C8, as the code has it: when a segment's header opens to a length `L` and
fewer than `L + 16` bytes follow the 30-byte header, `Decrypt` on a `ByteFetch`
source returns the error of the failed body `Fetch`, which is the all-fetched
error `e` the source was built with, and does not call the callback for that
segment: the state is the one the nonce verifier and `gcm` left, whatever the
callback `c` is. -/
theorem C8_short_body_returns_fetch_error {σ : Type} (t : Time)
    (gcm : σ → σ × Except Error AEAD) (nv : List Nat → Time → σ → σ × Bool)
    (eoferr e : Error) (c : List Nat → σ → σ × Option Error) (st st1 st2 : σ) (fuel : Nat)
    (f : Fetcher) (d rest : List Nat) (gg : AEAD) (o : List Nat)
    (hd : d.length = 30)
    (hf : f = NewFetcher (ByteFetch (d ++ rest) e) ∨ f.Fetched (d ++ rest) e)
    (hnv : nv (d.take 12) t st = (st1, true)) (hgcm : gcm st1 = (st2, Except.ok gg))
    (hopen : gg.Open (d.take 12) (d.drop 12) = Except.ok o) (ho : o.length = 2)
    (hshort : rest.length < 16 + (u16 (u16 (o.getD 0 0) <<< 8) ||| u16 (o.getD 1 0))) :
    ∃ f', Decrypt t gcm nv eoferr c (fuel + 1) f st = some (f', st2, some e) := by
  have hfetch1 : ∃ f1 : Fetcher, f.Fetch cipher.HeaderSize = (f1, d, none) ∧
      f1.Fetched rest e := by
    rw [show cipher.HeaderSize = d.length from hd.symm]
    rcases hf with rfl | hf
    · exact Fetch_new_byteFetch _ _ e (by omega)
    · exact Fetch_fetched f _ _ e hf
  obtain ⟨f1, e1, hf1⟩ := hfetch1
  have e2 := Fetch_fetched_short f1 rest e
    (BlockSize + (u16 (u16 (o.getD 0 0) <<< 8) ||| u16 (o.getD 1 0))) hf1
    (by simpa only [BlockSize] using hshort)
  have hl : (List.take NonceSize d).length = 12 := by
    simp only [List.length_take, hd, NonceSize]; decide
  have hbody : List.take (cipher.HeaderSize - 12) (List.drop 12 d) = List.drop 12 d := by
    rw [List.take_of_length_le]
    simp only [List.length_drop, hd, cipher.HeaderSize, NonceSize, BlockSize]
    decide
  refine ⟨f1, ?_⟩
  rw [Decrypt]
  simp only [e1, hl]
  rw [show List.take NonceSize d = List.take 12 d from rfl, hnv]
  simp only [hgcm, hbody, hopen, ho, ne_eq, not_true_eq_false, if_false, e2]

/-- C8 is false as stated: on the encrypted test buffer without its last
byte, whose header opens to the length 3 and whose body has 18 bytes where 19
are due, `Decrypt` returns the all-fetched error of its source, here
`errHTTPSubmitEOF` as in the server's handler, and not `ErrInvalidSize`. -/
theorem C8_short_body_not_ErrInvalidSize :
    (Decrypt testTime (constAEAD toyAEAD) nvTrue Error.errHTTPSubmitEOF record 2
        (NewFetcher (ByteFetch truncatedSegment Error.errHTTPSubmitEOF)) []).map
      (fun r => r.2) = some ([], some Error.errHTTPSubmitEOF) ∧
    some Error.errHTTPSubmitEOF ≠ some Error.ErrInvalidSize := by
  decide

/-- C8 as amended, at the truncated test segment. -/
theorem C8_short_body_returns_fetch_error_witness :
    ∃ f', Decrypt testTime (constAEAD toyAEAD) nvTrue Error.errHTTPSubmitEOF record 2
        (NewFetcher (ByteFetch (truncatedSegment.take 30 ++ truncatedSegment.drop 30)
          Error.errHTTPSubmitEOF)) []
      = some (f', [], some Error.errHTTPSubmitEOF) :=
  C8_short_body_returns_fetch_error testTime (constAEAD toyAEAD) nvTrue Error.errHTTPSubmitEOF
    Error.errHTTPSubmitEOF record [] [] [] 1
    (NewFetcher (ByteFetch (truncatedSegment.take 30 ++ truncatedSegment.drop 30)
      Error.errHTTPSubmitEOF))
    (truncatedSegment.take 30) (truncatedSegment.drop 30) toyAEAD [0, 3]
    (by decide) (Or.inl rfl) rfl rfl rfl (by decide) (by decide)

/-! ## Retrievers: requests -/

open session

theorem ResumeRequest_Build_room (d : ResumeRequest) (id : List Nat) (p : Pusher)
    (hid : id.length = 32) (h : p.i + 41 ≤ p.b.length) :
    d.Build id p = ({ d with ID := id },
      p.app ([ResumeType * 16 + 0] ++ id ++ be64 d.RID), Status.ok) := by
  simp only [ResumeRequest.Build, NewRequestType_ok ResumeType 0 (by decide) (by decide)]
  rw [pusherPush_first p _ (by simp; omega)]
  simp only
  rw [pusherPush_app p _ _ (by simp [hid]; omega)]
  simp only
  rw [pusherU64_app p _ _ (by simp [hid, be64_length]; omega)]

theorem deref_store_same (w : Retrievers) (s : Nat) (v : retriever) (h : s < w.heap.length) :
    (w.store s v).deref s = v := by
  simp only [Retrievers.deref, Retrievers.store, List.getD_eq_getElem?_getD,
    List.getElem?_set_self h, Option.getD_some]

theorem deref_store_other (w : Retrievers) (s s' : Nat) (v : retriever) (h : s' ≠ s) :
    (w.store s v).deref s' = w.deref s' := by
  simp only [Retrievers.deref, Retrievers.store, List.getD_eq_getElem?_getD]
  rw [List.getElem?_set_ne (Ne.symm h)]

/-- C9: `Retrievers.Retrieve` chooses the message from the retriever's own
state. For an ID registered in the table, with no retrieve pending and a pusher
with room, it returns `nil` and a cancel closure, calls no callback, and
writes, after what the pusher held, a `RetrieveRequest` carrying the
retriever's `rid` and `roffset` when `roffset < rtotal`, and a `ResumeRequest`
carrying the retriever's `rid` when `roffset ≥ rtotal`. In both cases the
callback is stored in the retrieve slot of that retriever, and no other field
of it, no other retriever and nothing else of the table changes. -/
theorem C9_retrieve_own_state (r : Retrievers) (id : List Nat) (p : Pusher) (c s : Nat)
    (hid : id.length = 32) (hfind : r.find id = some s) (hs : s < r.heap.length)
    (hidle : (r.deref s).rcb = none) (hroom : p.i + 43 ≤ p.b.length) :
    (r.Retrieve id p c).err = none ∧ (r.Retrieve id p c).events = [] ∧
    (r.Retrieve id p c).cancel = some (RetrieverCancel.rcb s) ∧
    ((r.deref s).roffset < (r.deref s).rtotal →
      (r.Retrieve id p c).p
          = (RetrieveRequest.Build ⟨id, (r.deref s).rid, (r.deref s).roffset⟩ id p).2.1 ∧
        (r.Retrieve id p c).p.Data = p.Data ++ ([RetrieveType * 16] ++ id ++
          be64 (r.deref s).rid ++ be16 (r.deref s).roffset)) ∧
    ((r.deref s).roffset ≥ (r.deref s).rtotal →
      (r.Retrieve id p c).p = (ResumeRequest.Build ⟨id, (r.deref s).rid⟩ id p).2.1 ∧
        (r.Retrieve id p c).p.Data = p.Data ++ ([ResumeType * 16] ++ id ++
          be64 (r.deref s).rid)) ∧
    (r.Retrieve id p c).w.capacity = r.capacity ∧
    (r.Retrieve id p c).w.sessions = r.sessions ∧
    (r.Retrieve id p c).w.deref s = { r.deref s with rcb := some c } ∧
    (∀ s', s' ≠ s → (r.Retrieve id p c).w.deref s' = r.deref s') ∧
    (r.Retrieve id p c).w.heap.length = r.heap.length := by
  have hb1 := RetrieveRequest_Build_room ⟨id, (r.deref s).rid, (r.deref s).roffset⟩ id p hid hroom
  have hb2 := ResumeRequest_Build_room ⟨id, (r.deref s).rid⟩ id p hid (by omega)
  by_cases hlt : (r.deref s).roffset ≥ (r.deref s).rtotal
  · have hR : r.Retrieve id p c =
        { w := r.store s { r.deref s with rcb := some c },
          p := p.app ([ResumeType * 16 + 0] ++ id ++ be64 (r.deref s).rid), events := [],
          cancel := some (RetrieverCancel.rcb s), err := none } := by
      simp only [Retrievers.Retrieve, hfind, hidle, ne_eq, not_true_eq_false, if_false, hlt,
        if_true, hb2, builtError]
    rw [hR]
    refine ⟨rfl, rfl, rfl, fun h => absurd h (by omega), fun _ => ⟨by rw [hb2], ?_⟩, rfl, rfl,
      deref_store_same r s _ hs, fun s' h => deref_store_other r s s' _ h, ?_⟩
    · simp only
      rw [Pusher_Data_app p _ (by simp [hid, be64_length]; omega)]
      rfl
    · simp only [Retrievers.store, List.length_set]
  · have hR : r.Retrieve id p c =
        { w := r.store s { r.deref s with rcb := some c },
          p := p.app ([RetrieveType * 16 + 0] ++ id ++ be64 (r.deref s).rid ++
            be16 (r.deref s).roffset), events := [],
          cancel := some (RetrieverCancel.rcb s), err := none } := by
      simp only [Retrievers.Retrieve, hfind, hidle, ne_eq, not_true_eq_false, if_false, hlt,
        hb1, builtError]
    rw [hR]
    refine ⟨rfl, rfl, rfl, fun _ => ⟨by rw [hb1], ?_⟩, fun h => absurd h hlt, rfl, rfl,
      deref_store_same r s _ hs, fun s' h => deref_store_other r s s' _ h, ?_⟩
    · simp only
      rw [Pusher_Data_app p _ (by simp [hid, be64_length, be16_length]; omega)]
      rfl
    · simp only [Retrievers.store, List.length_set]

/-- C9 at the example table: the retriever has `rid = 5`, `roffset = 10` and
`rtotal = 30`, so a `RetrieveRequest` for `(5, 10)` is written (header byte
`0x30`). -/
theorem C9_retrieve_own_state_witness :
    (testRetrieversIdle.Retrieve testID testPusher 9).err = none ∧
    (testRetrieversIdle.Retrieve testID testPusher 9).p.Data
      = [0x30] ++ testID ++ [0, 0, 0, 0, 0, 0, 0, 5] ++ [0, 10] ∧
    (testRetrieversIdle.Retrieve testID testPusher 9).w.deref 0
      = { testRetrieversIdle.deref 0 with rcb := some 9 } := by
  have h := C9_retrieve_own_state testRetrieversIdle testID testPusher 9 0 (by decide) (by decide)
    (by decide) (by decide) (by decide)
  exact ⟨h.1, (h.2.2.2.1 (by decide)).2, h.2.2.2.2.2.2.2.1⟩

/-! ## Retrievers: read responses -/

theorem deref_store (w : Retrievers) (s0 s : Nat) (v : retriever) :
    (w.store s0 v).deref s = if s = s0 ∧ s0 < w.heap.length then v else w.deref s := by
  by_cases h : s = s0
  · subst h
    by_cases hl : s < w.heap.length
    · simp only [hl, and_self, if_true, deref_store_same w s v hl]
    · simp only [hl, and_false, if_false, Retrievers.deref, Retrievers.store,
        List.getD_eq_getElem?_getD]
      rw [List.getElem?_eq_none (by simp only [List.length_set]; omega),
        List.getElem?_eq_none (by omega)]
  · simp only [h, false_and, if_false, deref_store_other w s0 s v h]

theorem rid_store (w : Retrievers) (s0 s : Nat) (v : retriever) :
    ((w.store s0 v).deref s).rid
      = if s = s0 ∧ s0 < w.heap.length then v.rid else (w.deref s).rid := by
  rw [deref_store]
  split <;> rfl

theorem store_length (w : Retrievers) (s0 : Nat) (v : retriever) :
    (w.store s0 v).heap.length = w.heap.length := by
  simp only [Retrievers.store, List.length_set]

theorem deref_pending_valid (w : Retrievers) (s : Nat) (cb : Nat)
    (h : (w.deref s).rcb = some cb) : s < w.heap.length := by
  by_contra hl
  simp only [Retrievers.deref, List.getD_eq_getElem?_getD,
    List.getElem?_eq_none (Nat.le_of_not_lt hl), Option.getD_none] at h
  cases h

theorem forcefullyRelease_rid (w : Retrievers) (id : List Nat) (s : Nat) :
    ((w.forcefullyRelease id).1.deref s).rid = (w.deref s).rid := by
  unfold Retrievers.forcefullyRelease Retrievers.release
  cases hf : w.find id with
  | none => rfl
  | some s0 =>
    simp only [rid_store]
    split
    · rename_i h
      rw [h.1]
      rfl
    · rfl

theorem reactToError_rid (w : Retrievers) (id : List Nat) (e : Option GoError) (s : Nat) :
    ((w.reactToError id e).1.deref s).rid = (w.deref s).rid := by
  unfold Retrievers.reactToError
  by_cases h : isErrorRecoverable e = true
  · simp only [h, if_true]
  · simp only [h, Bool.false_eq_true, if_false, forcefullyRelease_rid]

theorem resourceError_isError (e : Nat) (h : e > 0) : getRetrieverResourceError e ≠ noError := by
  unfold getRetrieverResourceError
  rw [if_neg (by simp only [ResourceErrorSuccess]; omega)]
  repeat' split
  all_goals decide

theorem rid_store_keep (w : Retrievers) (s0 s : Nat) (v : retriever)
    (h : v.rid = (w.deref s0).rid) : ((w.store s0 v).deref s).rid = (w.deref s).rid := by
  rw [rid_store]
  split
  · rename_i hc
    rw [h, hc.1]
  · rfl

theorem Retrieved_rid (w : Retrievers) (e : Nat) (d : RetrieveRespond) (rr : Fetcher)
    (c : RetrieverCancels) (fuel : Nat) (s : Nat) :
    ((w.Retrieved e d rr c fuel).w.deref s).rid = (w.deref s).rid := by
  unfold Retrievers.Retrieved
  cases hf : w.find d.ID with
  | none => rfl
  | some s0 =>
    simp only [Handled.finish, retriever.retrieved]
    cases hr : (w.deref s0).rcb with
    | none => simp only [reactToError_rid]
    | some cb =>
      have h1 := rid_store_keep w s0 s { w.deref s0 with rcb := none } rfl
      have h2 := rid_store_keep (w.store s0 { w.deref s0 with rcb := none }) s0 s
        { (w.store s0 { w.deref s0 with rcb := none }).deref s0 with
          roffset := u16 (d.Offset + d.PayloadLength), rtotal := d.Total } rfl
      simp only
      split
      · simp only [reactToError_rid, h1]
      · split
        · simp only [reactToError_rid, h1]
        · simp only [reactToError_rid, h2, h1]

theorem Resumed_rid (w : Retrievers) (e : Nat) (d : ResumeRespond) (rr : Fetcher)
    (c : RetrieverCancels) (fuel : Nat) (s : Nat) :
    (w.deref s).rid ≤ ((w.Resumed e d rr c fuel).w.deref s).rid ∧
    ((w.deref s).rid < ((w.Resumed e d rr c fuel).w.deref s).rid ↔
      (decide (w.find d.ID = some s) &&
        retrieveSucceeded (w.Resumed e d rr c fuel).events) = true) := by
  unfold Retrievers.Resumed
  cases hf : w.find d.ID with
  | none => simp
  | some s0 =>
    simp only [Handled.finish, retriever.resumed]
    cases hr : (w.deref s0).rcb with
    | none => simp [reactToError_rid, retrieveSucceeded]
    | some cb =>
      have hv : s0 < w.heap.length := deref_pending_valid w s0 cb hr
      have h1 := rid_store_keep w s0 s { w.deref s0 with rcb := none } rfl
      have h0 : ((w.store s0 { w.deref s0 with rcb := none }).deref s0).rid
          = (w.deref s0).rid := rid_store_keep w s0 s0 { w.deref s0 with rcb := none } rfl
      simp only
      split
      · rename_i hc
        have hne := resourceError_isError e hc.1
        simp [reactToError_rid, h1, retrieveSucceeded, hne]
      · split
        · have hne : ErrResumeUnexpectedRespondRetry ≠ noError := by decide
          simp [reactToError_rid, h1, retrieveSucceeded, hne]
        · rename_i hc1 hc2
          rw [h0] at hc2
          simp only [reactToError_rid, rid_store, store_length, hv, and_true, h1,
            retrieveSucceeded, List.any_cons, decide_True, Bool.or_true, Bool.and_true,
            decide_eq_true_eq, Option.some.injEq]
          by_cases hs : s = s0
          · subst hs
            simp only [if_true]
            constructor
            · omega
            · constructor
              · intro _; trivial
              · intro _; omega
          · simp only [hs, if_false, h1]
            constructor
            · exact Nat.le_refl _
            · constructor
              · intro h; omega
              · intro h
                simp only [Bool.and_eq_true, decide_eq_true_eq] at h
                exact absurd h.1.symm hs

theorem handle_rid (w : Retrievers) (c : RetrieverCancels) (s : Nat) (resp : ReadResponse) :
    (w.deref s).rid ≤ ((w.handle c resp).w.deref s).rid ∧
    ((w.deref s).rid < ((w.handle c resp).w.deref s).rid ↔
      w.acceptsResume c s resp = true) := by
  cases resp with
  | retrieved e d rr fuel =>
    simp only [Retrievers.handle, Retrievers.acceptsResume, Retrieved_rid, Nat.le_refl,
      Nat.lt_irrefl, Bool.false_eq_true, and_self]
  | resumed e d rr fuel => exact Resumed_rid w e d rr c fuel s

/-- C10: the `rid` of a retriever never decreases under read responses. For
every table, every retriever `s` of it and every sequence of `Retrieved` and
`Resumed` responses (any code, any ID, any field values), the values of its
`rid` before the first response and after each one are non-decreasing, and
at each response the `rid` strictly increases exactly when the response is a
Resume response for this retriever that is accepted (its pending callback gets
the success value). -/
theorem C10_rid_never_decreases (w : Retrievers) (c : RetrieverCancels) (s : Nat)
    (resps : List ReadResponse) :
    List.Chain' (· ≤ ·) (w.ridTrace c s resps) ∧
    (w.ridLog c s resps).map (fun entry => entry.2.1) = (w.ridTrace c s resps).tail ∧
    ∀ entry ∈ w.ridLog c s resps,
      entry.1 ≤ entry.2.1 ∧ (entry.1 < entry.2.1 ↔ entry.2.2 = true) := by
  induction resps generalizing w c with
  | nil =>
    refine ⟨?_, rfl, ?_⟩
    · simp [Retrievers.ridTrace, Retrievers.handleAll]
    · intro entry h
      simp [Retrievers.ridLog] at h
  | cons resp rest ih =>
    obtain ⟨ih1, ih2, ih3⟩ := ih (w.handle c resp).w (w.handle c resp).cancels
    have hstep := handle_rid w c s resp
    refine ⟨?_, ?_, ?_⟩
    · simp only [Retrievers.ridTrace, Retrievers.handleAll, List.map_cons] at ih1 ⊢
      exact List.Chain'.cons hstep.1 ih1
    · simp only [Retrievers.ridTrace, Retrievers.handleAll, Retrievers.ridLog, List.map_cons,
        List.tail_cons] at ih2 ⊢
      rw [ih2]
    · intro entry h
      simp only [Retrievers.ridLog, List.mem_cons] at h
      rcases h with rfl | h
      · exact hstep
      · exact ih3 entry h

/-! ## Retrievers: a stale retrieve response -/

/-- C11: a stale retrieve response. When the retriever registered under the
ID of a success (`e = 0`) `RetrieveRespond` has a retrieve callback pending and
the response carries a `RID` lower than the retriever's `rid`, or an `Offset`
lower than its `roffset`, then `Retrievers.Retrieved` calls that callback
once, with `ErrRetrieveUnexpectedRespondRetry`, which has `TryAgain = true`
and is recoverable; nothing of the payload is read; the table keeps its
entries, and the retriever keeps every field (`rid`, `roffset`, `rtotal`
among them) except the callback slot, which is emptied; no other retriever
changes. -/
theorem C11_stale_retrieve_unchanged (w : Retrievers) (d : RetrieveRespond) (rr : Fetcher)
    (c : RetrieverCancels) (fuel s cb : Nat)
    (hfind : w.find d.ID = some s) (hcb : (w.deref s).rcb = some cb)
    (hstale : d.RID < (w.deref s).rid ∨ d.Offset < (w.deref s).roffset) :
    (w.Retrieved 0 d rr c fuel).events = [Event.rcb cb ErrRetrieveUnexpectedRespondRetry] ∧
    ErrRetrieveUnexpectedRespondRetry.TryAgain = true ∧
    isErrorRecoverable (some (GoError.retriever ErrRetrieveUnexpectedRespondRetry)) = true ∧
    (w.Retrieved 0 d rr c fuel).later = some (rr, [], Except.ok none) ∧
    (w.Retrieved 0 d rr c fuel).w.sessions = w.sessions ∧
    (w.Retrieved 0 d rr c fuel).w.find d.ID = some s ∧
    ((w.Retrieved 0 d rr c fuel).w.deref s).rid = (w.deref s).rid ∧
    ((w.Retrieved 0 d rr c fuel).w.deref s).roffset = (w.deref s).roffset ∧
    ((w.Retrieved 0 d rr c fuel).w.deref s).rtotal = (w.deref s).rtotal ∧
    (w.Retrieved 0 d rr c fuel).w.deref s = { w.deref s with rcb := none } ∧
    (∀ s', s' ≠ s → (w.Retrieved 0 d rr c fuel).w.deref s' = w.deref s') := by
  have hv : s < w.heap.length := deref_pending_valid w s cb hcb
  have hd : (w.store s { w.deref s with rcb := none }).deref s = { w.deref s with rcb := none } :=
    deref_store_same w s _ hv
  have hrec : isErrorRecoverable (some (GoError.retriever ErrRetrieveUnexpectedRespondRetry))
      = true := by decide
  have hR : w.Retrieved 0 d rr c fuel =
      { w := w.store s { w.deref s with rcb := none }, cancels := c.clear d.ID,
        events := [Event.rcb cb ErrRetrieveUnexpectedRespondRetry],
        later := some (rr, [], Except.ok none) } := by
    have hcond : ((w.store s { w.deref s with rcb := none }).deref s).rid > d.RID ∨
        d.Offset < ((w.store s { w.deref s with rcb := none }).deref s).roffset := by
      rw [hd]
      rcases hstale with h | h
      · exact Or.inl h
      · exact Or.inr h
    simp only [Retrievers.Retrieved, hfind, retriever.retrieved, hcb, Nat.lt_irrefl, gt_iff_lt,
      if_false, Handled.finish, Retrievers.reactToError, hrec, if_true, runExec,
      List.append_nil]
    rw [if_pos hcond]
    rfl
  rw [hR]
  refine ⟨rfl, rfl, hrec, rfl, rfl, hfind, ?_, ?_, ?_, hd, fun s' h => deref_store_other w s s' _ h⟩
  · simp only [hd]
  · simp only [hd]
  · simp only [hd]

/-- C11 at the example table: the retriever has `rid = 5` and a retrieve
pending on callback 7; a success response with `RID = 3` arrives. -/
theorem C11_stale_retrieve_unchanged_witness :
    (testRetrievers.Retrieved 0 ⟨testID, 3, 30, 10, [], 0⟩ (NewFetcher (ByteFetch [] Error.EOF))
        [] 1).events = [Event.rcb 7 ErrRetrieveUnexpectedRespondRetry] ∧
    ((testRetrievers.Retrieved 0 ⟨testID, 3, 30, 10, [], 0⟩ (NewFetcher (ByteFetch [] Error.EOF))
        [] 1).w.deref 0).rid = 5 ∧
    (testRetrievers.Retrieved 0 ⟨testID, 3, 30, 10, [], 0⟩ (NewFetcher (ByteFetch [] Error.EOF))
        [] 1).w.find testID = some 0 := by
  have h := C11_stale_retrieve_unchanged testRetrievers ⟨testID, 3, 30, 10, [], 0⟩
    (NewFetcher (ByteFetch [] Error.EOF)) [] 1 0 7 (by decide) (by decide)
    (Or.inl (by decide))
  exact ⟨h.1, h.2.2.2.2.2.2.1, h.2.2.2.2.2.1⟩

/-! ## Retrievers: send responses -/

theorem deref_invalid (w : Retrievers) (s : Nat) (h : ¬ s < w.heap.length) :
    w.deref s = default := by
  simp only [Retrievers.deref, List.getD_eq_getElem?_getD,
    List.getElem?_eq_none (Nat.le_of_not_lt h), Option.getD_none]

theorem deref_wcb_valid (w : Retrievers) (s : Nat) (cb : Nat)
    (h : (w.deref s).wcb = some cb) : s < w.heap.length := by
  by_contra hl
  rw [deref_invalid w s hl] at h
  cases h

/-- C12, as amended: an Expired send response that bumps the WID is taken as
the result of the send. When the retriever registered under the ID of a
`SendRespond` has a send callback pending, the code is Expired (3) and
`NewWID = wid + 1`, then `Retrievers.Sent` returns `nil`, sets the
retriever's `wid` to `NewWID`, and calls the send callback once with the
response's `Sent` count and the no-error value; the retriever stays in the
table and no other field of it changes but the emptied send slot. -/
theorem C12_expired_send_accepted (w : Retrievers) (d : SendRespond) (c : RetrieverCancels)
    (s cb : Nat) (hfind : w.find d.ID = some s) (hcb : (w.deref s).wcb = some cb)
    (hwid : d.NewWID < 2 ^ 64) (hbump : d.NewWID = (w.deref s).wid + 1) :
    (w.Sent ResourceErrorExpired d c).events = [Event.wcb cb d.Sent noError] ∧
    (w.Sent ResourceErrorExpired d c).err = none ∧
    ((w.Sent ResourceErrorExpired d c).w.deref s).wid = d.NewWID ∧
    (w.Sent ResourceErrorExpired d c).w.deref s
      = { w.deref s with wcb := none, wid := d.NewWID } ∧
    (w.Sent ResourceErrorExpired d c).w.sessions = w.sessions ∧
    (w.Sent ResourceErrorExpired d c).w.find d.ID = some s ∧
    (∀ s', s' ≠ s → (w.Sent ResourceErrorExpired d c).w.deref s' = w.deref s') := by
  have hv : s < w.heap.length := deref_wcb_valid w s cb hcb
  have hd : (w.store s { w.deref s with wcb := none }).deref s = { w.deref s with wcb := none } :=
    deref_store_same w s _ hv
  have hrec : isErrorRecoverable none = true := rfl
  have hR : w.Sent ResourceErrorExpired d c =
      { w := (w.store s { w.deref s with wcb := none }).store s
          { w.deref s with wcb := none, wid := d.NewWID },
        cancels := c.clear d.ID, events := [Event.wcb cb d.Sent noError], err := none } := by
    have h1 : ¬ (ResourceErrorExpired > 0 ∧ (ResourceErrorExpired ≠ ResourceErrorExpired ∨
        d.NewWID ≠ u64 (((w.store s { w.deref s with wcb := none }).deref s).wid + 1))) := by
      rw [hd]
      simp only [ne_eq, not_true_eq_false, false_or, not_and, not_not, u64]
      intro _
      rw [hbump] at hwid ⊢
      exact (Nat.mod_eq_of_lt hwid).symm
    have h2 : ¬ (((w.store s { w.deref s with wcb := none }).deref s).wid ≥ d.NewWID) := by
      rw [hd]
      simp only [ge_iff_le, not_le]
      omega
    simp only [Retrievers.Sent, hfind, retriever.sent, hcb, Replied.finish,
      Retrievers.reactToError, hrec, if_true, runExec, List.append_nil]
    rw [if_neg h1, if_neg h2]
    simp only [hd, List.append_nil]
  have hv2 : s < (w.store s { w.deref s with wcb := none }).heap.length := by
    rw [store_length]
    exact hv
  rw [hR]
  refine ⟨rfl, rfl, ?_, deref_store_same _ s _ hv2, rfl, hfind, fun s' h => ?_⟩
  · simp only [deref_store_same _ s _ hv2]
  · simp only [deref_store_other _ s s' _ h]

/-- C12 at the example table: the retriever has `wid = 2` and a send pending
on callback 8; the response has code Expired, `NewWID = 3` and `Sent = 17`. -/
theorem C12_expired_send_accepted_witness :
    (testRetrieversSending.Sent ResourceErrorExpired ⟨testID, 3, 17⟩ []).events
      = [Event.wcb 8 17 noError] ∧
    ((testRetrieversSending.Sent ResourceErrorExpired ⟨testID, 3, 17⟩ []).w.deref 0).wid = 3 := by
  have h := C12_expired_send_accepted testRetrieversSending ⟨testID, 3, 17⟩ [] 0 8 (by decide)
    (by decide) (by decide) (by decide)
  exact ⟨h.1, h.2.2.1⟩

/-- C12 as stated fails at the example table: with `wid = 2`, a pending send
callback 8 and the response (Expired, `NewWID = 3`, `Sent = 17`), the `wid`
becomes 3, but the only call made is the callback with the no-error value; the
callback is not called with the Expired error, for any size. -/
theorem C12_expired_not_surfaced :
    ((testRetrieversSending.Sent 3 ⟨testID, 3, 17⟩ []).w.deref 0).wid = 3 ∧
    (testRetrieversSending.Sent 3 ⟨testID, 3, 17⟩ []).events = [Event.wcb 8 17 noError] ∧
    ¬ ∃ size, Event.wcb 8 size ErrResourceExpired
        ∈ (testRetrieversSending.Sent 3 ⟨testID, 3, 17⟩ []).events := by
  have hev : (testRetrieversSending.Sent 3 ⟨testID, 3, 17⟩ []).events
      = [Event.wcb 8 17 noError] := by decide
  refine ⟨by decide, hev, ?_⟩
  rintro ⟨size, h⟩
  rw [hev] at h
  simp only [List.mem_singleton, Event.wcb.injEq, true_and] at h
  exact absurd h.2 (by decide)

/-! ## Retrievers: a busy phase -/

/-- C13: a second attempt on a busy phase is refused without side effects.
For an ID registered in the table, each of `Register`, `Retrieve`, `Send` and
`Close` whose slot of the retriever (`dialcb`, `rcb`, `wcb`, `ccb`) already
holds a callback returns `ErrRetrieverBusy` and no cancel closure, calls the
new callback `c` once with that error (`TryAgain = false`, not recoverable),
and leaves the pusher and the whole table as they were, so the slot still
holds the first callback. -/
theorem C13_busy_phase_refused (r : Retrievers) (id : List Nat) (p : Pusher) (c s cb : Nat)
    (rr : DialRequest) (data : List Nat) (hfind : r.find id = some s) :
    ((r.deref s).dialcb = some cb →
      r.Register id rr p c = Except.ok
        { w := r, p := p,
          events := [Event.dialcb c (newRetrieverError Error.ErrRetrieverBusy false)],
          cancel := none, err := some Error.ErrRetrieverBusy }) ∧
    ((r.deref s).rcb = some cb →
      r.Retrieve id p c =
        { w := r, p := p, events := [Event.rcb c (newRetrieverError Error.ErrRetrieverBusy false)],
          cancel := none, err := some Error.ErrRetrieverBusy }) ∧
    ((r.deref s).wcb = some cb →
      r.Send id data p c = Except.ok
        { w := r, p := p,
          events := [Event.wcb c 0 (newRetrieverError Error.ErrRetrieverBusy false)],
          cancel := none, err := some Error.ErrRetrieverBusy }) ∧
    ((r.deref s).ccb = some cb →
      r.Close id p c =
        { w := r, p := p, events := [Event.ccb c (newRetrieverError Error.ErrRetrieverBusy false)],
          cancel := none, err := some Error.ErrRetrieverBusy }) ∧
    (newRetrieverError Error.ErrRetrieverBusy false).TryAgain = false ∧
    isErrorRecoverable
      (some (GoError.retriever (newRetrieverError Error.ErrRetrieverBusy false))) = false := by
  refine ⟨fun h => ?_, fun h => ?_, fun h => ?_, fun h => ?_, rfl, by decide⟩
  · simp only [Retrievers.Register, hfind, h, ne_eq, reduceCtorEq, not_false_eq_true, if_true]
  · simp only [Retrievers.Retrieve, hfind, h, ne_eq, reduceCtorEq, not_false_eq_true, if_true]
  · simp only [Retrievers.Send, hfind, h, ne_eq, reduceCtorEq, not_false_eq_true, if_true]
  · simp only [Retrievers.Close, hfind, h, ne_eq, reduceCtorEq, not_false_eq_true, if_true]

/-- C13 at the example table with a callback pending in every phase: each
second request is refused, and the slots keep the callbacks 6, 7, 8 and 9. -/
theorem C13_busy_phase_refused_witness :
    (testRetrieversBusy.Register testID testDialRequest testPusher 20).map (fun q => (q.err, q.p))
      = Except.ok (some Error.ErrRetrieverBusy, testPusher) ∧
    (testRetrieversBusy.Retrieve testID testPusher 20).err = some Error.ErrRetrieverBusy ∧
    (testRetrieversBusy.Retrieve testID testPusher 20).w = testRetrieversBusy ∧
    (testRetrieversBusy.Send testID [] testPusher 20).map (fun q => (q.err, q.events))
      = Except.ok (some Error.ErrRetrieverBusy,
          [Event.wcb 20 0 (newRetrieverError Error.ErrRetrieverBusy false)]) ∧
    (testRetrieversBusy.Close testID testPusher 20).p = testPusher ∧
    ((testRetrieversBusy.Close testID testPusher 20).w.deref 0).ccb = some 9 := by
  have h := C13_busy_phase_refused testRetrieversBusy testID testPusher 20 0
  have hd := (h 6 testDialRequest [] (by decide)).1 (by decide)
  have hr := (h 7 testDialRequest [] (by decide)).2.1 (by decide)
  have hs := (h 8 testDialRequest [] (by decide)).2.2.1 (by decide)
  have hc := (h 9 testDialRequest [] (by decide)).2.2.2.1 (by decide)
  rw [hd, hr, hs, hc]
  exact ⟨rfl, rfl, rfl, rfl, rfl, by decide⟩

/-! ## Retrievers: reserving under the capacity cap -/

theorem lookup_filter_ne (l : List (List Nat × Nat)) (id id' : List Nat) (h : id' ≠ id) :
    (l.filter (fun kv => kv.1 ≠ id)).lookup id' = l.lookup id' := by
  induction l with
  | nil => rfl
  | cons kv rest ih =>
    obtain ⟨k, v⟩ := kv
    by_cases hk : k = id
    · subst hk
      have hne : (id' == k) = false := by simpa using h
      simp only [List.filter, ne_eq, not_true_eq_false, decide_False, List.lookup, hne]
      exact ih
    · by_cases hk2 : id' = k
      · subst hk2
        simp [List.filter, hk, List.lookup]
      · have hne : (id' == k) = false := by simpa using hk2
        simp only [List.filter, ne_eq, hk, not_false_eq_true, decide_True, List.lookup, hne]
        exact ih

theorem filter_lookup_none (l : List (List Nat × Nat)) (id : List Nat)
    (h : l.lookup id = none) : l.filter (fun kv => kv.1 ≠ id) = l := by
  induction l with
  | nil => rfl
  | cons kv rest ih =>
    obtain ⟨k, v⟩ := kv
    by_cases hk : id = k
    · subst hk
      simp [List.lookup] at h
    · have hne : (id == k) = false := by simpa using hk
      simp only [List.lookup, hne] at h
      have hk2 : ¬ k = id := fun e => hk e.symm
      simp only [List.filter, ne_eq, hk2, not_false_eq_true, decide_True, ih h]

theorem lookup_filter_self (l : List (List Nat × Nat)) (id : List Nat) :
    (l.filter (fun kv => kv.1 ≠ id)).lookup id = none := by
  induction l with
  | nil => rfl
  | cons kv rest ih =>
    obtain ⟨k, v⟩ := kv
    by_cases hk : k = id
    · simp only [List.filter, ne_eq, hk, not_true_eq_false, decide_False]
      exact ih
    · have hne : (id == k) = false := by
        simpa using (fun e : id = k => hk e.symm)
      simp only [List.filter, ne_eq, hk, not_false_eq_true, decide_True, List.lookup, hne]
      exact ih

theorem newIDLoop_fresh (r : Retrievers) (rand : Nat → List Nat × Option Error) (n i : Nat)
    (id : List Nat) (h : r.newIDLoop rand n i = (id, none)) : r.find id = none := by
  induction n generalizing i with
  | zero => simp [Retrievers.newIDLoop] at h
  | succ n ih =>
    unfold Retrievers.newIDLoop at h
    rcases hr : rand i with ⟨x, _ | err⟩
    · rw [hr] at h
      simp only at h
      by_cases hx : (r.find x).isSome = true
      · rw [if_pos hx] at h
        exact ih (i + 1) h
      · rw [if_neg hx] at h
        simp only [Prod.mk.injEq, and_true] at h
        subst h
        simpa using hx
    · rw [hr] at h
      simp at h

theorem newIDLoop_error (r : Retrievers) (rand : Nat → List Nat × Option Error) (n i : Nat)
    (x : List Nat) (e : Error) (h : r.newIDLoop rand n i = (x, some e)) :
    e = Error.ErrUnableToGenerateID ∨ ∃ j, (rand j).2 = some e := by
  induction n generalizing i with
  | zero =>
    simp only [Retrievers.newIDLoop, Prod.mk.injEq, Option.some.injEq] at h
    exact Or.inl h.2.symm
  | succ n ih =>
    unfold Retrievers.newIDLoop at h
    rcases hr : rand i with ⟨y, _ | err⟩
    · rw [hr] at h
      simp only at h
      by_cases hx : (r.find y).isSome = true
      · rw [if_pos hx] at h
        exact ih (i + 1) h
      · rw [if_neg hx] at h
        simp at h
    · rw [hr] at h
      simp only [Prod.mk.injEq, Option.some.injEq] at h
      exact Or.inr ⟨i, by rw [hr, h.2]⟩

theorem release_shrinks (r : Retrievers) (id : List Nat) :
    (r.release id).1.capacity = r.capacity ∧
    (r.release id).1.sessions.length ≤ r.sessions.length := by
  unfold Retrievers.release
  cases r.find id with
  | none => exact ⟨rfl, Nat.le_refl _⟩
  | some s => exact ⟨rfl, List.length_filter_le _ _⟩

theorem forcefullyRelease_shrinks (r : Retrievers) (id : List Nat) :
    (r.forcefullyRelease id).1.capacity = r.capacity ∧
    (r.forcefullyRelease id).1.sessions.length ≤ r.sessions.length := by
  have h := release_shrinks r id
  unfold Retrievers.forcefullyRelease
  rcases hr : r.release id with ⟨r1, _ | s⟩
  · rw [hr] at h
    exact h
  · rw [hr] at h
    exact h

theorem reactToError_shrinks (r : Retrievers) (id : List Nat) (e : Option GoError) :
    (r.reactToError id e).1.capacity = r.capacity ∧
    (r.reactToError id e).1.sessions.length ≤ r.sessions.length := by
  unfold Retrievers.reactToError
  by_cases h : isErrorRecoverable e = true
  · rw [if_pos h]
    exact ⟨rfl, Nat.le_refl _⟩
  · rw [if_neg h]
    exact forcefullyRelease_shrinks r id

theorem Retrieved_shrinks (r : Retrievers) (e : Nat) (d : RetrieveRespond) (rr : Fetcher)
    (c : RetrieverCancels) (fuel : Nat) :
    (r.Retrieved e d rr c fuel).w.capacity = r.capacity ∧
    (r.Retrieved e d rr c fuel).w.sessions.length ≤ r.sessions.length := by
  unfold Retrievers.Retrieved
  cases hf : r.find d.ID with
  | none => exact ⟨rfl, Nat.le_refl _⟩
  | some s =>
    simp only [Handled.finish, retriever.retrieved]
    cases hr : (r.deref s).rcb with
    | none => exact reactToError_shrinks r _ _
    | some cb =>
      simp only
      split
      · exact reactToError_shrinks (r.store s _) _ _
      · split
        · exact reactToError_shrinks (r.store s _) _ _
        · exact reactToError_shrinks ((r.store s _).store s _) _ _

theorem Resumed_shrinks (r : Retrievers) (e : Nat) (d : ResumeRespond) (rr : Fetcher)
    (c : RetrieverCancels) (fuel : Nat) :
    (r.Resumed e d rr c fuel).w.capacity = r.capacity ∧
    (r.Resumed e d rr c fuel).w.sessions.length ≤ r.sessions.length := by
  unfold Retrievers.Resumed
  cases hf : r.find d.ID with
  | none => exact ⟨rfl, Nat.le_refl _⟩
  | some s =>
    simp only [Handled.finish, retriever.resumed]
    cases hr : (r.deref s).rcb with
    | none => exact reactToError_shrinks r _ _
    | some cb =>
      simp only
      split
      · exact reactToError_shrinks (r.store s _) _ _
      · split
        · exact reactToError_shrinks (r.store s _) _ _
        · exact reactToError_shrinks ((r.store s _).store s _) _ _

theorem Registered_shrinks (r : Retrievers) (e : Nat) (d : DialRespond) (rr : Fetcher)
    (c : RetrieverCancels) (fuel : Nat) :
    (r.Registered e d rr c fuel).w.capacity = r.capacity ∧
    (r.Registered e d rr c fuel).w.sessions.length ≤ r.sessions.length := by
  unfold Retrievers.Registered
  cases hf : r.find d.ID with
  | none => exact ⟨rfl, Nat.le_refl _⟩
  | some s =>
    simp only [Handled.finish, retriever.dialed]
    cases hr : (r.deref s).dialcb with
    | none => exact reactToError_shrinks r _ _
    | some cb =>
      simp only
      split
      · exact reactToError_shrinks (r.store s _) _ _
      · exact reactToError_shrinks ((r.store s _).store s _) _ _

theorem Sent_shrinks (r : Retrievers) (e : Nat) (d : SendRespond) (c : RetrieverCancels) :
    (r.Sent e d c).w.capacity = r.capacity ∧
    (r.Sent e d c).w.sessions.length ≤ r.sessions.length := by
  unfold Retrievers.Sent
  cases hf : r.find d.ID with
  | none => exact ⟨rfl, Nat.le_refl _⟩
  | some s =>
    simp only [Replied.finish, retriever.sent]
    cases hr : (r.deref s).wcb with
    | none => exact reactToError_shrinks r _ _
    | some cb =>
      simp only
      split
      · exact reactToError_shrinks (r.store s _) _ _
      · split
        · exact reactToError_shrinks (r.store s _) _ _
        · exact reactToError_shrinks ((r.store s _).store s _) _ _

theorem Closed_shrinks (r : Retrievers) (e : Nat) (d : CloseRespond) (c : RetrieverCancels) :
    (r.Closed e d c).w.capacity = r.capacity ∧
    (r.Closed e d c).w.sessions.length ≤ r.sessions.length := by
  have h := release_shrinks r d.ID
  unfold Retrievers.Closed
  rcases hr : r.release d.ID with ⟨r1, _ | s⟩
  · rw [hr] at h
    exact h
  · rw [hr] at h
    simp only [Replied.finish, retriever.closed]
    split
    · have h2 := reactToError_shrinks r1 d.ID (some (GoError.plain Error.ErrNotReady))
      exact ⟨h2.1.trans h.1, Nat.le_trans h2.2 h.2⟩
    · exact ⟨(reactToError_shrinks _ d.ID none).1.trans h.1,
        Nat.le_trans (reactToError_shrinks _ d.ID none).2 h.2⟩

theorem Retrieve_sessions (r : Retrievers) (id : List Nat) (p : Pusher) (c : Nat) :
    (r.Retrieve id p c).w.capacity = r.capacity ∧
    (r.Retrieve id p c).w.sessions = r.sessions := by
  unfold Retrievers.Retrieve
  cases r.find id with
  | none => exact ⟨rfl, rfl⟩
  | some s =>
    simp only
    split
    · exact ⟨rfl, rfl⟩
    · split <;> exact ⟨rfl, rfl⟩

theorem Close_sessions (r : Retrievers) (id : List Nat) (p : Pusher) (c : Nat) :
    (r.Close id p c).w.capacity = r.capacity ∧ (r.Close id p c).w.sessions = r.sessions := by
  unfold Retrievers.Close
  cases r.find id with
  | none =>
    simp only
    split <;> exact ⟨rfl, rfl⟩
  | some s =>
    simp only
    split
    · exact ⟨rfl, rfl⟩
    · split <;> exact ⟨rfl, rfl⟩

theorem Register_sessions (r : Retrievers) (id : List Nat) (rr : DialRequest) (p : Pusher)
    (c : Nat) (q : Requested) (h : r.Register id rr p c = Except.ok q) :
    q.w.capacity = r.capacity ∧ q.w.sessions = r.sessions := by
  unfold Retrievers.Register at h
  cases hf : r.find id with
  | none =>
    rw [hf] at h
    simp only [Except.ok.injEq] at h
    subst h
    exact ⟨rfl, rfl⟩
  | some s =>
    rw [hf] at h
    simp only at h
    split at h
    · simp only [Except.ok.injEq] at h
      subst h
      exact ⟨rfl, rfl⟩
    · split at h
      · cases h
      · simp only [Except.ok.injEq] at h
        subst h
        exact ⟨rfl, rfl⟩
      · simp only [Except.ok.injEq] at h
        subst h
        exact ⟨rfl, rfl⟩

theorem Send_sessions (r : Retrievers) (id : List Nat) (data : List Nat) (p : Pusher)
    (c : Nat) (q : Requested) (h : r.Send id data p c = Except.ok q) :
    q.w.capacity = r.capacity ∧ q.w.sessions = r.sessions := by
  unfold Retrievers.Send at h
  cases hf : r.find id with
  | none =>
    rw [hf] at h
    simp only [Except.ok.injEq] at h
    subst h
    exact ⟨rfl, rfl⟩
  | some s =>
    rw [hf] at h
    simp only at h
    split at h
    · simp only [Except.ok.injEq] at h
      subst h
      exact ⟨rfl, rfl⟩
    · split at h
      · cases h
      · split at h
        · simp only [Except.ok.injEq] at h
          subst h
          exact ⟨rfl, rfl⟩
        · simp only [Except.ok.injEq] at h
          subst h
          exact ⟨rfl, rfl⟩

theorem CloseAll_fold (l : List (List Nat × Nat)) (acc : Retrievers × List Event) :
    (l.foldl
      (fun (acc : Retrievers × List Event) (kv : List Nat × Nat) =>
        ((acc.1.store kv.2 (acc.1.deref kv.2).release.1, acc.2 ++ (acc.1.deref kv.2).release.2)))
      acc).1.capacity = acc.1.capacity := by
  induction l generalizing acc with
  | nil => rfl
  | cons kv rest ih =>
    simp only [List.foldl_cons]
    rw [ih]
    rfl

theorem cancel_sessions (t : RetrieverCancel) (r : Retrievers) (e : RetrieverError) :
    (t.call r e).1.capacity = r.capacity ∧ (t.call r e).1.sessions = r.sessions := by
  cases t with
  | dialcb s =>
    simp only [RetrieverCancel.call]
    cases (r.deref s).dialcb <;> exact ⟨rfl, rfl⟩
  | rcb s =>
    simp only [RetrieverCancel.call]
    cases (r.deref s).rcb <;> exact ⟨rfl, rfl⟩
  | wcb s =>
    simp only [RetrieverCancel.call]
    cases (r.deref s).wcb <;> exact ⟨rfl, rfl⟩
  | ccb s =>
    simp only [RetrieverCancel.call]
    cases (r.deref s).ccb <;> exact ⟨rfl, rfl⟩
  | nothing => exact ⟨rfl, rfl⟩

theorem Retriever_within (r : Retrievers) (rand : Nat → List Nat × Option Error)
    (builder : List Nat → Nat) :
    (r.Retriever rand builder).w.capacity = r.capacity ∧
    ((r.sessions.length : Int) ≤ r.capacity →
      ((r.Retriever rand builder).w.sessions.length : Int) ≤ r.capacity) := by
  unfold Retrievers.Retriever
  by_cases hfull : (r.sessions.length : Int) ≥ r.capacity
  · rw [if_pos hfull]
    exact ⟨rfl, fun h => h⟩
  · rw [if_neg hfull]
    rcases hn : r.newID rand with ⟨id, _ | err⟩
    · have hfresh : r.sessions.lookup id = none := newIDLoop_fresh r rand 1000 0 id hn
      refine ⟨rfl, fun _ => ?_⟩
      simp only [Retrievers.insert, Retrievers.alloc, List.length_cons,
        filter_lookup_none r.sessions id hfresh]
      omega
    · exact ⟨rfl, fun h => h⟩

theorem after_within (r : Retrievers) (call : TableCall)
    (h : (r.sessions.length : Int) ≤ r.capacity) :
    (r.after call).capacity = r.capacity ∧
    ((r.after call).sessions.length : Int) ≤ r.capacity := by
  have keep : ∀ w : Retrievers, w.capacity = r.capacity ∧ w.sessions.length ≤ r.sessions.length →
      w.capacity = r.capacity ∧ (w.sessions.length : Int) ≤ r.capacity := by
    intro w hw
    refine ⟨hw.1, ?_⟩
    have := hw.2
    omega
  have same : ∀ w : Retrievers, w.capacity = r.capacity ∧ w.sessions = r.sessions →
      w.capacity = r.capacity ∧ (w.sessions.length : Int) ≤ r.capacity := by
    intro w hw
    refine ⟨hw.1, ?_⟩
    rw [hw.2]
    exact h
  cases call with
  | Retriever rand builder =>
    exact ⟨(Retriever_within r rand builder).1, (Retriever_within r rand builder).2 h⟩
  | Register id rr p c =>
    simp only [Retrievers.after]
    cases hq : r.Register id rr p c with
    | error msg => exact ⟨rfl, h⟩
    | ok q => exact same q.w (Register_sessions r id rr p c q hq)
  | Registered e d rr c fuel => exact keep _ (Registered_shrinks r e d rr c fuel)
  | Retrieve id p c => exact same _ (Retrieve_sessions r id p c)
  | Retrieved e d rr c fuel => exact keep _ (Retrieved_shrinks r e d rr c fuel)
  | Resumed e d rr c fuel => exact keep _ (Resumed_shrinks r e d rr c fuel)
  | Send id data p c =>
    simp only [Retrievers.after]
    cases hq : r.Send id data p c with
    | error msg => exact ⟨rfl, h⟩
    | ok q => exact same q.w (Send_sessions r id data p c q hq)
  | Sent e d c => exact keep _ (Sent_shrinks r e d c)
  | Close id p c => exact same _ (Close_sessions r id p c)
  | Closed e d c => exact keep _ (Closed_shrinks r e d c)
  | Release id =>
    have hr := release_shrinks r id
    simp only [Retrievers.after, Retrievers.Release]
    rcases hq : r.release id with ⟨r1, _ | s⟩
    · rw [hq] at hr
      exact keep _ hr
    · rw [hq] at hr
      exact keep _ hr
  | CloseAll =>
    simp only [Retrievers.after, Retrievers.CloseAll, List.length_nil]
    refine ⟨CloseAll_fold r.sessions (r, []), ?_⟩
    have := Int.natCast_nonneg r.sessions.length
    simp only [Nat.cast_zero]
    omega
  | cancel t e => exact same _ (cancel_sessions t r e)

theorem afterAll_within (calls : List TableCall) (r : Retrievers)
    (h : (r.sessions.length : Int) ≤ r.capacity) :
    (r.afterAll calls).capacity = r.capacity ∧
    ((r.afterAll calls).sessions.length : Int) ≤ r.capacity := by
  induction calls generalizing r with
  | nil => exact ⟨rfl, h⟩
  | cons call rest ih =>
    have h1 := after_within r call h
    have h2 := ih (r.after call) (by rw [h1.1]; exact h1.2)
    simp only [Retrievers.afterAll, List.foldl_cons] at h2 ⊢
    rw [h1.1] at h2
    exact h2

theorem find_insert (r : Retrievers) (id id' : List Nat) (s : Nat) :
    (r.insert id s).find id' = if id' = id then some s else r.find id' := by
  unfold Retrievers.insert Retrievers.find
  by_cases h : id' = id
  · subst h
    simp only [List.lookup, beq_self_eq_true, if_true]
  · have hne : (id' == id) = false := by simpa using h
    simp only [List.lookup, hne, if_neg h]
    exact lookup_filter_ne r.sessions id id' h

theorem deref_alloc (r : Retrievers) (v : retriever) :
    (r.alloc v).1.deref r.heap.length = v ∧
    ∀ s, s ≠ r.heap.length → (r.alloc v).1.deref s = r.deref s := by
  constructor
  · simp [Retrievers.alloc, Retrievers.deref, List.getD_eq_getElem?_getD]
  · intro s hs
    simp only [Retrievers.alloc, Retrievers.deref, List.getD_eq_getElem?_getD]
    by_cases hl : s < r.heap.length
    · rw [List.getElem?_append_left hl]
    · rw [List.getElem?_eq_none (by simp only [List.length_append, List.length_singleton]; omega),
        List.getElem?_eq_none (by omega)]

/-- C14: `Retrievers.Retriever` enforces the capacity cap. With a random
source that does not itself fail with `ErrRetrieversFull`: the call returns
`ErrRetrieversFull` exactly when the table holds `capacity` or more entries,
and then the table is unchanged and no sink is built. When there is room and
ID generation gives `id`, that ID was not in the table; the call returns it
with the sink the builder made and no error, and the table has one entry
more: `id` points to a new retriever with `rid`, `roffset`, `rtotal` and `wid`
all 0 and no callback, all other IDs and retrievers are as before. When ID
generation fails the table is unchanged. A call keeps the count of entries
within `capacity`; hence a table made by `NewRetrievers(size)`, `size ≥ 0`,
holds at most `size` entries after any sequence of calls on it. -/
theorem C14_capacity_cap (r : Retrievers) (rand : Nat → List Nat × Option Error)
    (builder : List Nat → Nat) (hrand : ∀ i, (rand i).2 ≠ some Error.ErrRetrieversFull) :
    ((r.Retriever rand builder).err = some Error.ErrRetrieversFull ↔
      (r.sessions.length : Int) ≥ r.capacity) ∧
    ((r.sessions.length : Int) ≥ r.capacity →
      (r.Retriever rand builder).w = r ∧ (r.Retriever rand builder).sink = none) ∧
    (∀ id, (r.sessions.length : Int) < r.capacity → r.newID rand = (id, none) →
      r.find id = none ∧
      (r.Retriever rand builder).err = none ∧
      (r.Retriever rand builder).id = id ∧
      (r.Retriever rand builder).sink = some (builder id) ∧
      (r.Retriever rand builder).w.find id = some r.heap.length ∧
      (r.Retriever rand builder).w.deref r.heap.length
        = { sink := builder id, dialcb := none, rid := 0, roffset := 0, rtotal := 0,
            rcb := none, wid := 0, wcb := none, ccb := none } ∧
      (r.Retriever rand builder).w.sessions.length = r.sessions.length + 1 ∧
      (∀ id', id' ≠ id → (r.Retriever rand builder).w.find id' = r.find id') ∧
      (∀ s, s ≠ r.heap.length → (r.Retriever rand builder).w.deref s = r.deref s)) ∧
    (∀ id e, r.newID rand = (id, some e) → (r.Retriever rand builder).w = r) ∧
    (r.Retriever rand builder).w.capacity = r.capacity ∧
    ((r.sessions.length : Int) ≤ r.capacity →
      ((r.Retriever rand builder).w.sessions.length : Int) ≤ r.capacity) ∧
    (∀ (size : Int) (calls : List TableCall), 0 ≤ size →
      (((NewRetrievers size).afterAll calls).sessions.length : Int) ≤ size) := by
  refine ⟨?_, ?_, ?_, ?_, (Retriever_within r rand builder).1,
    (Retriever_within r rand builder).2, ?_⟩
  · constructor
    · intro h
      by_contra hfull
      unfold Retrievers.Retriever at h
      rw [if_neg hfull] at h
      rcases hn : r.newID rand with ⟨id, _ | err⟩
      · rw [hn] at h
        cases h
      · rw [hn] at h
        simp only [Option.some.injEq] at h
        subst h
        rcases newIDLoop_error r rand 1000 0 id _ hn with h1 | ⟨j, hj⟩
        · cases h1
        · exact hrand j hj
    · intro hfull
      unfold Retrievers.Retriever
      rw [if_pos hfull]
  · intro hfull
    unfold Retrievers.Retriever
    rw [if_pos hfull]
    exact ⟨rfl, rfl⟩
  · intro id hroom hn
    have hfresh : r.find id = none := newIDLoop_fresh r rand 1000 0 id hn
    have hR : r.Retriever rand builder =
        { w := (r.alloc (newRetriever (builder id))).1.insert id r.heap.length, id := id,
          sink := some (builder id), err := none } := by
      unfold Retrievers.Retriever
      rw [if_neg (by omega), hn]
      rfl
    rw [hR]
    refine ⟨hfresh, rfl, rfl, rfl, ?_, ?_, ?_, ?_, ?_⟩
    · simp only [find_insert, if_true]
    · exact (deref_alloc r (newRetriever (builder id))).1
    · simp only [Retrievers.insert, Retrievers.alloc, List.length_cons,
        filter_lookup_none r.sessions id hfresh]
    · intro id' hne
      simp only [find_insert, if_neg hne]
      rfl
    · intro s hs
      exact (deref_alloc r (newRetriever (builder id))).2 s hs
  · intro id e hn
    unfold Retrievers.Retriever
    by_cases hfull : (r.sessions.length : Int) ≥ r.capacity
    · rw [if_pos hfull]
    · rw [if_neg hfull, hn]
  · intro size calls hsize
    exact (afterAll_within calls (NewRetrievers size) (by simpa [NewRetrievers] using hsize)).2

/-- C14 at a table of capacity 1: the first call installs a new retriever
under the first ID drawn, the second call fails with `ErrRetrieversFull` and
changes nothing. -/
theorem C14_capacity_cap_witness :
    ((NewRetrievers 1).Retriever testRand testBuilder).err = none ∧
    ((NewRetrievers 1).Retriever testRand testBuilder).w.sessions.length = 1 ∧
    (((NewRetrievers 1).Retriever testRand testBuilder).w.Retriever testRand testBuilder).err
      = some Error.ErrRetrieversFull ∧
    (((NewRetrievers 1).Retriever testRand testBuilder).w.Retriever testRand testBuilder).w
      = ((NewRetrievers 1).Retriever testRand testBuilder).w := by
  have hr : ∀ i, (testRand i).2 ≠ some Error.ErrRetrieversFull := fun i => by
    simp [testRand]
  have h2 := C14_capacity_cap ((NewRetrievers 1).Retriever testRand testBuilder).w testRand
    testBuilder hr
  have hfull : ((((NewRetrievers 1).Retriever testRand testBuilder).w.sessions.length : Nat)
      : Int) ≥ ((NewRetrievers 1).Retriever testRand testBuilder).w.capacity := by decide
  exact ⟨by decide, by decide, h2.1.2 hfull, (h2.2.1 hfull).1⟩

/-! ## Retrievers: close responses -/

theorem release_found (r : Retrievers) (id : List Nat) (s : Nat) (h : r.find id = some s) :
    r.release id = ({ r with sessions := r.sessions.filter (fun kv => kv.1 ≠ id) }, some s) := by
  simp only [Retrievers.release, h]

theorem release_missing (r : Retrievers) (id : List Nat) (h : r.find id = none) :
    r.release id = (r, none) := by
  simp only [Retrievers.release, h]

theorem forcefullyRelease_missing (r : Retrievers) (id : List Nat) (h : r.find id = none) :
    r.forcefullyRelease id = (r, []) := by
  simp only [Retrievers.forcefullyRelease, release_missing r id h]

/-- C15: a Close response always removes the entry. For every table, code
`e` and `CloseRespond`: when the response's ID is in the table (pointing to
the retriever `s`), after `Retrievers.Closed` the ID is not in the table, every
other ID points where it did and every retriever but `s` is as it was; when
the ID is not in the table, `Closed` returns `ErrRetrieverUndefined`, makes no
call, and the table is unchanged. -/
theorem C15_close_removes_entry (r : Retrievers) (e : Nat) (d : CloseRespond)
    (c : RetrieverCancels) :
    (∀ s, r.find d.ID = some s →
      (r.Closed e d c).w.find d.ID = none ∧
      (∀ id', id' ≠ d.ID → (r.Closed e d c).w.find id' = r.find id') ∧
      (∀ s', s' ≠ s → (r.Closed e d c).w.deref s' = r.deref s') ∧
      (r.Closed e d c).w.capacity = r.capacity) ∧
    (r.find d.ID = none →
      (r.Closed e d c).err = some (GoError.plain Error.ErrRetrieverUndefined) ∧
      (r.Closed e d c).events = [] ∧
      (r.Closed e d c).w = r) := by
  constructor
  · intro s hfind
    have hgone : ({ r with sessions := r.sessions.filter (fun kv => kv.1 ≠ d.ID) } :
        Retrievers).find d.ID = none := lookup_filter_self r.sessions d.ID
    by_cases hc : (r.deref s).ccb ≠ none
    · have hR : (r.Closed e d c).w
          = { r with sessions := r.sessions.filter (fun kv => kv.1 ≠ d.ID) } := by
        have hc1 : (({ r with sessions := r.sessions.filter (fun kv => kv.1 ≠ d.ID) } :
            Retrievers).deref s).ccb ≠ none := hc
        simp only [Retrievers.Closed, release_found r d.ID s hfind, retriever.closed,
          Replied.finish]
        rw [if_pos hc1]
        simp only [Retrievers.reactToError, isErrorRecoverable, Bool.false_eq_true, if_false,
          forcefullyRelease_missing _ d.ID hgone]
      rw [hR]
      exact ⟨hgone, fun id' hne => lookup_filter_ne r.sessions d.ID id' hne, fun s' _ => rfl, rfl⟩
    · have hR : ∃ v1 v2, (r.Closed e d c).w
          = (({ r with sessions := r.sessions.filter (fun kv => kv.1 ≠ d.ID) } :
              Retrievers).store s v1).store s v2 := by
        have hc1 : ¬ (({ r with sessions := r.sessions.filter (fun kv => kv.1 ≠ d.ID) } :
            Retrievers).deref s).ccb ≠ none := hc
        simp only [Retrievers.Closed, release_found r d.ID s hfind, retriever.closed,
          Replied.finish]
        rw [if_neg hc1]
        simp only [Retrievers.reactToError, isErrorRecoverable, if_true]
        exact ⟨_, _, rfl⟩
      obtain ⟨v1, v2, hR⟩ := hR
      rw [hR]
      refine ⟨hgone, fun id' hne => lookup_filter_ne r.sessions d.ID id' hne, fun s' hne => ?_,
        rfl⟩
      rw [deref_store_other _ s s' _ hne, deref_store_other _ s s' _ hne]
      rfl
  · intro hfind
    simp only [Retrievers.Closed, release_missing r d.ID hfind, and_self]

/-- C15 at the example table: a Close response for the registered ID, with
any code, leaves the table without that ID, whether a close is pending (the
busy table) or not. -/
theorem C15_close_removes_entry_witness :
    (testRetrievers.Closed 5 ⟨testID⟩ []).w.find testID = none ∧
    (testRetrieversBusy.Closed 0 ⟨testID⟩ []).w.find testID = none ∧
    ((NewRetrievers 4).Closed 0 ⟨testID⟩ []).err
      = some (GoError.plain Error.ErrRetrieverUndefined) := by
  exact ⟨((C15_close_removes_entry testRetrievers 5 ⟨testID⟩ []).1 0 (by decide)).1,
    ((C15_close_removes_entry testRetrieversBusy 0 ⟨testID⟩ []).1 0 (by decide)).1,
    ((C15_close_removes_entry (NewRetrievers 4) 0 ⟨testID⟩ []).2 (by decide)).1⟩

theorem CloseRequest_Build_room (d : CloseRequest) (id : List Nat) (p : Pusher)
    (hid : id.length = 32) (h : p.i + 33 ≤ p.b.length) :
    d.Build id p = ({ d with ID := id }, p.app ([CloseType * 16 + 0] ++ id), Status.ok) := by
  simp only [CloseRequest.Build, NewRequestType_ok CloseType 0 (by decide) (by decide)]
  rw [pusherPush_first p _ (by simp; omega)]
  simp only
  rw [pusherPush_app p _ _ (by simp [hid]; omega)]

theorem Close_stores (r : Retrievers) (id : List Nat) (p : Pusher) (c s : Nat)
    (hid : id.length = 32) (hfind : r.find id = some s) (hidle : (r.deref s).ccb = none)
    (hroom : p.i + 33 ≤ p.b.length) :
    r.Close id p c =
      { w := r.store s { r.deref s with ccb := some c }, p := p.app ([CloseType * 16 + 0] ++ id),
        events := [], cancel := some (RetrieverCancel.ccb s), err := none } := by
  simp only [Retrievers.Close, hfind, hidle, ne_eq, not_true_eq_false, if_false,
    CloseRequest_Build_room ⟨id⟩ id p hid hroom, builtError]

/-- C16 fails on the code: a pending close is not signalled by its response.
For an ID registered in the table with no close pending and a pusher with
room, `Retrievers.Close` stores the callback `cb` in the close slot and
returns no error; the matching Close response with code 0 then makes
`Retrievers.Closed` return `ErrNotReady` without any call: the callback is not
invoked, and neither the other callbacks nor the sink are released. The entry
is removed from the table and the callback stays in the slot of the
retriever, which the table no longer reaches. -/
theorem C16_pending_close_not_signalled (r : Retrievers) (id : List Nat) (p : Pusher)
    (cb s : Nat) (c : RetrieverCancels) (hid : id.length = 32) (hfind : r.find id = some s)
    (hs : s < r.heap.length) (hidle : (r.deref s).ccb = none) (hroom : p.i + 33 ≤ p.b.length) :
    (r.Close id p cb).err = none ∧
    ((r.Close id p cb).w.deref s).ccb = some cb ∧
    ((r.Close id p cb).w.Closed 0 ⟨id⟩ c).events = [] ∧
    ((r.Close id p cb).w.Closed 0 ⟨id⟩ c).err = some (GoError.plain Error.ErrNotReady) ∧
    ((r.Close id p cb).w.Closed 0 ⟨id⟩ c).w.find id = none ∧
    (((r.Close id p cb).w.Closed 0 ⟨id⟩ c).w.deref s).ccb = some cb := by
  rw [Close_stores r id p cb s hid hfind hidle hroom]
  have hd : (r.store s { r.deref s with ccb := some cb }).deref s
      = { r.deref s with ccb := some cb } := deref_store_same r s _ hs
  have hf : (r.store s { r.deref s with ccb := some cb }).find id = some s := hfind
  have hgone : ({ r.store s { r.deref s with ccb := some cb } with
      sessions := (r.store s { r.deref s with ccb := some cb }).sessions.filter
        (fun kv => kv.1 ≠ id) } : Retrievers).find id = none :=
    lookup_filter_self _ id
  have hc1 : (({ r.store s { r.deref s with ccb := some cb } with
      sessions := (r.store s { r.deref s with ccb := some cb }).sessions.filter
        (fun kv => kv.1 ≠ id) } : Retrievers).deref s).ccb ≠ none := by
    have : (({ r.store s { r.deref s with ccb := some cb } with
      sessions := (r.store s { r.deref s with ccb := some cb }).sessions.filter
        (fun kv => kv.1 ≠ id) } : Retrievers).deref s)
        = (r.store s { r.deref s with ccb := some cb }).deref s := rfl
    rw [this, hd]
    simp
  have hR : (r.store s { r.deref s with ccb := some cb }).Closed 0 ⟨id⟩ c =
      { w := { r.store s { r.deref s with ccb := some cb } with
          sessions := (r.store s { r.deref s with ccb := some cb }).sessions.filter
            (fun kv => kv.1 ≠ id) },
        cancels := c, events := [], err := some (GoError.plain Error.ErrNotReady) } := by
    simp only [Retrievers.Closed, release_found _ id s hf, retriever.closed, Replied.finish]
    rw [if_pos hc1]
    simp only [Retrievers.reactToError, isErrorRecoverable, Bool.false_eq_true, if_false,
      forcefullyRelease_missing _ id hgone, runExec, List.append_nil]
  simp only [hR]
  refine ⟨trivial, ?_, trivial, trivial, hgone, ?_⟩
  · rw [hd]
  · have : (({ r.store s { r.deref s with ccb := some cb } with
      sessions := (r.store s { r.deref s with ccb := some cb }).sessions.filter
        (fun kv => kv.1 ≠ id) } : Retrievers).deref s)
        = (r.store s { r.deref s with ccb := some cb }).deref s := rfl
    rw [this, hd]

/-- C16 at the example table: the close callback 11 is stored, and the Close
response with code 0 calls nothing and returns `ErrNotReady`. -/
theorem C16_pending_close_not_signalled_witness :
    ((testRetrieversIdle.Close testID testPusher 11).w.Closed 0 ⟨testID⟩ []).events = [] ∧
    ((testRetrieversIdle.Close testID testPusher 11).w.Closed 0 ⟨testID⟩ []).err
      = some (GoError.plain Error.ErrNotReady) := by
  have h := C16_pending_close_not_signalled testRetrieversIdle testID testPusher 11 0 []
    (by decide) (by decide) (by decide) (by decide) (by decide)
  exact ⟨h.2.2.1, h.2.2.2.1⟩

/-! ## Retrievers: error responses -/

theorem deref_dialcb_valid (w : Retrievers) (s : Nat) (cb : Nat)
    (h : (w.deref s).dialcb = some cb) : s < w.heap.length := by
  by_contra hl
  rw [deref_invalid w s hl] at h
  cases h

theorem reactToError_recoverable (w : Retrievers) (id : List Nat) (e : Option GoError)
    (h : isErrorRecoverable e = true) : w.reactToError id e = (w, none) := by
  simp only [Retrievers.reactToError, h, if_true]

theorem reactToError_fatal (w : Retrievers) (id : List Nat) (e : Option GoError) (s : Nat)
    (h : isErrorRecoverable e = false) (hfind : w.find id = some s) :
    w.reactToError id e =
      (({ w with sessions := w.sessions.filter (fun kv => kv.1 ≠ id) } : Retrievers).store s
          (w.deref s).release.1, some (w.deref s).release.2) := by
  simp only [Retrievers.reactToError, h, Bool.false_eq_true, if_false,
    Retrievers.forcefullyRelease, release_found w id s hfind]
  rfl

theorem dialError_isError (e : Nat) : (getRetrieverDialError e).IsError = true := by
  unfold getRetrieverDialError
  repeat' split
  all_goals rfl

theorem resourceError_isError_pos (e : Nat) (h : e > 0) :
    (getRetrieverResourceError e).IsError = true := by
  unfold getRetrieverResourceError
  rw [if_neg (by simp only [ResourceErrorSuccess]; omega)]
  repeat' split
  all_goals rfl

theorem Registered_error (r : Retrievers) (e : Nat) (d : DialRespond) (rr : Fetcher)
    (c : RetrieverCancels) (fuel s cb : Nat) (hpos : e > 0) (hfind : r.find d.ID = some s)
    (hcb : (r.deref s).dialcb = some cb) :
    r.Registered e d rr c fuel =
      { w := ((r.store s { r.deref s with dialcb := none }).reactToError d.ID
          (some (GoError.retriever (getRetrieverDialError e)))).1,
        cancels := c.clear d.ID,
        events := [Event.dialcb cb (getRetrieverDialError e)],
        later := some (rr, runExec ((r.store s { r.deref s with dialcb := none }).reactToError
            d.ID (some (GoError.retriever (getRetrieverDialError e)))).2,
          Except.ok (some (GoError.retriever (getRetrieverDialError e)))) } := by
  simp only [Retrievers.Registered, hfind, retriever.dialed, hcb, hpos, if_true, Handled.finish,
    List.nil_append]

theorem Retrieved_error (r : Retrievers) (e : Nat) (d : RetrieveRespond) (rr : Fetcher)
    (c : RetrieverCancels) (fuel s cb : Nat) (hpos : e > 0) (hfind : r.find d.ID = some s)
    (hcb : (r.deref s).rcb = some cb) :
    r.Retrieved e d rr c fuel =
      { w := ((r.store s { r.deref s with rcb := none }).reactToError d.ID
          (some (GoError.retriever (getRetrieverResourceError e)))).1,
        cancels := c.clear d.ID,
        events := [Event.rcb cb (getRetrieverResourceError e)],
        later := some (rr, runExec ((r.store s { r.deref s with rcb := none }).reactToError
            d.ID (some (GoError.retriever (getRetrieverResourceError e)))).2,
          Except.ok (some (GoError.retriever (getRetrieverResourceError e)))) } := by
  simp only [Retrievers.Retrieved, hfind, retriever.retrieved, hcb, hpos, if_true,
    Handled.finish, List.nil_append]

theorem error_teardown (r : Retrievers) (id : List Nat) (s : Nat) (v : retriever)
    (err : RetrieverError) (hfind : r.find id = some s) (hs : s < r.heap.length) :
    (isErrorRecoverable (some (GoError.retriever err)) = true →
      ((r.store s v).reactToError id (some (GoError.retriever err))).1.find id = some s ∧
      ((r.store s v).reactToError id (some (GoError.retriever err))).1.sessions = r.sessions ∧
      ((r.store s v).reactToError id (some (GoError.retriever err))).1.deref s = v ∧
      runExec ((r.store s v).reactToError id (some (GoError.retriever err))).2 = []) ∧
    (isErrorRecoverable (some (GoError.retriever err)) = false →
      ((r.store s v).reactToError id (some (GoError.retriever err))).1.find id = none ∧
      (∀ id', id' ≠ id →
        ((r.store s v).reactToError id (some (GoError.retriever err))).1.find id'
          = r.find id') ∧
      ((r.store s v).reactToError id (some (GoError.retriever err))).1.deref s
        = { v with dialcb := none, rcb := none, wcb := none, ccb := none } ∧
      runExec ((r.store s v).reactToError id (some (GoError.retriever err))).2
        = v.release.2) ∧
    (∀ s', s' ≠ s →
      ((r.store s v).reactToError id (some (GoError.retriever err))).1.deref s' = r.deref s') := by
  have hf : (r.store s v).find id = some s := hfind
  have hd : (r.store s v).deref s = v := deref_store_same r s v hs
  refine ⟨fun h => ?_, fun h => ?_, fun s' hne => ?_⟩
  · rw [reactToError_recoverable _ _ _ h]
    exact ⟨hf, rfl, hd, rfl⟩
  · rw [reactToError_fatal _ _ _ s h hf, hd]
    refine ⟨lookup_filter_self r.sessions id, fun id' hne => lookup_filter_ne r.sessions id id' hne,
      ?_, rfl⟩
    have hs2 : s < ({ r.store s v with
        sessions := (r.store s v).sessions.filter (fun kv => kv.1 ≠ id) } :
          Retrievers).heap.length := by
      show s < (r.store s v).heap.length
      rw [store_length]
      exact hs
    rw [deref_store_same _ s _ hs2]
    rfl
  · by_cases h : isErrorRecoverable (some (GoError.retriever err)) = true
    · rw [reactToError_recoverable _ _ _ h]
      exact deref_store_other r s s' v hne
    · rw [reactToError_fatal _ _ _ s (by simpa using h) hf]
      rw [deref_store_other _ s s' _ hne]
      exact deref_store_other r s s' v hne

/-- C17: teardown follows recoverability. `Retrievers.Registered` and
`Retrievers.Retrieved`, handling a response with a code `e > 0` for an ID
whose dial (retrieve) callback is pending, call that callback once with the
error mapped from `e` (`getRetrieverDialError e`, `getRetrieverResourceError
e`) and return it. That error is recoverable exactly when its `TryAgain` is
set. The ID is gone from the table exactly when the error is not
recoverable; then, after the callback, the retriever's remaining callbacks are
called with `ErrResourceClosed` and its sink is closed (the calls of
`release`), and all other IDs stay. When the error is recoverable no further
call is made, the table keeps its entries, and the retriever keeps `rid`,
`roffset`, `rtotal`, `wid` and every other field but the emptied slot. No
other retriever changes. -/
theorem C17_teardown_follows_recoverability (r : Retrievers) (e : Nat) (rr : Fetcher)
    (c : RetrieverCancels) (fuel s cb : Nat) (hpos : e > 0) :
    (∀ d : DialRespond, r.find d.ID = some s → (r.deref s).dialcb = some cb →
      (r.Registered e d rr c fuel).events = [Event.dialcb cb (getRetrieverDialError e)] ∧
      isErrorRecoverable (some (GoError.retriever (getRetrieverDialError e)))
        = (getRetrieverDialError e).TryAgain ∧
      ((r.Registered e d rr c fuel).w.find d.ID = none ↔
        isErrorRecoverable (some (GoError.retriever (getRetrieverDialError e))) = false) ∧
      (isErrorRecoverable (some (GoError.retriever (getRetrieverDialError e))) = false →
        (r.Registered e d rr c fuel).later
          = some (rr, ({ r.deref s with dialcb := none } : retriever).release.2,
              Except.ok (some (GoError.retriever (getRetrieverDialError e)))) ∧
        (r.Registered e d rr c fuel).w.deref s
          = { r.deref s with dialcb := none, rcb := none, wcb := none, ccb := none } ∧
        (∀ id', id' ≠ d.ID → (r.Registered e d rr c fuel).w.find id' = r.find id')) ∧
      (isErrorRecoverable (some (GoError.retriever (getRetrieverDialError e))) = true →
        (r.Registered e d rr c fuel).later
          = some (rr, [], Except.ok (some (GoError.retriever (getRetrieverDialError e)))) ∧
        (r.Registered e d rr c fuel).w.sessions = r.sessions ∧
        (r.Registered e d rr c fuel).w.find d.ID = some s ∧
        (r.Registered e d rr c fuel).w.deref s = { r.deref s with dialcb := none }) ∧
      (∀ s', s' ≠ s → (r.Registered e d rr c fuel).w.deref s' = r.deref s')) ∧
    (∀ d : RetrieveRespond, r.find d.ID = some s → (r.deref s).rcb = some cb →
      (r.Retrieved e d rr c fuel).events = [Event.rcb cb (getRetrieverResourceError e)] ∧
      isErrorRecoverable (some (GoError.retriever (getRetrieverResourceError e)))
        = (getRetrieverResourceError e).TryAgain ∧
      ((r.Retrieved e d rr c fuel).w.find d.ID = none ↔
        isErrorRecoverable (some (GoError.retriever (getRetrieverResourceError e))) = false) ∧
      (isErrorRecoverable (some (GoError.retriever (getRetrieverResourceError e))) = false →
        (r.Retrieved e d rr c fuel).later
          = some (rr, ({ r.deref s with rcb := none } : retriever).release.2,
              Except.ok (some (GoError.retriever (getRetrieverResourceError e)))) ∧
        (r.Retrieved e d rr c fuel).w.deref s
          = { r.deref s with dialcb := none, rcb := none, wcb := none, ccb := none } ∧
        (∀ id', id' ≠ d.ID → (r.Retrieved e d rr c fuel).w.find id' = r.find id')) ∧
      (isErrorRecoverable (some (GoError.retriever (getRetrieverResourceError e))) = true →
        (r.Retrieved e d rr c fuel).later
          = some (rr, [], Except.ok (some (GoError.retriever (getRetrieverResourceError e)))) ∧
        (r.Retrieved e d rr c fuel).w.sessions = r.sessions ∧
        (r.Retrieved e d rr c fuel).w.find d.ID = some s ∧
        (r.Retrieved e d rr c fuel).w.deref s = { r.deref s with rcb := none }) ∧
      (∀ s', s' ≠ s → (r.Retrieved e d rr c fuel).w.deref s' = r.deref s')) := by
  constructor
  · intro d hfind hcb
    have hs : s < r.heap.length := deref_dialcb_valid r s cb hcb
    have ht := error_teardown r d.ID s { r.deref s with dialcb := none }
      (getRetrieverDialError e) hfind hs
    rw [Registered_error r e d rr c fuel s cb hpos hfind hcb]
    refine ⟨rfl, ?_, ?_, fun h => ?_, fun h => ?_, ht.2.2⟩
    · simp only [isErrorRecoverable, dialError_isError, Bool.not_true, Bool.false_or]
    · constructor
      · intro hnone
        by_contra hrec
        have h1 := (ht.1 (by simpa using hrec)).1
        simp only at hnone
        rw [hnone] at h1
        cases h1
      · intro h
        exact (ht.2.1 h).1
    · obtain ⟨_, h2, h3, h4⟩ := ht.2.1 h
      simp only
      rw [h4]
      exact ⟨rfl, h3, h2⟩
    · obtain ⟨h1, h2, h3, h4⟩ := ht.1 h
      simp only
      rw [h4]
      exact ⟨rfl, h2, h1, h3⟩
  · intro d hfind hcb
    have hs : s < r.heap.length := deref_pending_valid r s cb hcb
    have ht := error_teardown r d.ID s { r.deref s with rcb := none }
      (getRetrieverResourceError e) hfind hs
    rw [Retrieved_error r e d rr c fuel s cb hpos hfind hcb]
    refine ⟨rfl, ?_, ?_, fun h => ?_, fun h => ?_, ht.2.2⟩
    · simp only [isErrorRecoverable, resourceError_isError_pos e hpos, Bool.not_true,
        Bool.false_or]
    · constructor
      · intro hnone
        by_contra hrec
        have h1 := (ht.1 (by simpa using hrec)).1
        simp only at hnone
        rw [hnone] at h1
        cases h1
      · intro h
        exact (ht.2.1 h).1
    · obtain ⟨_, h2, h3, h4⟩ := ht.2.1 h
      simp only
      rw [h4]
      exact ⟨rfl, h3, h2⟩
    · obtain ⟨h1, h2, h3, h4⟩ := ht.1 h
      simp only
      rw [h4]
      exact ⟨rfl, h2, h1, h3⟩

/-- C17 at the example table with a callback pending in every phase: a dial
response with code Unreachable (2, retryable) reaches the dial callback 6 and
leaves the retriever in the table; a retrieve response with code Broken (4,
not retryable) reaches the retrieve callback 7, then the remaining callbacks
6, 8 and 9 get `ErrResourceClosed`, the sink 1 is closed and the ID is gone. -/
theorem C17_teardown_follows_recoverability_witness :
    (testRetrieversBusy.Registered 2 ⟨testID, 0, 0, [], 0⟩ (NewFetcher (ByteFetch [] Error.EOF))
        [] 1).events = [Event.dialcb 6 ErrDialFailedUnreachable] ∧
    (testRetrieversBusy.Registered 2 ⟨testID, 0, 0, [], 0⟩ (NewFetcher (ByteFetch [] Error.EOF))
        [] 1).w.find testID = some 0 ∧
    (testRetrieversBusy.Retrieved 4 ⟨testID, 5, 30, 10, [], 0⟩
        (NewFetcher (ByteFetch [] Error.EOF)) [] 1).events = [Event.rcb 7 ErrResourceBroken] ∧
    (testRetrieversBusy.Retrieved 4 ⟨testID, 5, 30, 10, [], 0⟩
        (NewFetcher (ByteFetch [] Error.EOF)) [] 1).later
      = some (NewFetcher (ByteFetch [] Error.EOF),
          [Event.dialcb 6 ErrResourceClosed, Event.wcb 8 0 ErrResourceClosed,
            Event.ccb 9 ErrResourceClosed, Event.Close 1],
          Except.ok (some (GoError.retriever ErrResourceBroken))) ∧
    (testRetrieversBusy.Retrieved 4 ⟨testID, 5, 30, 10, [], 0⟩
        (NewFetcher (ByteFetch [] Error.EOF)) [] 1).w.find testID = none := by
  have hd := (C17_teardown_follows_recoverability testRetrieversBusy 2
    (NewFetcher (ByteFetch [] Error.EOF)) [] 1 0 6 (by decide)).1 ⟨testID, 0, 0, [], 0⟩
    (by decide) (by decide)
  have hr := (C17_teardown_follows_recoverability testRetrieversBusy 4
    (NewFetcher (ByteFetch [] Error.EOF)) [] 1 0 7 (by decide)).2 ⟨testID, 5, 30, 10, [], 0⟩
    (by decide) (by decide)
  exact ⟨hd.1, (hd.2.2.2.2.1 (by decide)).2.2.1, hr.1, (hr.2.2.2.1 (by decide)).1,
    hr.2.2.1.2 (by decide)⟩

/-! ## Retrievers: the error codes -/

theorem dialError_cases (n : Nat) :
    (n = 1 ∧ getRetrieverDialError n = ErrDialFailedInvalidRequest) ∨
    (n = 2 ∧ getRetrieverDialError n = ErrDialFailedUnreachable) ∨
    (n = 3 ∧ getRetrieverDialError n = ErrDialFailedOvercapacity) ∨
    (n = 4 ∧ getRetrieverDialError n = ErrDialFailedAlreadyDialed) ∨
    (n = 5 ∧ getRetrieverDialError n = ErrDialFailedInternalFailure) ∨
    ((n = 0 ∨ n > 5) ∧ getRetrieverDialError n = ErrDialFailedUnknown) := by
  unfold getRetrieverDialError
  simp only [DialErrorInvalidRequest, DialErrorUnreachable, DialErrorOverCapacity,
    DialErrorAlreadyDialed, DialErrorInternalFailure]
  by_cases h1 : n = 1
  · exact Or.inl ⟨h1, by rw [if_pos h1]⟩
  by_cases h2 : n = 2
  · exact Or.inr (Or.inl ⟨h2, by rw [if_neg h1, if_pos h2]⟩)
  by_cases h3 : n = 3
  · exact Or.inr (Or.inr (Or.inl ⟨h3, by rw [if_neg h1, if_neg h2, if_pos h3]⟩))
  by_cases h4 : n = 4
  · exact Or.inr (Or.inr (Or.inr (Or.inl ⟨h4, by rw [if_neg h1, if_neg h2, if_neg h3, if_pos h4]⟩)))
  by_cases h5 : n = 5
  · exact Or.inr (Or.inr (Or.inr (Or.inr (Or.inl
      ⟨h5, by rw [if_neg h1, if_neg h2, if_neg h3, if_neg h4, if_pos h5]⟩))))
  · exact Or.inr (Or.inr (Or.inr (Or.inr (Or.inr
      ⟨by omega, by rw [if_neg h1, if_neg h2, if_neg h3, if_neg h4, if_neg h5]⟩))))

theorem resourceError_cases (n : Nat) :
    (n = 0 ∧ getRetrieverResourceError n = noError) ∨
    (n = 1 ∧ getRetrieverResourceError n = ErrResourceNotFound) ∨
    (n = 2 ∧ getRetrieverResourceError n = ErrResourceNotReady) ∨
    (n = 3 ∧ getRetrieverResourceError n = ErrResourceExpired) ∨
    (n = 4 ∧ getRetrieverResourceError n = ErrResourceBroken) ∨
    (n = 5 ∧ getRetrieverResourceError n = ErrResourceClosed) ∨
    (n = 6 ∧ getRetrieverResourceError n = ErrResourceSendFailure) ∨
    (n ≥ 7 ∧ getRetrieverResourceError n = ErrResourceUnknown) := by
  unfold getRetrieverResourceError
  simp only [ResourceErrorSuccess, ResourceErrorNotFound, ResourceErrorNotReady,
    ResourceErrorExpired, ResourceErrorBroken, ResourceErrorClosed, ResourceErrorSendFailure,
    ResourceErrorUnknown]
  by_cases h0 : n = 0
  · exact Or.inl ⟨h0, by rw [if_pos h0]⟩
  by_cases h1 : n = 1
  · exact Or.inr (Or.inl ⟨h1, by rw [if_neg h0, if_pos h1]⟩)
  by_cases h2 : n = 2
  · exact Or.inr (Or.inr (Or.inl ⟨h2, by rw [if_neg h0, if_neg h1, if_pos h2]⟩))
  by_cases h3 : n = 3
  · exact Or.inr (Or.inr (Or.inr (Or.inl ⟨h3, by rw [if_neg h0, if_neg h1, if_neg h2, if_pos h3]⟩)))
  by_cases h4 : n = 4
  · exact Or.inr (Or.inr (Or.inr (Or.inr (Or.inl
      ⟨h4, by rw [if_neg h0, if_neg h1, if_neg h2, if_neg h3, if_pos h4]⟩))))
  by_cases h5 : n = 5
  · exact Or.inr (Or.inr (Or.inr (Or.inr (Or.inr (Or.inl
      ⟨h5, by rw [if_neg h0, if_neg h1, if_neg h2, if_neg h3, if_neg h4, if_pos h5]⟩)))))
  by_cases h6 : n = 6
  · exact Or.inr (Or.inr (Or.inr (Or.inr (Or.inr (Or.inr (Or.inl
      ⟨h6, by rw [if_neg h0, if_neg h1, if_neg h2, if_neg h3, if_neg h4, if_neg h5,
        if_pos h6]⟩))))))
  · refine Or.inr (Or.inr (Or.inr (Or.inr (Or.inr (Or.inr (Or.inr ⟨by omega, ?_⟩))))))
    rw [if_neg h0, if_neg h1, if_neg h2, if_neg h3, if_neg h4, if_neg h5, if_neg h6]
    split <;> rfl

/-- C18: the retryable error codes. For every code `n` (every byte, and every
natural number): `getRetrieverDialError n` has `TryAgain` set exactly when `n`
is Unreachable (2) or OverCapacity (3); `getRetrieverResourceError n` has
`TryAgain` set exactly when `n` is Expired (3), is the no-error value exactly
when `n = 0`, and is `ErrResourceUnknown` for every `n > 7` (and for 7).
`isErrorRecoverable` holds of a dial error exactly for the codes 2 and 3, and
of a resource error exactly for the codes 0 and 3. -/
theorem C18_retryable_codes (n : Nat) :
    ((getRetrieverDialError n).TryAgain = true ↔ n = 2 ∨ n = 3) ∧
    DialErrorUnreachable = 2 ∧ DialErrorOverCapacity = 3 ∧ ResourceErrorExpired = 3 ∧
    ((getRetrieverResourceError n).TryAgain = true ↔ n = 3) ∧
    (getRetrieverResourceError n = noError ↔ n = 0) ∧
    (n ≥ 7 → getRetrieverResourceError n = ErrResourceUnknown) ∧
    (isErrorRecoverable (some (GoError.retriever (getRetrieverDialError n))) = true ↔
      n = 2 ∨ n = 3) ∧
    (isErrorRecoverable (some (GoError.retriever (getRetrieverResourceError n))) = true ↔
      n = 0 ∨ n = 3) := by
  have hd := dialError_cases n
  have hr := resourceError_cases n
  refine ⟨?_, rfl, rfl, rfl, ?_, ?_, ?_, ?_, ?_⟩
  · rcases hd with ⟨h, he⟩ | ⟨h, he⟩ | ⟨h, he⟩ | ⟨h, he⟩ | ⟨h, he⟩ | ⟨h, he⟩ <;> rw [he] <;>
      simp [ErrDialFailedInvalidRequest, ErrDialFailedUnreachable, ErrDialFailedOvercapacity,
        ErrDialFailedAlreadyDialed, ErrDialFailedInternalFailure, ErrDialFailedUnknown,
        newRetrieverError] <;> omega
  · rcases hr with ⟨h, he⟩ | ⟨h, he⟩ | ⟨h, he⟩ | ⟨h, he⟩ | ⟨h, he⟩ | ⟨h, he⟩ | ⟨h, he⟩ | ⟨h, he⟩ <;>
      rw [he] <;>
      simp [noError, ErrResourceNotFound, ErrResourceNotReady, ErrResourceExpired,
        ErrResourceBroken, ErrResourceClosed, ErrResourceSendFailure, ErrResourceUnknown,
        newRetrieverError] <;> omega
  · rcases hr with ⟨h, he⟩ | ⟨h, he⟩ | ⟨h, he⟩ | ⟨h, he⟩ | ⟨h, he⟩ | ⟨h, he⟩ | ⟨h, he⟩ | ⟨h, he⟩ <;>
      rw [he] <;>
      simp [noError, ErrResourceNotFound, ErrResourceNotReady, ErrResourceExpired,
        ErrResourceBroken, ErrResourceClosed, ErrResourceSendFailure, ErrResourceUnknown,
        newRetrieverError] <;> omega
  · intro h7
    rcases hr with ⟨h, he⟩ | ⟨h, he⟩ | ⟨h, he⟩ | ⟨h, he⟩ | ⟨h, he⟩ | ⟨h, he⟩ | ⟨h, he⟩ | ⟨h, he⟩
    all_goals first | exact he | omega
  · rcases hd with ⟨h, he⟩ | ⟨h, he⟩ | ⟨h, he⟩ | ⟨h, he⟩ | ⟨h, he⟩ | ⟨h, he⟩ <;> rw [he] <;>
      simp [isErrorRecoverable, RetrieverError.IsError, ErrDialFailedInvalidRequest,
        ErrDialFailedUnreachable, ErrDialFailedOvercapacity,
        ErrDialFailedAlreadyDialed, ErrDialFailedInternalFailure, ErrDialFailedUnknown,
        newRetrieverError] <;> omega
  · rcases hr with ⟨h, he⟩ | ⟨h, he⟩ | ⟨h, he⟩ | ⟨h, he⟩ | ⟨h, he⟩ | ⟨h, he⟩ | ⟨h, he⟩ | ⟨h, he⟩ <;>
      rw [he] <;>
      simp [isErrorRecoverable, RetrieverError.IsError, noError, ErrResourceNotFound,
        ErrResourceNotReady, ErrResourceExpired,
        ErrResourceBroken, ErrResourceClosed, ErrResourceSendFailure, ErrResourceUnknown,
        newRetrieverError] <;> omega

/-- C18 at the codes 9 and 200, both above 7: the resource error is Unknown;
and at the code 3: both errors are retryable. -/
theorem C18_retryable_codes_witness :
    getRetrieverResourceError 9 = ErrResourceUnknown ∧
    getRetrieverResourceError 200 = ErrResourceUnknown ∧
    (getRetrieverDialError 3).TryAgain = true ∧
    (getRetrieverResourceError 3).TryAgain = true := by
  exact ⟨(C18_retryable_codes 9).2.2.2.2.2.2.1 (by decide),
    (C18_retryable_codes 200).2.2.2.2.2.2.1 (by decide),
    (C18_retryable_codes 3).1.2 (Or.inr rfl), (C18_retryable_codes 3).2.2.2.2.1.2 rfl⟩

/-! ## Retrievers: cancel closures -/

theorem set_getD_self (l : List retriever) (s : Nat) : l.set s (l.getD s default) = l := by
  apply List.ext_getElem?
  intro i
  rw [List.getElem?_set]
  by_cases hi : s = i
  · subst hi
    by_cases hl : s < l.length
    · simp [hl, List.getD_eq_getElem?_getD]
    · simp [hl, List.getElem?_eq_none (Nat.le_of_not_lt hl)]
  · simp [hi]

theorem store_same_value (w : Retrievers) (s : Nat) : w.store s (w.deref s) = w := by
  unfold Retrievers.store Retrievers.deref
  rw [set_getD_self]

theorem reactToError_deref (w : Retrievers) (id : List Nat) (e : Option GoError) (s : Nat) :
    (w.reactToError id e).1.deref s = w.deref s ∨
    (w.reactToError id e).1.deref s = (w.deref s).release.1 := by
  unfold Retrievers.reactToError
  by_cases h : isErrorRecoverable e = true
  · rw [if_pos h]
    exact Or.inl rfl
  · rw [if_neg h]
    unfold Retrievers.forcefullyRelease Retrievers.release
    cases hf : w.find id with
    | none => exact Or.inl rfl
    | some s0 =>
      simp only
      rw [deref_store]
      split
      · rename_i hc
        rw [hc.1]
        exact Or.inr rfl
      · exact Or.inl rfl

theorem cancel_rcb_pending (w : Retrievers) (s cb : Nat) (e : RetrieverError)
    (h : (w.deref s).rcb = some cb) :
    (RetrieverCancel.rcb s).call w e
      = (w.store s { w.deref s with rcb := none }, [Event.rcb cb e]) := by
  simp only [RetrieverCancel.call, h]

theorem cancel_rcb_idle (w : Retrievers) (s : Nat) (e : RetrieverError)
    (h : (w.deref s).rcb = none) : (RetrieverCancel.rcb s).call w e = (w, []) := by
  have hv : ({ w.deref s with rcb := none } : retriever) = w.deref s := by
    rw [← h]
  simp only [RetrieverCancel.call, h, hv, store_same_value]

theorem cancel_dialcb_pending (w : Retrievers) (s cb : Nat) (e : RetrieverError)
    (h : (w.deref s).dialcb = some cb) :
    (RetrieverCancel.dialcb s).call w e
      = (w.store s { w.deref s with dialcb := none }, [Event.dialcb cb e]) := by
  simp only [RetrieverCancel.call, h]

theorem cancel_dialcb_idle (w : Retrievers) (s : Nat) (e : RetrieverError)
    (h : (w.deref s).dialcb = none) : (RetrieverCancel.dialcb s).call w e = (w, []) := by
  have hv : ({ w.deref s with dialcb := none } : retriever) = w.deref s := by
    rw [← h]
  simp only [RetrieverCancel.call, h, hv, store_same_value]

theorem cancel_wcb_pending (w : Retrievers) (s cb : Nat) (e : RetrieverError)
    (h : (w.deref s).wcb = some cb) :
    (RetrieverCancel.wcb s).call w e
      = (w.store s { w.deref s with wcb := none }, [Event.wcb cb 0 e]) := by
  simp only [RetrieverCancel.call, h]

theorem cancel_wcb_idle (w : Retrievers) (s : Nat) (e : RetrieverError)
    (h : (w.deref s).wcb = none) : (RetrieverCancel.wcb s).call w e = (w, []) := by
  have hv : ({ w.deref s with wcb := none } : retriever) = w.deref s := by
    rw [← h]
  simp only [RetrieverCancel.call, h, hv, store_same_value]

theorem cancel_ccb_pending (w : Retrievers) (s cb : Nat) (e : RetrieverError)
    (h : (w.deref s).ccb = some cb) :
    (RetrieverCancel.ccb s).call w e
      = (w.store s { w.deref s with ccb := none }, [Event.ccb cb e]) := by
  simp only [RetrieverCancel.call, h]

theorem cancel_ccb_idle (w : Retrievers) (s : Nat) (e : RetrieverError)
    (h : (w.deref s).ccb = none) : (RetrieverCancel.ccb s).call w e = (w, []) := by
  have hv : ({ w.deref s with ccb := none } : retriever) = w.deref s := by
    rw [← h]
  simp only [RetrieverCancel.call, h, hv, store_same_value]

theorem reactToError_rcb (w : Retrievers) (id : List Nat) (e : Option GoError) (s : Nat)
    (h : (w.deref s).rcb = none) : ((w.reactToError id e).1.deref s).rcb = none := by
  rcases reactToError_deref w id e s with h1 | h1
  · rw [h1, h]
  · rw [h1]
    rfl

theorem reactToError_dialcb (w : Retrievers) (id : List Nat) (e : Option GoError) (s : Nat)
    (h : (w.deref s).dialcb = none) : ((w.reactToError id e).1.deref s).dialcb = none := by
  rcases reactToError_deref w id e s with h1 | h1
  · rw [h1, h]
  · rw [h1]
    rfl

theorem reactToError_wcb (w : Retrievers) (id : List Nat) (e : Option GoError) (s : Nat)
    (h : (w.deref s).wcb = none) : ((w.reactToError id e).1.deref s).wcb = none := by
  rcases reactToError_deref w id e s with h1 | h1
  · rw [h1, h]
  · rw [h1]
    rfl

theorem Retrieved_slot (w : Retrievers) (e : Nat) (d : RetrieveRespond) (rr : Fetcher)
    (c : RetrieverCancels) (fuel s : Nat) (hfind : w.find d.ID = some s) :
    ((w.Retrieved e d rr c fuel).w.deref s).rcb = none := by
  simp only [Retrievers.Retrieved, hfind, retriever.retrieved, Handled.finish]
  cases hcb : (w.deref s).rcb with
  | none => exact reactToError_rcb _ _ _ _ hcb
  | some cb =>
    have hv : s < w.heap.length := deref_pending_valid w s cb hcb
    have hd : ((w.store s { w.deref s with rcb := none }).deref s).rcb = none := by
      rw [deref_store_same w s _ hv]
    have hv1 : s < (w.store s { w.deref s with rcb := none }).heap.length := by
      rw [store_length]
      exact hv
    simp only
    split
    · exact reactToError_rcb _ _ _ _ hd
    · split
      · exact reactToError_rcb _ _ _ _ hd
      · refine reactToError_rcb _ _ _ _ ?_
        rw [deref_store_same _ s _ hv1]
        exact hd

theorem Resumed_slot (w : Retrievers) (e : Nat) (d : ResumeRespond) (rr : Fetcher)
    (c : RetrieverCancels) (fuel s : Nat) (hfind : w.find d.ID = some s) :
    ((w.Resumed e d rr c fuel).w.deref s).rcb = none := by
  simp only [Retrievers.Resumed, hfind, retriever.resumed, Handled.finish]
  cases hcb : (w.deref s).rcb with
  | none => exact reactToError_rcb _ _ _ _ hcb
  | some cb =>
    have hv : s < w.heap.length := deref_pending_valid w s cb hcb
    have hd : ((w.store s { w.deref s with rcb := none }).deref s).rcb = none := by
      rw [deref_store_same w s _ hv]
    have hv1 : s < (w.store s { w.deref s with rcb := none }).heap.length := by
      rw [store_length]
      exact hv
    simp only
    split
    · exact reactToError_rcb _ _ _ _ hd
    · split
      · exact reactToError_rcb _ _ _ _ hd
      · refine reactToError_rcb _ _ _ _ ?_
        rw [deref_store_same _ s _ hv1]
        exact hd

theorem Registered_slot (w : Retrievers) (e : Nat) (d : DialRespond) (rr : Fetcher)
    (c : RetrieverCancels) (fuel s : Nat) (hfind : w.find d.ID = some s) :
    ((w.Registered e d rr c fuel).w.deref s).dialcb = none := by
  simp only [Retrievers.Registered, hfind, retriever.dialed, Handled.finish]
  cases hcb : (w.deref s).dialcb with
  | none => exact reactToError_dialcb _ _ _ _ hcb
  | some cb =>
    have hv : s < w.heap.length := deref_dialcb_valid w s cb hcb
    have hd : ((w.store s { w.deref s with dialcb := none }).deref s).dialcb = none := by
      rw [deref_store_same w s _ hv]
    have hv1 : s < (w.store s { w.deref s with dialcb := none }).heap.length := by
      rw [store_length]
      exact hv
    simp only
    split
    · exact reactToError_dialcb _ _ _ _ hd
    · refine reactToError_dialcb _ _ _ _ ?_
      rw [deref_store_same _ s _ hv1]
      exact hd

theorem Sent_slot (w : Retrievers) (e : Nat) (d : SendRespond) (c : RetrieverCancels) (s : Nat)
    (hfind : w.find d.ID = some s) : ((w.Sent e d c).w.deref s).wcb = none := by
  simp only [Retrievers.Sent, hfind, retriever.sent, Replied.finish]
  cases hcb : (w.deref s).wcb with
  | none => exact reactToError_wcb _ _ _ _ hcb
  | some cb =>
    have hv : s < w.heap.length := deref_wcb_valid w s cb hcb
    have hd : ((w.store s { w.deref s with wcb := none }).deref s).wcb = none := by
      rw [deref_store_same w s _ hv]
    have hv1 : s < (w.store s { w.deref s with wcb := none }).heap.length := by
      rw [store_length]
      exact hv
    simp only
    split
    · exact reactToError_wcb _ _ _ _ hd
    · split
      · exact reactToError_wcb _ _ _ _ hd
      · refine reactToError_wcb _ _ _ _ ?_
        rw [deref_store_same _ s _ hv1]
        exact hd

theorem Retrieve_token (r : Retrievers) (id : List Nat) (p : Pusher) (c : Nat)
    (h : (r.Retrieve id p c).err = none) :
    ∃ s, r.find id = some s ∧ (r.deref s).rcb = none ∧
      (r.Retrieve id p c).cancel = some (RetrieverCancel.rcb s) ∧
      (r.Retrieve id p c).w = r.store s { r.deref s with rcb := some c } := by
  unfold Retrievers.Retrieve at h ⊢
  cases hf : r.find id with
  | none =>
    rw [hf] at h
    cases h
  | some s =>
    rw [hf] at h
    simp only at h ⊢
    by_cases hb : (r.deref s).rcb ≠ none
    · rw [if_pos hb] at h
      cases h
    · rw [if_neg hb] at h ⊢
      split at h
      · cases h
      · exact ⟨s, rfl, by simpa using hb, rfl, rfl⟩

theorem Close_token (r : Retrievers) (id : List Nat) (p : Pusher) (c : Nat)
    (h : (r.Close id p c).err = none) :
    (r.find id = none ∧ (r.Close id p c).cancel = some RetrieverCancel.nothing ∧
      (r.Close id p c).w = r) ∨
    ∃ s, r.find id = some s ∧ (r.deref s).ccb = none ∧
      (r.Close id p c).cancel = some (RetrieverCancel.ccb s) ∧
      (r.Close id p c).w = r.store s { r.deref s with ccb := some c } := by
  unfold Retrievers.Close at h ⊢
  cases hf : r.find id with
  | none =>
    rw [hf] at h
    simp only at h ⊢
    split at h
    · cases h
    · exact Or.inl ⟨trivial, rfl, rfl⟩
  | some s =>
    rw [hf] at h
    simp only at h ⊢
    by_cases hb : (r.deref s).ccb ≠ none
    · rw [if_pos hb] at h
      cases h
    · rw [if_neg hb] at h ⊢
      split at h
      · cases h
      · exact Or.inr ⟨s, rfl, by simpa using hb, rfl, rfl⟩

theorem Register_token (r : Retrievers) (id : List Nat) (rr : DialRequest) (p : Pusher)
    (c : Nat) (q : Requested) (hq : r.Register id rr p c = Except.ok q) (h : q.err = none) :
    ∃ s, r.find id = some s ∧ (r.deref s).dialcb = none ∧
      q.cancel = some (RetrieverCancel.dialcb s) ∧
      q.w = r.store s { r.deref s with dialcb := some c } := by
  unfold Retrievers.Register at hq
  cases hf : r.find id with
  | none =>
    rw [hf] at hq
    simp only [Except.ok.injEq] at hq
    subst hq
    cases h
  | some s =>
    rw [hf] at hq
    simp only at hq
    by_cases hb : (r.deref s).dialcb ≠ none
    · rw [if_pos hb] at hq
      simp only [Except.ok.injEq] at hq
      subst hq
      cases h
    · rw [if_neg hb] at hq
      split at hq
      · cases hq
      · simp only [Except.ok.injEq] at hq
        subst hq
        cases h
      · simp only [Except.ok.injEq] at hq
        subst hq
        exact ⟨s, rfl, by simpa using hb, rfl, rfl⟩

theorem Send_token (r : Retrievers) (id : List Nat) (data : List Nat) (p : Pusher)
    (c : Nat) (q : Requested) (hq : r.Send id data p c = Except.ok q) (h : q.err = none) :
    ∃ s, r.find id = some s ∧ (r.deref s).wcb = none ∧
      q.cancel = some (RetrieverCancel.wcb s) ∧
      q.w = r.store s { r.deref s with wcb := some c } := by
  unfold Retrievers.Send at hq
  cases hf : r.find id with
  | none =>
    rw [hf] at hq
    simp only [Except.ok.injEq] at hq
    subst hq
    cases h
  | some s =>
    rw [hf] at hq
    simp only at hq
    by_cases hb : (r.deref s).wcb ≠ none
    · rw [if_pos hb] at hq
      simp only [Except.ok.injEq] at hq
      subst hq
      cases h
    · rw [if_neg hb] at hq
      split at hq
      · cases hq
      · split at hq
        · simp only [Except.ok.injEq] at hq
          subst hq
          cases h
        · simp only [Except.ok.injEq] at hq
          subst hq
          exact ⟨s, rfl, by simpa using hb, rfl, rfl⟩

theorem deref_ccb_valid (w : Retrievers) (s : Nat) (cb : Nat)
    (h : (w.deref s).ccb = some cb) : s < w.heap.length := by
  by_contra hl
  rw [deref_invalid w s hl] at h
  cases h

theorem cancel_twice (t : RetrieverCancel) (w : Retrievers) (e e' : RetrieverError) :
    t.call (t.call w e).1 e' = ((t.call w e).1, []) := by
  cases t with
  | dialcb s =>
    cases h : (w.deref s).dialcb with
    | none => rw [cancel_dialcb_idle w s e h, cancel_dialcb_idle w s e' h]
    | some cb =>
      rw [cancel_dialcb_pending w s cb e h]
      refine cancel_dialcb_idle _ s e' ?_
      rw [deref_store_same w s _ (deref_dialcb_valid w s cb h)]
  | rcb s =>
    cases h : (w.deref s).rcb with
    | none => rw [cancel_rcb_idle w s e h, cancel_rcb_idle w s e' h]
    | some cb =>
      rw [cancel_rcb_pending w s cb e h]
      refine cancel_rcb_idle _ s e' ?_
      rw [deref_store_same w s _ (deref_pending_valid w s cb h)]
  | wcb s =>
    cases h : (w.deref s).wcb with
    | none => rw [cancel_wcb_idle w s e h, cancel_wcb_idle w s e' h]
    | some cb =>
      rw [cancel_wcb_pending w s cb e h]
      refine cancel_wcb_idle _ s e' ?_
      rw [deref_store_same w s _ (deref_wcb_valid w s cb h)]
  | ccb s =>
    cases h : (w.deref s).ccb with
    | none => rw [cancel_ccb_idle w s e h, cancel_ccb_idle w s e' h]
    | some cb =>
      rw [cancel_ccb_pending w s cb e h]
      refine cancel_ccb_idle _ s e' ?_
      rw [deref_store_same w s _ (deref_ccb_valid w s cb h)]
  | nothing => rfl

theorem Retrieve_stores (r : Retrievers) (id : List Nat) (p : Pusher) (c s : Nat)
    (hid : id.length = 32) (hfind : r.find id = some s) (hidle : (r.deref s).rcb = none)
    (hroom : p.i + 43 ≤ p.b.length) :
    (r.Retrieve id p c).err = none ∧
    (r.Retrieve id p c).cancel = some (RetrieverCancel.rcb s) ∧
    (r.Retrieve id p c).w = r.store s { r.deref s with rcb := some c } := by
  have hb1 := RetrieveRequest_Build_room ⟨id, (r.deref s).rid, (r.deref s).roffset⟩ id p hid hroom
  have hb2 := ResumeRequest_Build_room ⟨id, (r.deref s).rid⟩ id p hid (by omega)
  by_cases hlt : (r.deref s).roffset ≥ (r.deref s).rtotal
  · simp only [Retrievers.Retrieve, hfind, hidle, ne_eq, not_true_eq_false, if_false, hlt,
      if_true, hb2, builtError, and_self]
  · simp only [Retrievers.Retrieve, hfind, hidle, ne_eq, not_true_eq_false, if_false, hlt,
      hb1, builtError, and_self]

/-- C19, as amended: a cancel closure is a no-op whenever its slot is empty.
For every table `w`, retriever `s` and errors `e`, `e'`, and for the closures
of `Register`, `Retrieve`, `Send` and `Close` (which capture the retriever of
the ID and act on its `dialcb`, `rcb`, `wcb`, `ccb` slot): called while the slot
holds a callback, the closure calls that callback once with `e` and empties
the slot; called while the slot is empty, it calls nothing and leaves the
table as it is. The slot is empty right after a cancel (so calling any
closure twice in a row makes the second call a no-op) and right after a
`Registered`, `Retrieved`, `Resumed` or `Sent` response for the ID. The
closure `Retrieve` returns on success is the one for the `rcb` slot of the
retriever of the ID, in which it has stored its callback (likewise
`Close`). -/
theorem C19_cancel_noop_while_slot_empty (w : Retrievers) (s : Nat) (e e' : RetrieverError) :
    (∀ cb, (w.deref s).dialcb = some cb → (RetrieverCancel.dialcb s).call w e
      = (w.store s { w.deref s with dialcb := none }, [Event.dialcb cb e])) ∧
    (∀ cb, (w.deref s).rcb = some cb → (RetrieverCancel.rcb s).call w e
      = (w.store s { w.deref s with rcb := none }, [Event.rcb cb e])) ∧
    (∀ cb, (w.deref s).wcb = some cb → (RetrieverCancel.wcb s).call w e
      = (w.store s { w.deref s with wcb := none }, [Event.wcb cb 0 e])) ∧
    (∀ cb, (w.deref s).ccb = some cb → (RetrieverCancel.ccb s).call w e
      = (w.store s { w.deref s with ccb := none }, [Event.ccb cb e])) ∧
    ((w.deref s).dialcb = none → (RetrieverCancel.dialcb s).call w e = (w, [])) ∧
    ((w.deref s).rcb = none → (RetrieverCancel.rcb s).call w e = (w, [])) ∧
    ((w.deref s).wcb = none → (RetrieverCancel.wcb s).call w e = (w, [])) ∧
    ((w.deref s).ccb = none → (RetrieverCancel.ccb s).call w e = (w, [])) ∧
    RetrieverCancel.nothing.call w e = (w, []) ∧
    (∀ t : RetrieverCancel, t.call (t.call w e).1 e' = ((t.call w e).1, [])) ∧
    (∀ code (d : DialRespond) rr c fuel, w.find d.ID = some s →
      (RetrieverCancel.dialcb s).call (w.Registered code d rr c fuel).w e
        = ((w.Registered code d rr c fuel).w, [])) ∧
    (∀ code (d : RetrieveRespond) rr c fuel, w.find d.ID = some s →
      (RetrieverCancel.rcb s).call (w.Retrieved code d rr c fuel).w e
        = ((w.Retrieved code d rr c fuel).w, [])) ∧
    (∀ code (d : ResumeRespond) rr c fuel, w.find d.ID = some s →
      (RetrieverCancel.rcb s).call (w.Resumed code d rr c fuel).w e
        = ((w.Resumed code d rr c fuel).w, [])) ∧
    (∀ code (d : SendRespond) c, w.find d.ID = some s →
      (RetrieverCancel.wcb s).call (w.Sent code d c).w e = ((w.Sent code d c).w, [])) ∧
    (∀ id p c, (w.Retrieve id p c).err = none →
      ∃ s0, w.find id = some s0 ∧ (w.deref s0).rcb = none ∧
        (w.Retrieve id p c).cancel = some (RetrieverCancel.rcb s0) ∧
        (w.Retrieve id p c).w = w.store s0 { w.deref s0 with rcb := some c }) ∧
    (∀ id p c, (w.Close id p c).err = none →
      (w.find id = none ∧ (w.Close id p c).cancel = some RetrieverCancel.nothing ∧
        (w.Close id p c).w = w) ∨
      ∃ s0, w.find id = some s0 ∧ (w.deref s0).ccb = none ∧
        (w.Close id p c).cancel = some (RetrieverCancel.ccb s0) ∧
        (w.Close id p c).w = w.store s0 { w.deref s0 with ccb := some c }) ∧
    (∀ id rr p c q, w.Register id rr p c = Except.ok q → q.err = none →
      ∃ s0, w.find id = some s0 ∧ (w.deref s0).dialcb = none ∧
        q.cancel = some (RetrieverCancel.dialcb s0) ∧
        q.w = w.store s0 { w.deref s0 with dialcb := some c }) ∧
    (∀ id data p c q, w.Send id data p c = Except.ok q → q.err = none →
      ∃ s0, w.find id = some s0 ∧ (w.deref s0).wcb = none ∧
        q.cancel = some (RetrieverCancel.wcb s0) ∧
        q.w = w.store s0 { w.deref s0 with wcb := some c }) := by
  refine ⟨fun cb h => cancel_dialcb_pending w s cb e h, fun cb h => cancel_rcb_pending w s cb e h,
    fun cb h => cancel_wcb_pending w s cb e h, fun cb h => cancel_ccb_pending w s cb e h,
    cancel_dialcb_idle w s e, cancel_rcb_idle w s e, cancel_wcb_idle w s e,
    cancel_ccb_idle w s e, rfl, fun t => cancel_twice t w e e', ?_, ?_, ?_, ?_,
    fun id p c h => Retrieve_token w id p c h, fun id p c h => Close_token w id p c h,
    fun id rr p c q hq h => Register_token w id rr p c q hq h,
    fun id data p c q hq h => Send_token w id data p c q hq h⟩
  · intro code d rr c fuel hfind
    exact cancel_dialcb_idle _ s e (Registered_slot w code d rr c fuel s hfind)
  · intro code d rr c fuel hfind
    exact cancel_rcb_idle _ s e (Retrieved_slot w code d rr c fuel s hfind)
  · intro code d rr c fuel hfind
    exact cancel_rcb_idle _ s e (Resumed_slot w code d rr c fuel s hfind)
  · intro code d c hfind
    exact cancel_wcb_idle _ s e (Sent_slot w code d c s hfind)

/-- C19 at the example table, where a retrieve is pending on callback 7: the
closure of that call delivers the error once; called again, it does nothing;
and after a retrieve response it does nothing either. -/
theorem C19_cancel_noop_while_slot_empty_witness :
    (RetrieverCancel.rcb 0).call testRetrievers ErrResourceClosed
      = (testRetrieversIdle, [Event.rcb 7 ErrResourceClosed]) ∧
    (RetrieverCancel.rcb 0).call testRetrieversIdle ErrResourceClosed
      = (testRetrieversIdle, []) ∧
    ((RetrieverCancel.rcb 0).call
      (testRetrievers.Retrieved 0 ⟨testID, 5, 30, 10, [], 0⟩
        (NewFetcher (ByteFetch [] Error.EOF)) [] 1).w ErrResourceClosed).2 = [] := by
  have h := C19_cancel_noop_while_slot_empty testRetrievers 0 ErrResourceClosed
    ErrResourceClosed
  have h2 := C19_cancel_noop_while_slot_empty testRetrieversIdle 0 ErrResourceClosed
    ErrResourceClosed
  refine ⟨h.2.1 7 (by decide), h2.2.2.2.2.2.1 (by decide), ?_⟩
  rw [h.2.2.2.2.2.2.2.2.2.2.2.1 0 ⟨testID, 5, 30, 10, [], 0⟩
    (NewFetcher (ByteFetch [] Error.EOF)) [] 1 (by decide)]

/-- C19 as stated fails at the example table: `Retrieve` with callback 11
returns the closure for the `rcb` slot of retriever 0; that closure, called,
delivers the result of the call to callback 11 and leaves the table as it
was before the call. A second `Retrieve`, with callback 12, is then accepted.
In that later state the first call's closure, invoked again, calls callback
12 with its error and empties the slot: it invokes a callback and changes
the state. -/
theorem C19_stale_closure_cancels_newer_call :
    (testRetrieversIdle.Retrieve testID testPusher 11).cancel = some (RetrieverCancel.rcb 0) ∧
    (RetrieverCancel.rcb 0).call (testRetrieversIdle.Retrieve testID testPusher 11).w
        ErrResourceClosed
      = (testRetrieversIdle, [Event.rcb 11 ErrResourceClosed]) ∧
    (testRetrieversIdle.Retrieve testID testPusher 12).err = none ∧
    (RetrieverCancel.rcb 0).call (testRetrieversIdle.Retrieve testID testPusher 12).w
        ErrResourceExpired
      = (testRetrieversIdle, [Event.rcb 12 ErrResourceExpired]) ∧
    (testRetrieversIdle.Retrieve testID testPusher 12).w ≠ testRetrieversIdle := by
  have h11 := Retrieve_stores testRetrieversIdle testID testPusher 11 0 (by decide) (by decide)
    (by decide) (by decide)
  have h12 := Retrieve_stores testRetrieversIdle testID testPusher 12 0 (by decide) (by decide)
    (by decide) (by decide)
  rw [h11.2.2, h12.2.2]
  exact ⟨h11.2.1, by decide, h12.1, by decide, by decide⟩

/-! ## The server's session: retrieve -/

/-- C20: `session.retrieve` answers by the first check that applies. A closed
session answers NotFound (1); otherwise a session with a read in progress
(`rbusy`) answers NotReady (2); otherwise a request whose `RID` is below the
session's `rid` is answered Expired (3); in these three cases the precheck is
not called and the session is left as it was. Otherwise the precheck `call`
runs, and a code above 0 from it is the answer, with the session as the
precheck left it. In all four cases `result` is called once, with a response
that carries the request's ID, the session's `rid` and `readLen` (as `Total`),
`Offset = 0` and an empty payload, and no read is started on the relay. -/
theorem C20_retrieve_check_order (s : session) (d : RetrieveRequest)
    (call : session → session × Nat) (maxlen : Int) :
    ResourceErrorNotFound = 1 ∧ ResourceErrorNotReady = 2 ∧ ResourceErrorExpired = 3 ∧
    (s.closed = true →
      s.retrieve d call maxlen = Except.ok
        { s := s,
          results := [(ResourceErrorNotFound,
            { ID := d.ID, RID := s.rid, Total := s.readLen, Offset := 0, Payload := [],
              PayloadLength := 0 })],
          reading := false }) ∧
    (s.closed = false → s.rbusy = true →
      s.retrieve d call maxlen = Except.ok
        { s := s,
          results := [(ResourceErrorNotReady,
            { ID := d.ID, RID := s.rid, Total := s.readLen, Offset := 0, Payload := [],
              PayloadLength := 0 })],
          reading := false }) ∧
    (s.closed = false → s.rbusy = false → d.RID < s.rid →
      s.retrieve d call maxlen = Except.ok
        { s := s,
          results := [(ResourceErrorExpired,
            { ID := d.ID, RID := s.rid, Total := s.readLen, Offset := 0, Payload := [],
              PayloadLength := 0 })],
          reading := false }) ∧
    (s.closed = false → s.rbusy = false → ¬ d.RID < s.rid → (call s).2 > 0 →
      s.retrieve d call maxlen = Except.ok
        { s := (call s).1,
          results := [((call s).2,
            { ID := d.ID, RID := (call s).1.rid, Total := (call s).1.readLen, Offset := 0,
              Payload := [], PayloadLength := 0 })],
          reading := false }) := by
  have hz : u16 ([] : List Nat).length = 0 := rfl
  refine ⟨rfl, rfl, rfl, fun h1 => ?_, fun h1 h2 => ?_, fun h1 h2 h3 => ?_,
    fun h1 h2 h3 h4 => ?_⟩
  · simp only [session.retrieve, h1, if_true, RetrieveRequest.Respond, hz]
  · simp only [session.retrieve, h1, h2, Bool.false_eq_true, if_false, if_true,
      RetrieveRequest.Respond, hz]
  · simp only [session.retrieve, h1, h2, h3, Bool.false_eq_true, if_false, if_true,
      RetrieveRequest.Respond, hz]
  · simp only [session.retrieve, h1, h2, h3, h4, Bool.false_eq_true, if_false, if_true,
      RetrieveRequest.Respond, hz]

/-- C20 at the example session (`rid = 4`, `readLen = 20`): closed while
busy, it answers NotFound; busy, with a request `RID = 3`, it answers
NotReady; idle, with `RID = 3`, it answers Expired; and a resume request with
`RID = 5`, which the precheck of `resume` refuses with Expired, is answered
with that code. -/
theorem C20_retrieve_check_order_witness :
    (testSessionClosed.retrieve ⟨testID, 3, 0⟩ startCall 50).map (fun q => q.results)
      = Except.ok [(1, ⟨testID, 4, 20, 0, [], 0⟩)] ∧
    (testSessionBusy.retrieve ⟨testID, 3, 0⟩ startCall 50).map (fun q => q.results)
      = Except.ok [(2, ⟨testID, 4, 20, 0, [], 0⟩)] ∧
    (testSession.retrieve ⟨testID, 3, 0⟩ startCall 50).map (fun q => q.results)
      = Except.ok [(3, ⟨testID, 4, 20, 0, [], 0⟩)] ∧
    testSession.resume ⟨testID, 5⟩ 50
      = Except.ok { s := testSession, results := [(3, ⟨testID, 4, 20, 0, [], 0⟩)],
                    reading := false } := by
  have h1 := (C20_retrieve_check_order testSessionClosed ⟨testID, 3, 0⟩ startCall 50).2.2.2.1
    (by decide)
  have h2 := (C20_retrieve_check_order testSessionBusy ⟨testID, 3, 0⟩ startCall 50).2.2.2.2.1
    (by decide) (by decide)
  have h3 := (C20_retrieve_check_order testSession ⟨testID, 3, 0⟩ startCall 50).2.2.2.2.2.1
    (by decide) (by decide) (by decide)
  have h4 := (C20_retrieve_check_order testSession ⟨testID, 5, 0⟩ (resumeCall ⟨testID, 5⟩)
    50).2.2.2.2.2.2 (by decide) (by decide) (by decide) (by decide)
  rw [h1, h2, h3]
  exact ⟨rfl, rfl, rfl, h4⟩

/-! ## The server's session: reads -/

theorem readData_bounds (s : session) (offset : Nat) (max : Int)
    (hlen : s.readLen ≤ s.read.length) (h16 : s.readLen < 2 ^ 16)
    (hmax : 0 ≤ max ∧ max < 2 ^ 16) :
    s.readData offset max = Except.ok (s.readLen, min offset s.readLen,
      (s.read.drop (min offset s.readLen)).take
        (min (min (s.readLen - min offset s.readLen) s.maxrlen) max.toNat)) ∧
    min offset s.readLen + min (min (s.readLen - min offset s.readLen) s.maxrlen) max.toNat
      ≤ s.readLen := by
  have hmod : (max % 2 ^ 16).toNat = max.toNat := by
    rw [Int.emod_eq_of_lt hmax.1 hmax.2]
  have hrs : (if offset > s.readLen then s.readLen else offset) = min offset s.readLen := by
    by_cases h : offset > s.readLen
    · rw [if_pos h, Nat.min_eq_right (by omega)]
    · rw [if_neg h, Nat.min_eq_left (by omega)]
  have hle : min offset s.readLen ≤ s.readLen := Nat.min_le_right _ _
  have h1 : u16 (s.readLen + 2 ^ 16 - min offset s.readLen) = s.readLen - min offset s.readLen := by
    unfold u16
    omega
  have h2 : ∀ a b : Nat, (if a > b then b else a) = min a b := by
    intro a b
    by_cases h : a > b
    · rw [if_pos h, Nat.min_eq_right (by omega)]
    · rw [if_neg h, Nat.min_eq_left (by omega)]
  have hb : min (min (s.readLen - min offset s.readLen) s.maxrlen) max.toNat
      ≤ s.readLen - min offset s.readLen :=
    Nat.le_trans (Nat.min_le_left _ _) (Nat.min_le_left _ _)
  have hsum : min offset s.readLen
      + min (min (s.readLen - min offset s.readLen) s.maxrlen) max.toNat ≤ s.readLen := by
    omega
  have h3 : u16 (min offset s.readLen
      + min (min (s.readLen - min offset s.readLen) s.maxrlen) max.toNat)
      = min offset s.readLen
        + min (min (s.readLen - min offset s.readLen) s.maxrlen) max.toNat := by
    unfold u16
    omega
  refine ⟨?_, hsum⟩
  simp only [session.readData, hmod, hrs, h1, h2, h3]
  rw [if_neg (by omega)]
  congr 2
  rw [List.drop_take, Nat.add_sub_cancel_left]

/-- C21: a paused session serves Retrieve from its buffer, within bounds.
For a session that is not closed, has no read in progress and whose `rid` is
not above the request's, with a precheck that returns 0 and leaves the
session `s1` paused (`rpaused`), where `s1` holds `readLen` bytes
(`readLen ≤ len(read)`, a `uint16`): for every request offset and every
`maxlen` in 0..65535, `session.retrieve` calls `result` once with code 0 and a
response with the session's `rid`, `Total = readLen`,
`Offset = min(request offset, readLen)` and, as payload, the
`min(readLen - Offset, maxrlen, maxlen)` bytes of `read` from `Offset` on;
`Offset` plus that length does not exceed `readLen`; no read is started and
the session is as the precheck left it. -/
theorem C21_paused_retrieve_within_bounds (s : session) (d : RetrieveRequest)
    (call : session → session × Nat) (maxlen : Int)
    (hopen : s.closed = false) (hidle : s.rbusy = false) (hrid : ¬ d.RID < s.rid)
    (hcall : (call s).2 = 0) (hpaused : (call s).1.rpaused = true)
    (hlen : (call s).1.readLen ≤ (call s).1.read.length) (h16 : (call s).1.readLen < 2 ^ 16)
    (hmax : 0 ≤ maxlen ∧ maxlen < 2 ^ 16) :
    s.retrieve d call maxlen = Except.ok
      { s := (call s).1,
        results := [(0,
          { ID := d.ID, RID := (call s).1.rid, Total := (call s).1.readLen,
            Offset := min d.Offset (call s).1.readLen,
            Payload := ((call s).1.read.drop (min d.Offset (call s).1.readLen)).take
              (min (min ((call s).1.readLen - min d.Offset (call s).1.readLen)
                (call s).1.maxrlen) maxlen.toNat),
            PayloadLength := min (min ((call s).1.readLen - min d.Offset (call s).1.readLen)
              (call s).1.maxrlen) maxlen.toNat })],
        reading := false } ∧
    min d.Offset (call s).1.readLen
      + min (min ((call s).1.readLen - min d.Offset (call s).1.readLen) (call s).1.maxrlen)
          maxlen.toNat ≤ (call s).1.readLen := by
  have hb := readData_bounds (call s).1 d.Offset maxlen hlen h16 hmax
  refine ⟨?_, hb.2⟩
  have hpl : u16 (((call s).1.read.drop (min d.Offset (call s).1.readLen)).take
      (min (min ((call s).1.readLen - min d.Offset (call s).1.readLen)
        (call s).1.maxrlen) maxlen.toNat)).length
      = min (min ((call s).1.readLen - min d.Offset (call s).1.readLen)
        (call s).1.maxrlen) maxlen.toNat := by
    have := hb.2
    have hmin : min d.Offset (call s).1.readLen ≤ (call s).1.readLen := Nat.min_le_right _ _
    simp only [List.length_take, List.length_drop, u16]
    omega
  simp only [session.retrieve, hopen, hidle, hrid, hcall, hpaused, Bool.false_eq_true, if_false,
    if_true, Nat.lt_irrefl, gt_iff_lt, hb.1, RetrieveRequest.Respond, hpl]

/-- C21 at the example session (20 bytes held, `maxrlen = 100`): a request at
offset 5 with `maxlen = 50` gets the 15 bytes from 5 on; with `maxlen = 4` it
gets 4 bytes; at offset 30, beyond the buffer, it gets offset 20 and no
bytes. -/
theorem C21_paused_retrieve_within_bounds_witness :
    testSession.retrieve ⟨testID, 4, 5⟩ startCall 50 = Except.ok
      { s := testSession,
        results := [(0, ⟨testID, 4, 20, 5, List.replicate 15 7, 15⟩)], reading := false } ∧
    (testSession.retrieve ⟨testID, 4, 5⟩ startCall 4).map (fun q => q.results)
      = Except.ok [(0, ⟨testID, 4, 20, 5, [7, 7, 7, 7], 4⟩)] ∧
    (testSession.retrieve ⟨testID, 4, 30⟩ startCall 50).map (fun q => q.results)
      = Except.ok [(0, ⟨testID, 4, 20, 20, [], 0⟩)] := by
  have h1 := (C21_paused_retrieve_within_bounds testSession ⟨testID, 4, 5⟩ startCall 50
    (by decide) (by decide) (by decide) (by decide) (by decide) (by decide) (by decide)
    (by decide)).1
  have h2 := (C21_paused_retrieve_within_bounds testSession ⟨testID, 4, 5⟩ startCall 4
    (by decide) (by decide) (by decide) (by decide) (by decide) (by decide) (by decide)
    (by decide)).1
  have h3 := (C21_paused_retrieve_within_bounds testSession ⟨testID, 4, 30⟩ startCall 50
    (by decide) (by decide) (by decide) (by decide) (by decide) (by decide) (by decide)
    (by decide)).1
  rw [h1, h2, h3]
  exact ⟨rfl, rfl, rfl⟩

theorem retrieveCallback_error (s : session) (d : RetrieveRequest) (maxlen : Int)
    (r : List Nat) (err : relay.Error) (herr : err.IsError = true) :
    s.retrieveCallback d maxlen r err = Except.ok
      { s := { s with rbusy := false, read := [], readLen := 0 },
        results := [(if err.IsTimeout then 0 else ResourceErrorBroken,
          { ID := d.ID, RID := s.rid, Total := 0, Offset := 0, Payload := [],
            PayloadLength := 0 })],
        reading := false } := by
  have hz : u16 ([] : List Nat).length = 0 := rfl
  by_cases ht : err.IsTimeout = true
  · simp only [session.retrieveCallback, herr, ht, if_true, RetrieveRequest.Respond, hz]
  · simp only [session.retrieveCallback, herr, ht, if_true, Bool.false_eq_true, if_false,
      RetrieveRequest.Respond, hz]

theorem retrieveCallback_read (s : session) (d : RetrieveRequest) (maxlen : Int)
    (r : List Nat) (err : relay.Error) (herr : err.IsError = false)
    (hmax : 0 ≤ maxlen ∧ maxlen < 2 ^ 16) :
    ∃ payload, s.retrieveCallback d maxlen r err = Except.ok
      { s := { s with rbusy := false, read := r, readLen := u16 r.length },
        results := [(0,
          { ID := d.ID, RID := s.rid, Total := u16 r.length,
            Offset := min d.Offset (u16 r.length), Payload := payload,
            PayloadLength := u16 payload.length })],
        reading := false } ∧
      payload = (r.drop (min d.Offset (u16 r.length))).take
        (min (min (u16 r.length - min d.Offset (u16 r.length)) s.maxrlen) maxlen.toNat) := by
  have hle : u16 r.length ≤ r.length := Nat.mod_le _ _
  have h16 : u16 r.length < 2 ^ 16 := Nat.mod_lt _ (by decide)
  have hb := (readData_bounds { s with rbusy := false, read := r, readLen := u16 r.length }
    d.Offset maxlen hle h16 hmax).1
  refine ⟨_, ?_, rfl⟩
  simp only [session.retrieveCallback, herr, Bool.false_eq_true, if_false, hb,
    RetrieveRequest.Respond]

theorem retrieve_expired (s : session) (d : RetrieveRequest)
    (call : session → session × Nat) (maxlen : Int)
    (h1 : s.closed = false) (h2 : s.rbusy = false) (h3 : d.RID < s.rid) :
    s.retrieve d call maxlen = Except.ok
      { s := s,
        results := [(ResourceErrorExpired,
          { ID := d.ID, RID := s.rid, Total := s.readLen, Offset := 0, Payload := [],
            PayloadLength := 0 })],
        reading := false } := by
  have hz : u16 ([] : List Nat).length = 0 := rfl
  simp only [session.retrieve, h1, h2, h3, Bool.false_eq_true, if_false, if_true,
    RetrieveRequest.Respond, hz]

theorem retrieve_refused (s : session) (d : RetrieveRequest)
    (call : session → session × Nat) (maxlen : Int)
    (h1 : s.closed = false) (h2 : s.rbusy = false) (h3 : ¬ d.RID < s.rid)
    (h4 : (call s).2 > 0) :
    s.retrieve d call maxlen = Except.ok
      { s := (call s).1,
        results := [((call s).2,
          { ID := d.ID, RID := (call s).1.rid, Total := (call s).1.readLen, Offset := 0,
            Payload := [], PayloadLength := 0 })],
        reading := false } := by
  have hz : u16 ([] : List Nat).length = 0 := rfl
  simp only [session.retrieve, h1, h2, h3, h4, Bool.false_eq_true, if_false, if_true,
    RetrieveRequest.Respond, hz]

theorem retrieve_starts (s : session) (d : RetrieveRequest)
    (call : session → session × Nat) (maxlen : Int)
    (h1 : s.closed = false) (h2 : s.rbusy = false) (h3 : ¬ d.RID < s.rid)
    (h4 : (call s).2 = 0) (h5 : (call s).1.rpaused = false) :
    s.retrieve d call maxlen = Except.ok
      { s := { (call s).1 with rpaused := true, rbusy := true }, results := [],
        reading := true } := by
  simp only [session.retrieve, h1, h2, h3, h4, h5, Bool.false_eq_true, if_false,
    Nat.lt_irrefl, gt_iff_lt]

theorem resumeCall_expired (d : ResumeRequest) (s : session) (h : d.RID ≠ s.rid) :
    resumeCall d s = (s, ResourceErrorExpired) := by
  simp only [resumeCall, ne_eq, h, not_false_eq_true, if_true]

theorem resumeCall_notReady (d : ResumeRequest) (s : session) (h : d.RID = s.rid)
    (hp : s.rpaused = false) : resumeCall d s = (s, ResourceErrorNotReady) := by
  simp only [resumeCall, ne_eq, h, not_true_eq_false, if_false, hp, Bool.not_false, if_true]

theorem resumeCall_bump (d : ResumeRequest) (s : session) (h : d.RID = s.rid)
    (hp : s.rpaused = true) :
    resumeCall d s = ({ s with rid := u64 (s.rid + 1), rpaused := false },
      ResourceErrorSuccess) := by
  simp only [resumeCall, ne_eq, h, not_true_eq_false, if_false, hp, Bool.not_true,
    Bool.false_eq_true]

/-- C22: `session.resume` on a session that is neither closed nor busy. When
the request's `RID` differs from the session's `rid`, `result` gets Expired
(3) and the session is unchanged. When they are equal and the session is not
paused, `result` gets NotReady (2) and the session is unchanged. In both
cases the response carries the session's `rid` and `readLen`, offset 0 and
no payload. When they are equal and the session is paused, no result is made
from the held buffer: `rid` becomes `rid + 1` (in `uint64`), a read is
started on the relay (`rbusy`, `rpaused` set), and when that read completes,
with an error or with bytes, the response handed on carries the new `rid` as
`NewRID`. -/
theorem C22_resume_precheck (s : session) (d : ResumeRequest) (maxlen : Int)
    (hopen : s.closed = false) (hidle : s.rbusy = false) :
    (d.RID ≠ s.rid →
      s.resume d maxlen = Except.ok
        { s := s,
          results := [(ResourceErrorExpired,
            { ID := d.ID, RID := s.rid, Total := s.readLen, Offset := 0, Payload := [],
              PayloadLength := 0 })],
          reading := false } ∧
      resumeResults d
          { s := s,
            results := [(ResourceErrorExpired,
              { ID := d.ID, RID := s.rid, Total := s.readLen, Offset := 0, Payload := [],
                PayloadLength := 0 })],
            reading := false }
        = [(ResourceErrorExpired,
            { ID := d.ID, NewRID := s.rid, Total := s.readLen, Payload := [],
              PayloadLength := 0 })]) ∧
    (d.RID = s.rid → s.rpaused = false →
      s.resume d maxlen = Except.ok
        { s := s,
          results := [(ResourceErrorNotReady,
            { ID := d.ID, RID := s.rid, Total := s.readLen, Offset := 0, Payload := [],
              PayloadLength := 0 })],
          reading := false }) ∧
    (d.RID = s.rid → s.rpaused = true →
      s.resume d maxlen = Except.ok
        { s := { s with rid := u64 (s.rid + 1), rpaused := true, rbusy := true },
          results := [], reading := true } ∧
      (s.rid + 1 < 2 ^ 64 → u64 (s.rid + 1) = s.rid + 1) ∧
      (∀ (r : List Nat) (err : relay.Error), 0 ≤ maxlen ∧ maxlen < 2 ^ 16 →
        ∃ q, ({ s with rid := u64 (s.rid + 1), rpaused := true, rbusy := true } :
            session).retrieveCallback d.RetrieveRequest maxlen r err = Except.ok q ∧
          q.s.rid = u64 (s.rid + 1) ∧ q.s.rbusy = false ∧
          ∃ code rsp, resumeResults d q = [(code, rsp)] ∧ rsp.NewRID = u64 (s.rid + 1) ∧
            rsp.ID = d.ID ∧
            (err.IsError = false → code = 0 ∧
              rsp.Payload = r.take (min (min (u16 r.length) s.maxrlen) maxlen.toNat)))) := by
  have hz : u16 ([] : List Nat).length = 0 := rfl
  refine ⟨fun hne => ⟨?_, rfl⟩, fun heq hp => ?_, fun heq hp => ⟨?_, ?_, ?_⟩⟩
  · by_cases hlt : d.RID < s.rid
    · exact retrieve_expired s d.RetrieveRequest (resumeCall d) maxlen hopen hidle hlt
    · have hc := resumeCall_expired d s hne
      have h := retrieve_refused s d.RetrieveRequest (resumeCall d) maxlen hopen hidle hlt
        (by rw [hc]; exact Nat.zero_lt_succ _)
      rw [hc] at h
      exact h
  · have hc := resumeCall_notReady d s heq hp
    have h := retrieve_refused s d.RetrieveRequest (resumeCall d) maxlen hopen hidle
      (by simp only [ResumeRequest.RetrieveRequest, heq, Nat.lt_irrefl, not_false_eq_true])
      (by rw [hc]; exact Nat.zero_lt_succ _)
    rw [hc] at h
    exact h
  · have hc := resumeCall_bump d s heq hp
    have h := retrieve_starts s d.RetrieveRequest (resumeCall d) maxlen hopen hidle
      (by simp only [ResumeRequest.RetrieveRequest, heq, Nat.lt_irrefl, not_false_eq_true])
      (by rw [hc]; rfl) (by rw [hc])
    rw [hc] at h
    exact h
  · intro h
    exact Nat.mod_eq_of_lt h
  · intro r err hmax
    by_cases herr : err.IsError = true
    · refine ⟨_, retrieveCallback_error _ _ maxlen r err herr, rfl, rfl, _, _, rfl, rfl, rfl, ?_⟩
      intro h
      rw [h] at herr
      cases herr
    · have herr2 : err.IsError = false := by simpa using herr
      obtain ⟨payload, hq, hpay⟩ := retrieveCallback_read
        ({ s with rid := u64 (s.rid + 1), rpaused := true, rbusy := true } : session)
        d.RetrieveRequest maxlen r err herr2 hmax
      refine ⟨_, hq, rfl, rfl, _, _, rfl, rfl, rfl, fun _ => ⟨rfl, ?_⟩⟩
      simp only [ResumeRequest.RetrieveRespond]
      rw [hpay]
      simp only [ResumeRequest.RetrieveRequest, Nat.zero_min, List.drop_zero, Nat.sub_zero]

/-- C22 at the example session (`rid = 4`, paused): a resume with `RID = 5`
is answered Expired and changes nothing; a resume with `RID = 4` makes the
`rid` 5 and starts a read, and when the relay then delivers three bytes the
response carries `NewRID = 5` and those bytes. -/
theorem C22_resume_precheck_witness :
    testSession.resume ⟨testID, 5⟩ 50 = Except.ok
      { s := testSession, results := [(3, ⟨testID, 4, 20, 0, [], 0⟩)], reading := false } ∧
    testSession.resume ⟨testID, 4⟩ 50 = Except.ok
      { s := { testSession with rid := 5, rbusy := true }, results := [], reading := true } ∧
    (({ testSession with rid := 5, rbusy := true } : session).retrieveCallback ⟨testID, 4, 0⟩ 50
        [1, 2, 3] ⟨none, false⟩).map (resumeResults ⟨testID, 4⟩)
      = Except.ok [(0, ⟨testID, 5, 3, [1, 2, 3], 3⟩)] := by
  have h := C22_resume_precheck testSession ⟨testID, 5⟩ 50 (by decide) (by decide)
  have h2 := C22_resume_precheck testSession ⟨testID, 4⟩ 50 (by decide) (by decide)
  exact ⟨(h.1 (by decide)).1, (h2.2.2 (by decide) (by decide)).1, rfl⟩

/-- C25: a read that completes with an error. When the relay calls the closure
of `session.retrieve` with an error, then for every session, request, bytes and
`maxlen`: the busy flag is cleared, the buffer is dropped (`read` empty,
`readLen = 0`), nothing else of the session changes, and `result` is called
once with a response that carries the session's `rid`, `Total = 0`, offset 0
and no payload; the code is 0 (Success) when the error is a timeout and
Broken (4) for every other error. -/
theorem C25_read_error_drops_buffer (s : session) (d : RetrieveRequest) (maxlen : Int)
    (r : List Nat) (err : relay.Error) (herr : err.IsError = true) :
    s.retrieveCallback d maxlen r err = Except.ok
      { s := { s with rbusy := false, read := [], readLen := 0 },
        results := [(if err.IsTimeout then 0 else 4,
          { ID := d.ID, RID := s.rid, Total := 0, Offset := 0, Payload := [],
            PayloadLength := 0 })],
        reading := false } ∧
    ResourceErrorBroken = 4 ∧ ResourceErrorSuccess = 0 :=
  ⟨retrieveCallback_error s d maxlen r err herr, rfl, rfl⟩

/-- C25 at the example session with a read in progress: a timeout gives code
0, another error gives Broken; both leave `rbusy` cleared and no buffer. -/
theorem C25_read_error_drops_buffer_witness :
    testSessionBusy.retrieveCallback ⟨testID, 4, 0⟩ 50 [] ⟨some (Error.other 1), true⟩
      = Except.ok
        { s := { testSession with read := [], readLen := 0 },
          results := [(0, ⟨testID, 4, 0, 0, [], 0⟩)], reading := false } ∧
    testSessionBusy.retrieveCallback ⟨testID, 4, 0⟩ 50 [] ⟨some Error.EOF, false⟩
      = Except.ok
        { s := { testSession with read := [], readLen := 0 },
          results := [(4, ⟨testID, 4, 0, 0, [], 0⟩)], reading := false } :=
  ⟨(C25_read_error_drops_buffer testSessionBusy ⟨testID, 4, 0⟩ 50 []
      ⟨some (Error.other 1), true⟩ rfl).1,
    (C25_read_error_drops_buffer testSessionBusy ⟨testID, 4, 0⟩ 50 []
      ⟨some Error.EOF, false⟩ rfl).1⟩

/-! ## The server's session: send -/

/-- C23: `session.send`. A closed session answers NotFound (1); otherwise a
request whose `WID` is below the session's `wid` is answered Expired (3);
otherwise a session with a write in progress (`wbusy`) answers NotReady (2):
in these cases nothing is handed to the relay and the session is unchanged.
Otherwise the payload is handed to the relay once: when the relay reports an
error the answer is SendFailure (6) and the session is unchanged; when it
reports none the answer is 0, `wid` is `wid + 1` (in `uint64`) and `wlen` is the
length written (as `uint16`). Every response carries the request's ID and
the session's `wid` and `wlen` after the call. -/
theorem C23_send_checks (s : session) (d : SendRequest) (r : List Nat)
    (relaySend : List Nat → Int × relay.Error) :
    (s.closed = true →
      s.send d r relaySend
        = { s := s, code := 1, rsp := { ID := d.ID, NewWID := s.wid, Sent := s.wlen },
            writes := [] }) ∧
    (s.closed = false → d.WID < s.wid →
      s.send d r relaySend
        = { s := s, code := 3, rsp := { ID := d.ID, NewWID := s.wid, Sent := s.wlen },
            writes := [] }) ∧
    (s.closed = false → ¬ d.WID < s.wid → s.wbusy = true →
      s.send d r relaySend
        = { s := s, code := 2, rsp := { ID := d.ID, NewWID := s.wid, Sent := s.wlen },
            writes := [] }) ∧
    (s.closed = false → ¬ d.WID < s.wid → s.wbusy = false → (relaySend r).2.IsError = true →
      s.send d r relaySend
        = { s := s, code := 6, rsp := { ID := d.ID, NewWID := s.wid, Sent := s.wlen },
            writes := [r] }) ∧
    (s.closed = false → ¬ d.WID < s.wid → s.wbusy = false → (relaySend r).2.IsError = false →
      s.send d r relaySend
        = { s := { s with wid := u64 (s.wid + 1), wlen := ((relaySend r).1 % 2 ^ 16).toNat },
            code := 0,
            rsp := { ID := d.ID, NewWID := u64 (s.wid + 1),
                     Sent := ((relaySend r).1 % 2 ^ 16).toNat },
            writes := [r] } ∧
      (s.wid + 1 < 2 ^ 64 → u64 (s.wid + 1) = s.wid + 1) ∧
      (0 ≤ (relaySend r).1 ∧ (relaySend r).1 < 2 ^ 16 →
        (((relaySend r).1 % 2 ^ 16).toNat : Int) = (relaySend r).1)) ∧
    ResourceErrorNotFound = 1 ∧ ResourceErrorExpired = 3 ∧ ResourceErrorNotReady = 2 ∧
    ResourceErrorSendFailure = 6 := by
  refine ⟨fun h1 => ?_, fun h1 h2 => ?_, fun h1 h2 h3 => ?_, fun h1 h2 h3 h4 => ?_,
    fun h1 h2 h3 h4 => ⟨?_, ?_, ?_⟩, rfl, rfl, rfl, rfl⟩
  · simp only [session.send, h1, if_true, SendRequest.Respond, ResourceErrorNotFound]
  · simp only [session.send, h1, h2, Bool.false_eq_true, if_false, if_true,
      SendRequest.Respond, ResourceErrorExpired]
  · simp only [session.send, h1, h2, h3, Bool.false_eq_true, if_false, if_true,
      SendRequest.Respond, ResourceErrorNotReady]
  · obtain ⟨maxrlen, rid, rbusy, read, readLen, rpaused, wid, wbusy, wlen, closed⟩ := s
    simp only at h1 h2 h3 h4
    subst h1 h3
    simp only [session.send, h2, h4, Bool.false_eq_true, if_false, if_true,
      SendRequest.Respond, ResourceErrorSendFailure]
  · obtain ⟨maxrlen, rid, rbusy, read, readLen, rpaused, wid, wbusy, wlen, closed⟩ := s
    simp only at h1 h2 h3 h4
    subst h1 h3
    simp only [session.send, h2, h4, Bool.false_eq_true, if_false, SendRequest.Respond]
  · intro h
    exact Nat.mod_eq_of_lt h
  · intro h
    rw [Int.emod_eq_of_lt h.1 h.2]
    exact Int.toNat_of_nonneg h.1

/-- C23 at the example session (`wid = 1`): a request with `WID = 0` is
answered Expired without a write; a request with `WID = 1` and four bytes,
over a connection that takes them, is answered 0 with `NewWID = 2` and
`Sent = 4`. -/
theorem C23_send_checks_witness :
    testSession.send ⟨testID, 0, [], 4⟩ [1, 2, 3, 4] (tcpSend (some relay.healthyConn))
      = { s := testSession, code := 3, rsp := ⟨testID, 1, 0⟩, writes := [] } ∧
    testSession.send ⟨testID, 1, [], 4⟩ [1, 2, 3, 4] (tcpSend (some relay.healthyConn))
      = { s := { testSession with wid := 2, wlen := 4 }, code := 0, rsp := ⟨testID, 2, 4⟩,
          writes := [[1, 2, 3, 4]] } := by
  have h := C23_send_checks testSession ⟨testID, 0, [], 4⟩ [1, 2, 3, 4]
    (tcpSend (some relay.healthyConn))
  have h2 := C23_send_checks testSession ⟨testID, 1, [], 4⟩ [1, 2, 3, 4]
    (tcpSend (some relay.healthyConn))
  exact ⟨h.2.1 (by decide) (by decide),
    (h2.2.2.2.2.1 (by decide) (by decide) (by decide) (by decide)).1⟩

theorem SendRequest_Parse_holds {σ : Type} (fuel : Nat) (d0 : SendRequest) (r : Fetcher)
    (id : List Nat) (wid : Nat) (payload tl : List Nat)
    (rr : SendRequest → List Nat → σ → σ × Option Error) (st : σ)
    (hf : 0 < fuel) (h0 : d0.ID.length = 32) (hid : id.length = 32)
    (hwid : wid < 2 ^ 64) (hlen : payload.length < 2 ^ 16)
    (h : r.Holds (id ++ (be64 wid ++ (be16 payload.length ++ (payload ++ tl))))) :
    ∃ r1, SendRequest.Parse fuel d0 r rr st
        = some ({ ID := id, WID := wid, Payload := d0.Payload,
                  PayloadLength := payload.length }, r1,
            (rr { ID := id, WID := wid, Payload := d0.Payload,
                  PayloadLength := payload.length } payload st).1,
            (rr { ID := id, WID := wid, Payload := d0.Payload,
                  PayloadLength := payload.length } payload st).2) ∧
      r1.Holds tl := by
  obtain ⟨r1, e1, h1, -⟩ := ReadFull_holds fuel r d0.ID id _ h (by omega) (by omega) hf
  obtain ⟨r2, e2, h2, -⟩ := readU64_be r1 wid _ hwid h1
  obtain ⟨r3, e3, h3, -⟩ := readU16_be r2 payload.length _ hlen h2
  obtain ⟨r4, e4, h4, -⟩ := Fetcher_Fetch_holds r3 payload tl h3
  refine ⟨r4, ?_, h4⟩
  simp only [SendRequest.Parse, e1, e2, e3, e4]

theorem TCP_Send_empty (c : ConnWrite) :
    relay.TCP.Send (some c) []
      = (0, 0, { E := some Error.ErrNoBufferToWriteFrom, IsTimeout := false }) := by
  simp only [relay.TCP.Send, relay.connWrite, NetConn.Write, List.length_nil, if_true,
    relay.isTimeoutErr, Bool.not_false, relay.newError]

/-- C24, as amended: a zero-length Send is parsed and then refused by the
relay's connection. A `SendRequest` with `PayloadLength = 0` is parsed (the
callback gets the request and an empty payload, the fetcher is left at the
bytes that follow). For a live session (not closed, `wid` equal to the
request's `WID`, no write in progress) over a TCP relay with any connection,
`TCP.Send` of the empty payload makes no call on the connection:
`NetConn.Write` returns `ErrNoBufferToWriteFrom` for an empty slice. So
`session.send` answers SendFailure (6), with the session unchanged and a
response that carries the session's `wid` and `wlen`. -/
theorem C24_empty_send_refused (fuel : Nat) (d0 : SendRequest) (fr : Fetcher)
    (id : List Nat) (tl : List Nat) (s : session) (c : ConnWrite)
    (hf : 0 < fuel) (h0 : d0.ID.length = 32) (hid : id.length = 32) (hwid : s.wid < 2 ^ 64)
    (h : fr.Holds (id ++ (be64 s.wid ++ (be16 0 ++ tl))))
    (hopen : s.closed = false) (hidle : s.wbusy = false) :
    (∃ r1, SendRequest.Parse fuel d0 fr
        (fun d b (st : List (SendRequest × List Nat)) => (st ++ [(d, b)], none)) []
        = some ({ ID := id, WID := s.wid, Payload := d0.Payload, PayloadLength := 0 }, r1,
            [({ ID := id, WID := s.wid, Payload := d0.Payload, PayloadLength := 0 }, [])],
            none) ∧
      r1.Holds tl) ∧
    relay.TCP.Send (some c) []
      = (0, 0, { E := some Error.ErrNoBufferToWriteFrom, IsTimeout := false }) ∧
    s.send { ID := id, WID := s.wid, Payload := d0.Payload, PayloadLength := 0 } []
        (tcpSend (some c))
      = { s := s, code := 6, rsp := { ID := id, NewWID := s.wid, Sent := s.wlen },
          writes := [[]] } ∧
    ResourceErrorSendFailure = 6 := by
  refine ⟨?_, TCP_Send_empty c, ?_, rfl⟩
  · obtain ⟨r1, e1, h1⟩ := SendRequest_Parse_holds fuel d0 fr id s.wid [] tl
      (fun d b (st : List (SendRequest × List Nat)) => (st ++ [(d, b)], none)) [] hf h0 hid hwid
      (by decide) (by simpa using h)
    exact ⟨r1, e1, h1⟩
  · obtain ⟨maxrlen, rid, rbusy, read, readLen, rpaused, wid, wbusy, wlen, closed⟩ := s
    simp only at hopen hidle
    subst hopen hidle
    simp only [session.send, Nat.lt_irrefl, Bool.false_eq_true, if_false, tcpSend,
      TCP_Send_empty, relay.Error.IsError, ne_eq, reduceCtorEq, not_false_eq_true,
      decide_True, if_true, SendRequest.Respond, ResourceErrorSendFailure]

/-- C24 at the example session (`wid = 1`, `wlen = 0`) over a connection that
takes every write: the empty Send with `WID = 1` is parsed and answered
SendFailure. -/
theorem C24_empty_send_refused_witness :
    testSession.send ⟨testID, 1, [], 0⟩ [] (tcpSend (some relay.healthyConn))
      = { s := testSession, code := 6, rsp := ⟨testID, 1, 0⟩, writes := [[]] } := by
  have h := C24_empty_send_refused 1 SendRequest.zero
    (NewFetcher (ByteFetch (testID ++ (be64 1 ++ (be16 0 ++ []))) Error.EOF)) testID []
    testSession relay.healthyConn (by decide) (by decide) (by decide) (by decide)
    (Or.inr ⟨rfl, rfl, rfl⟩) (by decide) (by decide)
  exact h.2.2.1

/-- C24 as stated fails at the example session: it is live, its `wid` equals
the request's `WID = 1`, and the connection takes every write; the Send with
no payload is answered with code 6, SendFailure, not with the success code 0,
and the session's `wid` stays 1. -/
theorem C24_empty_send_is_SendFailure :
    testSession.closed = false ∧ testSession.wid = 1 ∧ testSession.wbusy = false ∧
    (testSession.send ⟨testID, 1, [], 0⟩ [] (tcpSend (some relay.healthyConn))).code
      = ResourceErrorSendFailure ∧
    (testSession.send ⟨testID, 1, [], 0⟩ [] (tcpSend (some relay.healthyConn))).code ≠ 0 ∧
    (testSession.send ⟨testID, 1, [], 0⟩ [] (tcpSend (some relay.healthyConn))).s.wid = 1 ∧
    (testSession.send ⟨testID, 1, [], 0⟩ [1] (tcpSend (some relay.healthyConn))).code = 0 := by
  decide

/-! ## The dispatcher -/

open dispatch

theorem Fetched_unread (r : Fetcher) (bytes : List Nat) (e : Error) (h : r.Fetched bytes e) :
    r.s.drop r.used = bytes := h.2.1

theorem Fetch_one_fetched (r : Fetcher) (x : Nat) (rest : List Nat) (e : Error)
    (h : r.Fetched (x :: rest) e) :
    ∃ r1, r.Fetch 1 = (r1, [x], none) ∧ r1.Fetched rest e :=
  Fetch_fetched r [x] rest e h

theorem Fetch_one_new (x : Nat) (rest : List Nat) (e : Error) :
    ∃ r1, (NewFetcher (ByteFetch (x :: rest) e)).Fetch 1 = (r1, [x], none) ∧
      r1.Fetched rest e :=
  Fetch_new_byteFetch [x] rest e (by simp)

theorem expectedCalls_length (ms : List Message) : (expectedCalls ms).length = ms.length := by
  induction ms with
  | nil => rfl
  | cons m rest ih => simp only [expectedCalls, List.length_cons, ih]

theorem dispatchLoop_step {σ : Type} (handler : Handler σ) (b : Bool) (fuel : Nat)
    (r r1 r2 : Fetcher) (st st1 : σ) (calls : List HandlerCall) (m : Message)
    (rest : List Message)
    (hfetch : r.Fetch 1 = (r1, [m.header], none))
    (hr1 : r1.Fetched (m.body ++ segment rest) Error.ErrDispatchCompleted)
    (hh : handler (ParseRequestType m.header).1 (ParseRequestType m.header).2 r1 st
      = (r2, st1, m.result)) :
    dispatchLoop handler b (fuel + 1) r st calls =
      if m.result.isSome ∧ b = true then
        some { r := r2, st := st1,
               calls := calls ++ [{ typ := (ParseRequestType m.header).1,
                                    d := (ParseRequestType m.header).2,
                                    unread := m.body ++ segment rest }],
               err := m.result }
      else
        dispatchLoop handler b fuel r2 st1
          (calls ++ [{ typ := (ParseRequestType m.header).1,
                       d := (ParseRequestType m.header).2,
                       unread := m.body ++ segment rest }]) := by
  have hu := Fetched_unread r1 _ _ hr1
  rw [dispatchLoop, hfetch]
  simp only [List.getD_cons_zero, hu, hh]
  cases hres : m.result with
  | none => simp only [Option.isSome_none, Bool.false_eq_true, false_and, if_false]
  | some e =>
    cases b with
    | false => simp only [Bool.not_false, if_true, Option.isSome_some, Bool.false_eq_true,
        and_false, if_false]
    | true => simp only [Bool.not_true, Bool.false_eq_true, if_false, Option.isSome_some,
        and_self, if_true]

theorem dispatchLoop_messages {σ : Type} (handler : Handler σ) (b : Bool) (ms : List Message) :
    ∀ (fuel : Nat) (r : Fetcher) (st : σ) (calls : List HandlerCall),
      ms.length < fuel → r.Fetched (segment ms) Error.ErrDispatchCompleted →
      Handles handler st ms →
      ∃ r1 st1, dispatchLoop handler b fuel r st calls
        = some { r := r1, st := st1,
                 calls := calls ++ (expectedCalls ms).take
                   (if b then (untilError ms).length else ms.length),
                 err := if b then firstError ms else none } := by
  induction ms with
  | nil =>
    intro fuel r st calls hf hr _
    obtain ⟨k, rfl⟩ : ∃ k, fuel = k + 1 := ⟨fuel - 1, by simp only [List.length_nil] at hf; omega⟩
    have hs := Fetch_fetched_short r [] Error.ErrDispatchCompleted 1 hr (by decide)
    refine ⟨r, st, ?_⟩
    rw [dispatchLoop, hs]
    cases b <;> simp [expectedCalls, firstError]
  | cons m rest ih =>
    intro fuel r st calls hf hr hH
    obtain ⟨k, rfl⟩ : ∃ k, fuel = k + 1 := ⟨fuel - 1, by omega⟩
    obtain ⟨r1, hfetch, hr1⟩ := Fetch_one_fetched r m.header _ _ hr
    obtain ⟨st1, hcall, hrest⟩ := hH
    obtain ⟨r2, hh, hr2⟩ := hcall r1 hr1
    rw [dispatchLoop_step handler b k r r1 r2 st st1 calls m rest hfetch hr1 hh]
    by_cases hc : m.result.isSome ∧ b = true
    · rw [if_pos hc]
      obtain ⟨e, he⟩ := Option.isSome_iff_exists.mp hc.1
      refine ⟨r2, st1, ?_⟩
      simp only [hc.2, if_true, untilError, he, Option.isSome_some, List.length_singleton,
        expectedCalls, List.take_succ_cons, List.take_zero, firstError]
    · rw [if_neg hc]
      obtain ⟨r3, st3, h3⟩ := ih k r2 st1 (calls ++ [HandlerCall.mk (ParseRequestType m.header).1 (ParseRequestType m.header).2
          (m.body ++ segment rest)])
        (by simp only [List.length_cons] at hf; omega) hr2 hrest
      refine ⟨r3, st3, ?_⟩
      rw [h3]
      cases b with
      | false =>
        simp only [Bool.false_eq_true, if_false, List.length_cons, expectedCalls,
          List.take_succ_cons, List.append_assoc, List.singleton_append]
      | true =>
        have hn : m.result = none := by
          cases hres : m.result with
          | none => rfl
          | some e => exact absurd ⟨by rw [hres]; rfl, rfl⟩ hc
        simp only [if_true, untilError, hn, Option.isSome_none, Bool.false_eq_true, if_false,
          List.length_cons, expectedCalls, List.take_succ_cons, List.append_assoc,
          List.singleton_append, firstError]

theorem dispatch_messages {σ : Type} (handler : Handler σ) (b : Bool) (m : Message)
    (rest : List Message) (fuel : Nat) (st : σ)
    (hf : (m :: rest).length < fuel) (hH : Handles handler st (m :: rest)) :
    ∃ r1 st1, dispatch fuel (segment (m :: rest)) handler b st
      = some { r := r1, st := st1,
               calls := (expectedCalls (m :: rest)).take
                 (if b then (untilError (m :: rest)).length else (m :: rest).length),
               err := if b then firstError (m :: rest) else none } := by
  obtain ⟨k, rfl⟩ : ∃ k, fuel = k + 1 := ⟨fuel - 1, by omega⟩
  obtain ⟨r1, hfetch, hr1⟩ := Fetch_one_new m.header (m.body ++ segment rest)
    Error.ErrDispatchCompleted
  obtain ⟨st1, hcall, hrest⟩ := hH
  obtain ⟨r2, hh, hr2⟩ := hcall r1 hr1
  unfold dispatch
  simp only [dispatch.segment]
  rw [dispatchLoop_step handler b k _ r1 r2 st st1 [] m rest hfetch hr1 hh]
  by_cases hc : m.result.isSome ∧ b = true
  · rw [if_pos hc]
    obtain ⟨e, he⟩ := Option.isSome_iff_exists.mp hc.1
    refine ⟨r2, st1, ?_⟩
    simp only [hc.2, if_true, untilError, he, Option.isSome_some, List.length_singleton,
      expectedCalls, List.take_succ_cons, List.take_zero, firstError, List.nil_append]
  · rw [if_neg hc]
    obtain ⟨r3, st3, h3⟩ := dispatchLoop_messages handler b rest k r2 st1
      ([] ++ [HandlerCall.mk (ParseRequestType m.header).1 (ParseRequestType m.header).2
        (m.body ++ segment rest)])
      (by simp only [List.length_cons] at hf; omega) hr2 hrest
    refine ⟨r3, st3, ?_⟩
    rw [h3]
    cases b with
    | false =>
      simp only [Bool.false_eq_true, if_false, List.length_cons, expectedCalls,
        List.take_succ_cons, List.nil_append, List.singleton_append]
    | true =>
      have hn : m.result = none := by
        cases hres : m.result with
        | none => rfl
        | some e => exact absurd ⟨by rw [hres]; rfl, rfl⟩ hc
      simp only [if_true, untilError, hn, Option.isSome_none, Bool.false_eq_true, if_false,
        List.length_cons, expectedCalls, List.take_succ_cons, List.nil_append,
        List.singleton_append, firstError]

theorem dispatch_empty {σ : Type} (handler : Handler σ) (b : Bool) (fuel : Nat) (st : σ) :
    dispatch (fuel + 1) [] handler b st
      = some { r := { f := Fetch.byteFetch [] Error.ErrDispatchCompleted true, s := [],
                      used := 0, read := 0 },
               st := st, calls := [],
               err := some (GoError.plain Error.ErrNotEnoughBuffer) } := by
  have hc : ¬ (((0 : Nat) : Int) - ((0 : Nat) : Int) ≥ ((1 : Nat) : Int)) := by omega
  simp [dispatch, dispatchLoop, Fetcher.Fetch, Fetcher.fetch, NewFetcher, ByteFetch,
    Fetch.call]

theorem untilError_all (ms : List Message) (h : ∀ x ∈ ms, x.result = none) :
    untilError ms = ms ∧ firstError ms = none := by
  induction ms with
  | nil => exact ⟨rfl, rfl⟩
  | cons m rest ih =>
    have hm : m.result = none := h m (List.mem_cons_self _ _)
    have hr := ih (fun x hx => h x (List.mem_cons_of_mem _ hx))
    simp only [untilError, hm, Option.isSome_none, Bool.false_eq_true, if_false, hr.1,
      firstError, hr.2, and_self]

theorem untilError_split (pre post : List Message) (x : Message) (e : GoError)
    (hpre : ∀ y ∈ pre, y.result = none) (hx : x.result = some e) :
    untilError (pre ++ x :: post) = pre ++ [x] ∧ firstError (pre ++ x :: post) = some e := by
  induction pre with
  | nil =>
    simp only [List.nil_append, untilError, hx, Option.isSome_some, if_true, firstError,
      and_self]
  | cons m rest ih =>
    have hm : m.result = none := hpre m (List.mem_cons_self _ _)
    have hr := ih (fun y hy => hpre y (List.mem_cons_of_mem _ hy))
    show untilError (m :: (rest ++ x :: post)) = m :: (rest ++ [x]) ∧
      firstError (m :: (rest ++ x :: post)) = some e
    simp only [untilError, hm, Option.isSome_none, Bool.false_eq_true,
      if_false, hr.1, firstError, hr.2, and_self]

theorem expectedCalls_kinds (ms : List Message) :
    (expectedCalls ms).map (fun c => (c.typ, c.d))
      = ms.map (fun x => (x.header >>> 4, u8 (x.header &&& 15))) := by
  induction ms with
  | nil => rfl
  | cons m rest ih =>
    simp only [expectedCalls, List.map_cons, ih, ParseRequestType]

theorem testHandler_handles (ms : List Message) (st : List (Nat × List Nat))
    (hwf : ∀ x ∈ ms, x.body.length = u8 (x.header &&& 15) ∧
      x.result = if x.header >>> 4 = 15 then some (GoError.plain (Error.other 7)) else none) :
    Handles testHandler st ms := by
  induction ms generalizing st with
  | nil => trivial
  | cons m rest ih =>
    have hm := hwf m (List.mem_cons_self _ _)
    refine ⟨st ++ [(m.header >>> 4, m.body)], ?_,
      ih _ (fun x hx => hwf x (List.mem_cons_of_mem _ hx))⟩
    intro r hr
    obtain ⟨r1, hf, hr1⟩ := Fetch_fetched r m.body _ _ hr
    refine ⟨r1, ?_, hr1⟩
    simp only [testHandler, ParseRequestType, ← hm.1, hf, hm.2]

/-- C26, as amended: the dispatcher handles a segment message by message, in
order. For every segment that is the concatenation of `n ≥ 1` complete
messages whose handlers return `nil`, with enough fuel for its `n + 1` turns,
`dispatch` (with either value of `breakOnHandlerError`) returns `nil` after
exactly `n` calls of the handler, the `i`-th with the kind `header >> 4` and
the nibble `header & 15` of the `i`-th header byte and with the fetcher at
that message's body. For the empty segment `dispatch` calls no handler and
returns `ErrNotEnoughBuffer`. -/
theorem C26_dispatch_in_order {σ : Type} (handler : Handler σ) (b : Bool) (m : Message)
    (rest : List Message) (fuel : Nat) (st : σ)
    (hf : (m :: rest).length < fuel) (hH : Handles handler st (m :: rest))
    (hok : ∀ x ∈ m :: rest, x.result = none) :
    (∃ r1 st1, dispatch fuel (segment (m :: rest)) handler b st
      = some { r := r1, st := st1, calls := expectedCalls (m :: rest), err := none }) ∧
    (expectedCalls (m :: rest)).length = (m :: rest).length ∧
    (expectedCalls (m :: rest)).map (fun c => (c.typ, c.d))
      = (m :: rest).map (fun x => (x.header >>> 4, u8 (x.header &&& 15))) ∧
    (expectedCalls (m :: rest)).head? = some
      { typ := m.header >>> 4, d := u8 (m.header &&& 15), unread := m.body ++ segment rest } ∧
    (∃ r0, dispatch fuel [] handler b st
      = some { r := r0, st := st, calls := [],
               err := some (GoError.plain Error.ErrNotEnoughBuffer) }) := by
  obtain ⟨r1, st1, h⟩ := dispatch_messages handler b m rest fuel st hf hH
  have hall := untilError_all (m :: rest) hok
  refine ⟨⟨r1, st1, ?_⟩, expectedCalls_length _, expectedCalls_kinds _, rfl, ?_⟩
  · rw [h, hall.1, hall.2]
    have ht : (expectedCalls (m :: rest)).take (m :: rest).length = expectedCalls (m :: rest) := by
      rw [← expectedCalls_length (m :: rest), List.take_length]
    cases b <;> simp only [Bool.false_eq_true, if_false, if_true, ht]
  · obtain ⟨k, rfl⟩ : ∃ k, fuel = k + 1 := ⟨fuel - 1, by omega⟩
    exact ⟨_, dispatch_empty handler b k st⟩

/-- C26 at a segment of two messages of the example handler (kind 3 with
body `[1, 2]`, kind 1 with no body): two calls, in order, and `nil`. -/
theorem C26_dispatch_in_order_witness :
    ∃ r1 st1, dispatch 3 [0x32, 1, 2, 0x10] testHandler true []
      = some { r := r1, st := st1,
               calls := [⟨3, 2, [1, 2, 0x10]⟩, ⟨1, 0, []⟩], err := none } := by
  have hwf : ∀ x ∈ [Message.mk 0x32 [1, 2] none, Message.mk 0x10 [] none],
      x.body.length = u8 (x.header &&& 15) ∧
      x.result = if x.header >>> 4 = 15 then some (GoError.plain (Error.other 7)) else none := by
    decide
  exact (C26_dispatch_in_order testHandler true ⟨0x32, [1, 2], none⟩ [⟨0x10, [], none⟩] 3 []
    (by decide) (testHandler_handles _ [] hwf) (by decide)).1

/-- C26 as stated fails for `n = 0`: on the empty segment, the concatenation
of no message, `dispatch` calls no handler and returns `ErrNotEnoughBuffer`,
not `nil`, whatever `breakOnHandlerError` is. -/
theorem C26_empty_segment_is_an_error :
    segment [] = [] ∧ Handles testHandler [] [] ∧
    (dispatch 1 (segment []) testHandler true []).map (fun q => (q.calls, q.err))
      = some ([], some (GoError.plain Error.ErrNotEnoughBuffer)) ∧
    (dispatch 1 (segment []) testHandler false []).map (fun q => (q.calls, q.err))
      = some ([], some (GoError.plain Error.ErrNotEnoughBuffer)) := by
  refine ⟨rfl, trivial, ?_, ?_⟩
  · rw [show segment [] = ([] : List Nat) from rfl, dispatch_empty testHandler true 0 []]
    rfl
  · rw [show segment [] = ([] : List Nat) from rfl, dispatch_empty testHandler false 0 []]
    rfl

/-- C27: a handler error aborts the segment on the server and is skipped on
the client. For every segment of `n ≥ 1` complete messages, each read by the
handler as a whole with whatever result, and enough fuel:
`Responder.Dispatch` (`breakOnHandlerError = true`) returns the first error a
handler returns, having called the handler for the messages up to and
including that one and for none after it (and returns `nil` after all `n`
calls when no handler fails); `Requester.Dispatch`
(`breakOnHandlerError = false`) calls the handler for all `n` messages, in
order, and returns `nil`. -/
theorem C27_handler_error_policy {σ : Type} (handler : Handler σ) (m : Message)
    (rest : List Message) (fuel : Nat) (st : σ)
    (hf : (m :: rest).length < fuel) (hH : Handles handler st (m :: rest)) :
    (∃ r1 st1, Responder.Dispatch fuel (segment (m :: rest)) handler st
      = some { r := r1, st := st1,
               calls := (expectedCalls (m :: rest)).take (untilError (m :: rest)).length,
               err := firstError (m :: rest) }) ∧
    (∃ r1 st1, Requester.Dispatch fuel (segment (m :: rest)) handler st
      = some { r := r1, st := st1, calls := expectedCalls (m :: rest), err := none }) ∧
    (∀ pre post x e, m :: rest = pre ++ x :: post → (∀ y ∈ pre, y.result = none) →
      x.result = some e →
      untilError (m :: rest) = pre ++ [x] ∧ firstError (m :: rest) = some e) ∧
    ((∀ y ∈ m :: rest, y.result = none) →
      untilError (m :: rest) = m :: rest ∧ firstError (m :: rest) = none) ∧
    (expectedCalls (m :: rest)).length = (m :: rest).length := by
  obtain ⟨r1, st1, h1⟩ := dispatch_messages handler true m rest fuel st hf hH
  obtain ⟨r2, st2, h2⟩ := dispatch_messages handler false m rest fuel st hf hH
  refine ⟨⟨r1, st1, ?_⟩, ⟨r2, st2, ?_⟩, ?_, untilError_all _, expectedCalls_length _⟩
  · simp only [Responder.Dispatch, h1, if_true]
  · have ht : (expectedCalls (m :: rest)).take (m :: rest).length = expectedCalls (m :: rest) := by
      rw [← expectedCalls_length (m :: rest), List.take_length]
    simp only [Requester.Dispatch, h2, Bool.false_eq_true, if_false, ht]
  · intro pre post x e hsplit hpre hx
    rw [hsplit]
    exact untilError_split pre post x e hpre hx

/-- C27 at the example segment of three messages, the second of which fails:
the server's dispatch stops after two calls and returns the error, the
client's dispatch makes all three calls and returns `nil`. -/
theorem C27_handler_error_policy_witness :
    (∃ r1 st1, Responder.Dispatch 4 [0x32, 1, 2, 0xF1, 9, 0x10] testHandler []
      = some { r := r1, st := st1,
               calls := [⟨3, 2, [1, 2, 0xF1, 9, 0x10]⟩, ⟨15, 1, [9, 0x10]⟩],
               err := some (GoError.plain (Error.other 7)) }) ∧
    (∃ r1 st1, Requester.Dispatch 4 [0x32, 1, 2, 0xF1, 9, 0x10] testHandler []
      = some { r := r1, st := st1,
               calls := [⟨3, 2, [1, 2, 0xF1, 9, 0x10]⟩, ⟨15, 1, [9, 0x10]⟩, ⟨1, 0, []⟩],
               err := none }) := by
  have hwf : ∀ x ∈ testMessages,
      x.body.length = u8 (x.header &&& 15) ∧
      x.result = if x.header >>> 4 = 15 then some (GoError.plain (Error.other 7)) else none := by
    decide
  have h := C27_handler_error_policy testHandler ⟨0x32, [1, 2], none⟩
    [⟨0xF1, [9], some (GoError.plain (Error.other 7))⟩, ⟨0x10, [], none⟩] 4 []
    (by decide) (testHandler_handles _ [] hwf)
  exact ⟨h.1, h.2.1⟩

/-! ## The retry policy of the client's requester -/

theorem runLoop_settles (c : Nat → Option GoError) (n i k : Nat) (result : RetrieverError)
    (hk : k < n) (hpre : ∀ j, j < k → client.retryable (c (i + j)) = true)
    (hlast : client.retryable (c (i + k)) = false) :
    client.runLoop c n i result =
      (i + k + 1,
        match c (i + k) with
        | none => none
        | some (GoError.plain e) => some e
        | some (GoError.retriever err) => err.E) := by
  induction k generalizing n i result with
  | zero =>
    obtain ⟨m, rfl⟩ : ∃ m, n = m + 1 := ⟨n - 1, by omega⟩
    simp only [Nat.add_zero] at hlast ⊢
    rw [client.runLoop]
    cases hc : c i with
    | none => rfl
    | some g =>
      cases g with
      | plain e => rfl
      | retriever err =>
        rw [hc] at hlast
        simp only [client.retryable, Bool.and_eq_false_imp] at hlast
        simp only
        by_cases h1 : err.IsError = true
        · have h2 := hlast h1
          simp only [h1, Bool.not_true, Bool.false_eq_true, if_false, h2, Bool.not_false, if_true]
        · have h1f : err.IsError = false := by simpa using h1
          have hE : err.E = none := by
            simpa [RetrieverError.IsError] using h1f
          simp only [h1f, Bool.not_false, if_true, hE]
  | succ k ih =>
    obtain ⟨m, rfl⟩ : ∃ m, n = m + 1 := ⟨n - 1, by omega⟩
    have h0 := hpre 0 (by omega)
    simp only [Nat.add_zero] at h0
    rw [client.runLoop]
    cases hc : c i with
    | none =>
      rw [hc] at h0
      cases h0
    | some g =>
      cases g with
      | plain e =>
        rw [hc] at h0
        cases h0
      | retriever err =>
        rw [hc] at h0
        simp only [client.retryable, Bool.and_eq_true] at h0
        simp only [h0.1, h0.2, Bool.not_true, Bool.false_eq_true, if_false]
        have h := ih m (i + 1) err (by omega)
          (fun j hj => by
            have := hpre (j + 1) (by omega)
            rw [show i + 1 + j = i + (j + 1) by omega]
            exact this)
          (by rw [show i + 1 + k = i + (k + 1) by omega]; exact hlast)
        rw [h, show i + 1 + k = i + (k + 1) by omega]

theorem runLoop_exhausts (c : Nat → Option GoError) (n i : Nat) (result : RetrieverError)
    (hall : ∀ j, j < n → client.retryable (c (i + j)) = true) :
    client.runLoop c n i result =
      (i + n, if n = 0 then result.E else client.heldError (c (i + n - 1))) := by
  induction n generalizing i result with
  | zero => simp only [client.runLoop, Nat.add_zero, if_true]
  | succ m ih =>
    have h0 := hall 0 (by omega)
    simp only [Nat.add_zero] at h0
    rw [client.runLoop]
    cases hc : c i with
    | none =>
      rw [hc] at h0
      cases h0
    | some g =>
      cases g with
      | plain e =>
        rw [hc] at h0
        cases h0
      | retriever err =>
        rw [hc] at h0
        simp only [client.retryable, Bool.and_eq_true] at h0
        simp only [h0.1, h0.2, Bool.not_true, Bool.false_eq_true, if_false]
        rw [ih (i + 1) err (fun j hj => by
          have := hall (j + 1) (by omega)
          rw [show i + 1 + j = i + (j + 1) by omega]
          exact this)]
        by_cases hm : m = 0
        · subst hm
          simp only [Nat.add_zero, if_true, Nat.succ_ne_zero, if_false, Nat.add_sub_cancel,
            client.heldError, hc, Nat.zero_add]
        · simp only [hm, if_false, Nat.succ_ne_zero]
          rw [show i + 1 + m = i + (m + 1) by omega]

theorem runLoop_calls (c : Nat → Option GoError) (n i : Nat) (result : RetrieverError) :
    (client.runLoop c n i result).1 ≤ i + n := by
  induction n generalizing i result with
  | zero => simp only [client.runLoop, Nat.add_zero, Nat.le_refl]
  | succ m ih =>
    rw [client.runLoop]
    cases hc : c i with
    | none => simp only; omega
    | some g =>
      cases g with
      | plain e => simp only; omega
      | retriever err =>
        simp only
        split
        · simp only; omega
        · split
          · simp only; omega
          · have := ih (i + 1) err
            omega

theorem runLoop_mono (c : Nat → Option GoError) (n i : Nat) (result : RetrieverError) :
    i + min 1 n ≤ (client.runLoop c n i result).1 := by
  induction n generalizing i result with
  | zero => simp only [client.runLoop, Nat.min_zero, Nat.add_zero, Nat.le_refl]
  | succ m ih =>
    have hmin : min 1 (m + 1) = 1 := by omega
    rw [client.runLoop, hmin]
    cases hc : c i with
    | none => simp only [Nat.le_refl]
    | some g =>
      cases g with
      | plain e => simp only [Nat.le_refl]
      | retriever err =>
        simp only
        split
        · simp only [Nat.le_refl]
        · split
          · simp only [Nat.le_refl]
          · have := ih (i + 1) err
            omega

theorem runLoop_ge (c : Nat → Option GoError) (n i k : Nat) (result : RetrieverError)
    (hpre : ∀ j, j < k → client.retryable (c (i + j)) = true) :
    i + min (k + 1) n ≤ (client.runLoop c n i result).1 := by
  induction k generalizing n i result with
  | zero =>
    have := runLoop_mono c n i result
    simpa using this
  | succ k ih =>
    cases n with
    | zero => simp only [client.runLoop, Nat.min_zero, Nat.add_zero, Nat.le_refl]
    | succ m =>
      have h0 := hpre 0 (by omega)
      simp only [Nat.add_zero] at h0
      rw [client.runLoop]
      cases hc : c i with
      | none =>
        rw [hc] at h0
        cases h0
      | some g =>
        cases g with
        | plain e =>
          rw [hc] at h0
          cases h0
        | retriever err =>
          rw [hc] at h0
          simp only [client.retryable, Bool.and_eq_true] at h0
          simp only [h0.1, h0.2, Bool.not_true, Bool.false_eq_true, if_false]
          have h := ih m (i + 1) err (fun j hj => by
            have := hpre (j + 1) (by omega)
            rw [show i + 1 + j = i + (j + 1) by omega]
            exact this)
          omega

/-- C28, as amended: the retry policy of `requester.run`. For every
`maxRetries` and every sequence `c 0, c 1, ...` of results of the callable:
the callable is called at most `maxRetries` times (not at all when
`maxRetries ≤ 0`). With the results before the `k`-th all retryable errors
(a `RetrieverError` that holds an error and has `TryAgain = true`) and
`k < maxRetries`: a `nil` result makes `run` return `nil` after `k + 1` calls;
a result that is not a `RetrieverError` is returned after `k + 1` calls; a
`RetrieverError` that holds no error (`E = nil`) makes `run` return `nil`
after `k + 1` calls, whatever its `TryAgain`; a `RetrieverError` that holds an
error with `TryAgain = false` makes `run` return its `E` after `k + 1`
calls; a retryable error leads to a further call when `k + 1 < maxRetries`.
When all `maxRetries ≥ 1` results are retryable errors, `run` returns the
`E` of the last one after `maxRetries` calls. -/
theorem C28_retry_policy (maxRetries : Int) (c : Nat → Option GoError) :
    (client.run maxRetries c).1 ≤ maxRetries.toNat ∧
    (maxRetries ≤ 0 → client.run maxRetries c = (0, none)) ∧
    (∀ k : Nat, (k : Int) < maxRetries → (∀ j, j < k → client.retryable (c j) = true) →
      (c k = none → client.run maxRetries c = (k + 1, none)) ∧
      (∀ e, c k = some (GoError.plain e) → client.run maxRetries c = (k + 1, some e)) ∧
      (∀ err, c k = some (GoError.retriever err) → err.E = none →
        client.run maxRetries c = (k + 1, none)) ∧
      (∀ err, c k = some (GoError.retriever err) → err.E ≠ none → err.TryAgain = false →
        client.run maxRetries c = (k + 1, err.E)) ∧
      (∀ err, c k = some (GoError.retriever err) → err.E ≠ none → err.TryAgain = true →
        client.retryable (c k) = true ∧
        ((k : Int) + 1 < maxRetries → k + 2 ≤ (client.run maxRetries c).1))) ∧
    (0 < maxRetries → (∀ j : Nat, (j : Int) < maxRetries → client.retryable (c j) = true) →
      client.run maxRetries c
        = (maxRetries.toNat, client.heldError (c (maxRetries.toNat - 1)))) := by
  refine ⟨?_, ?_, ?_, ?_⟩
  · have := runLoop_calls c maxRetries.toNat 0 noError
    simpa [client.run] using this
  · intro h
    have hz : maxRetries.toNat = 0 := Int.toNat_eq_zero.mpr h
    simp only [client.run, hz, client.runLoop]
    rfl
  · intro k hk hpre
    have hkn : k < maxRetries.toNat := by omega
    have hpre0 : ∀ j, j < k → client.retryable (c (0 + j)) = true := by
      intro j hj
      rw [Nat.zero_add]
      exact hpre j hj
    have key : client.retryable (c (0 + k)) = false →
        client.run maxRetries c = (0 + k + 1,
          match c (0 + k) with
          | none => none
          | some (GoError.plain e) => some e
          | some (GoError.retriever err) => err.E) :=
      fun hl => runLoop_settles c maxRetries.toNat 0 k noError hkn hpre0 hl
    simp only [Nat.zero_add] at key
    refine ⟨fun hc => ?_, fun e hc => ?_, fun err hc hE => ?_, fun err hc hE hT => ?_,
      fun err hc hE hT => ⟨?_, fun hk2 => ?_⟩⟩
    · rw [key (by rw [hc]; rfl), hc]
    · rw [key (by rw [hc]; rfl), hc]
    · rw [key (by rw [hc]; simp [client.retryable, RetrieverError.IsError, hE]), hc]
      simp only [hE]
    · rw [key (by rw [hc]; simp [client.retryable, hT]), hc]
    · rw [hc]
      simp [client.retryable, RetrieverError.IsError, hE, hT]
    · have hge := runLoop_ge c maxRetries.toNat 0 (k + 1) noError (fun j hj => by
        rw [Nat.zero_add]
        by_cases hjk : j < k
        · exact hpre j hjk
        · have : j = k := by omega
          rw [this, hc]
          simp [client.retryable, RetrieverError.IsError, hE, hT])
      simp only [client.run]
      omega
  · intro hpos hall
    have h := runLoop_exhausts c maxRetries.toNat 0 noError (fun j hj => by
      rw [Nat.zero_add]
      exact hall j (by omega))
    have hn : maxRetries.toNat ≠ 0 := by omega
    simp only [client.run, h, Nat.zero_add, hn, if_false]

/-- C28 at the example callable (two retryable errors, then success): with
`maxRetries = 6` the run returns `nil` after three calls; with
`maxRetries = 2` it returns the `E` of the second error after two calls. -/
theorem C28_retry_policy_witness :
    client.run 6 client.testCallable = (3, none) ∧
    client.run 2 client.testCallable = (2, some Error.msgResourceExpired) := by
  have h6 := (C28_retry_policy 6 client.testCallable).2.2.1 2 (by decide)
    (fun j hj => by
      have : j = 0 ∨ j = 1 := by omega
      rcases this with rfl | rfl <;> rfl)
  have h2 := (C28_retry_policy 2 client.testCallable).2.2.2 (by decide)
    (fun j hj => by
      have : j = 0 ∨ j = 1 := by omega
      rcases this with rfl | rfl <;> rfl)
  exact ⟨h6.2.2.1 noError rfl rfl, h2⟩

/-- C28 as stated fails for a result with `TryAgain = true` that holds no
error: with `maxRetries = 3` and a callable that returns
`RetrieverError{E: nil, TryAgain: true}`, `run` returns `nil` after a single
call; the result does not lead to another attempt. -/
theorem C28_TryAgain_without_error_ends_run :
    (RetrieverError.mk none true).TryAgain = true ∧
    client.run 3 (fun _ => some (GoError.retriever (RetrieverError.mk none true))) = (1, none) := by
  decide

/-! ## Pusher writes within the capacity -/

theorem Pusher_Data_Truncate (p : Pusher) (n : Nat) (h : n ≤ p.Size) :
    (p.Truncate n).Data = p.Data.take n := by
  simp only [Pusher.Size] at h
  simp only [Pusher.Truncate, Pusher.Data, List.take_take, Nat.min_eq_left h]

/-- C29: writes of a `Pusher` are all-or-nothing within the fixed capacity
`len(p.b)`. For every pusher (with `Size` within the capacity) and every
`b`: `Write(b)`, and `Push`, fail with `ErrOverCapacity` exactly when
`len(b)` exceeds `capacity - Size`, and then the pusher (so `Size` and
`Data`) is unchanged and the count is 0; otherwise the count is `len(b)`,
there is no error, `Data` becomes the old `Data` followed by `b`, `Size`
grows by `len(b)` and the capacity stays. After `Truncate(n)` with
`n ≤ Size`, `Data` is the first `n` bytes of the old `Data` and `Size` is
`n`. -/
theorem C29_pusher_all_or_nothing (p : Pusher) (b : List Nat) (hwf : p.Size ≤ p.b.length) :
    ((p.Write b).2.2 = some Error.ErrOverCapacity ↔ p.b.length - p.Size < b.length) ∧
    ((p.Push b).2 = some Error.ErrOverCapacity ↔ p.b.length - p.Size < b.length) ∧
    (p.b.length - p.Size < b.length →
      p.Write b = (p, 0, some Error.ErrOverCapacity) ∧
      p.Push b = (p, some Error.ErrOverCapacity) ∧
      (p.Write b).1.Size = p.Size ∧ (p.Write b).1.Data = p.Data) ∧
    (b.length ≤ p.b.length - p.Size →
      (p.Write b).2 = (b.length, none) ∧
      p.Push b = ((p.Write b).1, none) ∧
      (p.Write b).1.Data = p.Data ++ b ∧
      (p.Write b).1.Size = p.Size + b.length ∧
      (p.Write b).1.b.length = p.b.length) ∧
    (∀ n, n ≤ p.Size →
      (p.Truncate n).Data = p.Data.take n ∧ (p.Truncate n).Size = n ∧
      (p.Truncate n).b.length = p.b.length) := by
  simp only [Pusher.Size] at hwf
  have hfull : p.b.length - p.Size < b.length →
      p.Write b = (p, 0, some Error.ErrOverCapacity) := by
    intro h
    simp only [Pusher.Size] at h
    have h1 : (b.length : Int) > (p.b.length : Int) - (p.i : Int) := by omega
    simp only [Pusher.Write, h1, if_true]
  have hroom : b.length ≤ p.b.length - p.Size →
      p.Write b = (Pusher.mk (writeAt p.b p.i b) (p.i + b.length), b.length, none) := by
    intro h
    simp only [Pusher.Size] at h
    have h1 : ¬ ((b.length : Int) > (p.b.length : Int) - (p.i : Int)) := by omega
    simp only [Pusher.Write, h1, if_false]
  have hiff : (p.Write b).2.2 = some Error.ErrOverCapacity ↔ p.b.length - p.Size < b.length := by
    constructor
    · intro h
      by_contra hn
      rw [hroom (by omega)] at h
      cases h
    · intro h
      rw [hfull h]
  refine ⟨hiff, hiff, fun h => ?_, fun h => ?_, fun n hn => ?_⟩
  · refine ⟨hfull h, ?_, ?_, ?_⟩
    · simp only [Pusher.Push, hfull h]
    · rw [hfull h]
    · rw [hfull h]
  · have hle : p.i + b.length ≤ p.b.length := by
      simp only [Pusher.Size] at h
      omega
    refine ⟨?_, ?_, ?_, ?_, ?_⟩
    · rw [hroom h]
    · simp only [Pusher.Push, hroom h]
    · rw [hroom h]
      simp only [Pusher.Data, writeAt_take _ _ _ hle]
    · rw [hroom h]
      rfl
    · rw [hroom h]
      exact writeAt_length _ _ _ hle
  · exact ⟨Pusher_Data_Truncate p n hn, rfl, rfl⟩

/-- C29 on a pusher of capacity 4 that holds `[7]`: writing `[1, 2, 3]` fits
and gives `Data = [7, 1, 2, 3]`; writing `[1, 2, 3, 4]` fails and leaves the
pusher as it was; truncating to 0 leaves no data. -/
theorem C29_pusher_all_or_nothing_witness :
    (Pusher.mk [7, 0, 0, 0] 1).Size ≤ (Pusher.mk [7, 0, 0, 0] 1).b.length ∧
    ((Pusher.mk [7, 0, 0, 0] 1).Write [1, 2, 3]).1.Data = [7, 1, 2, 3] ∧
    (Pusher.mk [7, 0, 0, 0] 1).Write [1, 2, 3, 4]
      = (Pusher.mk [7, 0, 0, 0] 1, 0, some Error.ErrOverCapacity) ∧
    ((Pusher.mk [7, 0, 0, 0] 1).Truncate 0).Data = [] :=
  ⟨by decide,
   ((C29_pusher_all_or_nothing (Pusher.mk [7, 0, 0, 0] 1) [1, 2, 3] (by decide)).2.2.2.1
      (by decide)).2.2.1,
   ((C29_pusher_all_or_nothing (Pusher.mk [7, 0, 0, 0] 1) [1, 2, 3, 4] (by decide)).2.2.1
      (by decide)).1,
   ((C29_pusher_all_or_nothing (Pusher.mk [7, 0, 0, 0] 1) [] (by decide)).2.2.2.2 0
      (by decide)).1⟩

/-! ## The endpoint built from an address type -/

theorem copy16_sized (a : List Nat) (h : a.length = 16) : session.copy16 a = a := by
  have h1 : a.take 16 = a := List.take_of_length_le (by omega)
  simp only [session.copy16, writeAt, h1, List.take_zero, List.nil_append, Nat.zero_add, h,
    List.drop_replicate, Nat.sub_self, List.replicate_zero, List.append_nil]

/-- C30 fails on the code: for every address `a` and port `p`, `buildAddr`
returns a `*net.UDPAddr` (network `"udp"`) for the type `TCPIPv6` and a
`*net.TCPAddr` (network `"tcp"`) for the type `UDPIPv6`, each carrying the
address (unchanged when it has 16 bytes) and the port; the four other types
get the endpoint of their own protocol: `TCPIPv4` a `*net.TCPAddr`, `UDPIPv4`
a `*net.UDPAddr`, `TCPHost` network `"tcp"` and `UDPHost` network `"udp"`. -/
theorem C30_buildAddr_swaps_IPv6 (a : List Nat) (p : Nat) (a0 a1 a2 a3 : Nat) :
    session.buildAddr TCPIPv6 a p
      = Except.ok (some (session.NetAddr.UDPAddr (session.copy16 a) (p : Int)), none) ∧
    (session.NetAddr.UDPAddr (session.copy16 a) (p : Int)).Network = "udp" ∧
    session.buildAddr UDPIPv6 a p
      = Except.ok (some (session.NetAddr.TCPAddr (session.copy16 a) (p : Int)), none) ∧
    (session.NetAddr.TCPAddr (session.copy16 a) (p : Int)).Network = "tcp" ∧
    (a.length = 16 → session.copy16 a = a) ∧
    session.buildAddr TCPIPv4 [a0, a1, a2, a3] p
      = Except.ok (some (session.NetAddr.TCPAddr (session.IPv4 a0 a1 a2 a3) (p : Int)), none) ∧
    session.buildAddr UDPIPv4 [a0, a1, a2, a3] p
      = Except.ok (some (session.NetAddr.UDPAddr (session.IPv4 a0 a1 a2 a3) (p : Int)), none) ∧
    session.buildAddr TCPHost a p
      = Except.ok (some (session.NetAddr.addrr "tcp"
          (session.JoinHostPort a (session.FormatUint (u64 p)))), none) ∧
    session.buildAddr UDPHost a p
      = Except.ok (some (session.NetAddr.addrr "udp"
          (session.JoinHostPort a (session.FormatUint (u64 p)))), none) :=
  ⟨rfl, rfl, rfl, rfl, copy16_sized a, rfl, rfl, rfl, rfl⟩

/-- C30 at the address `2001:db8::1`, port 80: the type `TCPIPv6` gives the
UDP endpoint of that address and port, the type `UDPIPv6` the TCP endpoint. -/
theorem C30_buildAddr_swaps_IPv6_witness :
    session.testIPv6.length = 16 ∧
    session.buildAddr TCPIPv6 session.testIPv6 80
      = Except.ok (some (session.NetAddr.UDPAddr session.testIPv6 80), none) ∧
    session.buildAddr UDPIPv6 session.testIPv6 80
      = Except.ok (some (session.NetAddr.TCPAddr session.testIPv6 80), none) := by
  have h := C30_buildAddr_swaps_IPv6 session.testIPv6 80 0 0 0 0
  have h16 : session.testIPv6.length = 16 := by decide
  have hc := h.2.2.2.2.1 h16
  refine ⟨h16, ?_, ?_⟩
  · have h1 := h.1
    rw [hc] at h1
    exact h1
  · have h3 := h.2.2.1
    rw [hc] at h3
    exact h3

/-! ## The size of a Dial request and the safe overhead -/

theorem pusherPush_app_full (p : Pusher) (xs ys : List Nat)
    (h1 : p.i + xs.length ≤ p.b.length) (h2 : p.b.length < p.i + xs.length + ys.length) :
    pusherPush (p.app xs) ys = (p.app xs, some Error.ErrOverCapacity) := by
  have hl : (p.app xs).b.length = p.b.length := writeAt_length _ _ _ h1
  exact Pusher_Push_full (p.app xs) ys (by rw [hl]; simp only [Pusher.app]; omega)

theorem DialRequest_buildPort_full (d : DialRequest) (p : Pusher) (xs : List Nat)
    (hl : d.RequestLength = d.Request.length) (hr : d.RequestLength < 2 ^ 16)
    (h1 : p.i + xs.length + 6 ≤ p.b.length)
    (h2 : p.b.length < p.i + xs.length + 6 + d.Request.length) :
    (d.buildPort (p.app xs)).2.2 = Status.err Error.ErrOverCapacity := by
  simp only [DialRequest.buildPort]
  rw [pusherU16_app p _ _ (by simp [be16_length]; omega)]
  simp only
  rw [pusherU16_app p _ _ (by simp [be16_length]; omega)]
  simp only
  rw [if_neg (by omega), if_neg (by omega)]
  rw [pusherU16_app p _ _ (by simp [be16_length]; omega)]
  simp only
  rw [pusherPush_app_full p _ _ (by simp [be16_length]; omega) (by simp [be16_length]; omega)]

theorem DialRequest_Build_full (d : DialRequest) (id : List Nat) (p : Pusher)
    (hid : id.length = 32) (hw : d.WellFormed)
    (h1 : p.i + (d.wireSize - d.Request.length) ≤ p.b.length)
    (h2 : p.b.length < p.i + d.wireSize) :
    (d.Build id p).2.2 = Status.err Error.ErrOverCapacity := by
  obtain ⟨ha, hl, hr, -, -⟩ := hw
  have hty : d.ATyp ≤ 5 := by
    simp only [TCPIPv4, UDPIPv4, TCPIPv6, UDPIPv6, TCPHost, UDPHost] at ha
    omega
  have hu : u8 d.ATyp = d.ATyp := by simp only [u8]; omega
  simp only [DialRequest.wireSize, protocol.HeaderSize, IDSize] at h1 h2
  have hn : NewRequestType DialType (u8 d.ATyp) = Except.ok d.ATyp := by
    rw [hu, NewRequestType_ok DialType d.ATyp (by decide) (by omega)]
    simp only [DialType, Nat.zero_mul, Nat.zero_add]
  simp only [DialRequest.Build, hn]
  rw [pusherPush_first p _ (by simp; omega)]
  simp only
  rw [pusherPush_app p _ _ (by simp [hid]; omega)]
  simp only
  rcases ha with ⟨ht, hlen⟩ | ⟨ht, hlen⟩ | ⟨ht, hlen⟩
  · have hh : ¬ (d.ATyp = TCPHost ∨ d.ATyp = UDPHost) := by
      simp only [TCPIPv4, UDPIPv4, TCPHost, UDPHost] at ht ⊢; omega
    simp only [DialRequest.addrField, hh, if_false] at h1 h2 ⊢
    rw [if_pos ht, if_neg (by omega)]
    rw [pusherPush_app p _ _ (by simp [hid]; omega)]
    simp only
    exact DialRequest_buildPort_full { d with ID := id } p _ hl hr (by simp [hid]; omega)
      (by simp [hid]; omega)
  · have hh : ¬ (d.ATyp = TCPHost ∨ d.ATyp = UDPHost) := by
      simp only [TCPIPv6, UDPIPv6, TCPHost, UDPHost] at ht ⊢; omega
    have h4 : ¬ (d.ATyp = TCPIPv4 ∨ d.ATyp = UDPIPv4) := by
      simp only [TCPIPv6, UDPIPv6, TCPIPv4, UDPIPv4] at ht ⊢; omega
    simp only [DialRequest.addrField, hh, if_false] at h1 h2 ⊢
    rw [if_neg h4, if_pos ht, if_neg (by omega)]
    rw [pusherPush_app p _ _ (by simp [hid]; omega)]
    simp only
    exact DialRequest_buildPort_full { d with ID := id } p _ hl hr (by simp [hid]; omega)
      (by simp [hid]; omega)
  · have h4 : ¬ (d.ATyp = TCPIPv4 ∨ d.ATyp = UDPIPv4) := by
      simp only [TCPHost, UDPHost, TCPIPv4, UDPIPv4] at ht ⊢; omega
    have h6 : ¬ (d.ATyp = TCPIPv6 ∨ d.ATyp = UDPIPv6) := by
      simp only [TCPHost, UDPHost, TCPIPv6, UDPIPv6] at ht ⊢; omega
    simp only [DialRequest.addrField, ht, if_true, List.length_append, List.length_singleton]
      at h1 h2 ⊢
    rw [if_neg h4, if_neg h6, if_neg (by omega)]
    rw [pusherPush_app p _ _ (by simp [hid]; omega)]
    simp only
    rw [pusherPush_app p _ _ (by simp [hid]; omega)]
    simp only
    exact DialRequest_buildPort_full { d with ID := id } p _ hl hr
      (by simp [hid]; omega) (by simp [hid]; omega)

theorem DialRequest_wireSize_bound (d : DialRequest) (hw : d.WellFormed) :
    d.wireSize ≤ DialSafeOverheadSize + 1 + d.RequestLength ∧
    (d.wireSize ≤ DialSafeOverheadSize + d.RequestLength ↔
      ¬ ((d.ATyp = TCPHost ∨ d.ATyp = UDPHost) ∧ d.Addr.length = 255)) := by
  obtain ⟨ha, hl, -, -, -⟩ := hw
  simp only [DialRequest.wireSize, DialSafeOverheadSize, protocol.HeaderSize, IDSize]
  rcases ha with ⟨ht, hlen⟩ | ⟨ht, hlen⟩ | ⟨ht, hlen⟩
  · have hh : ¬ (d.ATyp = TCPHost ∨ d.ATyp = UDPHost) := by
      simp only [TCPIPv4, UDPIPv4, TCPHost, UDPHost] at ht ⊢; omega
    simp only [DialRequest.addrField, hh, if_false, false_and, not_false_eq_true, iff_true]
    omega
  · have hh : ¬ (d.ATyp = TCPHost ∨ d.ATyp = UDPHost) := by
      simp only [TCPIPv6, UDPIPv6, TCPHost, UDPHost] at ht ⊢; omega
    simp only [DialRequest.addrField, hh, if_false, false_and, not_false_eq_true, iff_true]
    omega
  · simp only [DialRequest.addrField, ht, if_true, List.length_append, List.length_singleton,
      true_and]
    omega

theorem flush_ok (r : client.requester) (v v1 : client.serveVars) (t : client.Transport)
    (h : client.flush r v t = Except.ok v1) :
    v1.paddedbuf = [] ∧ v1.cancels = [] ∧ v1.aliased = v.aliased ∧
    v1.sent = v.sent ++
      [(v.paddedbuf, v.fullbuf.take (r.requestReqOverheadSize + v.paddedbuf.length))] ∧
    ∃ body1 cancels e,
      client.sendRequest t (v.fullbuf.take (r.requestReqOverheadSize + v.paddedbuf.length))
        v.cancels = Except.ok (body1, cancels, e) ∧
      v1.fullbuf = body1 ++ v.fullbuf.drop body1.length ∧
      v1.settled = v.settled ++ cancels.map (fun kv => (kv.2, client.ErrRequestUnresponded)) := by
  unfold client.flush at h
  split at h
  · cases h
  · simp only at h
    split at h
    · cases h
    · rename_i body1 cancels e hs
      cases h
      exact ⟨rfl, rfl, rfl, rfl, body1, cancels, e, hs, rfl, rfl⟩

/-! ## The outbound pump -/

theorem SendRequest_BuildHeader_room (d : SendRequest) (id : List Nat) (p : Pusher)
    (hid : id.length = 32) (h : p.i + 43 ≤ p.b.length) :
    d.BuildHeader id p = ({ d with ID := id },
      p.app ([SendType * 16] ++ id ++ be64 d.WID ++ be16 d.PayloadLength), Status.ok) := by
  simp only [SendRequest.BuildHeader, NewRequestType_ok SendType 0 (by decide) (by decide),
    Nat.add_zero]
  rw [pusherPush_first p _ (by simp; omega)]
  simp only
  rw [pusherPush_app p _ _ (by simp [hid]; omega)]
  simp only
  rw [pusherU64_app p _ _ (by simp [hid, be64_length]; omega)]
  simp only
  rw [pusherU16_app p _ _ (by simp [hid, be64_length, be16_length]; omega)]

/-- The request `requester.send` hands to a worker for the slice
`buf[writeLen : SendHeaderOverhead + l]`: the header is written at the start
of `buf`, and the payload is what follows it there, the first `l - writeLen`
bytes after the header room. -/
theorem sendCallable_request (w : Retrievers) (id buf : List Nat) (l writeLen cb s : Nat)
    (hid : id.length = 32) (hfind : w.find id = some s) (hidle : (w.deref s).wcb = none)
    (hbuf : SendHeaderOverhead + l ≤ buf.length) (hw : writeLen ≤ l) :
    ∃ q rq, client.sendCallable w id ((buf.take (SendHeaderOverhead + l)).drop writeLen)
        (NewPusher buf) 0 cb = Except.ok (q, some rq) ∧
      q.p.b = writeAt buf 0 ([SendType * 16] ++ id ++ be64 (w.deref s).wid
        ++ be16 (u16 (l - writeLen))) ∧
      q.p.b.length = buf.length ∧ q.p.b.drop SendHeaderOverhead = buf.drop SendHeaderOverhead ∧
      rq.id = id ∧
      rq.pusher.Data.take SendHeaderOverhead = [SendType * 16] ++ id ++ be64 (w.deref s).wid
        ++ be16 (u16 (l - writeLen)) ∧
      rq.payload = (buf.drop SendHeaderOverhead).take (l - writeLen) := by
  have hSHO : SendHeaderOverhead = 43 := rfl
  rw [hSHO] at hbuf ⊢
  have hreq : ((buf.take (43 + l)).drop writeLen).length = 43 + l - writeLen := by
    simp only [List.length_drop, List.length_take]
    omega
  have hhdr : ([SendType * 16] ++ id ++ be64 (w.deref s).wid
      ++ be16 (u16 (l - writeLen))).length = 43 := by
    simp only [List.length_append, List.length_singleton, hid, be64_length, be16_length]
  have hb := SendRequest_BuildHeader_room
    { ID := id, WID := (w.deref s).wid,
      Payload := ((buf.take (43 + l)).drop writeLen).drop 43,
      PayloadLength := u16 (((buf.take (43 + l)).drop writeLen).length - 43) }
    id (NewPusher buf) hid (by simp only [NewPusher]; omega)
  have hlen : 43 + l - writeLen - 43 = l - writeLen := by omega
  simp only [hreq, hlen] at hb
  have hwb : (writeAt buf 0 ([SendType * 16] ++ id ++ be64 (w.deref s).wid
      ++ be16 (u16 (l - writeLen)))).length = buf.length :=
    writeAt_length _ _ _ (by rw [hhdr]; omega)
  have hdrop : (writeAt buf 0 ([SendType * 16] ++ id ++ be64 (w.deref s).wid
      ++ be16 (u16 (l - writeLen)))).drop 43 = buf.drop 43 := by
    simp only [writeAt, List.take_zero, List.nil_append, Nat.zero_add, hhdr]
    rw [← hhdr, List.drop_left]
  have htake : (writeAt buf 0 ([SendType * 16] ++ id ++ be64 (w.deref s).wid
      ++ be16 (u16 (l - writeLen)))).take 43 = [SendType * 16] ++ id ++ be64 (w.deref s).wid
      ++ be16 (u16 (l - writeLen)) := by
    simp only [writeAt, List.take_zero, List.nil_append, Nat.zero_add, hhdr]
    rw [← hhdr, List.take_left]
  have heq : client.sendCallable w id ((buf.take (43 + l)).drop writeLen) (NewPusher buf) 0 cb
      = Except.ok
          (Requested.mk (w.store s { w.deref s with wcb := some cb })
            (Pusher.mk (writeAt buf 0 ([SendType * 16] ++ id ++ be64 (w.deref s).wid
              ++ be16 (u16 (l - writeLen)))) (43 + (l - writeLen)))
            [] (some (RetrieverCancel.wcb s)) none,
           some (client.request.mk id
            (Pusher.mk (writeAt buf 0 ([SendType * 16] ++ id ++ be64 (w.deref s).wid
              ++ be16 (u16 (l - writeLen)))) (43 + (l - writeLen)))
            (RetrieverCancel.wcb s))) := by
    simp only [client.sendCallable, Retrievers.Send, hfind, hidle, ne_eq, not_true_eq_false,
      if_false, hreq, hSHO, show ¬ (43 + l - writeLen < 43) by omega, hlen, builtError,
      Pusher.Truncate]
    rw [show (Pusher.mk (NewPusher buf).b 0) = NewPusher buf from rfl, hb]
    simp only [Pusher.app, NewPusher, Pusher.Size, Nat.zero_add, hhdr, Option.getD_some]
  refine ⟨_, _, heq, rfl, hwb, hdrop, rfl, ?_, ?_⟩
  · simp only [Pusher.Data, List.take_take]
    rw [Nat.min_eq_left (by omega)]
    exact htake
  · simp only [client.request.payload, Pusher.Data, hSHO]
    rw [List.drop_take, hdrop]
    congr 1
    omega

/-- C32 fails on the code: after a partial send the pump sends the start of
the data again. For every buffer `buf` that holds the `l` bytes read from the
sink after the header room, and two calls of `send` that meet a table in which
the retriever has no send pending, the first of which reports `0 < w < l`
bytes accepted: `Serve` hands `send` the slice `buf[w : SendHeaderOverhead + l]`,
whose part after the header room is the data from byte `w` on; but the request
`send` gives to a worker is built by a pusher over the whole of `buf`, so its
payload is what follows the header at the start of `buf`: the first request
carries the `l` bytes read, the second the first `l - w` of them, not the
bytes from `w` on. -/
theorem C32_pump_resends_from_start (id buf : List Nat) (l s1 s2 : Nat)
    (t1 t2 : client.SendTurn) (hid : id.length = 32)
    (hbuf : SendHeaderOverhead + l ≤ buf.length)
    (h1 : t1.w.find id = some s1) (h1idle : (t1.w.deref s1).wcb = none) (h1e : t1.err = none)
    (hw0 : 0 < t1.wlen) (hwl : t1.wlen < l)
    (h2 : t2.w.find id = some s2) (h2idle : (t2.w.deref s2).wcb = none) (h2e : t2.err = none) :
    ∃ r rq1 rq2, client.servePump id l [t1, t2] buf 0 [] = Except.ok r ∧
      r.requests = [rq1, rq2] ∧ r.writeLen = t1.wlen + t2.wlen ∧ r.err = none ∧
      r.ended = decide (¬ t1.wlen + t2.wlen < l) ∧
      ((buf.take (SendHeaderOverhead + l)).drop t1.wlen).drop SendHeaderOverhead
        = ((buf.drop SendHeaderOverhead).take l).drop t1.wlen ∧
      rq1.payload = (buf.drop SendHeaderOverhead).take l ∧
      rq2.payload = (buf.drop SendHeaderOverhead).take (l - t1.wlen) ∧
      r.buf.drop SendHeaderOverhead = buf.drop SendHeaderOverhead := by
  obtain ⟨q1, rq1, e1, -, hl1, hd1, -, -, hp1⟩ :=
    sendCallable_request t1.w id buf l 0 0 s1 hid h1 h1idle hbuf (Nat.zero_le _)
  obtain ⟨q2, rq2, e2, -, hl2, hd2, -, -, hp2⟩ :=
    sendCallable_request t2.w id q1.p.b l t1.wlen 0 s2 hid h2 h2idle (by rw [hl1]; exact hbuf)
      (Nat.le_of_lt hwl)
  simp only [List.drop_zero, Nat.sub_zero] at e1 hp1
  refine ⟨client.Pumped.mk q2.p.b (t1.wlen + t2.wlen) [rq1, rq2]
    (decide (¬ t1.wlen + t2.wlen < l)) none, rq1, rq2, ?_, rfl, rfl, rfl, rfl, ?_, hp1, ?_, ?_⟩
  · have hb1 : ¬ (SendHeaderOverhead + l > buf.length ∨ 0 > SendHeaderOverhead + l) := by omega
    have hb2 : ¬ (SendHeaderOverhead + l > q1.p.b.length
        ∨ 0 + t1.wlen > SendHeaderOverhead + l) := by
      rw [hl1]
      omega
    rw [client.servePump]
    simp only [show 0 < l by omega, if_true, hb1, if_false, List.drop_zero,
      show (NewPusher buf).Size = 0 from rfl, e1, h1e]
    rw [client.servePump]
    simp only [show 0 + t1.wlen < l by omega, if_true, hb2, if_false,
      show (NewPusher q1.p.b).Size = 0 from rfl]
    rw [Nat.zero_add, e2]
    simp only [h2e, client.servePump, List.nil_append, List.cons_append, List.singleton_append]
  · rw [List.drop_drop, List.drop_take, List.drop_take, List.drop_drop]
    congr 1
    · omega
    · rw [Nat.add_comm]
  · rw [hp2, hd1]
  · exact hd2.trans hd1

/-- C32 at a read of the two bytes 1, 2 with a first send that reports one
byte accepted: the second request carries the byte 1 again, so the bytes the
two sends got accepted are 1, 1 and not 1, 2. -/
theorem C32_pump_resends_from_start_witness :
    ∃ r rq1 rq2,
      client.servePump testID 2 [⟨testRetrieversIdle, 1, none⟩, ⟨testRetrieversIdle, 1, none⟩]
        client.testServeBuf 0 [] = Except.ok r ∧
      r.requests = [rq1, rq2] ∧ r.ended = true ∧
      rq1.payload = [1, 2] ∧ rq2.payload = [1] ∧
      rq1.payload.take 1 ++ rq2.payload.take 1 = [1, 1] := by
  obtain ⟨r, rq1, rq2, e, hr, -, -, hend, -, hp1, hp2, -⟩ :=
    C32_pump_resends_from_start testID client.testServeBuf 2 0 0
      ⟨testRetrieversIdle, 1, none⟩ ⟨testRetrieversIdle, 1, none⟩ (by decide) (by decide)
      (by decide) (by decide) rfl (by decide) (by decide) (by decide) (by decide) rfl
  have hd : (client.testServeBuf.drop SendHeaderOverhead) = [1, 2] := by decide
  rw [hd] at hp1 hp2
  refine ⟨r, rq1, rq2, e, hr, hend, hp1, hp2, ?_⟩
  rw [hp1, hp2]
  rfl

/-! ## The worker of the requester -/

theorem client_sizes :
    client.newRequester.maxHTTPReqBodySize = 65535 ∧
    client.newRequester.requestReqPadSize = 30 ∧
    client.newRequester.requestReqOverheadSize = 46 ∧
    client.newRequester.requestMaxReqPayloadSize = 65489 := by
  decide

theorem Encrypt_length (gcm : AEAD) (nonce b : List Nat) (hg : gcm.IsGCM)
    (hn : nonce.length = 12) (h1 : 46 ≤ b.length) (h2 : b.length ≤ 65535) :
    ∃ out, Encrypt gcm nonce b = Except.ok out ∧ out.length = b.length := by
  refine ⟨_, Encrypt_eq gcm nonce b hg hn h1 h2, ?_⟩
  have hs1 := hg.2.1 nonce [u8 ((b.length - 46) >>> 8), u8 (b.length - 46)]
  have hs2 := hg.2.1 (nonceNext nonce) ((b.drop 30).take (b.length - 46))
  simp only [List.length_append, hs1, hs2, hn, List.length_cons, List.length_nil,
    List.length_take, List.length_drop]
  omega

/-- A flush of the worker returns: with a full-size buffer, a turn-buffer
within the payload limit and a sound transport, `sendRequest` does not panic,
and the buffer keeps its size. -/
theorem flush_returns (v : client.serveVars) (t : client.Transport)
    (hfull : v.fullbuf.length = 65535) (hn : v.paddedbuf.length ≤ 65489) (ht : t.Sound) :
    ∃ v1, client.flush client.newRequester v t = Except.ok v1 ∧ v1.fullbuf.length = 65535 := by
  have hbody : (v.fullbuf.take (46 + v.paddedbuf.length)).length = 46 + v.paddedbuf.length := by
    simp only [List.length_take]
    omega
  have hov : client.newRequester.requestReqOverheadSize = 46 := rfl
  unfold client.flush
  rw [hov, if_neg (by omega)]
  simp only
  cases hc : t.cipher with
  | none =>
    simp only [client.sendRequest, hc]
    refine ⟨_, rfl, ?_⟩
    simp only [List.length_append, List.length_drop, hbody]
    omega
  | some cn =>
    obtain ⟨cip, n⟩ := cn
    obtain ⟨hg, hnl⟩ := ht cip n hc
    obtain ⟨out, he, hol⟩ := Encrypt_length cip n (v.fullbuf.take (46 + v.paddedbuf.length)) hg
      hnl (by omega) (by omega)
    simp only [client.sendRequest, hc, he]
    refine ⟨_, rfl, ?_⟩
    simp only [List.length_append, List.length_drop, hol, hbody]
    omega

theorem Pusher_Data_length (p : Pusher) (h : p.Size ≤ p.b.length) : p.Data.length = p.Size := by
  simp only [Pusher.Size] at h
  simp only [Pusher.Data, Pusher.Size, List.length_take]
  omega

theorem Append_lookup (r : RetrieverCancels) (id : List Nat) (c : RetrieverCancel) :
    (RetrieverCancels.Append r id c).lookup id = some c := by
  unfold RetrieverCancels.Append
  split
  · rename_i h
    induction r with
    | nil => simp [List.lookup]
    | cons kv rest ih =>
      obtain ⟨k, x⟩ := kv
      by_cases hk : id = k
      · subst hk
        simp [List.lookup] at h
      · have hk2 : (id == k) = false := by simpa using hk
        simp only [List.lookup, hk2] at h
        simp only [List.cons_append, List.lookup, hk2]
        exact ih h
  · induction r with
    | nil => rename_i h; simp [List.lookup] at h
    | cons kv rest ih =>
      rename_i h
      obtain ⟨k, x⟩ := kv
      by_cases hk : id = k
      · subst hk
        rw [List.map_cons]
        simp only [if_true]
        simp only [List.lookup, beq_self_eq_true]
      · have hk2 : (id == k) = false := by simpa using hk
        have hk3 : ¬ k = id := fun e => hk e.symm
        simp only [List.lookup, hk2] at h
        rw [List.map_cons]
        simp only [hk3, if_false]
        simp only [List.lookup, hk2]
        exact ih h

theorem appendPadded_fields (r : client.requester) (v : client.serveVars) (data : List Nat) :
    (client.appendPadded r v data).paddedbuf = v.paddedbuf ++ data ∧
    (client.appendPadded r v data).cancels = v.cancels ∧
    (client.appendPadded r v data).sent = v.sent ∧
    (client.appendPadded r v data).settled = v.settled := by
  unfold client.appendPadded
  split <;> exact ⟨rfl, rfl, rfl, rfl⟩

/-- C33: the coalescing rule of the worker. When a fragment of size `s`
arrives while the turn-buffer holds `n` bytes (in a full-size buffer, `n`
within the limit, with a sound transport): if `n + s` is within
`requestMaxReqPayloadSize` there is no flush, the fragment's bytes are appended
after the bytes already buffered and its cancel is recorded under its ID. If
`n + s` exceeds the limit the worker flushes first: one `sendRequest` with the
turn-buffer, every cancel still pending after it is called with
`ErrRequestUnresponded`, and the turn-buffer and the cancel map are emptied;
after that, a fragment that alone exceeds the limit has its cancel called with
`ErrRequestBodyTooLarge` and nothing is appended, and any other fragment is
appended to the empty turn-buffer with its cancel recorded under its ID. -/
theorem C33_worker_coalescing (v : client.serveVars) (rr : client.request)
    (t : client.Transport)
    (hfull : v.fullbuf.length = client.requestMaxHTTPReqSize)
    (hn : v.paddedbuf.length ≤ client.requestMaxReqPayloadSize) (ht : t.Sound)
    (hwf : rr.pusher.Size ≤ rr.pusher.b.length) :
    (v.paddedbuf.length + rr.pusher.Size ≤ client.requestMaxReqPayloadSize →
      ∃ v2, client.serveRequest client.newRequester v rr t = Except.ok v2 ∧
        v2.sent = v.sent ∧ v2.settled = v.settled ∧
        v2.paddedbuf = v.paddedbuf ++ rr.pusher.Data ∧
        v2.cancels = RetrieverCancels.Append v.cancels rr.id rr.cancel ∧
        v2.cancels.lookup rr.id = some rr.cancel) ∧
    (v.paddedbuf.length + rr.pusher.Size > client.requestMaxReqPayloadSize →
      ∃ v1 body1 pending e,
        client.flush client.newRequester v t = Except.ok v1 ∧
        client.sendRequest t
          (v.fullbuf.take (client.requestReqOverheadSize + v.paddedbuf.length)) v.cancels
            = Except.ok (body1, pending, e) ∧
        v1.sent = v.sent ++
          [(v.paddedbuf, v.fullbuf.take (client.requestReqOverheadSize + v.paddedbuf.length))] ∧
        v1.settled = v.settled ++ pending.map (fun kv => (kv.2, client.ErrRequestUnresponded)) ∧
        v1.paddedbuf = [] ∧ v1.cancels = [] ∧
        (rr.pusher.Size > client.requestMaxReqPayloadSize →
          client.serveRequest client.newRequester v rr t = Except.ok
            { v1 with settled := v1.settled ++ [(rr.cancel, client.ErrRequestBodyTooLarge)] }) ∧
        (rr.pusher.Size ≤ client.requestMaxReqPayloadSize →
          ∃ v2, client.serveRequest client.newRequester v rr t = Except.ok v2 ∧
            v2.sent = v1.sent ∧ v2.settled = v1.settled ∧ v2.paddedbuf = rr.pusher.Data ∧
            v2.cancels = [(rr.id, rr.cancel)])) := by
  have hmax : client.newRequester.requestMaxReqPayloadSize = client.requestMaxReqPayloadSize :=
    rfl
  have hM : client.requestMaxReqPayloadSize = 65489 := by decide
  have hH : client.requestMaxHTTPReqSize = 65535 := by decide
  constructor
  · intro hle
    have hf := appendPadded_fields client.newRequester v rr.pusher.Data
    have hres : client.serveRequest client.newRequester v rr t = Except.ok
        { client.appendPadded client.newRequester v rr.pusher.Data with
          cancels := RetrieverCancels.Append
            (client.appendPadded client.newRequester v rr.pusher.Data).cancels rr.id rr.cancel } := by
      simp only [client.serveRequest, hmax, show ¬ (v.paddedbuf.length + rr.pusher.Size
        > client.requestMaxReqPayloadSize) by omega, if_false,
        show ¬ (rr.pusher.Size > rr.pusher.b.length) by omega]
    refine ⟨_, hres, hf.2.2.1, hf.2.2.2, hf.1, ?_, ?_⟩
    · simp only [hf.2.1]
    · simp only [hf.2.1]
      exact Append_lookup _ _ _
  · intro hgt
    obtain ⟨v1, hv1, -⟩ := flush_returns v t (by rw [hfull, hH]) (by omega) ht
    obtain ⟨hp, hc, -, hsent, body1, pending, e, hsr, -, hset⟩ := flush_ok _ _ _ _ hv1
    refine ⟨v1, body1, pending, e, hv1, hsr, hsent, hset, hp, hc, ?_, ?_⟩
    · intro hs
      simp only [client.serveRequest, hmax, hgt, if_true, hv1, hp, List.length_nil, Nat.zero_add,
        hs]
    · intro hs
      have hf := appendPadded_fields client.newRequester v1 rr.pusher.Data
      have hres : client.serveRequest client.newRequester v rr t = Except.ok
          { client.appendPadded client.newRequester v1 rr.pusher.Data with
            cancels := RetrieverCancels.Append
              (client.appendPadded client.newRequester v1 rr.pusher.Data).cancels rr.id
                rr.cancel } := by
        simp only [client.serveRequest, hmax, hgt, if_true, hv1, hp, List.length_nil,
          Nat.zero_add, show ¬ (rr.pusher.Size > client.requestMaxReqPayloadSize) by omega,
          if_false, show ¬ (rr.pusher.Size > rr.pusher.b.length) by omega]
      refine ⟨_, hres, hf.2.2.1, hf.2.2.2, ?_, ?_⟩
      · simp only [hf.1, hp, List.nil_append]
      · simp only [hf.2.1, hc]
        rfl

/-- C33 at a worker whose turn-buffer holds one byte: a fragment of one byte
is appended without a flush; a fragment of 65489 bytes makes the worker flush
first and is then the only content of the turn-buffer. -/
theorem C33_worker_coalescing_witness :
    (∃ v2, client.serveRequest client.newRequester
        ⟨List.replicate 65535 0, [7], true, [], [], []⟩
        ⟨testID, Pusher.mk [1, 2] 1, RetrieverCancel.wcb 0⟩ client.testTransport = Except.ok v2 ∧
      v2.sent = [] ∧ v2.paddedbuf = [7, 1] ∧
      v2.cancels = [(testID, RetrieverCancel.wcb 0)]) ∧
    (∃ v2, client.serveRequest client.newRequester
        ⟨List.replicate 65535 0, [7], true, [], [], []⟩
        ⟨testID, Pusher.mk (List.replicate 65489 0) 65489, RetrieverCancel.wcb 0⟩
        client.testTransport = Except.ok v2 ∧
      v2.sent.length = 1 ∧ v2.paddedbuf.length = 65489 ∧
      v2.cancels = [(testID, RetrieverCancel.wcb 0)]) := by
  have hs : client.testTransport.Sound := by
    intro cip n h
    simp only [client.testTransport, Option.some.injEq, Prod.mk.injEq] at h
    obtain ⟨rfl, rfl⟩ := h
    exact ⟨toyAEAD_isGCM, rfl⟩
  have h1 := (C33_worker_coalescing
    ⟨List.replicate 65535 0, [7], true, [], [], []⟩
    ⟨testID, Pusher.mk [1, 2] 1, RetrieverCancel.wcb 0⟩ client.testTransport
    (by simp only [List.length_replicate]; decide) (by decide) hs (by decide)).1 (by decide)
  have h2 := (C33_worker_coalescing
    ⟨List.replicate 65535 0, [7], true, [], [], []⟩
    ⟨testID, Pusher.mk (List.replicate 65489 0) 65489, RetrieverCancel.wcb 0⟩
    client.testTransport
    (by simp only [List.length_replicate]; decide) (by decide) hs
    (by simp only [List.length_replicate, Pusher.Size, Nat.le_refl])).2 (by decide)
  constructor
  · obtain ⟨v2, e, hsent, -, hp, hc, -⟩ := h1
    exact ⟨v2, e, hsent, hp, hc⟩
  · obtain ⟨v1, body1, pending, e, -, -, hsent, -, -, -, -, happ⟩ := h2
    obtain ⟨v2, e2, hs2, -, hp2, hc2⟩ := happ (by decide)
    refine ⟨v2, e2, ?_, ?_, hc2⟩
    · rw [hs2, hsent]
      simp only [List.nil_append, List.length_singleton]
    · rw [hp2]
      simp only [Pusher.Data, List.length_take, List.length_replicate, Nat.min_self]

/-! ## The worker keeps its turn-buffer within the limit -/

theorem flush_inOrder (v : client.serveVars) (t : client.Transport) (hv : v.InOrder)
    (ht : t.Sound) :
    ∃ v1, client.flush client.newRequester v t = Except.ok v1 ∧ v1.InOrder ∧
      v1.paddedbuf = [] := by
  obtain ⟨hfull, hal, hn, hpad, hsent⟩ := hv
  have hM : client.requestMaxReqPayloadSize = 65489 := by decide
  have hH : client.requestMaxHTTPReqSize = 65535 := by decide
  have hP : client.requestReqPadSize = 30 := by decide
  have hO : client.requestReqOverheadSize = 46 := by decide
  rw [hM] at hn
  rw [hH] at hfull
  rw [hP] at hpad
  obtain ⟨v1, hv1, hl1⟩ := flush_returns v t hfull hn ht
  obtain ⟨hp, -, ha, hs, -⟩ := flush_ok _ _ _ _ hv1
  refine ⟨v1, hv1, ⟨by rw [hl1, hH], by rw [ha, hal], by rw [hp]; exact Nat.zero_le _,
    by rw [hp]; rfl, ?_⟩, hp⟩
  intro x hx
  rw [hs, List.mem_append, List.mem_singleton] at hx
  rcases hx with hx | rfl
  · exact hsent x hx
  · have hov : client.newRequester.requestReqOverheadSize = 46 := rfl
    refine ⟨?_, by rw [hM]; exact hn, ?_⟩
    · simp only [hov, hO, List.length_take]
      omega
    · simp only [hov, hP]
      rw [List.drop_take, List.take_take, Nat.min_eq_left (by omega)]
      exact hpad

theorem appendPadded_inOrder (v : client.serveVars) (data : List Nat) (hv : v.InOrder)
    (hd : v.paddedbuf.length + data.length ≤ client.requestMaxReqPayloadSize) :
    (client.appendPadded client.newRequester v data).InOrder := by
  obtain ⟨hfull, hal, hn, hpad, hsent⟩ := hv
  have hM : client.requestMaxReqPayloadSize = 65489 := by decide
  have hH : client.requestMaxHTTPReqSize = 65535 := by decide
  have hP : client.requestReqPadSize = 30 := by decide
  have hp : client.newRequester.requestReqPadSize = 30 := rfl
  rw [hM] at hd
  rw [hH] at hfull
  rw [hP] at hpad
  have hfit : 30 + v.paddedbuf.length + data.length ≤ v.fullbuf.length := by omega
  have hc : v.aliased = true ∧ 30 + v.paddedbuf.length + data.length ≤ v.fullbuf.length :=
    ⟨hal, hfit⟩
  simp only [client.appendPadded, hp, hc, and_self, if_true]
  refine ⟨?_, rfl, ?_, ?_, hsent⟩
  · simp only [writeAt_length _ _ _ hfit, hfull, hH]
  · simp only [List.length_append, hM]
    exact hd
  · simp only [hP, List.length_append]
    have h1 := writeAt_take v.fullbuf (30 + v.paddedbuf.length) data hfit
    have h2 : ((writeAt v.fullbuf (30 + v.paddedbuf.length) data).drop 30).take
          (v.paddedbuf.length + data.length)
        = ((writeAt v.fullbuf (30 + v.paddedbuf.length) data).take
            (30 + v.paddedbuf.length + data.length)).drop 30 := by
      rw [List.drop_take]
      congr 1
      omega
    rw [h2, h1, List.drop_append_of_le_length (by simp only [List.length_take]; omega),
      List.drop_take, Nat.add_sub_cancel_left, hpad]

theorem serveTurn_inOrder (v : client.serveVars) (x : client.serveInput) (hv : v.InOrder)
    (hx : x.Sound) :
    ∃ v1, client.serveTurn client.newRequester v x = Except.ok v1 ∧ v1.InOrder := by
  have hmax : client.newRequester.requestMaxReqPayloadSize = client.requestMaxReqPayloadSize :=
    rfl
  cases x with
  | timer t =>
    simp only [client.serveTurn, client.serveTimer]
    by_cases h0 : v.paddedbuf.length = 0
    · exact ⟨v, by simp only [h0, if_true], hv⟩
    · obtain ⟨v1, e1, h1, -⟩ := flush_inOrder v t hv hx
      exact ⟨v1, by simp only [h0, if_false, e1], h1⟩
  | request rr t =>
    obtain ⟨ht, hwf⟩ := hx
    have hdl := Pusher_Data_length rr.pusher hwf
    simp only [client.serveTurn, client.serveRequest, hmax]
    by_cases hgt : v.paddedbuf.length + rr.pusher.Size > client.requestMaxReqPayloadSize
    · obtain ⟨v1, e1, h1, hp1⟩ := flush_inOrder v t hv ht
      simp only [hgt, if_true, e1, hp1, List.length_nil, Nat.zero_add]
      by_cases hs : rr.pusher.Size > client.requestMaxReqPayloadSize
      · simp only [hs, if_true]
        refine ⟨_, rfl, ?_⟩
        obtain ⟨a, b, c, d, e⟩ := h1
        rw [hp1] at c d
        exact ⟨a, b, c, d, e⟩
      · simp only [hs, if_false, show ¬ (rr.pusher.Size > rr.pusher.b.length) by omega]
        refine ⟨_, rfl, ?_⟩
        have h2 := appendPadded_inOrder v1 rr.pusher.Data h1 (by rw [hp1, hdl]; simp; omega)
        obtain ⟨a, b, c, d, e⟩ := h2
        exact ⟨a, b, c, d, e⟩
    · simp only [hgt, if_false, show ¬ (rr.pusher.Size > rr.pusher.b.length) by omega]
      refine ⟨_, rfl, ?_⟩
      have h2 := appendPadded_inOrder v rr.pusher.Data hv (by rw [hdl]; omega)
      obtain ⟨a, b, c, d, e⟩ := h2
      exact ⟨a, b, c, d, e⟩

theorem serveLoop_inOrder (inputs : List client.serveInput) :
    ∀ v : client.serveVars, v.InOrder → (∀ x ∈ inputs, x.Sound) →
      ∃ v1, client.serveLoop client.newRequester inputs v = Except.ok v1 ∧ v1.InOrder := by
  induction inputs with
  | nil => exact fun v hv _ => ⟨v, rfl, hv⟩
  | cons x rest ih =>
    intro v hv hall
    obtain ⟨v1, e1, h1⟩ := serveTurn_inOrder v x hv (hall x (List.mem_cons_self _ _))
    obtain ⟨v2, e2, h2⟩ := ih v1 h1 (fun y hy => hall y (List.mem_cons_of_mem _ hy))
    exact ⟨v2, by simp only [client.serveLoop, e1, e2], h2⟩

/-- C39: a flush never trips the checks of `Encrypt`. For every sequence of
turns of the worker's loop (requests whose pusher is within its buffer, timer
ticks, sound transports), `requester.serve` does not panic; after the turns the
turn-buffer holds at most `requestMaxReqPayloadSize = 65535 - 46` bytes; and
every buffer that was passed to `sendRequest`, and so to `Encrypt`, has the
length `OverheadSize` plus that of the turn-buffer at that time, between 46 and
65535, and holds the turn-buffer after the header room: with AES-GCM and a
nonce of 12 bytes `Encrypt` returns on it, the length sealed in the header
being that of the turn-buffer and the sealed body the turn-buffer. -/
theorem C39_flush_within_encrypt_bounds (inputs : List client.serveInput)
    (hall : ∀ x ∈ inputs, x.Sound) :
    ∃ v, client.serve client.newRequester inputs = Except.ok v ∧
      v.paddedbuf.length ≤ client.requestMaxReqPayloadSize ∧
      client.requestMaxReqPayloadSize = 65535 - 46 ∧
      ∀ turn body, (turn, body) ∈ v.sent →
        body.length = OverheadSize + turn.length ∧ 46 ≤ body.length ∧ body.length ≤ 65535 ∧
        (body.drop cipher.HeaderSize).take turn.length = turn ∧
        ∀ (gcm : AEAD) (nonce : List Nat), gcm.IsGCM → nonce.length = 12 →
          Encrypt gcm nonce body = Except.ok (nonce ++
            (gcm.Seal nonce [u8 (turn.length >>> 8), u8 turn.length] ++
              gcm.Seal (nonceNext nonce) turn)) := by
  have h0 : ∃ v0, client.serveStart client.newRequester = Except.ok v0 ∧ v0.InOrder := by
    refine ⟨_, rfl, ?_, rfl, Nat.zero_le _, rfl, ?_⟩
    · simp only [List.length_replicate]
      rfl
    · intro x hx
      cases hx
  obtain ⟨v0, e0, hv0⟩ := h0
  obtain ⟨v, e, hv⟩ := serveLoop_inOrder inputs v0 hv0 hall
  refine ⟨v, by simp only [client.serve, e0, e], hv.2.2.1, by decide, ?_⟩
  intro turn body hmem
  obtain ⟨hl, hn, hd⟩ := hv.2.2.2.2 (turn, body) hmem
  have hM : client.requestMaxReqPayloadSize = 65489 := by decide
  have hP : client.requestReqPadSize = 30 := by decide
  have hO : client.requestReqOverheadSize = 46 := by decide
  simp only [hM, hP, hO] at hl hn hd
  have hO2 : OverheadSize = 46 := by decide
  have hH2 : cipher.HeaderSize = 30 := by decide
  refine ⟨by rw [hO2]; exact hl, by omega, by omega, by rw [hH2]; exact hd, ?_⟩
  intro gcm nonce hg hnl
  have he := Encrypt_eq gcm nonce body hg hnl (by omega) (by omega)
  have hlen : body.length - 46 = turn.length := by omega
  rw [hlen, hd] at he
  exact he

/-- C39 at three turns, a fragment of three bytes, one of two bytes and the
timer: the worker flushes once, with a buffer of 46 + 5 bytes that holds the
five bytes after the header room, and ends with an empty turn-buffer. -/
theorem C39_flush_within_encrypt_bounds_witness :
    (∀ x ∈ client.testTurns, x.Sound) ∧
    ∃ v, client.serve client.newRequester client.testTurns = Except.ok v ∧
      v.paddedbuf.length ≤ 65489 := by
  have hs : client.testTransport.Sound := by
    intro cip n h
    simp only [client.testTransport, Option.some.injEq, Prod.mk.injEq] at h
    obtain ⟨rfl, rfl⟩ := h
    exact ⟨toyAEAD_isGCM, rfl⟩
  have hall : ∀ x ∈ client.testTurns, x.Sound := by
    intro x hx
    simp only [client.testTurns, List.mem_cons, List.mem_singleton, List.not_mem_nil,
      or_false] at hx
    rcases hx with rfl | rfl | rfl
    · exact ⟨hs, by decide⟩
    · exact ⟨hs, by decide⟩
    · exact hs
  obtain ⟨v, e, hn, -, -⟩ := C39_flush_within_encrypt_bounds client.testTurns hall
  exact ⟨hall, v, e, hn⟩

/-! ## The server's session: one read at a time -/

/-- The three ways `session.retrieve` ends: refused before the precheck (the
session is unchanged), answered after the precheck without a read (refused by
the precheck, or served from the held buffer), or a read started, from a
session that is open, idle and, after the precheck, not paused. -/
theorem retrieve_cases (s : session) (d : RetrieveRequest) (call : session → session × Nat)
    (maxlen : Int) (q : Retrieval) (h : s.retrieve d call maxlen = Except.ok q) :
    (q.reading = false ∧ q.s = s ∧ (s.closed = true ∨ s.rbusy = true ∨ d.RID < s.rid)) ∨
    (q.reading = false ∧ q.s = (call s).1 ∧ s.closed = false ∧ s.rbusy = false ∧
      ¬ d.RID < s.rid ∧ ((call s).2 > 0 ∨ ((call s).2 = 0 ∧ (call s).1.rpaused = true))) ∨
    (q.reading = true ∧ q.results = [] ∧ s.closed = false ∧ s.rbusy = false ∧
      ¬ d.RID < s.rid ∧ (call s).2 = 0 ∧ (call s).1.rpaused = false ∧
      q.s = { (call s).1 with rpaused := true, rbusy := true }) := by
  unfold session.retrieve at h
  by_cases h1 : s.closed = true
  · simp only [h1, if_true, Except.ok.injEq] at h
    subst h
    exact Or.inl ⟨rfl, rfl, Or.inl h1⟩
  · by_cases h2 : s.rbusy = true
    · simp only [h1, Bool.false_eq_true, if_false, h2, if_true, Except.ok.injEq] at h
      subst h
      exact Or.inl ⟨rfl, rfl, Or.inr (Or.inl h2)⟩
    · by_cases h3 : d.RID < s.rid
      · simp only [h1, Bool.false_eq_true, if_false, h2, h3, if_true, Except.ok.injEq] at h
        subst h
        exact Or.inl ⟨rfl, rfl, Or.inr (Or.inr h3)⟩
      · simp only [h1, Bool.false_eq_true, if_false, h2, h3] at h
        have c1 : s.closed = false := by simpa using h1
        have c2 : s.rbusy = false := by simpa using h2
        by_cases h4 : (call s).2 > 0
        · simp only [h4, if_true, Except.ok.injEq] at h
          subst h
          exact Or.inr (Or.inl ⟨rfl, rfl, c1, c2, h3, Or.inl h4⟩)
        · have c4 : (call s).2 = 0 := by omega
          by_cases h5 : (call s).1.rpaused = true
          · simp only [h4, if_false, h5, if_true] at h
            split at h
            · cases h
            · simp only [Except.ok.injEq] at h
              subst h
              exact Or.inr (Or.inl ⟨rfl, rfl, c1, c2, h3, Or.inr ⟨c4, h5⟩⟩)
          · simp only [h4, if_false, h5, Bool.false_eq_true, Except.ok.injEq] at h
            subst h
            exact Or.inr (Or.inr ⟨rfl, rfl, c1, c2, h3, c4, by simpa using h5, rfl⟩)

theorem resumeCall_flags (d : ResumeRequest) (s : session) :
    (resumeCall d s).1.rbusy = s.rbusy ∧ (resumeCall d s).1.closed = s.closed ∧
    ((resumeCall d s).2 > 0 → (resumeCall d s).1 = s) ∧
    ((resumeCall d s).2 = 0 → (resumeCall d s).1.rpaused = false ∧
      d.RID = s.rid ∧ s.rpaused = true) := by
  by_cases h1 : d.RID = s.rid
  · by_cases h2 : s.rpaused = true
    · rw [resumeCall_bump d s h1 h2]
      refine ⟨rfl, rfl, ?_, fun _ => ⟨rfl, h1, h2⟩⟩
      intro h
      exact (Nat.lt_irrefl 0 h).elim
    · have h2f : s.rpaused = false := by simpa using h2
      rw [resumeCall_notReady d s h1 h2f]
      refine ⟨rfl, rfl, fun _ => rfl, ?_⟩
      intro h
      simp [ResourceErrorNotReady] at h
  · rw [resumeCall_expired d s h1]
    refine ⟨rfl, rfl, fun _ => rfl, ?_⟩
    intro h
    simp [ResourceErrorExpired] at h

/-- What a step keeps of a session that is in order: a read in progress
goes with the pause flag, and the relay holds one read when the session is
busy and none when it is not. -/
theorem act_keeps (v v1 : Served) (a : Action) (h : v.act a = Except.ok v1)
    (hp : v.s.rbusy = true → v.s.rpaused = true)
    (hr : v.reads = if v.s.rbusy then 1 else 0) :
    (v1.s.rbusy = true → v1.s.rpaused = true) ∧ v1.reads = if v1.s.rbusy then 1 else 0 := by
  cases a with
  | retrieve d maxlen =>
    simp only [Served.act] at h
    cases hq : v.s.retrieve d startCall maxlen with
    | error msg => rw [hq] at h; cases h
    | ok q =>
      rw [hq] at h
      simp only [Except.ok.injEq] at h
      subst h
      rcases retrieve_cases _ _ _ _ _ hq with ⟨hrd, hs, -⟩ | ⟨hrd, hs, -⟩ | ⟨hrd, -, -, hb, -, -, -, hs⟩
      · simp only [hrd, hs, Bool.false_eq_true, if_false]
        exact ⟨hp, hr⟩
      · simp only [hrd, hs, startCall, Bool.false_eq_true, if_false]
        exact ⟨hp, hr⟩
      · simp only [startCall] at hs
        simp only [hrd, hs, if_true, hr, hb, Bool.false_eq_true, if_false]
        exact ⟨fun _ => trivial, trivial⟩
  | resume d maxlen =>
    simp only [Served.act, session.resume] at h
    cases hq : v.s.retrieve d.RetrieveRequest (resumeCall d) maxlen with
    | error msg => rw [hq] at h; cases h
    | ok q =>
      rw [hq] at h
      simp only [Except.ok.injEq] at h
      subst h
      obtain ⟨-, -, hpos, hzero⟩ := resumeCall_flags d v.s
      rcases retrieve_cases _ _ _ _ _ hq with ⟨hrd, hs, -⟩ | ⟨hrd, hs, -, -, -, hc⟩ |
        ⟨hrd, -, -, hb, -, -, -, hs⟩
      · simp only [hrd, hs, Bool.false_eq_true, if_false]
        exact ⟨hp, hr⟩
      · rcases hc with hc | ⟨hc0, hc1⟩
        · simp only [hrd, hs, hpos hc, Bool.false_eq_true, if_false]
          exact ⟨hp, hr⟩
        · rw [(hzero hc0).1] at hc1
          cases hc1
      · simp only [hrd, hs, if_true, hr, hb, Bool.false_eq_true, if_false]
        exact ⟨fun _ => trivial, trivial⟩
  | read d maxlen r err =>
    simp only [Served.act] at h
    by_cases h0 : v.reads = 0
    · simp only [h0, if_true, Except.ok.injEq] at h
      subst h
      exact ⟨hp, hr⟩
    · simp only [h0, if_false] at h
      have hb : v.s.rbusy = true := by
        by_contra hn
        simp only [hn, Bool.false_eq_true, if_false] at hr
        exact h0 hr
      have hr1 : v.reads = 1 := by simpa [hb] using hr
      cases hq : retrieveCallback v.s d maxlen r err with
      | error msg => rw [hq] at h; cases h
      | ok q =>
        rw [hq] at h
        simp only [Except.ok.injEq] at h
        subst h
        have hqb : q.s.rbusy = false := by
          unfold session.retrieveCallback at hq
          by_cases he : err.IsError = true
          · simp only [he, if_true] at hq
            split at hq <;>
            · simp only [Except.ok.injEq] at hq
              subst hq
              rfl
          · simp only [he, Bool.false_eq_true, if_false] at hq
            split at hq
            · cases hq
            · simp only [Except.ok.injEq] at hq
              subst hq
              rfl
        simp only [hqb, Bool.false_eq_true, if_false, hr1, false_implies, true_and]
  | send d r sent =>
    simp only [Served.act, Except.ok.injEq] at h
    subst h
    have hs : (v.s.send d r (fun _ => sent)).s.rbusy = v.s.rbusy ∧
        (v.s.send d r (fun _ => sent)).s.rpaused = v.s.rpaused := by
      unfold session.send
      split
      · exact ⟨rfl, rfl⟩
      · split
        · exact ⟨rfl, rfl⟩
        · split
          · exact ⟨rfl, rfl⟩
          · simp only
            split <;> exact ⟨rfl, rfl⟩
    simp only [hs.1, hs.2]
    exact ⟨hp, hr⟩
  | kill =>
    simp only [Served.act, Except.ok.injEq] at h
    subst h
    have hs : v.s.kill.rbusy = v.s.rbusy ∧ v.s.kill.rpaused = v.s.rpaused := by
      unfold session.kill
      split <;> exact ⟨rfl, rfl⟩
    simp only [hs.1, hs.2]
    exact ⟨hp, hr⟩

theorem run_keeps (acts : List Action) :
    ∀ v v1 : Served, Served.run acts v = Except.ok v1 →
      (v.s.rbusy = true → v.s.rpaused = true) → (v.reads = if v.s.rbusy then 1 else 0) →
      (v1.s.rbusy = true → v1.s.rpaused = true) ∧ v1.reads = if v1.s.rbusy then 1 else 0 := by
  induction acts with
  | nil =>
    intro v v1 h hp hr
    simp only [Served.run, Except.ok.injEq] at h
    subst h
    exact ⟨hp, hr⟩
  | cons a rest ih =>
    intro v v1 h hp hr
    simp only [Served.run] at h
    cases ha : v.act a with
    | error msg => rw [ha] at h; cases h
    | ok v2 =>
      rw [ha] at h
      obtain ⟨hp2, hr2⟩ := act_keeps v v2 a ha hp hr
      exact ih v2 v1 h hp2 hr2

theorem send_read_fields (s : session) (d : SendRequest) (r : List Nat)
    (relaySend : List Nat → Int × relay.Error) :
    (s.send d r relaySend).s.rid = s.rid ∧ (s.send d r relaySend).s.read = s.read ∧
    (s.send d r relaySend).s.readLen = s.readLen ∧
    (s.send d r relaySend).s.rpaused = s.rpaused ∧ (s.send d r relaySend).s.rbusy = s.rbusy := by
  unfold session.send
  split
  · exact ⟨rfl, rfl, rfl, rfl, rfl⟩
  · split
    · exact ⟨rfl, rfl, rfl, rfl, rfl⟩
    · split
      · exact ⟨rfl, rfl, rfl, rfl, rfl⟩
      · simp only
        split <;> exact ⟨rfl, rfl, rfl, rfl, rfl⟩

theorem kill_read_fields (s : session) :
    s.kill.rid = s.rid ∧ s.kill.read = s.read ∧ s.kill.readLen = s.readLen ∧
    s.kill.rpaused = s.rpaused ∧ s.kill.rbusy = s.rbusy := by
  unfold session.kill
  split <;> exact ⟨rfl, rfl, rfl, rfl, rfl⟩

/-- A step that is not an accepted Resume leaves a session that holds a
buffer (paused, no read in progress) with the same buffer, `rid` and
`readLen`, still holding it. -/
theorem act_quiet (v v1 : Served) (a : Action) (h : v.act a = Except.ok v1)
    (hq : a.accepted v.s = false) (hp : v.s.rpaused = true) (hb : v.s.rbusy = false)
    (hr : v.reads = 0) :
    v1.s.rid = v.s.rid ∧ v1.s.read = v.s.read ∧ v1.s.readLen = v.s.readLen ∧
    v1.s.rpaused = true ∧ v1.s.rbusy = false ∧ v1.reads = 0 := by
  cases a with
  | retrieve d maxlen =>
    simp only [Served.act] at h
    cases hc : v.s.retrieve d startCall maxlen with
    | error msg => rw [hc] at h; cases h
    | ok q =>
      rw [hc] at h
      simp only [Except.ok.injEq] at h
      subst h
      rcases retrieve_cases _ _ _ _ _ hc with ⟨hrd, hs, -⟩ | ⟨hrd, hs, -⟩ |
        ⟨-, -, -, -, -, -, hs, -⟩
      · simp only [hrd, hs, Bool.false_eq_true, if_false, hp, hb, hr, and_self]
      · simp only [hrd, hs, startCall, Bool.false_eq_true, if_false, hp, hb, hr, and_self]
      · simp only [startCall, hp] at hs
        cases hs
  | resume d maxlen =>
    simp only [Served.act, session.resume] at h
    cases hc : v.s.retrieve d.RetrieveRequest (resumeCall d) maxlen with
    | error msg => rw [hc] at h; cases h
    | ok q =>
      rw [hc] at h
      simp only [Except.ok.injEq] at h
      subst h
      obtain ⟨-, -, hpos, hzero⟩ := resumeCall_flags d v.s
      rcases retrieve_cases _ _ _ _ _ hc with ⟨hrd, hs, -⟩ | ⟨hrd, hs, -, -, -, hcc⟩ |
        ⟨-, -, hcl, -, -, hz, -, -⟩
      · simp only [hrd, hs, Bool.false_eq_true, if_false, hp, hb, hr, and_self]
      · rcases hcc with hcc | ⟨hc0, hc1⟩
        · simp only [hrd, hs, hpos hcc, Bool.false_eq_true, if_false, hp, hb, hr, and_self]
        · rw [(hzero hc0).1] at hc1
          cases hc1
      · obtain ⟨-, hrid, -⟩ := hzero hz
        simp only [Action.accepted, hcl, hb, hrid, hp, Bool.not_false, decide_True,
          Bool.and_self] at hq
        cases hq
  | read d maxlen r err =>
    simp only [Served.act, hr, if_true, Except.ok.injEq] at h
    subst h
    exact ⟨rfl, rfl, rfl, hp, hb, hr⟩
  | send d r sent =>
    simp only [Served.act, Except.ok.injEq] at h
    subst h
    obtain ⟨a1, a2, a3, a4, a5⟩ := send_read_fields v.s d r (fun _ => sent)
    exact ⟨a1, a2, a3, by rw [a4]; exact hp, by rw [a5]; exact hb, hr⟩
  | kill =>
    simp only [Served.act, Except.ok.injEq] at h
    subst h
    obtain ⟨a1, a2, a3, a4, a5⟩ := kill_read_fields v.s
    exact ⟨a1, a2, a3, by rw [a4]; exact hp, by rw [a5]; exact hb, hr⟩

theorem run_quiet (acts : List Action) :
    ∀ v v1 : Served, Served.run acts v = Except.ok v1 → Served.quiet acts v = true →
      v.s.rpaused = true → v.s.rbusy = false → v.reads = 0 →
      v1.s.rid = v.s.rid ∧ v1.s.read = v.s.read ∧ v1.s.readLen = v.s.readLen ∧
      v1.s.rpaused = true ∧ v1.s.rbusy = false ∧ v1.reads = 0 := by
  induction acts with
  | nil =>
    intro v v1 h _ hp hb hr
    simp only [Served.run, Except.ok.injEq] at h
    subst h
    exact ⟨rfl, rfl, rfl, hp, hb, hr⟩
  | cons a rest ih =>
    intro v v1 h hq hp hb hr
    simp only [Served.run] at h
    simp only [Served.quiet, Bool.and_eq_true, Bool.not_eq_true'] at hq
    cases ha : v.act a with
    | error msg => rw [ha] at h; cases h
    | ok v2 =>
      rw [ha] at h hq
      obtain ⟨b1, b2, b3, b4, b5, b6⟩ := act_quiet v v2 a ha hq.1 hp hb hr
      obtain ⟨c1, c2, c3, c4, c5, c6⟩ := ih v2 v1 h hq.2 b4 b5 b6
      exact ⟨c1.trans b1, c2.trans b2, c3.trans b3, c4, c5, c6⟩

theorem readData_shape (s : session) (offset : Nat) (max : Int) :
    ∃ rstart high, s.readData offset max =
      if high < rstart ∨ high > s.read.length then Except.error "slice bounds out of range"
      else Except.ok (s.readLen, rstart, (s.read.take high).drop rstart) :=
  ⟨_, _, rfl⟩

theorem readData_ok (s : session) (offset : Nat) (max : Int) (total off : Nat)
    (data : List Nat) (h : s.readData offset max = Except.ok (total, off, data)) :
    total = s.readLen ∧ ∃ hi, data = (s.read.take hi).drop off := by
  obtain ⟨rstart, high, e⟩ := readData_shape s offset max
  rw [e] at h
  by_cases hc : high < rstart ∨ high > s.read.length
  · rw [if_pos hc] at h
    cases h
  · rw [if_neg hc] at h
    simp only [Except.ok.injEq, Prod.mk.injEq] at h
    obtain ⟨h1, h2, h3⟩ := h
    exact ⟨h1.symm, high, by rw [← h3, ← h2]⟩

/-- A Retrieve on a session that holds a buffer is answered from it: the
session is left as it was, no read is started, and the one result carries the
session's `rid` and `readLen` and, when its code is 0, a part of the buffer. -/
theorem retrieve_held (s : session) (d : RetrieveRequest) (maxlen : Int) (q : Retrieval)
    (hp : s.rpaused = true) (hb : s.rbusy = false)
    (h : s.retrieve d startCall maxlen = Except.ok q) :
    q.s = s ∧ q.reading = false ∧
    ∃ code rsp, q.results = [(code, rsp)] ∧ rsp.RID = s.rid ∧ rsp.Total = s.readLen ∧
      (code = 0 → ∃ hi, rsp.Payload = (s.read.take hi).drop rsp.Offset) := by
  unfold session.retrieve at h
  by_cases h1 : s.closed = true
  · simp only [h1, if_true, Except.ok.injEq] at h
    subst h
    exact ⟨rfl, rfl, _, _, rfl, rfl, rfl, fun hc => by simp [ResourceErrorNotFound] at hc⟩
  · by_cases h3 : d.RID < s.rid
    · simp only [h1, Bool.false_eq_true, if_false, hb, h3, if_true, Except.ok.injEq] at h
      subst h
      exact ⟨rfl, rfl, _, _, rfl, rfl, rfl, fun hc => by simp [ResourceErrorExpired] at hc⟩
    · simp only [h1, Bool.false_eq_true, if_false, hb, h3, startCall, gt_iff_lt,
        Nat.lt_irrefl, hp, if_true] at h
      split at h
      · cases h
      · rename_i total off data hrd
        simp only [Except.ok.injEq] at h
        subst h
        obtain ⟨ht, hi, hdat⟩ := readData_ok s d.Offset maxlen total off data hrd
        exact ⟨rfl, rfl, _, _, rfl, rfl, ht, fun _ => ⟨hi, hdat⟩⟩

/-- C34: the buffer of a server session is refilled only while it is not
paused, by one read at a time. In every reachable state of a session: a read
in progress goes with the pause flag (`rbusy` implies `rpaused`), and the relay
holds one read when `rbusy` is set and none otherwise, so at most one. A read
is started, by a Retrieve or by a Resume, only from a session with
`rbusy = false` and, once the precheck has run, `rpaused = false`, and starting
it sets both flags. And while the session holds a buffer (`rpaused` set, no
read in progress), steps none of which is an accepted Resume leave the
buffer, `rid` and `readLen` as they are, and every Retrieve after them is
answered without a read and without a change of the session, with that `rid`
and `readLen`, and with a part of that buffer when its code is 0. -/
theorem C34_one_read_at_a_time (v : Served) (hv : v.Reachable) :
    (v.s.rbusy = true → v.s.rpaused = true) ∧
    (v.reads = if v.s.rbusy then 1 else 0) ∧ v.reads ≤ 1 ∧
    (∀ d maxlen q, v.s.retrieve d startCall maxlen = Except.ok q → q.reading = true →
      v.s.rbusy = false ∧ v.s.rpaused = false ∧
      q.s = { v.s with rpaused := true, rbusy := true }) ∧
    (∀ d maxlen q, v.s.resume d maxlen = Except.ok q → q.reading = true →
      v.s.rbusy = false ∧ (resumeCall d v.s).1.rbusy = false ∧
      (resumeCall d v.s).1.rpaused = false ∧
      q.s = { (resumeCall d v.s).1 with rpaused := true, rbusy := true }) ∧
    (v.s.rpaused = true → v.s.rbusy = false →
      ∀ acts v1, Served.quiet acts v = true → Served.run acts v = Except.ok v1 →
        v1.s.rid = v.s.rid ∧ v1.s.read = v.s.read ∧ v1.s.readLen = v.s.readLen ∧
        v1.s.rpaused = true ∧ v1.s.rbusy = false ∧
        ∀ d maxlen q, v1.s.retrieve d startCall maxlen = Except.ok q →
          q.s = v1.s ∧ q.reading = false ∧
          ∃ code rsp, q.results = [(code, rsp)] ∧ rsp.RID = v.s.rid ∧
            rsp.Total = v.s.readLen ∧
            (code = 0 → ∃ hi, rsp.Payload = (v.s.read.take hi).drop rsp.Offset)) := by
  obtain ⟨maxrlen, acts0, hrun⟩ := hv
  obtain ⟨hinv1, hinv2⟩ := run_keeps acts0 _ v hrun (fun h => by cases h) rfl
  refine ⟨hinv1, hinv2, ?_, ?_, ?_, ?_⟩
  · rw [hinv2]
    split <;> omega
  · intro d maxlen q hq hrd
    rcases retrieve_cases _ _ _ _ _ hq with ⟨hf, -⟩ | ⟨hf, -⟩ | ⟨-, -, -, hb, -, -, hp, hs⟩
    · rw [hf] at hrd
      cases hrd
    · rw [hf] at hrd
      cases hrd
    · exact ⟨hb, hp, hs⟩
  · intro d maxlen q hq hrd
    rcases retrieve_cases _ _ _ _ _ hq with ⟨hf, -⟩ | ⟨hf, -⟩ | ⟨-, -, -, hb, -, -, hp, hs⟩
    · rw [hf] at hrd
      cases hrd
    · rw [hf] at hrd
      cases hrd
    · exact ⟨hb, by rw [(resumeCall_flags d v.s).1]; exact hb, hp, hs⟩
  · intro hp hb acts v1 hq hr
    have hr0 : v.reads = 0 := by
      rw [hinv2, hb]
      rfl
    obtain ⟨a1, a2, a3, a4, a5, -⟩ := run_quiet acts v v1 hr hq hp hb hr0
    refine ⟨a1, a2, a3, a4, a5, ?_⟩
    intro d maxlen q hret
    obtain ⟨b1, b2, code, rsp, b3, b4, b5, b6⟩ := retrieve_held v1.s d maxlen q a4 a5 hret
    refine ⟨b1, b2, code, rsp, b3, b4.trans a1, b5.trans a3, ?_⟩
    intro hc
    obtain ⟨hi, hpay⟩ := b6 hc
    exact ⟨hi, by rw [hpay, a2]⟩

/-- C34 at the example steps on a new session (a retrieve that starts a
read, the read completing with three bytes, a retrieve served from them, a
Resume): the session they reach has `rid = 1`, a read in progress with the
pause flag set, and its relay holds one read. -/
theorem C34_one_read_at_a_time_witness :
    ∃ v, Served.run testSteps ⟨newSession 100, 0⟩ = Except.ok v ∧ v.Reachable ∧
      v.s.rid = 1 ∧ v.s.rbusy = true ∧ v.s.rpaused = true ∧ v.reads = 1 := by
  have e : Served.run testSteps ⟨newSession 100, 0⟩ = Except.ok
      ⟨{ maxrlen := 100, rid := 1, rbusy := true, read := [1, 2, 3], readLen := 3,
         rpaused := true, wid := 0, wbusy := false, wlen := 0, closed := false }, 1⟩ := rfl
  have hreach : Served.Reachable
      ⟨{ maxrlen := 100, rid := 1, rbusy := true, read := [1, 2, 3], readLen := 3,
         rpaused := true, wid := 0, wbusy := false, wlen := 0, closed := false }, 1⟩ :=
    ⟨100, testSteps, e⟩
  have h := C34_one_read_at_a_time _ hreach
  exact ⟨_, e, hreach, rfl, rfl, h.1 rfl, h.2.1⟩

/-! ## Responses with a payload keep the segment framed -/

theorem ResumeRespond_Parse_scripted (fuel : Nat) (d0 : ResumeRespond) (r : Fetcher)
    (id : List Nat) (rid total : Nat) (payload tl : List Nat)
    (ops : List FetchOp) (ret : Option Error) (st : List ResumeRespond × List Nat)
    (hf : 2 ≤ fuel) (h0 : d0.ID.length = 32) (hid : id.length = 32)
    (hrid : rid < 2 ^ 64) (htotal : total < 2 ^ 16) (hlen : payload.length < 2 ^ 16)
    (h : r.Holds (id ++ (be64 rid ++ (be16 total ++ (be16 payload.length ++ (payload ++ tl)))))) :
    ∃ (r' r4 : Fetcher) (k : Nat), r'.Holds tl ∧ r4.Holds (payload ++ tl) ∧
      k ≤ payload.length ∧
      ((NewFetcher (SizeLimitedFetch payload.length r4)).runOps ops).2 = payload.take k ∧
      ResumeRespond.Parse fuel d0 r (scriptedCallback ops ret) st =
        some ({ ID := id, NewRID := rid, Total := total, Payload := d0.Payload,
                PayloadLength := payload.length }, r',
          (st.1 ++ [{ ID := id, NewRID := rid, Total := total, Payload := d0.Payload,
                      PayloadLength := payload.length }], st.2 ++ payload.take k),
          Status.ofError ret) := by
  obtain ⟨r1, e1, h1, -⟩ := ReadFull_holds fuel r d0.ID id _ h (by omega) (by omega) (by omega)
  obtain ⟨r2, e2, h2, -⟩ := readU64_be r1 rid _ hrid h1
  obtain ⟨r3, e3, h3, -⟩ := readU16_be r2 total _ htotal h2
  obtain ⟨r4, e4, h4, -⟩ := readU16_be r3 payload.length _ hlen h3
  obtain ⟨r', k, hr', hk, ek, e5⟩ := parsePayload_scripted payload tl r4 fuel ops ret
    ({ ID := id, NewRID := rid, Total := total, Payload := d0.Payload,
       PayloadLength := payload.length } : ResumeRespond) st h4 hf
  refine ⟨r', r4, k, hr', h4, hk, ek, ?_⟩
  simp only [ResumeRespond.Parse, e1, e2, e3, e4, e5]

theorem Holds_next (r : Fetcher) (x : Nat) (rest : List Nat) (h : r.Holds (x :: rest)) :
    (r.Fetch 1).2 = ([x], none) := by
  obtain ⟨r1, e1, -, -⟩ := Fetcher_Fetch_holds r [x] rest h
  simp only [List.length_singleton] at e1
  rw [e1]

/-- C35: a response with a payload keeps the segment framed whatever its
handler does. For `DialRespond.Parse`, `RetrieveRespond.Parse` and
`ResumeRespond.Parse` on a fetcher that holds the fixed header, a payload of
the declared length `L` and the bytes `tl` that follow, and for a callback
that makes any sequence of calls on the fetcher it is handed and returns any
result `ret`: `Parse` returns `ret`, the callback was handed the first `k ≤ L`
bytes of the payload and nothing else, and the parent fetcher is left holding
exactly `tl`, so that the next `Fetch(1)` on it, the next header byte of
`dispatch`, is the first byte after the message. -/
theorem C35_payload_framing (fuel : Nat) (d0 : DialRespond) (n0 : RetrieveRespond)
    (m0 : ResumeRespond) (rD rR rS : Fetcher) (id : List Nat) (rid total offset : Nat)
    (payload tl : List Nat) (ops : List FetchOp) (ret : Option Error)
    (hf : 2 ≤ fuel) (hd0 : d0.ID.length = 32) (hn0 : n0.ID.length = 32)
    (hm0 : m0.ID.length = 32) (hid : id.length = 32) (hrid : rid < 2 ^ 64)
    (htotal : total < 2 ^ 16) (hoff : offset < 2 ^ 16) (hlen : payload.length < 2 ^ 16)
    (hD : rD.Holds (id ++ (be64 rid ++ (be16 total ++ (be16 payload.length ++ (payload ++ tl))))))
    (hR : rR.Holds (id ++ (be64 rid ++ (be16 total ++ (be16 offset ++
      (be16 payload.length ++ (payload ++ tl)))))))
    (hS : rS.Holds (id ++ (be64 rid ++ (be16 total ++ (be16 payload.length ++ (payload ++ tl)))))) :
    (∃ r' d k, DialRespond.Parse fuel d0 rD (scriptedCallback ops ret) ([], [])
        = some (d, r', ([d], payload.take k), Status.ofError ret) ∧
      k ≤ payload.length ∧ d.RespondLength = payload.length ∧ r'.Holds tl ∧
      ∀ x rest, tl = x :: rest → (r'.Fetch 1).2 = ([x], none)) ∧
    (∃ r' d k, RetrieveRespond.Parse fuel n0 rR (scriptedCallback ops ret) ([], [])
        = some (d, r', ([d], payload.take k), Status.ofError ret) ∧
      k ≤ payload.length ∧ d.PayloadLength = payload.length ∧ r'.Holds tl ∧
      ∀ x rest, tl = x :: rest → (r'.Fetch 1).2 = ([x], none)) ∧
    (∃ r' d k, ResumeRespond.Parse fuel m0 rS (scriptedCallback ops ret) ([], [])
        = some (d, r', ([d], payload.take k), Status.ofError ret) ∧
      k ≤ payload.length ∧ d.PayloadLength = payload.length ∧ r'.Holds tl ∧
      ∀ x rest, tl = x :: rest → (r'.Fetch 1).2 = ([x], none)) := by
  refine ⟨?_, ?_, ?_⟩
  · obtain ⟨r', -, k, hr', -, hk, -, e⟩ := DialRespond_Parse_scripted fuel d0 rD id rid total
      payload tl ops ret ([], []) hf hd0 hid hrid htotal hlen hD
    refine ⟨r', _, k, by simpa using e, hk, rfl, hr', ?_⟩
    intro x rest htl
    exact Holds_next r' x rest (htl ▸ hr')
  · obtain ⟨r', -, k, hr', -, hk, -, e⟩ := RetrieveRespond_Parse_scripted fuel n0 rR id rid total
      offset payload tl ops ret ([], []) hf hn0 hid hrid htotal hoff hlen hR
    refine ⟨r', _, k, by simpa using e, hk, rfl, hr', ?_⟩
    intro x rest htl
    exact Holds_next r' x rest (htl ▸ hr')
  · obtain ⟨r', -, k, hr', -, hk, -, e⟩ := ResumeRespond_Parse_scripted fuel m0 rS id rid total
      payload tl ops ret ([], []) hf hm0 hid hrid htotal hlen hS
    refine ⟨r', _, k, by simpa using e, hk, rfl, hr', ?_⟩
    intro x rest htl
    exact Holds_next r' x rest (htl ▸ hr')

/-- C35 at a Dial response with the payload 1, 2, 3, followed by the bytes
`0x30, 9`, with a callback that fetches two bytes and returns an error:
`Parse` returns that error and the fetcher is left at `0x30, 9`. -/
theorem C35_payload_framing_witness :
    ∃ r' d k, DialRespond.Parse 2 DialRespond.zero
        (NewFetcher (ByteFetch (testID ++ (be64 10 ++ (be16 15 ++
          (be16 [1, 2, 3].length ++ ([1, 2, 3] ++ [0x30, 9]))))) Error.ErrDispatchCompleted))
        (scriptedCallback [FetchOp.Fetch 2] (some (Error.other 1))) ([], [])
        = some (d, r', ([d], [1, 2, 3].take k), Status.err (Error.other 1)) ∧
      r'.Holds [0x30, 9] ∧ (r'.Fetch 1).2 = ([0x30], none) := by
  obtain ⟨r', d, k, e, -, -, hr, hnext⟩ := (C35_payload_framing 2 DialRespond.zero
    RetrieveRespond.zero ResumeRespond.zero
    (NewFetcher (ByteFetch (testID ++ (be64 10 ++ (be16 15 ++
      (be16 [1, 2, 3].length ++ ([1, 2, 3] ++ [0x30, 9]))))) Error.ErrDispatchCompleted))
    (NewFetcher (ByteFetch (testID ++ (be64 10 ++ (be16 15 ++ (be16 5 ++
      (be16 [1, 2, 3].length ++ ([1, 2, 3] ++ [0x30, 9])))))) Error.ErrDispatchCompleted))
    (NewFetcher (ByteFetch (testID ++ (be64 10 ++ (be16 15 ++
      (be16 [1, 2, 3].length ++ ([1, 2, 3] ++ [0x30, 9]))))) Error.ErrDispatchCompleted))
    testID 10 15 5 [1, 2, 3] [0x30, 9] [FetchOp.Fetch 2] (some (Error.other 1))
    (by decide) (by decide) (by decide) (by decide) (by decide) (by decide) (by decide)
    (by decide) (by decide) (Or.inr ⟨rfl, rfl, rfl⟩) (Or.inr ⟨rfl, rfl, rfl⟩)
    (Or.inr ⟨rfl, rfl, rfl⟩)).1
  exact ⟨r', d, k, e, hr, hnext _ _ rfl⟩

/-! ## The dispatcher ends -/

theorem FetchMax_fetched (r : Fetcher) (bytes : List Nat) (e : Error) (max : Nat)
    (h : r.Fetched bytes e) :
    (bytes = [] ∧ r.FetchMax max = (r, [], some e)) ∨
    (0 < bytes.length ∧ ∃ r1, r.FetchMax max = (r1, bytes.take max, none) ∧
      r1.Fetched (bytes.drop max) e) := by
  obtain ⟨hu, hs, hf⟩ := h
  have hl : bytes.length = r.s.length - r.used := by rw [← hs, List.length_drop]
  by_cases h0 : bytes.length = 0
  · left
    have hb : bytes = [] := List.length_eq_zero.mp h0
    refine ⟨hb, ?_⟩
    have hc : ¬ ((r.s.length : Int) - (r.used : Int) ≥ ((1 : Nat) : Int)) := by omega
    obtain ⟨f, s, used, read⟩ := r
    cases f with
    | byteFetch b e1 fetched =>
      cases fetched with
      | false => simp at hf
      | true =>
        simp only at hf
        subst hf
        simp only [Fetcher.FetchMax, Fetcher.fetch, hc, Fetch.call, if_true, if_false]
    | constFetch b => simp at hf
    | sizeLimited _ _ _ _ _ => simp at hf
  · right
    refine ⟨by omega, ?_⟩
    have hc : (r.s.length : Int) - (r.used : Int) ≥ ((1 : Nat) : Int) := by omega
    by_cases hm : bytes.length > max
    · refine ⟨{ r with used := r.used + max, read := r.read + max }, ?_, ?_, ?_, hf⟩
      · simp only [Fetcher.FetchMax, Fetcher.fetch, hc, if_true, hs, hm]
      · simp only
        omega
      · simp only
        rw [← List.drop_drop, hs]
    · refine ⟨{ r with used := r.used + bytes.length, read := r.read + bytes.length },
        ?_, ?_, ?_, hf⟩
      · simp only [Fetcher.FetchMax, Fetcher.fetch, hc, if_true, hs, hm, if_false]
        rw [List.take_length, List.take_of_length_le (show bytes.length ≤ max by omega)]
      · simp only
        omega
      · simp only
        rw [← List.drop_drop, hs, List.drop_length, List.drop_of_length_le (by omega)]

/-- One call on a fetcher whose source has handed out its bytes reads some of
the unread bytes and leaves the others. -/
theorem perform_fetched (r : Fetcher) (bytes : List Nat) (e : Error) (op : FetchOp)
    (h : r.Fetched bytes e) :
    ∃ k, k ≤ bytes.length ∧ (r.perform op).1.Fetched (bytes.drop k) e := by
  cases op with
  | Fetch n =>
    by_cases hn : n ≤ bytes.length
    · have hb : bytes = bytes.take n ++ bytes.drop n := (List.take_append_drop n bytes).symm
      have hlen : (bytes.take n).length = n := by
        simp only [List.length_take]
        omega
      obtain ⟨r1, e1, h1⟩ := Fetch_fetched r (bytes.take n) (bytes.drop n) e (hb ▸ h)
      rw [hlen] at e1
      exact ⟨n, hn, by simp only [Fetcher.perform, e1]; exact h1⟩
    · have hs := Fetch_fetched_short r bytes e n h (by omega)
      exact ⟨0, Nat.zero_le _, by simp only [Fetcher.perform, hs, List.drop_zero]; exact h⟩
  | FetchMax max =>
    rcases FetchMax_fetched r bytes e max h with ⟨-, e1⟩ | ⟨-, r1, e1, h1⟩
    · exact ⟨0, Nat.zero_le _, by simp only [Fetcher.perform, e1, List.drop_zero]; exact h⟩
    · by_cases hm : max ≤ bytes.length
      · exact ⟨max, hm, by simp only [Fetcher.perform, e1]; exact h1⟩
      · refine ⟨bytes.length, Nat.le_refl _, ?_⟩
        simp only [Fetcher.perform, e1]
        rw [List.drop_length]
        rw [List.drop_of_length_le (by omega)] at h1
        exact h1
  | Read n =>
    by_cases hn : n = 0
    · exact ⟨0, Nat.zero_le _, by
        simp only [Fetcher.perform, Fetcher.Read, hn, if_true, List.drop_zero]; exact h⟩
    · rcases FetchMax_fetched r bytes e n h with ⟨-, e1⟩ | ⟨-, r1, e1, h1⟩
      · exact ⟨0, Nat.zero_le _, by
          simp only [Fetcher.perform, Fetcher.Read, hn, if_false, e1, List.drop_zero]; exact h⟩
      · by_cases hm : n ≤ bytes.length
        · exact ⟨n, hm, by simp only [Fetcher.perform, Fetcher.Read, hn, if_false, e1]; exact h1⟩
        · refine ⟨bytes.length, Nat.le_refl _, ?_⟩
          simp only [Fetcher.perform, Fetcher.Read, hn, if_false, e1]
          rw [List.drop_length]
          rw [List.drop_of_length_le (by omega)] at h1
          exact h1

/-- Any sequence of `Fetch`, `FetchMax` and `Read` calls only consumes bytes. -/
theorem runOps_fetched (ops : List FetchOp) :
    ∀ (r : Fetcher) (bytes : List Nat) (e : Error), r.Fetched bytes e →
      ∃ k, k ≤ bytes.length ∧ (r.runOps ops).1.Fetched (bytes.drop k) e := by
  induction ops with
  | nil => exact fun r bytes e h => ⟨0, Nat.zero_le _, by simpa [Fetcher.runOps] using h⟩
  | cons op rest ih =>
    intro r bytes e h
    obtain ⟨k1, hk1, h1⟩ := perform_fetched r bytes e op h
    obtain ⟨k2, hk2, h2⟩ := ih _ _ e h1
    simp only [List.length_drop] at hk2
    refine ⟨k1 + k2, by omega, ?_⟩
    simp only [Fetcher.runOps]
    rw [List.drop_drop] at h2
    exact h2

theorem testHandler_consumes : Consumes testHandler := by
  intro typ d r st bytes e h
  obtain ⟨k, hk, hp⟩ := perform_fetched r bytes e (FetchOp.Fetch d) h
  refine ⟨k, hk, ?_⟩
  simp only [Fetcher.perform] at hp
  simp only [testHandler]
  rcases hf : r.Fetch d with ⟨r1, bs, _ | err⟩
  · rw [hf] at hp
    exact hp
  · rw [hf] at hp
    exact hp

theorem dispatchLoop_ends {σ : Type} (handler : Handler σ) (b : Bool) (hH : Consumes handler) :
    ∀ (n : Nat) (bytes : List Nat) (r : Fetcher) (fuel : Nat) (st : σ)
      (calls : List HandlerCall),
      bytes.length ≤ n → bytes.length < fuel → r.Fetched bytes Error.ErrDispatchCompleted →
      ∃ out, dispatchLoop handler b fuel r st calls = some out ∧
        out.calls.length ≤ calls.length + bytes.length := by
  intro n
  induction n with
  | zero =>
    intro bytes r fuel st calls hn hf hr
    have hb : bytes = [] := List.length_eq_zero.mp (by omega)
    subst hb
    obtain ⟨k, rfl⟩ : ∃ k, fuel = k + 1 := ⟨fuel - 1, by omega⟩
    have hs := Fetch_fetched_short r [] Error.ErrDispatchCompleted 1 hr (by decide)
    refine ⟨{ r := r, st := st, calls := calls, err := none }, ?_, by simp⟩
    rw [dispatchLoop, hs]
    simp only [if_true]
  | succ n ih =>
    intro bytes r fuel st calls hn hf hr
    obtain ⟨k, rfl⟩ : ∃ k, fuel = k + 1 := ⟨fuel - 1, by omega⟩
    cases bytes with
    | nil =>
      have hs := Fetch_fetched_short r [] Error.ErrDispatchCompleted 1 hr (by decide)
      refine ⟨{ r := r, st := st, calls := calls, err := none }, ?_, by simp⟩
      rw [dispatchLoop, hs]
      simp only [if_true]
    | cons x rest =>
      obtain ⟨r1, e1, h1⟩ := Fetch_one_fetched r x rest _ hr
      obtain ⟨j, hj, h2⟩ := hH (ParseRequestType x).1 (ParseRequestType x).2 r1 st rest _ h1
      simp only [List.length_cons] at hn hf
      have hdl : (rest.drop j).length = rest.length - j := List.length_drop j rest
      have hlen : (rest.drop j).length ≤ n := by omega
      rw [dispatchLoop, e1]
      simp only [List.getD_cons_zero]
      rcases hh : handler (ParseRequestType x).1 (ParseRequestType x).2 r1 st with
        ⟨r2, st2, _ | err⟩
      · rw [hh] at h2
        obtain ⟨out, eo, ho⟩ := ih (rest.drop j) r2 k st2
          (calls ++ [{ typ := (ParseRequestType x).1, d := (ParseRequestType x).2,
                       unread := r1.s.drop r1.used }]) hlen (by omega) h2
        refine ⟨out, eo, ?_⟩
        simp only [List.length_append, List.length_singleton, List.length_cons, List.length_nil] at ho ⊢
        omega
      · rw [hh] at h2
        cases b with
        | false =>
          obtain ⟨out, eo, ho⟩ := ih (rest.drop j) r2 k st2
            (calls ++ [{ typ := (ParseRequestType x).1, d := (ParseRequestType x).2,
                         unread := r1.s.drop r1.used }]) hlen (by omega) h2
          refine ⟨out, by simpa using eo, ?_⟩
          simp only [List.length_append, List.length_singleton, List.length_cons, List.length_nil] at ho ⊢
          omega
        | true =>
          refine ⟨{ r := r2, st := st2,
                    calls := calls ++ [{ typ := (ParseRequestType x).1,
                                         d := (ParseRequestType x).2,
                                         unread := r1.s.drop r1.used }],
                    err := some err }, by simp, ?_⟩
          simp only [List.length_append, List.length_singleton, List.length_cons, List.length_nil]
          omega

/-- C36: `dispatch` ends on every input. For every byte segment `req`, either
value of `breakOnHandlerError`, and every handler that only consumes bytes from
the fetcher it is given, the loop of `dispatch` ends within `len(req) + 1`
turns, having called the handler at most `len(req)` times: each turn reads the
header byte before the handler runs. -/
theorem C36_dispatch_terminates {σ : Type} (handler : Handler σ) (hH : Consumes handler)
    (req : List Nat) (b : Bool) (st : σ) (fuel : Nat) (hf : req.length < fuel) :
    ∃ out, dispatch fuel req handler b st = some out ∧ out.calls.length ≤ req.length := by
  obtain ⟨k, rfl⟩ : ∃ k, fuel = k + 1 := ⟨fuel - 1, by omega⟩
  cases req with
  | nil => exact ⟨_, dispatch_empty handler b k st, by simp⟩
  | cons x rest =>
    obtain ⟨r1, e1, h1⟩ := Fetch_one_new x rest Error.ErrDispatchCompleted
    obtain ⟨j, hj, h2⟩ := hH (ParseRequestType x).1 (ParseRequestType x).2 r1 st rest _ h1
    simp only [List.length_cons] at hf
    have hdl : (rest.drop j).length = rest.length - j := List.length_drop j rest
    have hlen : (rest.drop j).length ≤ rest.length := by omega
    unfold dispatch
    rw [dispatchLoop, e1]
    simp only [List.getD_cons_zero, List.nil_append]
    rcases hh : handler (ParseRequestType x).1 (ParseRequestType x).2 r1 st with
      ⟨r2, st2, _ | err⟩
    · rw [hh] at h2
      obtain ⟨out, eo, ho⟩ := dispatchLoop_ends handler b hH rest.length (rest.drop j) r2 k st2
        [{ typ := (ParseRequestType x).1, d := (ParseRequestType x).2,
           unread := r1.s.drop r1.used }] hlen (by omega) h2
      refine ⟨out, eo, ?_⟩
      simp only [List.length_singleton, List.length_cons, List.length_nil] at ho ⊢
      omega
    · rw [hh] at h2
      cases b with
      | false =>
        obtain ⟨out, eo, ho⟩ := dispatchLoop_ends handler false hH rest.length (rest.drop j) r2 k
          st2 [{ typ := (ParseRequestType x).1, d := (ParseRequestType x).2,
                 unread := r1.s.drop r1.used }] hlen (by omega) h2
        refine ⟨out, by simpa using eo, ?_⟩
        simp only [List.length_singleton, List.length_cons, List.length_nil] at ho ⊢
        omega
      | true =>
        refine ⟨{ r := r2, st := st2,
                  calls := [{ typ := (ParseRequestType x).1, d := (ParseRequestType x).2,
                              unread := r1.s.drop r1.used }],
                  err := some err }, by simp, ?_⟩
        simp only [List.length_singleton, List.length_cons, List.length_nil]
        omega

/-- C36 at the example handler on a segment of four bytes (a message of kind
3 with two bytes of body, one of kind 1 without body): `dispatch` ends within
five turns after at most four calls. -/
theorem C36_dispatch_terminates_witness :
    ∃ out, dispatch 5 [0x32, 1, 2, 0x10] testHandler true [] = some out ∧
      out.calls.length ≤ 4 :=
  C36_dispatch_terminates testHandler testHandler_consumes [0x32, 1, 2, 0x10] true [] 5
    (by decide)

/-! ## A response cut short inside its length field -/

theorem Fetched_holds (r : Fetcher) (bytes : List Nat) (e : Error) (h : r.Fetched bytes e) :
    r.Holds bytes := Or.inl ⟨h.1, h.2.1⟩

theorem ReadFull_fetched (fuel : Nat) (r : Fetcher) (buf xs rest : List Nat) (e : Error)
    (h : r.Fetched (xs ++ rest) e) (hb : buf.length = xs.length) (h0 : 0 < xs.length)
    (hf : 0 < fuel) :
    ∃ r1, ReadFull fuel r buf = some (r1, xs, xs.length, none) ∧ r1.Fetched rest e := by
  rcases FetchMax_fetched r (xs ++ rest) e xs.length h with ⟨hnil, -⟩ | ⟨-, r1, e1, h1⟩
  · have : (xs ++ rest).length = 0 := by rw [hnil]; rfl
    simp only [List.length_append] at this
    omega
  · rw [List.take_left] at e1
    rw [List.drop_left] at h1
    refine ⟨r1, ?_, h1⟩
    obtain ⟨k, rfl⟩ : ∃ k, fuel = k + 1 := ⟨fuel - 1, by omega⟩
    have hw : writeAt buf 0 xs = xs := by
      simp only [writeAt, List.take_zero, List.nil_append, Nat.zero_add, ← hb, List.drop_length,
        List.append_nil]
    unfold ReadFull
    rw [ReadAtLeastLoop]
    simp only [hb, h0, and_self, if_true, Nat.sub_zero, Fetcher.Read, Nat.ne_of_gt h0, if_false,
      e1, hw, Nat.zero_add]
    cases k <;> simp [ReadAtLeastLoop, ReadAtLeastDone]

theorem readU64_fetched (r : Fetcher) (n : Nat) (rest : List Nat) (e : Error) (hn : n < 2 ^ 64)
    (h : r.Fetched (be64 n ++ rest) e) :
    ∃ r1, readU64 r = (r1, n, none) ∧ r1.Fetched rest e := by
  obtain ⟨r1, e1, h1⟩ := Fetch_fetched r (be64 n) rest e h
  obtain ⟨r2, e2, -, -⟩ := readU64_be r n rest hn (Fetched_holds _ _ _ h)
  rw [be64_length] at e1
  have hr : r2 = r1 := by
    simp only [readU64, e1, Prod.mk.injEq] at e2
    exact e2.1.symm
  subst hr
  exact ⟨r2, e2, h1⟩

theorem readU16_fetched (r : Fetcher) (n : Nat) (rest : List Nat) (e : Error) (hn : n < 2 ^ 16)
    (h : r.Fetched (be16 n ++ rest) e) :
    ∃ r1, readU16 r = (r1, n, none) ∧ r1.Fetched rest e := by
  obtain ⟨r1, e1, h1⟩ := Fetch_fetched r (be16 n) rest e h
  obtain ⟨r2, e2, -, -⟩ := readU16_be r n rest hn (Fetched_holds _ _ _ h)
  rw [be16_length] at e1
  have hr : r2 = r1 := by
    simp only [readU16, e1, Prod.mk.injEq] at e2
    exact e2.1.symm
  subst hr
  exact ⟨r2, e2, h1⟩

theorem readU16_short (r : Fetcher) (tail : List Nat) (e : Error) (ht : tail.length < 2)
    (h : r.Fetched tail e) : readU16 r = (r, 0, some e) := by
  simp only [readU16, Fetch_fetched_short r tail e 2 h ht]

/-- C37 fails on the code for `DialRespond.Parse` and `ResumeRespond.Parse`.
On an input that holds the ID, the RID and the total and ends inside the
2-byte length field (at most one byte of it is there), both call the callback,
with the length 0, and return what the callback returns, `nil` when it returns
`nil`: the error of their last `readU16` is not looked at.
`RetrieveRespond.Parse` on an input that ends inside its length field returns
the error of the fetcher and does not call the callback. -/
theorem C37_truncated_length_reaches_callback (fuel : Nat) (d0 : DialRespond)
    (m0 : ResumeRespond) (n0 : RetrieveRespond) (rD rS rR : Fetcher) (id : List Nat)
    (rid total offset : Nat) (tail : List Nat) (e : Error) (ops : List FetchOp)
    (ret : Option Error)
    (hf : 2 ≤ fuel) (hd0 : d0.ID.length = 32) (hm0 : m0.ID.length = 32)
    (hn0 : n0.ID.length = 32) (hid : id.length = 32) (hrid : rid < 2 ^ 64)
    (htotal : total < 2 ^ 16) (hoff : offset < 2 ^ 16) (ht : tail.length ≤ 1)
    (hD : rD.Fetched (id ++ (be64 rid ++ (be16 total ++ tail))) e)
    (hS : rS.Fetched (id ++ (be64 rid ++ (be16 total ++ tail))) e)
    (hR : rR.Fetched (id ++ (be64 rid ++ (be16 total ++ (be16 offset ++ tail)))) e) :
    (∃ r' d, DialRespond.Parse fuel d0 rD (scriptedCallback ops ret) ([], [])
        = some (d, r', ([d], []), Status.ofError ret) ∧ d.RespondLength = 0) ∧
    (∃ r' d, ResumeRespond.Parse fuel m0 rS (scriptedCallback ops ret) ([], [])
        = some (d, r', ([d], []), Status.ofError ret) ∧ d.PayloadLength = 0) ∧
    (∃ r' d, RetrieveRespond.Parse fuel n0 rR (scriptedCallback ops ret) ([], [])
        = some (d, r', ([], []), Status.err e)) := by
  refine ⟨?_, ?_, ?_⟩
  · obtain ⟨r1, e1, h1⟩ := ReadFull_fetched fuel rD d0.ID id _ e hD (by omega) (by omega)
      (by omega)
    obtain ⟨r2, e2, h2⟩ := readU64_fetched r1 rid _ e hrid h1
    obtain ⟨r3, e3, h3⟩ := readU16_fetched r2 total _ e htotal h2
    have e4 := readU16_short r3 tail e (by omega) h3
    obtain ⟨r', k, -, hk, -, e5⟩ := parsePayload_scripted [] tail r3 fuel ops ret
      ({ ID := id, RID := rid, Total := total, Respond := d0.Respond,
         RespondLength := 0 } : DialRespond) ([], [])
      (by simpa using Fetched_holds _ _ _ h3) hf
    simp only [List.length_nil, List.take_nil, List.append_nil, List.nil_append] at e5
    refine ⟨r', DialRespond.mk id rid total d0.Respond 0, ?_, rfl⟩
    simp only [DialRespond.Parse, e1, e2, e3, e4, e5]
  · obtain ⟨r1, e1, h1⟩ := ReadFull_fetched fuel rS m0.ID id _ e hS (by omega) (by omega)
      (by omega)
    obtain ⟨r2, e2, h2⟩ := readU64_fetched r1 rid _ e hrid h1
    obtain ⟨r3, e3, h3⟩ := readU16_fetched r2 total _ e htotal h2
    have e4 := readU16_short r3 tail e (by omega) h3
    obtain ⟨r', k, -, hk, -, e5⟩ := parsePayload_scripted [] tail r3 fuel ops ret
      ({ ID := id, NewRID := rid, Total := total, Payload := m0.Payload,
         PayloadLength := 0 } : ResumeRespond) ([], [])
      (by simpa using Fetched_holds _ _ _ h3) hf
    simp only [List.length_nil, List.take_nil, List.append_nil, List.nil_append] at e5
    refine ⟨r', ResumeRespond.mk id rid total m0.Payload 0, ?_, rfl⟩
    simp only [ResumeRespond.Parse, e1, e2, e3, e4, e5]
  · obtain ⟨r1, e1, h1⟩ := ReadFull_fetched fuel rR n0.ID id _ e hR (by omega) (by omega)
      (by omega)
    obtain ⟨r2, e2, h2⟩ := readU64_fetched r1 rid _ e hrid h1
    obtain ⟨r3, e3, h3⟩ := readU16_fetched r2 total _ e htotal h2
    obtain ⟨r4, e4, h4⟩ := readU16_fetched r3 offset _ e hoff h3
    have e5 := readU16_short r4 tail e (by omega) h4
    refine ⟨r4, RetrieveRespond.mk id rid total offset n0.Payload 0, ?_⟩
    simp only [RetrieveRespond.Parse, e1, e2, e3, e4, e5]

/-- C37 at a Dial response and a Resume response that end after the first
byte of the length field, with a callback that returns `nil`: the callback is
called and `Parse` returns `nil`. -/
theorem C37_truncated_length_reaches_callback_witness :
    (∃ r' d, DialRespond.Parse 2 DialRespond.zero
        (Fetcher.mk (Fetch.byteFetch (0 :: (testID ++ (be64 10 ++ (be16 15 ++ [7]))))
          Error.ErrDispatchCompleted true) (0 :: (testID ++ (be64 10 ++ (be16 15 ++ [7])))) 1 1)
        (scriptedCallback [] none) ([], [])
        = some (d, r', ([d], []), Status.ok) ∧ d.RespondLength = 0) ∧
    (∃ r' d, ResumeRespond.Parse 2 ResumeRespond.zero
        (Fetcher.mk (Fetch.byteFetch (0 :: (testID ++ (be64 10 ++ (be16 15 ++ [7]))))
          Error.ErrDispatchCompleted true) (0 :: (testID ++ (be64 10 ++ (be16 15 ++ [7])))) 1 1)
        (scriptedCallback [] none) ([], [])
        = some (d, r', ([d], []), Status.ok) ∧ d.PayloadLength = 0) := by
  have h := C37_truncated_length_reaches_callback 2 DialRespond.zero ResumeRespond.zero
    RetrieveRespond.zero
    (Fetcher.mk (Fetch.byteFetch (0 :: (testID ++ (be64 10 ++ (be16 15 ++ [7]))))
      Error.ErrDispatchCompleted true) (0 :: (testID ++ (be64 10 ++ (be16 15 ++ [7])))) 1 1)
    (Fetcher.mk (Fetch.byteFetch (0 :: (testID ++ (be64 10 ++ (be16 15 ++ [7]))))
      Error.ErrDispatchCompleted true) (0 :: (testID ++ (be64 10 ++ (be16 15 ++ [7])))) 1 1)
    (Fetcher.mk (Fetch.byteFetch (0 :: (testID ++ (be64 10 ++ (be16 15 ++ (be16 5 ++ [7])))))
      Error.ErrDispatchCompleted true)
      (0 :: (testID ++ (be64 10 ++ (be16 15 ++ (be16 5 ++ [7]))))) 1 1)
    testID 10 15 5 [7] Error.ErrDispatchCompleted [] none
    (by decide) (by decide) (by decide) (by decide) (by decide) (by decide) (by decide)
    (by decide) (by decide) ⟨by decide, rfl, rfl⟩ ⟨by decide, rfl, rfl⟩ ⟨by decide, rfl, rfl⟩
  exact ⟨h.1, h.2.1⟩

theorem u16_bigEndian (a b : Nat) (ha : a < 256) (hb : b < 256) :
    u16 (u16 a <<< 8) ||| u16 b = a * 256 + b := by
  have e1 : u16 a = a := Nat.mod_eq_of_lt (by omega)
  have e2 : u16 b = b := Nat.mod_eq_of_lt (by omega)
  have e3 : u16 (a <<< 8) = a <<< 8 := by
    rw [Nat.shiftLeft_eq]
    exact Nat.mod_eq_of_lt (by omega)
  rw [e1, e2, e3, Nat.shiftLeft_eq, Nat.mul_comm a (2 ^ 8),
    ← Nat.mul_add_lt_is_or (show b < 2 ^ 8 by omega) a]

theorem Stream_ReadAtLeastLoop_pending (ends : Error) (chunks : List (List Nat)) :
    ∀ (k : Nat) (got xs rest : List Nat),
      client.Stream.pending ⟨chunks, ends⟩ = xs ++ rest → xs.length = k →
      ∃ r1, client.Stream.ReadAtLeastLoop ends chunks k got = (r1, got ++ xs, none) ∧
        r1.pending = rest ∧ r1.ends = ends := by
  induction chunks with
  | nil =>
    intro k got xs rest hp hk
    have hx : xs = [] := by
      simp only [client.Stream.pending, List.foldr_nil] at hp
      exact (List.append_eq_nil.mp hp.symm).1
    subst hx
    have hr : rest = [] := by
      simp only [client.Stream.pending, List.foldr_nil, List.nil_append] at hp
      exact hp.symm
    simp only [List.length_nil] at hk
    subst hk
    exact ⟨⟨[], ends⟩, by simp [client.Stream.ReadAtLeastLoop], by
      simp [client.Stream.pending, hr], rfl⟩
  | cons c cs ih =>
    intro k got xs rest hp hk
    have hp2 : c ++ client.Stream.pending ⟨cs, ends⟩ = xs ++ rest := by
      simpa only [client.Stream.pending, List.foldr_cons] using hp
    cases k with
    | zero =>
      have hx : xs = [] := List.length_eq_zero.mp hk
      subst hx
      exact ⟨⟨c :: cs, ends⟩, by simp [client.Stream.ReadAtLeastLoop], by
        simpa using hp, rfl⟩
    | succ k =>
      by_cases hc : c.length ≤ k + 1
      · have hxs : xs = c ++ xs.drop c.length := by
          have h1 : (xs ++ rest).take c.length = c := by
            rw [← hp2, List.take_left]
          have h2 : xs.take c.length = c := by
            rw [List.take_append_of_le_length (by omega)] at h1
            exact h1
          conv_lhs => rw [← List.take_append_drop c.length xs, h2]
        have hrest : client.Stream.pending ⟨cs, ends⟩ = xs.drop c.length ++ rest := by
          have h3 := congrArg (List.drop c.length) hp2
          rw [List.drop_left, List.drop_append_of_le_length (by omega)] at h3
          exact h3
        obtain ⟨r1, h1, h2, h3⟩ := ih (k + 1 - c.length) (got ++ c) (xs.drop c.length) rest
          hrest (by rw [List.length_drop]; omega)
        refine ⟨r1, ?_, h2, h3⟩
        simp only [client.Stream.ReadAtLeastLoop, hc, if_true, h1, List.append_assoc]
        rw [← hxs]
      · have hlt : k + 1 < c.length := by omega
        have hx : xs = c.take (k + 1) := by
          have h1 := congrArg (List.take (k + 1)) hp2
          rw [List.take_append_of_le_length (by omega),
            List.take_append_of_le_length (by omega),
            List.take_of_length_le (show xs.length ≤ k + 1 by omega)] at h1
          exact h1.symm
        have hr : rest = c.drop (k + 1) ++ client.Stream.pending ⟨cs, ends⟩ := by
          have h1 := congrArg (List.drop (k + 1)) hp2
          rw [List.drop_append_of_le_length (by omega),
            List.drop_append_of_le_length (by omega),
            List.drop_of_length_le (show xs.length ≤ k + 1 by omega),
            List.nil_append] at h1
          exact h1.symm
        refine ⟨⟨c.drop (k + 1) :: cs, ends⟩, ?_, ?_, rfl⟩
        · simp only [client.Stream.ReadAtLeastLoop, hc, if_false, hx]
        · simp only [client.Stream.pending, List.foldr_cons, hr]

theorem Stream_ReadFull_pending (r : client.Stream) (xs rest : List Nat)
    (hp : r.pending = xs ++ rest) :
    ∃ r1, r.ReadFull xs.length = (r1, xs, none) ∧ r1.pending = rest ∧ r1.ends = r.ends := by
  obtain ⟨r1, h1, h2, h3⟩ := Stream_ReadAtLeastLoop_pending r.ends r.chunks xs.length [] xs rest
    hp rfl
  exact ⟨r1, by simpa [client.Stream.ReadFull] using h1, h2, h3⟩

/-- C40 (the code departs from it): for the domain address type and a reader
that delivers the length byte `n` and then `n + 2` bytes, in chunks of any
sizes, `socks5Addr` returns those `n + 2` bytes and the port their last two
bytes give big-endian when `n ≤ 253`; for `n = 254` and `n = 255` the buffer
length `b[0]+2` wraps to 0 and to 1, and the index expression that reads the
port panics. -/
theorem C40_socks5Addr_domain_length_wraps (r : client.Stream) (n : Nat)
    (body rest : List Nat) (hn : n ≤ 255) (hlen : body.length = n + 2)
    (hpend : r.pending = n :: body ++ rest) (hbytes : ∀ x ∈ body, x < 256) :
    (n ≤ 253 → ∃ r1, client.socks5Addr client.socks5ATypeDomain r
        = Except.ok (r1, body, body.getD n 0 * 256 + body.getD (n + 1) 0, none) ∧
      r1.pending = rest) ∧
    (254 ≤ n → client.socks5Addr client.socks5ATypeDomain r
        = Except.error "index out of range") := by
  obtain ⟨r1, h1, hp1, _⟩ := Stream_ReadFull_pending r [n] (body ++ rest) hpend
  simp only [List.length_singleton] at h1
  have hget : ∀ i, i < body.length → body.getD i 0 < 256 := by
    intro i hi
    rw [List.getD_eq_getElem body 0 hi]
    exact hbytes _ (List.getElem_mem hi)
  refine ⟨?_, ?_⟩
  · intro h253
    have hu : u8 (n + 2) = body.length := by
      rw [hlen]
      exact Nat.mod_eq_of_lt (by omega)
    obtain ⟨r2, h2, hp2, _⟩ := Stream_ReadFull_pending r1 body rest hp1
    refine ⟨r2, ?_, hp2⟩
    have hport := u16_bigEndian (body.getD n 0) (body.getD (n + 1) 0)
      (hget n (by omega)) (hget (n + 1) (by omega))
    have e1 : body.length - 2 = n := by omega
    have e2 : body.length - 1 = n + 1 := by omega
    have hge : ¬ body.length < 2 := by omega
    simp only [List.getD_eq_getElem?_getD] at hport
    simp [client.socks5Addr, client.socks5ATypeDomain, client.socks5ATypeIPv4, h1, hu, h2,
      hge, e1, e2, hport]
  · intro h254
    obtain ⟨b0, body1, rfl⟩ : ∃ b0 body1, body = b0 :: body1 := by
      cases body with
      | nil => simp at hlen
      | cons b0 body1 => exact ⟨b0, body1, rfl⟩
    rcases (show n = 254 ∨ n = 255 by omega) with h | h
    · subst h
      have h2 : r1.ReadFull 0 = (r1, [], none) := by
        obtain ⟨r2, h2, hp2, he2⟩ := Stream_ReadFull_pending r1 [] (b0 :: body1 ++ rest) hp1
        cases r1 with
        | mk chunks ends => simp [client.Stream.ReadFull, client.Stream.ReadAtLeastLoop]
      simp [client.socks5Addr, client.socks5ATypeDomain, client.socks5ATypeIPv4, h1, u8, h2]
    · subst h
      obtain ⟨r2, h2, hp2, _⟩ := Stream_ReadFull_pending r1 [b0] (body1 ++ rest) hp1
      simp only [List.length_singleton] at h2
      simp [client.socks5Addr, client.socks5ATypeDomain, client.socks5ATypeIPv4, h1, u8, h2]

theorem C40_socks5Addr_domain_length_wraps_witness :
    (client.socks5Addr client.socks5ATypeDomain (client.testDomain 3)).map
        (fun p => (p.2.1, p.2.2.1))
      = Except.ok ([1, 1, 1, 1, 1], 257) ∧
    client.socks5Addr client.socks5ATypeDomain (client.testDomain 254)
      = Except.error "index out of range" ∧
    client.socks5Addr client.socks5ATypeDomain (client.testDomain 255)
      = Except.error "index out of range" := by
  have h3 := (C40_socks5Addr_domain_length_wraps (client.testDomain 3) 3 (List.replicate 5 1) []
    (by decide) rfl rfl (by decide)).1 (by decide)
  have h254 := (C40_socks5Addr_domain_length_wraps (client.testDomain 254) 254
    (List.replicate 256 1) [] (by decide) (List.length_replicate _ _)
    rfl
    (fun x hx => by rw [List.eq_of_mem_replicate hx]; decide)).2 (by decide)
  have h255 := (C40_socks5Addr_domain_length_wraps (client.testDomain 255) 255
    (List.replicate 257 1) [] (by decide) (List.length_replicate _ _)
    rfl
    (fun x hx => by rw [List.eq_of_mem_replicate hx]; decide)).2 (by decide)
  obtain ⟨r1, h, _⟩ := h3
  refine ⟨?_, h254, h255⟩
  rw [h]
  rfl

/-! ## A Dial with the largest initial request and the worker -/

/-- A fragment within the payload limit is taken by the worker: after the
flush it may make first, the fragment's bytes end the turn-buffer, its cancel
is recorded under its ID, and the only cancels called in the turn are those of
the flush, with `ErrRequestUnresponded`. -/
theorem serveRequest_accepts (v : client.serveVars) (rr : client.request)
    (t : client.Transport) (hfull : v.fullbuf.length = client.requestMaxHTTPReqSize)
    (hn : v.paddedbuf.length ≤ client.requestMaxReqPayloadSize) (ht : t.Sound)
    (hwf : rr.pusher.Size ≤ rr.pusher.b.length)
    (hs : rr.pusher.Size ≤ client.requestMaxReqPayloadSize) :
    ∃ v2 pre more, client.serveRequest client.newRequester v rr t = Except.ok v2 ∧
      v2.paddedbuf = pre ++ rr.pusher.Data ∧
      v2.cancels.lookup rr.id = some rr.cancel ∧
      v2.settled = v.settled ++ more ∧
      ∀ x ∈ more, x.2 = client.ErrRequestUnresponded := by
  have hmax : client.newRequester.requestMaxReqPayloadSize = client.requestMaxReqPayloadSize :=
    rfl
  have hM : client.requestMaxReqPayloadSize = 65489 := by decide
  have hH : client.requestMaxHTTPReqSize = 65535 := by decide
  by_cases hgt : v.paddedbuf.length + rr.pusher.Size > client.requestMaxReqPayloadSize
  · obtain ⟨v1, hv1, -⟩ := flush_returns v t (by rw [hfull, hH]) (by omega) ht
    obtain ⟨hp, hc, -, -, body1, pending, e, -, -, hset⟩ := flush_ok _ _ _ _ hv1
    have hf := appendPadded_fields client.newRequester v1 rr.pusher.Data
    have hres : client.serveRequest client.newRequester v rr t = Except.ok
        { client.appendPadded client.newRequester v1 rr.pusher.Data with
          cancels := RetrieverCancels.Append
            (client.appendPadded client.newRequester v1 rr.pusher.Data).cancels rr.id
              rr.cancel } := by
      simp only [client.serveRequest, hmax, hgt, if_true, hv1, hp, List.length_nil,
        Nat.zero_add, show ¬ (rr.pusher.Size > client.requestMaxReqPayloadSize) by omega,
        if_false, show ¬ (rr.pusher.Size > rr.pusher.b.length) by omega]
    refine ⟨_, [], pending.map (fun kv => (kv.2, client.ErrRequestUnresponded)), hres, ?_,
      Append_lookup _ _ _, ?_, ?_⟩
    · simp only [hf.1, hp]
    · simp only [hf.2.2.2, hset]
    · intro x hx
      obtain ⟨kv, -, rfl⟩ := List.mem_map.mp hx
      rfl
  · have hf := appendPadded_fields client.newRequester v rr.pusher.Data
    have hres : client.serveRequest client.newRequester v rr t = Except.ok
        { client.appendPadded client.newRequester v rr.pusher.Data with
          cancels := RetrieverCancels.Append
            (client.appendPadded client.newRequester v rr.pusher.Data).cancels rr.id
              rr.cancel } := by
      simp only [client.serveRequest, hmax, hgt, if_false,
        show ¬ (rr.pusher.Size > rr.pusher.b.length) by omega]
    refine ⟨_, v.paddedbuf, [], hres, ?_, Append_lookup _ _ _, ?_, ?_⟩
    · simp only [hf.1]
    · simp only [hf.2.2.2, List.append_nil]
    · intro x hx
      cases hx

/-- C31, as the code has it: the bound `DialSafeOverheadSize + RequestLength`
on the bytes `Build` writes holds for a well-formed Dial request exactly when
its address is not a host name of 255 bytes. For every such request with
`RequestLength ≤ reqDataSafeSize` the message is within
`requestMaxReqPayloadSize` bytes, `Build` succeeds on an empty pusher of
`reqDataSize` bytes, and a worker takes the fragment: its bytes end the
turn-buffer, its cancel is recorded under its ID, and no cancel is called with
`ErrRequestBodyTooLarge`. -/
theorem C31_dial_fits_one_turn (d : DialRequest) (id : List Nat) (b : List Nat)
    (v : client.serveVars) (c : RetrieverCancel) (t : client.Transport)
    (hid : id.length = 32) (hw : d.WellFormed)
    (hreq : d.RequestLength ≤ client.reqDataSafeSize) (hb : b.length = client.reqDataSize)
    (hfull : v.fullbuf.length = client.requestMaxHTTPReqSize)
    (hn : v.paddedbuf.length ≤ client.requestMaxReqPayloadSize) (ht : t.Sound) :
    (d.wireSize ≤ DialSafeOverheadSize + d.RequestLength ↔
      ¬ ((d.ATyp = TCPHost ∨ d.ATyp = UDPHost) ∧ d.Addr.length = 255)) ∧
    (¬ ((d.ATyp = TCPHost ∨ d.ATyp = UDPHost) ∧ d.Addr.length = 255) →
      d.wireSize ≤ DialSafeOverheadSize + d.RequestLength ∧
      d.wireSize ≤ client.requestMaxReqPayloadSize ∧
      (d.Build id (NewPusher b)).2.2 = Status.ok ∧
      (d.Build id (NewPusher b)).2.1.Size = d.wireSize ∧
      ∃ v2 pre more,
        client.serveRequest client.newRequester v ⟨id, (d.Build id (NewPusher b)).2.1, c⟩ t
          = Except.ok v2 ∧
        v2.paddedbuf = pre ++ (d.Build id (NewPusher b)).2.1.Data ∧
        v2.cancels.lookup id = some c ∧
        v2.settled = v.settled ++ more ∧
        (∀ x ∈ more, x.2 = client.ErrRequestUnresponded) ∧
        (c, client.ErrRequestBodyTooLarge) ∉ more) := by
  have hbound := DialRequest_wireSize_bound d hw
  refine ⟨hbound.2, ?_⟩
  intro hhost
  have h1 : d.wireSize ≤ DialSafeOverheadSize + d.RequestLength := hbound.2.mpr hhost
  have hM : client.requestMaxReqPayloadSize = 65489 := by decide
  have hS : client.reqDataSafeSize = 65195 := by decide
  have hD : DialSafeOverheadSize = 294 := by decide
  have hR : client.reqDataSize = 65489 := by decide
  have h2 : d.wireSize ≤ client.requestMaxReqPayloadSize := by omega
  have hbuild := DialRequest_Build_room d id (NewPusher b) hid hw
    (by simp only [NewPusher, Nat.zero_add]; omega)
  have hsize : (d.Build id (NewPusher b)).2.1.Size = d.wireSize := by
    rw [hbuild]
    obtain ⟨-, hl, -, -, -⟩ := hw
    simp only [Pusher.Size, Pusher.app, NewPusher, Nat.zero_add, List.length_append,
      List.length_singleton, hid, be16_length, DialRequest.wireSize, protocol.HeaderSize, IDSize]
  have hlen : (d.Build id (NewPusher b)).2.1.b.length = b.length := by
    rw [hbuild]
    simp only [Pusher.app, NewPusher]
    refine writeAt_length _ _ _ ?_
    have hh := hsize
    rw [hbuild] at hh
    simp only [Pusher.Size, Pusher.app, NewPusher, Nat.zero_add] at hh
    omega
  obtain ⟨v2, pre, more, hres, hp, hc, hset, hmore⟩ := serveRequest_accepts v
    ⟨id, (d.Build id (NewPusher b)).2.1, c⟩ t hfull hn ht
    (by simp only [hsize, hlen]; omega) (by simp only [hsize]; omega)
  refine ⟨h1, h2, by rw [hbuild], hsize, v2, pre, more, hres, hp, hc, hset, hmore, ?_⟩
  intro hmem
  have := hmore _ hmem
  simp [client.ErrRequestBodyTooLarge, client.ErrRequestUnresponded] at this

/-- A well-formed Dial request with a host name of 255 bytes and an initial
request of `reqDataSafeSize` bytes takes `requestMaxReqPayloadSize + 1` bytes,
and `Build` on an empty pusher of `reqDataSize` bytes returns
`ErrOverCapacity`. -/
theorem DialRequest_host255_overflows (d : DialRequest) (id : List Nat) (b : List Nat)
    (hid : id.length = 32) (hw : d.WellFormed) (ht : d.ATyp = TCPHost ∨ d.ATyp = UDPHost)
    (hlen : d.Addr.length = 255) (hreq : d.RequestLength = client.reqDataSafeSize)
    (hb : b.length = client.reqDataSize) :
    d.wireSize = client.requestMaxReqPayloadSize + 1 ∧
    (d.Build id (NewPusher b)).2.2 = Status.err Error.ErrOverCapacity := by
  have hsize : d.wireSize = client.requestMaxReqPayloadSize + 1 := by
    obtain ⟨-, hl, -, -, -⟩ := hw
    simp only [DialRequest.wireSize, DialRequest.addrField, ht, if_true, List.length_append,
      List.length_singleton, hlen, ← hl, hreq, protocol.HeaderSize, IDSize]
    decide
  refine ⟨hsize, ?_⟩
  have hl := hw.2.1
  refine DialRequest_Build_full d id (NewPusher b) hid hw ?_ ?_
  · simp only [NewPusher, Nat.zero_add, hsize, hb, ← hl, hreq]
    decide
  · simp only [NewPusher, Nat.zero_add, hsize, hb]
    decide

/-- C31 is false as stated: a Dial request with a host name of 255 bytes,
which `Build` accepts, and an initial request of `reqDataSafeSize = 65195`
bytes takes 65490 bytes, one more than
`DialSafeOverheadSize + RequestLength = requestMaxReqPayloadSize = 65489`, and
`Build` on an empty pusher of `reqDataSize` bytes returns `ErrOverCapacity`. -/
theorem C31_host_of_255_bytes_overflows :
    client.testDialLongest.WellFormed ∧
    client.testDialLongest.RequestLength = client.reqDataSafeSize ∧
    DialSafeOverheadSize + client.reqDataSafeSize = 65489 ∧
    client.requestMaxReqPayloadSize = 65489 ∧
    client.testDialLongest.wireSize = 65490 ∧
    (client.testDialLongest.Build testID
      (NewPusher (List.replicate client.reqDataSize 0))).2.2
        = Status.err Error.ErrOverCapacity := by
  have hw : client.testDialLongest.WellFormed := by
    refine ⟨Or.inr (Or.inr ⟨Or.inl rfl, ?_⟩), ?_, ?_, ?_, ?_⟩
    · simp only [client.testDialLongest, List.length_replicate, Nat.le_refl]
    · simp only [client.testDialLongest, List.length_replicate]
    · decide
    · decide
    · decide
  have h := DialRequest_host255_overflows client.testDialLongest testID
    (List.replicate client.reqDataSize 0) (by decide) hw (Or.inl rfl)
    (by simp only [client.testDialLongest, List.length_replicate]) rfl
    (List.length_replicate _ _)
  refine ⟨hw, rfl, by decide, by decide, ?_, h.2⟩
  rw [h.1]
  decide

/-- C31 as amended, at a Dial request with a host name of 254 bytes and an
initial request of `reqDataSafeSize` bytes, on an empty pusher of `reqDataSize`
bytes and a worker with an empty turn-buffer: the message fills the
`requestMaxReqPayloadSize` bytes and `Build` succeeds. -/
theorem C31_dial_fits_one_turn_witness :
    client.testDialLong.WellFormed ∧
    client.testDialLong.wireSize ≤ client.requestMaxReqPayloadSize ∧
    (client.testDialLong.Build testID
      (NewPusher (List.replicate client.reqDataSize 0))).2.2 = Status.ok := by
  have hw : client.testDialLong.WellFormed := by
    refine ⟨Or.inr (Or.inr ⟨Or.inl rfl, ?_⟩), ?_, ?_, ?_, ?_⟩
    · simp only [client.testDialLong, List.length_replicate]
      decide
    · simp only [client.testDialLong, List.length_replicate]
    · decide
    · decide
    · decide
  have hs : client.testTransport.Sound := by
    intro cip n h
    simp only [client.testTransport, Option.some.injEq, Prod.mk.injEq] at h
    obtain ⟨rfl, rfl⟩ := h
    exact ⟨toyAEAD_isGCM, rfl⟩
  have h := (C31_dial_fits_one_turn client.testDialLong testID
    (List.replicate client.reqDataSize 0) ⟨List.replicate 65535 0, [], true, [], [], []⟩
    RetrieverCancel.nothing client.testTransport (by decide) hw (Nat.le_refl _)
    (List.length_replicate _ _) (by simp only [List.length_replicate]; decide) (by decide)
    hs).2 (by
      intro hh
      have h254 : client.testDialLong.Addr.length = 254 := by
        simp only [client.testDialLong, List.length_replicate]
      omega)
  exact ⟨hw, h.2.1, h.2.2.1⟩

/-! ## The dial result and the first retrieve -/

end Warwolf
